import Mathlib

/-!
# libIGES: entities 100, 102 and 126

A shallow embedding of `src/entities/entity100.cpp`, `src/entities/entity102.cpp` and
`src/entities/entity126.cpp`, followed by the properties proved about it.

Conventions of the embedding.

* A C++ `double` is an exact rational (`ℚ`); an `int` is an `Int`.  Loop counters and array
  positions, which the code keeps non-negative, are `Nat`.  The integers of the code are array
  sizes and counts of fields of one record, far below `2^31`, so they are not reduced modulo
  `2^32`.
* A heap array (`double*`) is an `Option (List ℚ)`; `none` is the `NULL` pointer.
* An entity pointer is the position of the entity in the table of the model (`Nat`); a nullable
  pointer is an `Option Nat`.
* A method `bool f(args)` that changes the object is a function returning the `bool` together
  with the new object.  Where the C++ could read or write outside an array, read through a
  `NULL` pointer or loop for ever, the function returns an `Option` and `none` stands for that
  fault; so it does for a division of a `double` by zero, whose result, an infinity or a NaN,
  no rational stands for.
* Routines that the three files call but that live elsewhere (the SISL library, `iges_io`,
  `mcad_helpers`, the `IGES_ENTITY` base class) are fields of `Library` or of the input records
  `PDRecord` and `Node`, so every theorem holds for whatever these routines do; the few that
  are written out instead carry a doc comment that starts `Modelled from the spec:`.
-/

namespace IGES

/-! ## Common data -/

/-- A point or a direction in model space (`MCAD_POINT`, also used under the older name
`IGES_POINT`). -/
structure MCAD_POINT where
  x : ℚ
  y : ℚ
  z : ℚ
deriving DecidableEq

/-- Difference of two points, `operator-` of `MCAD_POINT`. -/
def MCAD_POINT.sub (a b : MCAD_POINT) : MCAD_POINT :=
  ⟨a.x - b.x, a.y - b.y, a.z - b.z⟩

/-- Product of a point with a scalar, `operator*` of `MCAD_POINT`. -/
def MCAD_POINT.smul (a : MCAD_POINT) (s : ℚ) : MCAD_POINT :=
  ⟨a.x * s, a.y * s, a.z * s⟩

/-- Scalar product of two directions. -/
def MCAD_POINT.dot (a b : MCAD_POINT) : ℚ :=
  a.x * b.x + a.y * b.y + a.z * b.z

/-- The fields of `IGES::globalData` that entity code reads. -/
structure GlobalData where
  pdelim : Char
  rdelim : Char
  minResolution : ℚ
deriving DecidableEq

/-- Values of `IGES_STAT_DEPENDS`. -/
inductive IGES_STAT_DEPENDS where
  | STAT_INDEPENDENT
  | STAT_DEP_PHY
  | STAT_DEP_LOG
  | STAT_DEP_PHY_LOG
deriving DecidableEq

/-- Values of `IGES_STAT_USE`, the entity-use flag of a directory entry; `STAT_USE_LOGICAL` is
use case 04, logical/positional. -/
inductive IGES_STAT_USE where
  | STAT_USE_GEOMETRY
  | STAT_USE_ANNOTATION
  | STAT_USE_DEFINITION
  | STAT_USE_OTHER
  | STAT_USE_LOGICAL
  | STAT_USE_2D_PARAMETRIC
  | STAT_USE_CONSTRUCTION
deriving DecidableEq

/-- Values of `IGES_STAT_HIER`. -/
inductive IGES_STAT_HIER where
  | STAT_HIER_ALL_SUB
  | STAT_HIER_NO_SUB
  | STAT_HIER_USE_PROP
deriving DecidableEq

/-- One item handed to `AddPDItem` while an entity formats its parameter data: an integer of the
leading string, or a real with the tolerance given to `FormatPDREal`. -/
inductive PDItem where
  | int (v : Int)
  | real (v : ℚ) (tol : ℚ)
deriving DecidableEq

/-- One field of a parameter-data record, described by what the two lexical readers of
`iges_io` return on it: `asInt` is the value `ParseInt` reads (`none` when it fails), `asReal`
the value `ParseReal` reads. -/
structure Field where
  asInt : Option Int
  asReal : Option ℚ
deriving DecidableEq

/-- A field holding an integer, readable by both readers. -/
def Field.ofInt (v : Int) : Field := ⟨some v, some v⟩

/-- A field holding a real that is not an integer literal. -/
def Field.ofReal (v : ℚ) : Field := ⟨none, some v⟩

/-- Modelled from the spec: `ParseInt` of `iges_io` (not under src/), called without a default
value.  It reads the next field of the record as an integer and moves past it; it fails when
the record has ended or when the field is not an integer. -/
def ParseInt : List Field → Option (Int × List Field)
  | [] => none
  | f :: rest =>
    match f.asInt with
    | none => none
    | some v => some (v, rest)

/-- Modelled from the spec: `ParseReal` of `iges_io` (not under src/), called without a default
value.  It reads the next field of the record as a real and moves past it; it fails when the
record has ended or when the field does not follow the grammar of reals. -/
def ParseReal : List Field → Option (ℚ × List Field)
  | [] => none
  | f :: rest =>
    match f.asReal with
    | none => none
    | some v => some (v, rest)

/-- The flag `eor` after a read: the field just read was closed by the record delimiter, so
nothing of the record is left. -/
def eor (rest : List Field) : Bool := rest.isEmpty

/-- What the base class leaves for the reader of one kind: the result of
`IGES_ENTITY::ReadPD`, the position of the first parameter delimiter in the record
(`pdout.find(pd)`, `-1` when there is none), the fields after the entity-type field, and the
results that `readExtraParams` and `readComments` give on this record. -/
structure PDRecord where
  baseOk : Bool
  firstDelim : Int
  fields : List Field
  extrasOk : Bool
  commentsOk : Bool
deriving DecidableEq

/-- A curve of the SISL library as `newCurve` receives it: number of vertices, order, knot
vector, vertices, kind (1 polynomial, 2 rational).  The curve is built with `copy = 0`, so it
shares the arrays of the entity. -/
structure SISLCurve where
  n : Int
  order : Int
  knots : List ℚ
  coeffs : List ℚ
  kind : Int
deriving DecidableEq

/-- The routines that the entity code calls and that are not part of the three files.
`CheckNormal` returns the renormalised vector, `none` for `false`.  `CalcNormal p0 p1 p2 old`
is the content of `*pn` after the call, `old` being its content before.  `newCurve` tells
whether SISL returned a curve, `s1363` gives `(V0, V1, stat)`, `s1364` the closure status and
`s1225` the position and status.  `FormatPDREal v tol` tells whether the real could be
formatted; `formatExtraParams` and `formatComments` are the results of the base-class
formatters. -/
structure Library where
  CheckNormal : MCAD_POINT → Option MCAD_POINT
  CalcNormal : MCAD_POINT → MCAD_POINT → MCAD_POINT → MCAD_POINT → MCAD_POINT
  PointMatches : MCAD_POINT → MCAD_POINT → ℚ → Bool
  newCurve : SISLCurve → Bool
  s1363 : SISLCurve → ℚ × ℚ × Int
  s1364 : SISLCurve → ℚ → Int
  s1225 : SISLCurve → ℚ → MCAD_POINT × Int
  FormatPDREal : ℚ → ℚ → Bool
  formatExtraParams : Bool
  formatComments : Bool

/-- An entity of the model as other entities see it through `IGES_ENTITY` and `IGES_CURVE`:
its type, its parent references `refs`, the pointer `BPTR` (meaningful for a 142) and the
results of `GetStartPoint` and `GetEndPoint` (meaningful for a curve). -/
structure Node where
  entityType : Int
  refs : List Nat
  BPTR : Option Nat
  startPoint : MCAD_POINT
  endPoint : MCAD_POINT
deriving DecidableEq

/-- The entity table of a model; an entity pointer is a position in it. -/
abbrev Graph := List Node

/-- Array read `a[j]`; `none` outside the array. -/
def load (a : List ℚ) (j : Nat) : Option ℚ := a[j]?

/-- Array write `a[j] = v`; `none` outside the array. -/
def store (a : List ℚ) (j : Nat) (v : ℚ) : Option (List ℚ) :=
  if j < a.length then some (a.set j v) else none

/-! ## Entity 100: circular arc -/

/-- State of `IGES_ENTITY_100`; `pTransform` is the transform pointer of the base class. -/
structure IGES_ENTITY_100 where
  entityType : Int
  form : Int
  zOffset : ℚ
  xCenter : ℚ
  yCenter : ℚ
  xStart : ℚ
  yStart : ℚ
  xEnd : ℚ
  yEnd : ℚ
  pTransform : Option Nat
  refs : List Nat
  depends : IGES_STAT_DEPENDS
  hierarchy : IGES_STAT_HIER
  structure_ : Int
  pdout : List PDItem
deriving DecidableEq

/-- The constructor `IGES_ENTITY_100::IGES_ENTITY_100`. -/
def IGES_ENTITY_100.new : IGES_ENTITY_100 :=
  { entityType := 100, form := 0, zOffset := 0, xCenter := 0, yCenter := 0, xStart := 1,
    yStart := 0, xEnd := 1, yEnd := 0, pTransform := none, refs := [],
    depends := IGES_STAT_DEPENDS.STAT_INDEPENDENT,
    hierarchy := IGES_STAT_HIER.STAT_HIER_ALL_SUB, structure_ := 0, pdout := [] }

/-- `IGES_ENTITY_100::format`: the body is `return false;`. -/
def IGES_ENTITY_100.format (e : IGES_ENTITY_100) (_index : Int) : Bool × IGES_ENTITY_100 :=
  (false, e)

/-! ## Entity 126: NURBS curve -/

/-- State of `IGES_ENTITY_126`.  `parent` is the owning `IGES` object as far as its global data
is read, `scurve` tells whether the SISL curve has been built, `extras` are the optional
pointers, `pdout` the parameter data formatted so far and `parameterData` the sequence number
stored by `format`. -/
structure IGES_ENTITY_126 where
  parent : Option GlobalData
  entityType : Int
  form : Int
  K : Int
  M : Int
  PROP1 : Int
  PROP2 : Int
  PROP3 : Int
  PROP4 : Int
  V0 : ℚ
  V1 : ℚ
  vnorm : MCAD_POINT
  nKnots : Int
  nCoeffs : Int
  knots : Option (List ℚ)
  coeffs : Option (List ℚ)
  scurve : Bool
  extras : List Nat
  refs : List Nat
  depends : IGES_STAT_DEPENDS
  hierarchy : IGES_STAT_HIER
  structure_ : Int
  parameterData : Int
  pdout : List PDItem
deriving DecidableEq

/-- The constructor `IGES_ENTITY_126::IGES_ENTITY_126`; `vnorm` starts as the default
`MCAD_POINT`. -/
def IGES_ENTITY_126.new (parent : Option GlobalData) : IGES_ENTITY_126 :=
  { parent := parent, entityType := 126, form := 0, K := 0, M := 0, PROP1 := 0, PROP2 := 0,
    PROP3 := 0, PROP4 := 0, V0 := 0, V1 := 0, vnorm := ⟨0, 0, 0⟩, nKnots := 0, nCoeffs := 0,
    knots := none, coeffs := none, scurve := false, extras := [], refs := [],
    depends := IGES_STAT_DEPENDS.STAT_INDEPENDENT,
    hierarchy := IGES_STAT_HIER.STAT_HIER_ALL_SUB, structure_ := 0, parameterData := 0,
    pdout := [] }

/-- The arguments `newCurve( nCoeffs, M + 1, knots, coeffs, PROP3 ? 1 : 2, 3, 0 )`, which is
also what the SISL curve of the entity refers to at any later time. -/
def IGES_ENTITY_126.curve (e : IGES_ENTITY_126) : SISLCurve :=
  { n := e.nCoeffs, order := e.M + 1, knots := e.knots.getD [], coeffs := e.coeffs.getD [],
    kind := if e.PROP3 ≠ 0 then 1 else 2 }

/-- First loop of `format`: the knots, each formatted with tolerance `uir`.  The result is
`none` on a read outside `knots`, otherwise the flag (false when `FormatPDREal` failed) and
the items added. -/
def IGES_ENTITY_126.formatKnots (X : Library) (uir : ℚ) (knots : List ℚ) :
    Nat → Nat → List PDItem → Option (Bool × List PDItem)
  | 0, _, out => some (true, out)
  | n + 1, i, out =>
    match load knots i with
    | none => none
    | some v =>
      if !X.FormatPDREal v uir then some (false, out)
      else formatKnots X uir knots n (i + 1) (out ++ [PDItem.real v uir])

/-- Second loop of `format`: the weights, `coeffs[j]` for `j = 3, 7, ...` on a rational curve
and the constant `1.0` on a polynomial one, with tolerance `1e-6`.  The counter `j` advances
as in the source (`j++` when rational, then `j += 3`). -/
def IGES_ENTITY_126.formatWeights (X : Library) (PROP3 : Int) (coeffs : List ℚ) :
    Nat → Nat → List PDItem → Option (Bool × List PDItem)
  | 0, _, out => some (true, out)
  | n + 1, j, out =>
    match (if PROP3 = 0 then load coeffs j else some 1) with
    | none => none
    | some tD =>
      if !X.FormatPDREal tD (1 / 1000000) then some (false, out)
      else formatWeights X PROP3 coeffs n ((if PROP3 = 0 then j + 1 else j) + 3)
        (out ++ [PDItem.real tD (1 / 1000000)])

/-- Third loop of `format`: the three coordinates of every control point. -/
def IGES_ENTITY_126.formatPoints (X : Library) (uir : ℚ) (PROP3 : Int) (coeffs : List ℚ) :
    Nat → Nat → List PDItem → Option (Bool × List PDItem)
  | 0, _, out => some (true, out)
  | n + 1, j, out =>
    match load coeffs j with
    | none => none
    | some vx =>
      if !X.FormatPDREal vx uir then some (false, out)
      else
        match load coeffs (j + 1) with
        | none => none
        | some vy =>
          if !X.FormatPDREal vy uir then some (false, out ++ [PDItem.real vx uir])
          else
            match load coeffs (j + 2) with
            | none => none
            | some vz =>
              if !X.FormatPDREal vz uir then
                some (false, out ++ [PDItem.real vx uir, PDItem.real vy uir])
              else
                formatPoints X uir PROP3 coeffs n (if PROP3 = 0 then j + 4 else j + 3)
                  (out ++ [PDItem.real vx uir, PDItem.real vy uir, PDItem.real vz uir])

/-- The closing part of `format`: `V0`, `V1`, the normal, the optional pointers and the
comments. -/
def IGES_ENTITY_126.formatTail (X : Library) (uir : ℚ) (e : IGES_ENTITY_126)
    (out : List PDItem) : Bool × IGES_ENTITY_126 :=
  if !X.FormatPDREal e.V0 uir then (false, { e with pdout := out }) else
  let out := out ++ [PDItem.real e.V0 uir]
  if !X.FormatPDREal e.V1 uir then (false, { e with pdout := out }) else
  let out := out ++ [PDItem.real e.V1 uir]
  if !X.FormatPDREal e.vnorm.x uir then (false, { e with pdout := out }) else
  let out := out ++ [PDItem.real e.vnorm.x uir]
  if !X.FormatPDREal e.vnorm.y uir then (false, { e with pdout := out }) else
  let out := out ++ [PDItem.real e.vnorm.y uir]
  if !X.FormatPDREal e.vnorm.z uir then (false, { e with pdout := out }) else
  let out := out ++ [PDItem.real e.vnorm.z uir]
  if !e.extras.isEmpty && !X.formatExtraParams then (false, { e with pdout := [] }) else
  if !X.formatComments then (false, { e with pdout := [] }) else
  (true, { e with pdout := out })

/-- The part of `format` that writes: the leading integers, then the three loops and the
closing part.  `none` is a read outside `knots` or `coeffs`. -/
def IGES_ENTITY_126.formatItems (X : Library) (e : IGES_ENTITY_126) (knots coeffs : List ℚ) :
    Option (Bool × IGES_ENTITY_126) :=
  let uir : ℚ := 1 / 1000000000000000
  let head := [PDItem.int e.entityType, PDItem.int e.K, PDItem.int e.M,
    PDItem.int e.PROP1, PDItem.int e.PROP2, PDItem.int e.PROP3, PDItem.int e.PROP4]
  match formatKnots X uir knots e.nKnots.toNat 0 head with
  | none => none
  | some (false, out) => some (false, { e with pdout := out })
  | some (true, out) =>
    match formatWeights X e.PROP3 coeffs e.nCoeffs.toNat 3 out with
    | none => none
    | some (false, out) => some (false, { e with pdout := out })
    | some (true, out) =>
      match formatPoints X uir e.PROP3 coeffs e.nCoeffs.toNat 0 out with
      | none => none
      | some (false, out) => some (false, { e with pdout := out })
      | some (true, out) => some (formatTail X uir e out)

/-- The checks of `format` on `K`, `M`, the four flags and the two array sizes; true when one
of them makes `format` return false. -/
def IGES_ENTITY_126.formatRejects (e : IGES_ENTITY_126) : Bool :=
  if e.K < 1 then true else
  if e.M < 1 then true else
  if e.PROP1 < 0 ∨ e.PROP1 > 1 then true else
  if e.PROP2 < 0 ∨ e.PROP2 > 1 then true else
  if e.PROP3 < 0 ∨ e.PROP3 > 1 then true else
  if e.PROP4 < 0 ∨ e.PROP4 > 1 then true else
  if 2 + e.K + e.M ≠ e.nKnots then true else
  if 1 + e.K ≠ e.nCoeffs then true else false

/-- `IGES_ENTITY_126::format`.  The items handed to `AddPDItem` are collected in `pdout`; the
packing into lines, and with it `paramLineCount`, belongs to `AddPDItem` and is not part of the
embedding.  `none` is a read outside `knots` or `coeffs`. -/
def IGES_ENTITY_126.format (X : Library) (e : IGES_ENTITY_126) (index : Int) :
    Option (Bool × IGES_ENTITY_126) :=
  let e := { e with pdout := [] }
  match e.knots, e.coeffs with
  | some knots, some coeffs =>
    if index < 1 ∨ index > 9999999 then some (false, e) else
    let e := { e with parameterData := index }
    match e.parent with
    | none => some (false, e)
    | some _ =>
      if e.formatRejects then some (false, e) else formatItems X e knots coeffs
  | _, _ => some (false, e)

/-- The statements `delete [] knots; knots = NULL; delete [] coeffs; coeffs = NULL;
pdout.clear();` that precede `return false` in the second half of `ReadPD`. -/
def IGES_ENTITY_126.dropArrays (e : IGES_ENTITY_126) : IGES_ENTITY_126 :=
  { e with knots := none, coeffs := none, pdout := [] }

/-- First part of `ReadPD`: the integers `K`, `M`, `PROP1` .. `PROP4`, each stored in the
entity as soon as it is read and then checked.  `Except.error e` is `return false` with the
entity left as `e`. -/
def IGES_ENTITY_126.readHeader (e : IGES_ENTITY_126) (fs : List Field) :
    Except IGES_ENTITY_126 (IGES_ENTITY_126 × List Field) :=
  match ParseInt fs with
  | none => Except.error e
  | some (k, fs) =>
    let e := { e with K := k }
    if k < 1 then Except.error e else
    match ParseInt fs with
    | none => Except.error e
    | some (m, fs) =>
      let e := { e with M := m }
      if m < 1 then Except.error e else
      match ParseInt fs with
      | none => Except.error e
      | some (p1, fs) =>
        let e := { e with PROP1 := p1 }
        if p1 ≠ 0 ∧ p1 ≠ 1 then Except.error e else
        match ParseInt fs with
        | none => Except.error e
        | some (p2, fs) =>
          let e := { e with PROP2 := p2 }
          if p2 ≠ 0 ∧ p2 ≠ 1 then Except.error e else
          match ParseInt fs with
          | none => Except.error e
          | some (p3, fs) =>
            let e := { e with PROP3 := p3 }
            if p3 ≠ 0 ∧ p3 ≠ 1 then Except.error e else
            match ParseInt fs with
            | none => Except.error e
            | some (p4, fs) =>
              let e := { e with PROP4 := p4 }
              if p4 ≠ 0 ∧ p4 ≠ 1 then Except.error e else
              Except.ok (e, fs)

/-- The loop of `ReadPD` over the knots: `knots[i] = tR` for each real read.  `none` when a
knot cannot be read. -/
def IGES_ENTITY_126.readKnots : Nat → Nat → List Field → List ℚ → Option (List ℚ × List Field)
  | 0, _, fs, knots => some (knots, fs)
  | n + 1, i, fs, knots =>
    match ParseReal fs with
    | none => none
    | some (tR, fs) => readKnots n (i + 1) fs (knots.set i tR)

/-- The loop of `ReadPD` over the `K + 1` weights: each is read, rejected when `tR <= 0`, and
stored in `coeffs[j]`, `j = 3, 7, ...`, only when the curve is rational.  `none` when a weight
cannot be read or is not positive. -/
def IGES_ENTITY_126.readWeights (PROP3 : Int) :
    Nat → Nat → List Field → List ℚ → Option (List ℚ × List Field)
  | 0, _, fs, coeffs => some (coeffs, fs)
  | n + 1, j, fs, coeffs =>
    match ParseReal fs with
    | none => none
    | some (tR, fs) =>
      if tR ≤ 0 then none
      else if PROP3 = 0 then readWeights PROP3 n (j + 4) fs (coeffs.set j tR)
      else readWeights PROP3 n j fs coeffs

/-- The loop of `ReadPD` over the `K + 1` control points: three reals are read and stored in
`coeffs[j]`, `coeffs[j+1]`, `coeffs[j+2]`; on a rational curve `j` then skips the weight. -/
def IGES_ENTITY_126.readPoints (PROP3 : Int) :
    Nat → Nat → List Field → List ℚ → Option (List ℚ × List Field)
  | 0, _, fs, coeffs => some (coeffs, fs)
  | n + 1, j, fs, coeffs =>
    match ParseReal fs with
    | none => none
    | some (tX, fs) =>
      match ParseReal fs with
      | none => none
      | some (tY, fs) =>
        match ParseReal fs with
        | none => none
        | some (tZ, fs) =>
          readPoints PROP3 n (if PROP3 = 0 then j + 4 else j + 3) fs
            (((coeffs.set j tX).set (j + 1) tY).set (j + 2) tZ)

/-- Second part of `ReadPD`: the arrays.  The old arrays are released, `knots` gets
`nKnots = 2 + K + M` entries and `coeffs` gets `4 * nCoeffs` or `3 * nCoeffs` entries with
`nCoeffs = K + 1`; the fresh arrays hold zeros until they are written.  A failure of
`readKnots` leaves `nCoeffs` as it was. -/
def IGES_ENTITY_126.readArrays (e : IGES_ENTITY_126) (fs : List Field) :
    Except IGES_ENTITY_126 (IGES_ENTITY_126 × List Field) :=
  let e := { e with knots := none, coeffs := none, nKnots := 2 + e.K + e.M }
  match readKnots e.nKnots.toNat 0 fs (List.replicate e.nKnots.toNat 0) with
  | none => Except.error e.dropArrays
  | some (knots, fs) =>
    let e := { e with knots := some knots, nCoeffs := e.K + 1 }
    let size : Nat := if e.PROP3 = (0 : Int) then (e.nCoeffs * 4).toNat else (e.nCoeffs * 3).toNat
    match readWeights e.PROP3 (e.K + 1).toNat 3 fs (List.replicate size 0) with
    | none => Except.error e.dropArrays
    | some (coeffs, fs) =>
      match readPoints e.PROP3 (e.K + 1).toNat 0 fs coeffs with
      | none => Except.error e.dropArrays
      | some (coeffs, fs) => Except.ok ({ e with coeffs := some coeffs }, fs)

/-- Last part of `ReadPD`: `V0`, `V1`, the unit normal (checked by `CheckNormal` and kept only
when `PROP1 == 1`, otherwise replaced by the z axis), the optional pointers when the record has
not ended, and the comments. -/
def IGES_ENTITY_126.readTail (X : Library) (r : PDRecord) (e : IGES_ENTITY_126)
    (fs : List Field) : Except IGES_ENTITY_126 IGES_ENTITY_126 :=
  match ParseReal fs with
  | none => Except.error e.dropArrays
  | some (v0, fs) =>
    let e := { e with V0 := v0 }
    match ParseReal fs with
    | none => Except.error e.dropArrays
    | some (v1, fs) =>
      let e := { e with V1 := v1 }
      match ParseReal fs with
      | none => Except.error e.dropArrays
      | some (tX, fs) =>
        match ParseReal fs with
        | none => Except.error e.dropArrays
        | some (tY, fs) =>
          match ParseReal fs with
          | none => Except.error e.dropArrays
          | some (tZ, fs) =>
            match (if e.PROP1 = (1 : Int) then X.CheckNormal ⟨tX, tY, tZ⟩
                   else some (⟨0, 0, 1⟩ : MCAD_POINT)) with
            | none => Except.error e.dropArrays
            | some nrm =>
              let e := { e with vnorm := nrm }
              if !eor fs && !r.extrasOk then Except.error e.dropArrays else
              if !r.commentsOk then Except.error e.dropArrays else
              Except.ok { e with pdout := [] }

/-- `ReadPD` from the statement `idx = pdout.find( pd )` on, the two delimiters having been
fetched from the parent.  The result is the returned `bool` and the entity as the call leaves
it. -/
def IGES_ENTITY_126.readFields (X : Library) (e : IGES_ENTITY_126) (r : PDRecord) :
    Bool × IGES_ENTITY_126 :=
  if r.firstDelim < 1 ∨ r.firstDelim > 8 then (false, e) else
  match readHeader e r.fields with
  | Except.error e => (false, e)
  | Except.ok (e, fs) =>
    match readArrays e fs with
    | Except.error e => (false, e)
    | Except.ok (e, fs) =>
      match readTail X r e fs with
      | Except.error e => (false, e)
      | Except.ok e => (true, e)

/-- `IGES_ENTITY_126::ReadPD`.  The record arrives as a `PDRecord`; the result is the returned
`bool` and the entity as the call leaves it.  When the base reader has succeeded the two
delimiters are read through `parent` (`parent->globalData.pdelim`); `none` is that read on an
entity whose `parent` is NULL. -/
def IGES_ENTITY_126.ReadPD (X : Library) (e : IGES_ENTITY_126) (r : PDRecord) :
    Option (Bool × IGES_ENTITY_126) :=
  let e := { e with pdout := [] }
  if !r.baseOk then some (false, e) else
  match e.parent with
  | none => none
  | some _ => some (e.readFields X r)

/-- Read of the three coordinates `coeffs[j]`, `coeffs[j+1]`, `coeffs[j+2]`. -/
def loadPoint (coeffs : List ℚ) (j : Nat) : Option MCAD_POINT :=
  match load coeffs j, load coeffs (j + 1), load coeffs (j + 2) with
  | some x, some y, some z => some ⟨x, y, z⟩
  | _, _, _ => none

/-- The loop of `hasUniquePlane` over the control points from the fourth on.  `a` and `b` are
the two points kept from the previous round (`pts[0]`, `pts[1]` after the rotation), `tnorm0`
the normal of the previous triple and `tnorm1` the variable that `CalcNormal` overwrites.  The
result is the returned `bool` and the content of `*norm`. -/
def IGES_ENTITY_126.planeLoop (X : Library) (PROP3 : Int) (coeffs : List ℚ) :
    Nat → Nat → MCAD_POINT → MCAD_POINT → MCAD_POINT → MCAD_POINT → MCAD_POINT →
    Option (Bool × MCAD_POINT)
  | 0, _, _, _, _, _, norm => some (true, norm)
  | n + 1, j, a, b, tnorm0, tnorm1, norm =>
    match loadPoint coeffs j with
    | none => none
    | some c =>
      let tnorm1 := X.CalcNormal a b c tnorm1
      if !X.PointMatches tnorm0 tnorm1 (1 / 100000000)
          && !X.PointMatches tnorm0 (tnorm1.smul (-1)) (1 / 100000000) then
        some (false, ⟨0, 0, 1⟩)
      else
        planeLoop X PROP3 coeffs n (if PROP3 = 0 then j + 4 else j + 3) b c tnorm1 tnorm1 norm

/-- `IGES_ENTITY_126::hasUniquePlane( norm )`, `norm` being the content of `*norm` at the
call.  The result is the returned `bool` and the content of `*norm` afterwards; `none` is a
read outside `coeffs` (or through a `NULL` `coeffs`).  The local `tnorm1` starts as the default
`MCAD_POINT`. -/
def IGES_ENTITY_126.hasUniquePlane (X : Library) (e : IGES_ENTITY_126) (norm : MCAD_POINT) :
    Option (Bool × MCAD_POINT) :=
  if e.nCoeffs < 3 then some (false, ⟨0, 0, 1⟩) else
  match e.coeffs with
  | none => none
  | some coeffs =>
    let step : Nat := if e.PROP3 = (0 : Int) then 4 else 3
    match loadPoint coeffs 0, loadPoint coeffs step, loadPoint coeffs (2 * step) with
    | some p0, some p1, some p2 =>
      let norm := X.CalcNormal p0 p1 p2 norm
      if e.nCoeffs = 3 then some (true, norm) else
      planeLoop X e.PROP3 coeffs (e.nCoeffs - 3).toNat (3 * step) p1 p2 norm ⟨0, 0, 0⟩ norm
    | _, _, _ => none

/-- The copy loops of `SetNURBSData`, `dst[i] = src[i]` for `i < n`; `none` when the array of
the caller is shorter than `n`. -/
def copyArray (src : List ℚ) : Nat → Nat → List ℚ → Option (List ℚ)
  | 0, _, dst => some dst
  | n + 1, i, dst =>
    match load src i with
    | none => none
    | some v => copyArray src n (i + 1) (dst.set i v)

/-- Last part of `SetNURBSData`: planarity from `hasUniquePlane( &vnorm )`, then closure and
periodicity from `s1364` with the tolerance `minResolution` of the owning model (`1e-8` without
one). -/
def IGES_ENTITY_126.classify (X : Library) (e : IGES_ENTITY_126) :
    Option (Bool × IGES_ENTITY_126) :=
  match hasUniquePlane X e e.vnorm with
  | none => none
  | some (planar, nrm) =>
    let e := { e with vnorm := nrm, PROP1 := if planar then 1 else 0 }
    let uir : ℚ := match e.parent with
      | none => 1 / 100000000
      | some g => g.minResolution
    let stat := X.s1364 e.curve uir
    if stat = 2 then some (true, { e with PROP2 := 1, PROP4 := 1 })
    else if stat = 1 then some (true, { e with PROP2 := 1, PROP4 := 0 })
    else if stat = 0 then some (true, { e with PROP2 := 0, PROP4 := 0 })
    else some (false, e)

/-- Middle part of `SetNURBSData`, entered with the arrays copied: the SISL curve is built,
`s1363` gives the parameter range `V0`, `V1`, and when `V0 == 0` and `V1 != 1` every knot is
divided by `V1` and `V1` becomes 1.  Nothing keeps `V1` away from zero in that loop; the
quotient of a knot by zero is an infinity or a NaN, which the rationals of this embedding do
not hold, and the result is `none` when the loop divides by zero. -/
def IGES_ENTITY_126.buildCurve (X : Library) (e : IGES_ENTITY_126) :
    Option (Bool × IGES_ENTITY_126) :=
  if !X.newCurve e.curve then some (false, e) else
  let e := { e with scurve := true }
  let r := X.s1363 e.curve
  let e := { e with V0 := r.1, V1 := r.2.1 }
  if r.2.2 ≠ 0 ∧ r.2.2 ≠ 1 then some (false, e) else
  if e.V0 = 0 ∧ e.V1 = 0 ∧ 0 < e.nKnots then none else
  let e := if e.V0 = 0 ∧ e.V1 ≠ 1 then
      { e with knots := e.knots.map (fun ks => ks.map (fun k => k / e.V1)), V1 := 1 } else e
  classify X e

/-- `IGES_ENTITY_126::SetNURBSData`.  `none` is a read outside the arrays of the caller or,
inside `hasUniquePlane`, outside `coeffs`, or a division of the knots by `V1 == 0`. -/
def IGES_ENTITY_126.SetNURBSData (X : Library) (e : IGES_ENTITY_126) (nCoeff order : Int)
    (knot coeff : Option (List ℚ)) (isRational : Bool) : Option (Bool × IGES_ENTITY_126) :=
  match knot, coeff with
  | some knot, some coeff =>
    if order < 2 then some (false, e) else
    if nCoeff < order then some (false, e) else
    let e := { e with nKnots := nCoeff + order, nCoeffs := nCoeff, K := nCoeff - 1,
                      M := order - 1, scurve := false, knots := none, coeffs := none,
                      PROP3 := if isRational then 0 else 1 }
    let nDbls : Int := if isRational then e.nCoeffs * 4 else e.nCoeffs * 3
    match copyArray knot e.nKnots.toNat 0 (List.replicate e.nKnots.toNat 0) with
    | none => none
    | some ks =>
      match copyArray coeff nDbls.toNat 0 (List.replicate nDbls.toNat 0) with
      | none => none
      | some cs => buildCurve X { e with knots := some ks, coeffs := some cs }
  | _, _ => some (false, e)

/-- Modelled from the spec: `IGES_ENTITY::GetFirstParentRef` of the base class (not under
src/): the first of the parent references, `NULL` when the entity has none. -/
def Node.GetFirstParentRef (nd : Node) : Option Nat := nd.refs.head?

/-- The `while( ep )` loop of `rescale`: it follows first-parent references from `ep`,
collecting the entities passed in `eps`, and stops at the first Curve on Parametric Surface
(type 142), which becomes `cps`.  The result is `(cps, eps)`; `none` when the pointer leaves
the table or when the loop has not ended after `fuel` rounds. -/
def IGES_ENTITY_126.ancestorWalk (g : Graph) : Nat → Option Nat → List Nat →
    Option (Option Nat × List Nat)
  | _, none, eps => some (none, eps)
  | 0, some _, _ => none
  | fuel + 1, some ep, eps =>
    match g[ep]? with
    | none => none
    | some nd =>
      if nd.entityType = 142 then some (some ep, eps)
      else ancestorWalk g fuel nd.GetFirstParentRef (eps ++ [ep])

/-- The decision `scaleXY` of `rescale`: false exactly when a 142 was found, its `GetBPTR`
succeeded and the pointer it gave is one of the collected entities `eps`. -/
def IGES_ENTITY_126.scaleXY (g : Graph) (cps : Option Nat) (eps : List Nat) : Option Bool :=
  match cps with
  | none => some true
  | some c =>
    match g[c]? with
    | none => none
    | some nd =>
      match nd.BPTR with
      | none => some true
      | some b => some (!eps.contains b)

/-- The statement `coeffs[j] *= sf`. -/
def mulAt (coeffs : List ℚ) (j : Nat) (sf : ℚ) : Option (List ℚ) :=
  match load coeffs j with
  | none => none
  | some v => store coeffs j (v * sf)

/-- The `for` loop of `rescale` over the `nCoeffs` control points, `j` being the position in
`coeffs` at the start of a round. -/
def IGES_ENTITY_126.scaleLoop (scaleXY : Bool) (PROP3 : Int) (sf : ℚ) :
    Nat → Nat → List ℚ → Option (List ℚ)
  | 0, _, coeffs => some coeffs
  | n + 1, j, coeffs =>
    match (if scaleXY then (mulAt coeffs j sf).bind (fun c => mulAt c (j + 1) sf)
           else some coeffs) with
    | none => none
    | some c =>
      match mulAt c (j + 2) sf with
      | none => none
      | some c => scaleLoop scaleXY PROP3 sf n (if PROP3 = 0 then j + 4 else j + 3) c

/-- `IGES_ENTITY_126::rescale( sf )` for the entity stored at position `self` of the table
`g`.  The walk gets as many rounds as the table has entities, which is enough whenever the
walk ends at all on a table without cycles.  `none` is a fault of the walk or an access outside
`coeffs`. -/
def IGES_ENTITY_126.rescale (g : Graph) (self : Nat) (e : IGES_ENTITY_126) (sf : ℚ) :
    Option (Bool × IGES_ENTITY_126) :=
  match g[self]? with
  | none => none
  | some me =>
    match ancestorWalk g g.length me.GetFirstParentRef [self] with
    | none => none
    | some (cps, eps) =>
      match scaleXY g cps eps with
      | none => none
      | some sxy =>
        match e.coeffs with
        | none => some (true, e)
        | some coeffs =>
          match scaleLoop sxy e.PROP3 sf e.nCoeffs.toNat 0 coeffs with
          | none => none
          | some c => some (true, { e with coeffs := some c })

/-! ## Rescaling in double arithmetic

The coefficients are `double`s in the source.  Elsewhere they are rationals and the arithmetic
is exact; here the product of `coeffs[j] *= sf` is rounded as IEEE 754 binary64 rounds it. -/

/-- `2 ^ k` as a rational, for an integer exponent `k`. -/
def pow2 (k : Int) : ℚ :=
  if 0 ≤ k then ((2 ^ k.toNat : Nat) : ℚ) else 1 / ((2 ^ (-k).toNat : Nat) : ℚ)

/-- How often `n` can be halved before it drops below 2: the position of its leading bit. -/
def halvings : Nat → Nat → Nat
  | 0, _ => 0
  | fuel + 1, n => if n < 2 then 0 else halvings fuel (n / 2) + 1

/-- The binary exponent of a rational `q` other than 0: the `k` with `2^k <= |q| < 2^(k+1)`. -/
def binade (q : ℚ) : Int :=
  if pow2 ((halvings q.num.natAbs q.num.natAbs : Int) - (halvings q.den q.den : Int)) ≤ |q|
  then (halvings q.num.natAbs q.num.natAbs : Int) - (halvings q.den q.den : Int)
  else (halvings q.num.natAbs q.num.natAbs : Int) - (halvings q.den q.den : Int) - 1

/-- The unit in the last place of a `double` near `q`: `2^(k - 52)` in the binade `k` of `q`,
and `2^(-1074)`, the spacing of the subnormal numbers, below `2^(-1022)`. -/
def ulp (q : ℚ) : ℚ := pow2 (max (binade q) (-1022) - 52)

/-- The integer nearest to `q`, the even one of the two when `q` lies half way. -/
def roundEven (q : ℚ) : Int :=
  if q - (Rat.floor q : ℚ) < 1 / 2 then Rat.floor q
  else if 1 / 2 < q - (Rat.floor q : ℚ) then Rat.floor q + 1
  else if Rat.floor q % 2 = 0 then Rat.floor q else Rat.floor q + 1

/-- The `double` that a real result `q` is rounded to (round to nearest, ties to even);
`none` when the result is an infinity, that is, when the rounded value reaches `2^1024`. -/
def toDouble (q : ℚ) : Option ℚ :=
  if q = 0 then some 0 else
  if pow2 1024 ≤ |(roundEven (q / ulp q) : ℚ) * ulp q| then none
  else some ((roundEven (q / ulp q) : ℚ) * ulp q)

/-- The statement `coeffs[j] *= sf` on `double`s: the product is rounded; `none` also when it
is an infinity, which the rationals do not hold. -/
def mulAtDouble (coeffs : List ℚ) (j : Nat) (sf : ℚ) : Option (List ℚ) :=
  match load coeffs j with
  | none => none
  | some v => (toDouble (v * sf)).bind (store coeffs j)

/-- The `for` loop of `rescale` on `double`s; it is `scaleLoop` with rounded products. -/
def IGES_ENTITY_126.scaleLoopDouble (scaleXY : Bool) (PROP3 : Int) (sf : ℚ) :
    Nat → Nat → List ℚ → Option (List ℚ)
  | 0, _, coeffs => some coeffs
  | n + 1, j, coeffs =>
    match (if scaleXY then (mulAtDouble coeffs j sf).bind (fun c => mulAtDouble c (j + 1) sf)
           else some coeffs) with
    | none => none
    | some c =>
      match mulAtDouble c (j + 2) sf with
      | none => none
      | some c => scaleLoopDouble scaleXY PROP3 sf n (if PROP3 = 0 then j + 4 else j + 3) c

/-- `IGES_ENTITY_126::rescale( sf )` on `double`s; it is `rescale` with rounded products. -/
def IGES_ENTITY_126.rescaleDouble (g : Graph) (self : Nat) (e : IGES_ENTITY_126) (sf : ℚ) :
    Option (Bool × IGES_ENTITY_126) :=
  match g[self]? with
  | none => none
  | some me =>
    match ancestorWalk g g.length me.GetFirstParentRef [self] with
    | none => none
    | some (cps, eps) =>
      match scaleXY g cps eps with
      | none => none
      | some sxy =>
        match e.coeffs with
        | none => some (true, e)
        | some coeffs =>
          match scaleLoopDouble sxy e.PROP3 sf e.nCoeffs.toNat 0 coeffs with
          | none => none
          | some c => some (true, { e with coeffs := some c })

/-! ## Entity 102: composite curve -/

/-- State of `IGES_ENTITY_102`: `iCurves` are the directory indices of the members, `curves`
the member pointers that `GetNSegments`, `GetSegment` and the checks of `associate` go through,
`extras` the optional pointers of the base class, `pTransform` its transform pointer and `use`
the entity-use flag of the directory entry. -/
structure IGES_ENTITY_102 where
  parent : Option GlobalData
  entityType : Int
  form : Int
  iCurves : List Int
  curves : List Nat
  extras : List Nat
  pTransform : Option Nat
  refs : List Nat
  depends : IGES_STAT_DEPENDS
  use : IGES_STAT_USE
  hierarchy : IGES_STAT_HIER
  structure_ : Int
  pdout : List PDItem
deriving DecidableEq

/-- The constructor `IGES_ENTITY_102::IGES_ENTITY_102`. -/
def IGES_ENTITY_102.new (parent : Option GlobalData) : IGES_ENTITY_102 :=
  { parent := parent, entityType := 102, form := 0, iCurves := [], curves := [], extras := [],
    pTransform := none, refs := [], depends := IGES_STAT_DEPENDS.STAT_INDEPENDENT,
    use := IGES_STAT_USE.STAT_USE_GEOMETRY, hierarchy := IGES_STAT_HIER.STAT_HIER_ALL_SUB, structure_ := 0, pdout := [] }

/-- `IGES_ENTITY_102::format`: the body reports that it is to be implemented and returns
false. -/
def IGES_ENTITY_102.format (e : IGES_ENTITY_102) (_index : Int) : Bool × IGES_ENTITY_102 :=
  (false, e)

/-- Modelled from the spec: `IGES_ENTITY::AddReference` of the base class (not under src/):
the parent is appended to `refs` iff it is not yet present, and the call succeeds. -/
def baseAddReference (refs : List Nat) (p : Nat) : Bool × List Nat :=
  if refs.contains p then (true, refs) else (true, refs ++ [p])

/-- The virtual call `child->AddReference( parent )` for a parent of type `parentType`: a
composite curve runs `IGES_ENTITY_102::AddReference`, which refuses a parent of type 102; the
other kinds run the base class. -/
def Node.AddReference (child : Node) (p : Nat) (parentType : Int) : Bool × Node :=
  if child.entityType = 102 ∧ parentType = 102 then (false, child)
  else ((baseAddReference child.refs p).1, { child with refs := (baseAddReference child.refs p).2 })

/-- The first loop of `associate`: every index of `iCurves` that lies in the table registers
this entity as a parent of the entity found there, and that entity is pushed onto `extras`; an
index outside the table, or a refused reference, clears `ok`. -/
def IGES_ENTITY_102.resolve (self : Nat) (selfType : Int) :
    List Int → Graph → List Nat → Bool → Graph × List Nat × Bool
  | [], g, extras, ok => (g, extras, ok)
  | bcur :: rest, g, extras, ok =>
    if 0 ≤ bcur ∧ bcur < (g.length : Int) then
      match g[bcur.toNat]? with
      | none => resolve self selfType rest g extras false
      | some child =>
        let r := child.AddReference self selfType
        resolve self selfType rest (g.set bcur.toNat r.2) (extras ++ [bcur.toNat])
          (if r.1 then ok else false)
    else resolve self selfType rest g extras false

/-- Squared distance `dV` between the start point of one member and the end point of its
predecessor. -/
def gapSq (cur prev : Node) : ℚ :=
  let p3 := cur.startPoint.sub prev.endPoint
  p3.x * p3.x + p3.y * p3.y + p3.z * p3.z

/-- The types a member of a composite curve may have. -/
def allowedInComposite (iEnt : Int) : Bool :=
  !(iEnt ≠ 100 ∧ iEnt ≠ 104 ∧ iEnt ≠ 110 ∧ iEnt ≠ 112 ∧ iEnt ≠ 116 ∧ iEnt ≠ 126
      ∧ iEnt ≠ 132 ∧ iEnt ≠ 106)

/-- The `while( sp != ep )` loop of `associate` over `curves`.  `acc` counts the members seen,
`jEnt` is the type of the previous member, `pp` the previous member, `iEnt` the type last
read, `nICurves` is `iCurves.size()`.  The result is `(ok, iEnt)`; `none` when a member
pointer leaves the table. -/
def IGES_ENTITY_102.checkLoop (g : Graph) (dN : ℚ) (nICurves : Nat) :
    List Nat → Nat → Int → Option Nat → Int → Bool → Option (Bool × Int)
  | [], _, _, _, iEnt, ok => some (ok, iEnt)
  | sp :: rest, acc, jEnt, pp, _, ok =>
    match g[sp]? with
    | none => none
    | some cur =>
      let iEnt := cur.entityType
      let ok := if !allowedInComposite iEnt then false else ok
      if acc > 0 then
        let ok := if (iEnt = 116 ∨ iEnt = 132) ∧ acc > 0 ∧ jEnt = iEnt ∧ nICurves ≠ 2
          then false else ok
        match pp.bind (fun q => g[q]?) with
        | none => none
        | some prev =>
          let ok := if gapSq cur prev > dN then false else ok
          checkLoop g dN nICurves rest (acc + 1) iEnt (some sp) iEnt ok
      else
        checkLoop g dN nICurves rest (acc + 1) iEnt (some sp) iEnt ok

/-- The tolerance `dN` of `associate`: `1e-9` without an owning model, else the cube of its
`minResolution`. -/
def IGES_ENTITY_102.tolerance (e : IGES_ENTITY_102) : ℚ :=
  match e.parent with
  | none => 1 / 1000000000
  | some gd => gd.minResolution * gd.minResolution * gd.minResolution

/-- `IGES_ENTITY_102::associate( entities )` for the entity stored at position `self` of the
table `g`; `baseOk` is the result of `IGES_ENTITY::associate`.  The result is the returned
`bool`, the entity and the table after the call; `none` when a member pointer leaves the
table. -/
def IGES_ENTITY_102.associate (baseOk : Bool) (g : Graph) (self : Nat) (e : IGES_ENTITY_102) :
    Option (Bool × IGES_ENTITY_102 × Graph) :=
  if !baseOk then some (false, e, g) else
  let r := resolve self e.entityType e.iCurves g e.extras true
  let g := r.1
  let e := { e with extras := r.2.1 }
  match checkLoop g e.tolerance e.iCurves.length e.curves 0 0 none 0 r.2.2 with
  | none => none
  | some (ok, iEnt) =>
    let ok := if e.curves.length = 1 ∧ (iEnt = 116 ∨ iEnt = 132) then false else ok
    some (ok, e, g)

/-! ## Predicates used in the statements -/

/-- The structural conditions of a NURBS curve: `K >= 1`, `M >= 1`, `nKnots = K + M + 2`,
`nCoeffs = K + 1` and each of `PROP1` .. `PROP4` in `{0, 1}`. -/
def IGES_ENTITY_126.structural (e : IGES_ENTITY_126) : Prop :=
  1 ≤ e.K ∧ 1 ≤ e.M ∧ e.nKnots = e.K + e.M + 2 ∧ e.nCoeffs = e.K + 1 ∧
  (e.PROP1 = 0 ∨ e.PROP1 = 1) ∧ (e.PROP2 = 0 ∨ e.PROP2 = 1) ∧
  (e.PROP3 = 0 ∨ e.PROP3 = 1) ∧ (e.PROP4 = 0 ∨ e.PROP4 = 1)

instance (e : IGES_ENTITY_126) : Decidable e.structural := by
  unfold IGES_ENTITY_126.structural; infer_instance

/-- The leading part of a record is well formed: the base reader succeeded, the first
delimiter stands at position 1 to 8, and the six integers `K`, `M`, `PROP1` .. `PROP4` are
present with `K >= 1`, `M >= 1` and every flag 0 or 1. -/
def PDRecord.headerValid (r : PDRecord) : Prop :=
  r.baseOk = true ∧ 1 ≤ r.firstDelim ∧ r.firstDelim ≤ 8 ∧
  ∃ f0 f1 f2 f3 f4 f5 tl, r.fields = f0 :: f1 :: f2 :: f3 :: f4 :: f5 :: tl ∧
  ∃ k m p1 p2 p3 p4 : Int,
    f0.asInt = some k ∧ f1.asInt = some m ∧ f2.asInt = some p1 ∧ f3.asInt = some p2 ∧
    f4.asInt = some p3 ∧ f5.asInt = some p4 ∧ 1 ≤ k ∧ 1 ≤ m ∧
    (p1 = 0 ∨ p1 = 1) ∧ (p2 = 0 ∨ p2 = 1) ∧ (p3 = 0 ∨ p3 = 1) ∧ (p4 = 0 ∨ p4 = 1)

/-! ## Worked examples -/

/-- Vector product of two directions. -/
def MCAD_POINT.cross (a b : MCAD_POINT) : MCAD_POINT :=
  ⟨a.y * b.z - a.z * b.y, a.z * b.x - a.x * b.z, a.x * b.y - a.y * b.x⟩

/-- The non-negative rational whose square is `q`, when there is one. -/
def Examples.exactRoot (q : ℚ) : Option ℚ :=
  match (List.range (q.num.toNat + 1)).find? (fun a => a * a = q.num.toNat),
        (List.range (q.den + 1)).find? (fun b => b * b = q.den) with
  | some a, some b => some ((a : ℚ) / (b : ℚ))
  | _, _ => none

/-- The vector scaled to length one; `none` for the zero vector and for a vector whose length
is not rational. -/
def Examples.normalize (v : MCAD_POINT) : Option MCAD_POINT :=
  if v.dot v = 0 then none else (Examples.exactRoot (v.dot v)).map (fun len => v.smul (1 / len))

/-- Modelled from the spec: `CalcNormal( p0, p1, p2, pn )`, declared in `mcad_helpers.h` as
"calculate the normal given points p0, p1, p2" with its body not under src/.  The third
scenario of the spec gives the z-axis `(0,0,1)` as the normal of the control points `(0,0,0)`,
`(1,2,0)`, `(2,2,0)`, `(3,0,0)`; this fixes the orientation: `*pn` becomes the unit vector
along `(p2 - p0) x (p1 - p0)`.  `*pn` is left as it was when that product is zero, and also
when its length is no rational number, a case outside this embedding. -/
def CalcNormal (p0 p1 p2 old : MCAD_POINT) : MCAD_POINT :=
  (Examples.normalize ((p2.sub p0).cross (p1.sub p0))).getD old

/-- A library for the worked examples, in which every call succeeds on the data used there.
`CheckNormal` renormalises a vector of rational length and rejects the others; `CalcNormal`
is the normal modelled from the spec; `PointMatches` compares the three coordinates within the tolerance; `s1363`
returns the ends `knots[order - 1]`, `knots[n]` of the knot vector with status 0; `s1364`
reports an open curve; every real can be formatted; `s1225` is not reached by the examples. -/
def Examples.lib : Library where
  CheckNormal := Examples.normalize
  CalcNormal := CalcNormal
  PointMatches := fun a b tol =>
    decide (|a.x - b.x| < tol) && decide (|a.y - b.y| < tol) && decide (|a.z - b.z| < tol)
  newCurve := fun _ => true
  s1363 := fun c => (c.knots.getD (c.order - 1).toNat 0, c.knots.getD c.n.toNat 0, 0)
  s1364 := fun _ _ => 0
  s1225 := fun _ _ => (⟨0, 0, 0⟩, 0)
  FormatPDREal := fun _ _ => true
  formatExtraParams := true
  formatComments := true

/-- Global data with the default delimiters and a resolution of one thousandth. -/
def Examples.globals : GlobalData := { pdelim := ',', rdelim := ';', minResolution := 1 / 1000 }

/-- The record `126,1,1,0,0,0,0,0.,0.,1.,1.,w0,w1,0.,0.,0.,1.,0.,0.,0.,1.,0.,0.,1.;` of a
rational straight segment from the origin to `(1,0,0)` with weights `w0`, `w1`. -/
def Examples.segmentRecord (w0 w1 : ℚ) : PDRecord :=
  { baseOk := true, firstDelim := 3,
    fields := [Field.ofInt 1, Field.ofInt 1, Field.ofInt 0, Field.ofInt 0, Field.ofInt 0,
      Field.ofInt 0,
      Field.ofReal 0, Field.ofReal 0, Field.ofReal 1, Field.ofReal 1,
      Field.ofReal w0, Field.ofReal w1,
      Field.ofReal 0, Field.ofReal 0, Field.ofReal 0,
      Field.ofReal 1, Field.ofReal 0, Field.ofReal 0,
      Field.ofReal 0, Field.ofReal 1,
      Field.ofReal 0, Field.ofReal 0, Field.ofReal 1],
    extrasOk := true, commentsOk := true }

/-- The entity that holds the rational segment from the origin to `(1,0,0)` with weights `w0`,
`w1` once `SetNURBSData` has stored it under `Examples.lib`. -/
def Examples.segment (w0 w1 : ℚ) : IGES_ENTITY_126 :=
  { IGES_ENTITY_126.new (some Examples.globals) with
    K := 1, M := 1, nKnots := 4, nCoeffs := 2, V0 := 0, V1 := 1, vnorm := ⟨0, 0, 1⟩,
    knots := some [0, 0, 1, 1], coeffs := some [0, 0, 0, w0, 1, 0, 0, w1], scurve := true }

/-- The record of a polynomial polyline of degree 1 through `(0,0,0)`, `(1,0,0)`, `(1,1,0)`,
`(1,1,1)`, which does not lie in a plane, flagged planar (`PROP1 = 1`) with the z axis given as
its unit normal. -/
def Examples.skewRecord : PDRecord :=
  { baseOk := true, firstDelim := 3,
    fields := [Field.ofInt 3, Field.ofInt 1, Field.ofInt 1, Field.ofInt 0, Field.ofInt 1,
      Field.ofInt 0,
      Field.ofReal 0, Field.ofReal 0, Field.ofReal 1, Field.ofReal 2, Field.ofReal 3,
      Field.ofReal 3,
      Field.ofReal 1, Field.ofReal 1, Field.ofReal 1, Field.ofReal 1,
      Field.ofReal 0, Field.ofReal 0, Field.ofReal 0,
      Field.ofReal 1, Field.ofReal 0, Field.ofReal 0,
      Field.ofReal 1, Field.ofReal 1, Field.ofReal 0,
      Field.ofReal 1, Field.ofReal 1, Field.ofReal 1,
      Field.ofReal 0, Field.ofReal 3,
      Field.ofReal 0, Field.ofReal 0, Field.ofReal 1],
    extrasOk := true, commentsOk := true }

/-- The entity that `ReadPD` builds from `Examples.skewRecord`. -/
def Examples.skew : IGES_ENTITY_126 :=
  { IGES_ENTITY_126.new (some Examples.globals) with
    K := 3, M := 1, PROP1 := 1, PROP3 := 1, nKnots := 6, nCoeffs := 4, V0 := 0, V1 := 3,
    vnorm := ⟨0, 0, 1⟩, knots := some [0, 0, 1, 2, 3, 3],
    coeffs := some [0, 0, 0, 1, 0, 0, 1, 1, 0, 1, 1, 1] }

/-- The record of `Examples.segmentRecord 1 (-1)` with the flag `PROP1` replaced by 7, which
is not a flag. -/
def Examples.flaggedRecord : PDRecord :=
  { Examples.segmentRecord 1 (-1) with
    fields := (Examples.segmentRecord 1 (-1)).fields.set 2 (Field.ofInt 7) }

/-- Number of array entries per control point: 4 on a rational curve, 3 on a polynomial one. -/
def IGES_ENTITY_126.stride (e : IGES_ENTITY_126) : Nat := if e.PROP3 = 0 then 4 else 3

/-- The `i`-th control point of the entity, read from `coeffs`. -/
def IGES_ENTITY_126.controlPoint (e : IGES_ENTITY_126) (i : Nat) : Option MCAD_POINT :=
  match e.coeffs with
  | none => none
  | some cs => loadPoint cs (e.stride * i)

/-- The planarity property of the claim: the normal has length one and every control point
`p_i` satisfies `|n . (p_i - p_0)| < 1e-8`. -/
def IGES_ENTITY_126.planarWithin (e : IGES_ENTITY_126) : Prop :=
  e.vnorm.dot e.vnorm = 1 ∧
  ∀ (i : Nat) (p0 p : MCAD_POINT), (i : Int) < e.nCoeffs → e.controlPoint 0 = some p0 →
    e.controlPoint i = some p → |e.vnorm.dot (p.sub p0)| < 1 / 100000000

/-- What the loop of `hasUniquePlane` requires of the control points after the third: with
`a`, `b` the two preceding points, `tnorm0` the normal of the preceding triple and `tnorm1` the
content of the variable that `CalcNormal` overwrites, the normal of `(a, b, c)` matches
`tnorm0` or its opposite within `1e-8` in the sense of `PointMatches`, and so on along the
list. -/
def normalsAgree (X : Library) :
    MCAD_POINT → MCAD_POINT → MCAD_POINT → MCAD_POINT → List MCAD_POINT → Prop
  | _, _, _, _, [] => True
  | a, b, tnorm0, tnorm1, c :: rest =>
    (X.PointMatches tnorm0 (X.CalcNormal a b c tnorm1) (1 / 100000000) = true ∨
      X.PointMatches tnorm0 ((X.CalcNormal a b c tnorm1).smul (-1)) (1 / 100000000) = true) ∧
    normalsAgree X b c (X.CalcNormal a b c tnorm1) (X.CalcNormal a b c tnorm1) rest

/-- What `SetNURBSData` has established of a curve it flags planar, `old` being the normal
stored before the call: there are at least three control points, the stored normal is what
`CalcNormal` makes of the first three, and the normals of the later consecutive triples agree
in the sense of `normalsAgree`. -/
def IGES_ENTITY_126.planeChecked (X : Library) (e : IGES_ENTITY_126) (old : MCAD_POINT) : Prop :=
  3 ≤ e.nCoeffs ∧ ∃ (p0 p1 p2 : MCAD_POINT) (rest : List MCAD_POINT),
    e.controlPoint 0 = some p0 ∧ e.controlPoint 1 = some p1 ∧ e.controlPoint 2 = some p2 ∧
    e.vnorm = X.CalcNormal p0 p1 p2 old ∧ (rest.length : Int) = e.nCoeffs - 3 ∧
    (∀ i, i < rest.length → e.controlPoint (3 + i) = rest[i]?) ∧
    normalsAgree X p1 p2 e.vnorm ⟨0, 0, 0⟩ rest

/-- The entity that holds the polynomial polyline through `(0,0,0)`, `(1,0,0)`, `(0,1,0)`,
`(1,1,0)` once `SetNURBSData` has stored it under `Examples.lib` with the knot vector
`[0,0,1,2,3,3]`: the knots are divided by `V1 = 3` and the curve is flagged planar. -/
def Examples.zigzag : IGES_ENTITY_126 :=
  { IGES_ENTITY_126.new (some Examples.globals) with
    K := 3, M := 1, PROP1 := 1, PROP3 := 1, nKnots := 6, nCoeffs := 4, V0 := 0, V1 := 1,
    vnorm := ⟨0, 0, -1⟩, knots := some [0, 0, 1 / 3, 2 / 3, 1, 1],
    coeffs := some [0, 0, 0, 1, 0, 0, 0, 1, 0, 1, 1, 0], scurve := true }

/-- The entity that holds the polynomial polyline through `(0,0,0)`, `(1,0,0)`, `(1,1,0)` and
a fourth point about 10 away that lies `2e-8` above the plane of the first three, once
`SetNURBSData` has stored it under `Examples.lib` with the knot vector `[0,0,1,2,3,3]`.  The
unit normal of the last three points is `(-2e-9, 0, 1)` up to `2e-18`, so it matches the
opposite of the first normal `(0,0,-1)` within `1e-8`. -/
def Examples.tilted : IGES_ENTITY_126 :=
  { IGES_ENTITY_126.new (some Examples.globals) with
    K := 3, M := 1, PROP1 := 1, PROP3 := 1, nKnots := 6, nCoeffs := 4, V0 := 0, V1 := 1,
    vnorm := ⟨0, 0, -1⟩, knots := some [0, 0, 1 / 3, 2 / 3, 1, 1],
    coeffs := some [0, 0, 0, 1, 0, 0, 1, 1, 0,
      1 + 9999999999999999990 / 1000000000000000001, 1,
      20000000000 / 1000000000000000001], scurve := true }

/-! ## The entity graph -/

/-- `b` is one of the parent references of `a`. -/
def Graph.parentOf (g : Graph) (a b : Nat) : Prop :=
  ∃ nd, g[a]? = some nd ∧ b ∈ nd.refs

/-- `b` is an ancestor of `a`: it is reached from `a` through a chain of parent references. -/
def Graph.ancestor (g : Graph) : Nat → Nat → Prop := Relation.TransGen g.parentOf

/-- No entity is its own ancestor. -/
def Graph.acyclic (g : Graph) : Prop := ∀ a, ¬ g.ancestor a a

/-- Every parent reference points into the table. -/
def Graph.closed (g : Graph) : Prop := ∀ a b, g.parentOf a b → b < g.length

/-- The factor by which the `n` rounds of the loop of `rescale` that start at position `j`
multiply the array entry `idx`: a round at position `j` multiplies the entries `j` and `j + 1`
by `sf` when `scaleXY` holds and the entry `j + 2` by `sf` always, and the next round starts
`step` entries further. -/
def scaleFactor (sxy : Bool) (step : Nat) (sf : ℚ) : Nat → Nat → Nat → ℚ
  | 0, _, _ => 1
  | n + 1, j, idx =>
    (if idx = j ∨ idx = j + 1 then (if sxy then sf else 1)
     else if idx = j + 2 then sf else 1) * scaleFactor sxy step sf n (j + step) idx

/-- A check that can be run on a table: every parent reference of the entity at position
`i + k` of `i`-shifted list `l` points to a later position below `len`. -/
def parentsAboveFrom (len : Nat) : Nat → List Node → Bool
  | _, [] => true
  | i, nd :: rest =>
    nd.refs.all (fun b => decide (i < b ∧ b < len)) && parentsAboveFrom len (i + 1) rest

/-- Every parent of an entity stands later in the table than the entity itself; such a table
is closed and has no cycle. -/
def Graph.parentsAbove (g : Graph) : Bool := parentsAboveFrom g.length 0 g

/-- A point at the origin, for entities whose end points play no part. -/
def Examples.origin : MCAD_POINT := ⟨0, 0, 0⟩

/-- A trimmed surface with a parameter-space boundary: the NURBS curve at position 0 is a member
of the composite curve at position 2, which is the `BPTR` of the curve on surface (142) at
position 3, itself the boundary of the trimmed surface (144) at position 4.  The curve is also
a member of the associativity (402) at position 1, and that reference comes first. -/
def Examples.trimmed : Graph :=
  [ { entityType := 126, refs := [1, 2], BPTR := none, startPoint := Examples.origin,
      endPoint := Examples.origin },
    { entityType := 402, refs := [], BPTR := none, startPoint := Examples.origin,
      endPoint := Examples.origin },
    { entityType := 102, refs := [3], BPTR := none, startPoint := Examples.origin,
      endPoint := Examples.origin },
    { entityType := 142, refs := [4], BPTR := some 2, startPoint := Examples.origin,
      endPoint := Examples.origin },
    { entityType := 144, refs := [], BPTR := none, startPoint := Examples.origin,
      endPoint := Examples.origin } ]

/-- The same model with the two parent references of the curve in the other order. -/
def Examples.trimmedSwapped : Graph :=
  List.set Examples.trimmed 0
    ({ entityType := 126, refs := [2, 1], BPTR := none, startPoint := Examples.origin,
       endPoint := Examples.origin } : Node)

/-- A model in which the NURBS curve at position 0 is a member of the composite curve at
position 1 and nothing else refers to either. -/
def Examples.plainComposite : Graph :=
  [ { entityType := 126, refs := [1], BPTR := none, startPoint := Examples.origin,
      endPoint := Examples.origin },
    { entityType := 102, refs := [], BPTR := none, startPoint := Examples.origin,
      endPoint := Examples.origin } ]

/-- A rational curve in the parameter plane with control points `(1,2,0)` and `(3,4,0)` and
unit weights. -/
def Examples.uvSegment : IGES_ENTITY_126 :=
  { Examples.segment 1 1 with coeffs := some [1, 2, 0, 1, 3, 4, 0, 1] }

/-- A rational curve with unit weights whose control points are `(2^-540, 0, 0)` and the
origin. -/
def Examples.tinySegment : IGES_ENTITY_126 :=
  { Examples.segment 1 1 with coeffs := some [pow2 (-540), 0, 0, 1, 0, 0, 0, 1] }

/-! ## Predicates on a composite curve -/

/-- What `associate` reads of a member: its type and its two end points. -/
def Node.view (nd : Node) : Int × MCAD_POINT × MCAD_POINT :=
  (nd.entityType, nd.startPoint, nd.endPoint)

/-- The two tests that the loop of `associate` makes on a member `qc` and its predecessor
`qp`, both passed: they are not two points of the same kind (116, 116 or 132, 132) in a
curve whose `iCurves` has a size other than 2, and the squared distance from the end of `qp`
to the start of `qc` does not exceed `dN`. -/
def IGES_ENTITY_102.pairOk (g : Graph) (dN : ℚ) (nICurves : Nat) (qp qc : Nat) : Prop :=
  ∀ prev cur, g[qp]? = some prev → g[qc]? = some cur →
    ¬ ((cur.entityType = 116 ∨ cur.entityType = 132) ∧ prev.entityType = cur.entityType
        ∧ nICurves ≠ 2) ∧
    ¬ (gapSq cur prev > dN)

/-- The rules of `associate` other than the sequencing rule, all passed: the base class
associated; every index of `iCurves` lies in the table and the entity there accepts the
reference (it is not a composite curve asked to take a composite curve as parent); every member
pointer lies in the table and has an allowed type; no two consecutive members are points of the
same kind, unless `iCurves` has size 2; and the curve is not a single point. -/
def IGES_ENTITY_102.otherRulesPass (baseOk : Bool) (g : Graph) (e : IGES_ENTITY_102) : Prop :=
  baseOk = true ∧
  (∀ i ∈ e.iCurves, 0 ≤ i ∧ i < (g.length : Int) ∧
    ∀ nd, g[i.toNat]? = some nd → ¬ (nd.entityType = 102 ∧ e.entityType = 102)) ∧
  (∀ q ∈ e.curves, ∃ nd, g[q]? = some nd ∧ allowedInComposite nd.entityType = true) ∧
  (∀ i qp qc prev cur, e.curves[i]? = some qp → e.curves[i + 1]? = some qc →
    g[qp]? = some prev → g[qc]? = some cur →
    ¬ ((cur.entityType = 116 ∨ cur.entityType = 132) ∧ prev.entityType = cur.entityType
        ∧ e.iCurves.length ≠ 2)) ∧
  (∀ q nd, e.curves = [q] → g[q]? = some nd → ¬ (nd.entityType = 116 ∨ nd.entityType = 132))

/-- Some member starts further than the tolerance from the end of its predecessor: for some
`i` the squared distance between the end point of member `i` and the start point of member
`i + 1` exceeds `dN`. -/
def IGES_ENTITY_102.gapExceeds (g : Graph) (e : IGES_ENTITY_102) (dN : ℚ) : Prop :=
  ∃ i qp qc prev cur, e.curves[i]? = some qp ∧ e.curves[i + 1]? = some qc ∧
    g[qp]? = some prev ∧ g[qc]? = some cur ∧ gapSq cur prev > dN
/-- A straight line (110) from `a` to `b` as an entry of the entity table. -/
def Examples.line (a b : MCAD_POINT) : Node :=
  { entityType := 110, refs := [], BPTR := none, startPoint := a, endPoint := b }

/-- An entry of the entity table for a composite curve (102) without parents. -/
def Examples.compositeNode : Node :=
  { entityType := 102, refs := [], BPTR := none, startPoint := Examples.origin,
    endPoint := Examples.origin }

/-- The model of the second scenario: a line from `(0,0,0)` to `(1,0,0)`, a line from `(1,0,0)`
to `(1,1,0)`, and the composite curve of the two at position 2. -/
def Examples.polyline : Graph :=
  [Examples.line ⟨0, 0, 0⟩ ⟨1, 0, 0⟩, Examples.line ⟨1, 0, 0⟩ ⟨1, 1, 0⟩, Examples.compositeNode]

/-- The same model with the end points of the second line swapped. -/
def Examples.polylineSwapped : Graph :=
  [Examples.line ⟨0, 0, 0⟩ ⟨1, 0, 0⟩, Examples.line ⟨1, 1, 0⟩ ⟨1, 0, 0⟩, Examples.compositeNode]

/-- A composite curve of the entities at positions 0 and 1, owned by a model with global data
`gd`. -/
def Examples.composite (gd : GlobalData) : IGES_ENTITY_102 :=
  { IGES_ENTITY_102.new (some gd) with iCurves := [0, 1], curves := [0, 1] }

/-- Global data with a minimum resolution of 4. -/
def Examples.coarse : GlobalData := { pdelim := ',', rdelim := ';', minResolution := 4 }

/-- A line from `(0,0,0)` to `(1,0,0)` followed by a line that starts 7 further, at `(8,0,0)`,
and the composite curve of the two at position 2. -/
def Examples.wideGap : Graph :=
  [Examples.line ⟨0, 0, 0⟩ ⟨1, 0, 0⟩, Examples.line ⟨8, 0, 0⟩ ⟨9, 0, 0⟩, Examples.compositeNode]

/-- The entry `nd` once the composite curve at position 2 has registered as its parent. -/
def Examples.referenced (nd : Node) : Node := { nd with refs := [2] }

/-! ## Reference bookkeeping and accessors -/

/-- Modelled from the spec: the one-argument `IGES_ENTITY::AddReference( aParentEntity )` of the
base class, which entities 100 and 102 call (not under src/): a null parent is refused, any
other parent is handled as in `baseAddReference`. -/
def baseAddReferencePtr (refs : List Nat) (p : Option Nat) : Bool × List Nat :=
  match p with
  | none => (false, refs)
  | some q => baseAddReference refs q

/-- Modelled from the spec: `IGES_ENTITY::AddReference( aParentEntity, isDuplicate )` of the
base class, which entity 126 calls (not under src/): the parent is appended to `refs` iff it is
not yet present.  The result is the returned `bool`, the value left in `isDuplicate` and the
list `refs` after the call. -/
def baseAddReferenceDup (refs : List Nat) (p : Option Nat) : Bool × Bool × List Nat :=
  match p with
  | none => (false, false, refs)
  | some q => if refs.contains q then (true, true, refs) else (true, false, refs ++ [q])

/-- Modelled from the spec: `IGES_ENTITY::DelReference` of the base class (not under src/):
the first matching back-edge is removed; the call fails when there is none. -/
def baseDelReference (refs : List Nat) (p : Option Nat) : Bool × List Nat :=
  match p with
  | none => (false, refs)
  | some q => if refs.contains q then (true, refs.erase q) else (false, refs)

/-- Modelled from the spec: `IGES_ENTITY::Unlink` of the base class (not under src/): the child
is removed from the transform pointer and from `extras`, the lists the base class owns, and
the call tells whether anything was removed. -/
def baseUnlink (pTransform : Option Nat) (extras : List Nat) (c : Nat) :
    Bool × Option Nat × List Nat :=
  (decide (pTransform = some c) || extras.contains c,
   if pTransform = some c then none else pTransform,
   extras.erase c)

/-- `IGES_ENTITY_100::IsOrphaned`: true when there are no parent references, whatever the
dependency. -/
def IGES_ENTITY_100.IsOrphaned (e : IGES_ENTITY_100) : Bool :=
  if e.refs.isEmpty then true else false

/-- `IGES_ENTITY_100::AddReference`: the base class call. -/
def IGES_ENTITY_100.AddReference (e : IGES_ENTITY_100) (aParentEntity : Option Nat) :
    Bool × IGES_ENTITY_100 :=
  ((baseAddReferencePtr e.refs aParentEntity).1,
   { e with refs := (baseAddReferencePtr e.refs aParentEntity).2 })

/-- `IGES_ENTITY_100::DelReference`: the base class call. -/
def IGES_ENTITY_100.DelReference (e : IGES_ENTITY_100) (aParentEntity : Option Nat) :
    Bool × IGES_ENTITY_100 :=
  ((baseDelReference e.refs aParentEntity).1,
   { e with refs := (baseDelReference e.refs aParentEntity).2 })

/-- `IGES_ENTITY_126::IsOrphaned`. -/
def IGES_ENTITY_126.IsOrphaned (e : IGES_ENTITY_126) : Bool :=
  if e.refs.isEmpty ∧ e.depends ≠ IGES_STAT_DEPENDS.STAT_INDEPENDENT then true else false

/-- `IGES_ENTITY_126::AddReference( aParentEntity, isDuplicate )`: the base class call.  The
result is the returned `bool`, the value left in `isDuplicate` and the entity. -/
def IGES_ENTITY_126.AddReference (e : IGES_ENTITY_126) (aParentEntity : Option Nat) :
    Bool × Bool × IGES_ENTITY_126 :=
  ((baseAddReferenceDup e.refs aParentEntity).1, (baseAddReferenceDup e.refs aParentEntity).2.1,
   { e with refs := (baseAddReferenceDup e.refs aParentEntity).2.2 })

/-- `IGES_ENTITY_126::DelReference`: the base class call. -/
def IGES_ENTITY_126.DelReference (e : IGES_ENTITY_126) (aParentEntity : Option Nat) :
    Bool × IGES_ENTITY_126 :=
  ((baseDelReference e.refs aParentEntity).1,
   { e with refs := (baseDelReference e.refs aParentEntity).2 })

/-- `IGES_ENTITY_102::IsOrphaned`. -/
def IGES_ENTITY_102.IsOrphaned (e : IGES_ENTITY_102) : Bool :=
  if e.refs.isEmpty ∧ e.depends ≠ IGES_STAT_DEPENDS.STAT_INDEPENDENT then true else false

/-- `IGES_ENTITY_102::AddReference( aParentEntity )`; `parentType` is what
`aParentEntity->GetEntityType()` returns.  A null parent and a parent of type 102 are refused
before the base class is called. -/
def IGES_ENTITY_102.AddReference (e : IGES_ENTITY_102) (aParentEntity : Option Nat)
    (parentType : Int) : Bool × IGES_ENTITY_102 :=
  match aParentEntity with
  | none => (false, e)
  | some q =>
    if parentType = 102 then (false, e)
    else ((baseAddReferencePtr e.refs (some q)).1,
          { e with refs := (baseAddReferencePtr e.refs (some q)).2 })

/-- `IGES_ENTITY_102::DelReference`: the base class call. -/
def IGES_ENTITY_102.DelReference (e : IGES_ENTITY_102) (aParentEntity : Option Nat) :
    Bool × IGES_ENTITY_102 :=
  ((baseDelReference e.refs aParentEntity).1,
   { e with refs := (baseDelReference e.refs aParentEntity).2 })

/-- `IGES_ENTITY_102::Unlink`: true when the base class removed the child; the list of curves
is not looked at, and the call returns false otherwise. -/
def IGES_ENTITY_102.Unlink (e : IGES_ENTITY_102) (aChildEntity : Nat) :
    Bool × IGES_ENTITY_102 :=
  let r := baseUnlink e.pTransform e.extras aChildEntity
  let e := { e with pTransform := r.2.1, extras := r.2.2 }
  if r.1 then (true, e) else (false, e)

/-- `IGES_ENTITY_102::GetNSegments`: the size of `curves`. -/
def IGES_ENTITY_102.GetNSegments (e : IGES_ENTITY_102) : Int :=
  (e.curves.length : Int)

/-- `IGES_ENTITY_102::GetSegment( index )`: `none` is the NULL pointer returned for an index
outside `curves`. -/
def IGES_ENTITY_102.GetSegment (e : IGES_ENTITY_102) (index : Int) : Option Nat :=
  if index < 0 ∨ index ≥ (e.curves.length : Int) then none
  else e.curves[index.toNat]?

/-- A point (116) at `a` as an entry of the entity table. -/
def Examples.point (a : MCAD_POINT) : Node :=
  { entityType := 116, refs := [], BPTR := none, startPoint := a, endPoint := a }

/-- Two points at `(1,0,0)` and the composite curve of the two at position 2. -/
def Examples.twoPoints : Graph :=
  [Examples.point ⟨1, 0, 0⟩, Examples.point ⟨1, 0, 0⟩, Examples.compositeNode]

/-- A composite curve as it is after its parameter data listed the directory indices 0 and 1:
`iCurves` holds them and no member pointer has been set. -/
def Examples.listed (gd : GlobalData) : IGES_ENTITY_102 :=
  { IGES_ENTITY_102.new (some gd) with iCurves := [0, 1] }

/-- A composite curve whose only member is the entity at position 0. -/
def Examples.single (gd : GlobalData) : IGES_ENTITY_102 :=
  { IGES_ENTITY_102.new (some gd) with iCurves := [0], curves := [0] }

/-- A point and the composite curve at position 1. -/
def Examples.onePoint : Graph :=
  [Examples.point ⟨1, 0, 0⟩, Examples.compositeNode]

/-- A transformation matrix (124) as an entry of the entity table. -/
def Examples.matrix : Node :=
  { entityType := 124, refs := [], BPTR := none, startPoint := Examples.origin,
    endPoint := Examples.origin }

/-- A composite curve at position 0, a transformation matrix at position 1 and the composite
curve under test at position 2. -/
def Examples.nestedTable : Graph :=
  [Examples.compositeNode, Examples.matrix, Examples.compositeNode]

/-- A composite curve that lists the directory index 0, where a composite curve is found. -/
def Examples.nested (gd : GlobalData) : IGES_ENTITY_102 :=
  { IGES_ENTITY_102.new (some gd) with iCurves := [0] }

/-- A composite curve whose only member is the entity at position 1, a transformation
matrix. -/
def Examples.withMatrix (gd : GlobalData) : IGES_ENTITY_102 :=
  { IGES_ENTITY_102.new (some gd) with curves := [1] }

/-- Three lines in a row and the composite curve at position 3. -/
def Examples.threeLines : Graph :=
  [Examples.line ⟨0, 0, 0⟩ ⟨1, 0, 0⟩, Examples.line ⟨1, 0, 0⟩ ⟨1, 1, 0⟩,
   Examples.line ⟨1, 1, 0⟩ ⟨0, 1, 0⟩, Examples.compositeNode]

/-- A composite curve whose parameter data listed the directory indices 0 and 2. -/
def Examples.evenListed (gd : GlobalData) : IGES_ENTITY_102 :=
  { IGES_ENTITY_102.new (some gd) with iCurves := [0, 2] }

/-- A composite curve whose parameter data listed the directory indices -1, 0 and 9. -/
def Examples.strayListed (gd : GlobalData) : IGES_ENTITY_102 :=
  { IGES_ENTITY_102.new (some gd) with iCurves := [-1, 0, 9] }

/-! ## The model container and the entities of the cylinder constructor -/

/-- The constant `M_PI` of `<cmath>`, a double. -/
def M_PI : ℚ := 884279719003555 / 281474976710656

/-- `IGES_ENTITY_100::SetDependency`: to be implemented; it stores nothing and returns
false. -/
def IGES_ENTITY_100.SetDependency (e : IGES_ENTITY_100) (_aDependency : IGES_STAT_DEPENDS) :
    Bool × IGES_ENTITY_100 :=
  (false, e)

/-- The fields of a line (110) that the cylinder constructor writes, with the parent
references and the dependency of the base class. -/
structure IGES_ENTITY_110 where
  X1 : ℚ
  Y1 : ℚ
  Z1 : ℚ
  X2 : ℚ
  Y2 : ℚ
  Z2 : ℚ
  refs : List Nat
  depends : IGES_STAT_DEPENDS
deriving DecidableEq

/-- The fields of a surface of revolution (120): `L` is the axis set by `SetAxis`, `C` the
generatrix set by `SetGeneratrix`. -/
structure IGES_ENTITY_120 where
  L : Option Nat
  C : Option Nat
  startAngle : ℚ
  endAngle : ℚ
  refs : List Nat
  depends : IGES_STAT_DEPENDS
deriving DecidableEq

/-- The matrix `MCAD_MATRIX`: `vij` is `v[i][j]`. -/
structure MCAD_MATRIX where
  v00 : ℚ
  v01 : ℚ
  v02 : ℚ
  v10 : ℚ
  v11 : ℚ
  v12 : ℚ
  v20 : ℚ
  v21 : ℚ
  v22 : ℚ
deriving DecidableEq

/-- The transform `MCAD_TRANSFORM`: rotation `R` and translation `T`. -/
structure MCAD_TRANSFORM where
  R : MCAD_MATRIX
  T : MCAD_POINT
deriving DecidableEq

/-- The fields of a transformation matrix (124). -/
structure IGES_ENTITY_124 where
  T : MCAD_TRANSFORM
  form : Int
  refs : List Nat
  depends : IGES_STAT_DEPENDS
deriving DecidableEq

/-- The fields of a curve on a parametric surface (142). -/
structure IGES_ENTITY_142 where
  CRTN : Int
  PREF : Int
  SPTR : Option Nat
  BPTR : Option Nat
  CPTR : Option Nat
  refs : List Nat
  depends : IGES_STAT_DEPENDS
deriving DecidableEq

/-- The fields of a trimmed parametric surface (144). -/
structure IGES_ENTITY_144 where
  N1 : Int
  N2 : Int
  PTS : Option Nat
  PTO : Option Nat
  refs : List Nat
  depends : IGES_STAT_DEPENDS
deriving DecidableEq

/-- The entity types that the cylinder constructor asks the model for. -/
def ENT_CIRCULAR_ARC : Int := 100

/-- Type of a composite curve. -/
def ENT_COMPOSITE_CURVE : Int := 102

/-- Type of a line. -/
def ENT_LINE : Int := 110

/-- Type of a surface of revolution. -/
def ENT_SURFACE_OF_REVOLUTION : Int := 120

/-- Type of a transformation matrix. -/
def ENT_TRANSFORMATION_MATRIX : Int := 124

/-- Type of a NURBS curve. -/
def ENT_NURBS_CURVE : Int := 126

/-- Type of a curve on a parametric surface. -/
def ENT_CURVE_ON_PARAMETRIC_SURFACE : Int := 142

/-- Type of a trimmed parametric surface. -/
def ENT_TRIMMED_PARAMETRIC_SURFACE : Int := 144

/-- An entity owned by a model, by kind. -/
inductive Entity where
  | line (e : IGES_ENTITY_110)
  | revolution (e : IGES_ENTITY_120)
  | transform (e : IGES_ENTITY_124)
  | nurbs (e : IGES_ENTITY_126)
  | arc (e : IGES_ENTITY_100)
  | composite (e : IGES_ENTITY_102)
  | bound (e : IGES_ENTITY_142)
  | trimmed (e : IGES_ENTITY_144)
deriving DecidableEq

/-- `GetEntityType()`. -/
def Entity.entityType : Entity → Int
  | .line _ => 110
  | .revolution _ => 120
  | .transform _ => 124
  | .nurbs e => e.entityType
  | .arc e => e.entityType
  | .composite e => e.entityType
  | .bound _ => 142
  | .trimmed _ => 144

/-- The parent references `refs` of an entity. -/
def Entity.refs : Entity → List Nat
  | .line e => e.refs
  | .revolution e => e.refs
  | .transform e => e.refs
  | .nurbs e => e.refs
  | .arc e => e.refs
  | .composite e => e.refs
  | .bound e => e.refs
  | .trimmed e => e.refs

/-- The entity with `refs` replaced. -/
def Entity.setRefs (r : List Nat) : Entity → Entity
  | .line e => .line { e with refs := r }
  | .revolution e => .revolution { e with refs := r }
  | .transform e => .transform { e with refs := r }
  | .nurbs e => .nurbs { e with refs := r }
  | .arc e => .arc { e with refs := r }
  | .composite e => .composite { e with refs := r }
  | .bound e => .bound { e with refs := r }
  | .trimmed e => .trimmed { e with refs := r }

/-- The dependency flag of an entity. -/
def Entity.depends : Entity → IGES_STAT_DEPENDS
  | .line e => e.depends
  | .revolution e => e.depends
  | .transform e => e.depends
  | .nurbs e => e.depends
  | .arc e => e.depends
  | .composite e => e.depends
  | .bound e => e.depends
  | .trimmed e => e.depends

/-- The pointers from an entity to its children. -/
def Entity.children : Entity → List Nat
  | .line _ => []
  | .revolution e => e.L.toList ++ e.C.toList
  | .transform _ => []
  | .nurbs e => e.extras
  | .arc e => e.pTransform.toList
  | .composite e => e.pTransform.toList ++ e.extras ++ e.curves
  | .bound e => e.SPTR.toList ++ e.BPTR.toList ++ e.CPTR.toList
  | .trimmed e => e.PTS.toList ++ e.PTO.toList

/-- A pointer field after the child `c` has gone: cleared when it pointed to `c`. -/
def clearPtr (p : Option Nat) (c : Nat) : Option Nat :=
  if p = some c then none else p

/-- Modelled from the spec: `Unlink( c )` by kind: the child is removed from the pointers
and lists of children of the entity.  The composite curve runs `IGES_ENTITY_102::Unlink` of
the source, which leaves its list of curves alone; the arc and the NURBS curve run the base
class. -/
def Entity.Unlink (c : Nat) : Entity → Entity
  | .line e => .line e
  | .revolution e => .revolution { e with L := clearPtr e.L c, C := clearPtr e.C c }
  | .transform e => .transform e
  | .nurbs e => .nurbs { e with extras := e.extras.erase c }
  | .arc e => .arc { e with pTransform := clearPtr e.pTransform c }
  | .composite e => .composite (e.Unlink c).2
  | .bound e => .bound
      { e with SPTR := clearPtr e.SPTR c, BPTR := clearPtr e.BPTR c,
               CPTR := clearPtr e.CPTR c }
  | .trimmed e => .trimmed { e with PTS := clearPtr e.PTS c, PTO := clearPtr e.PTO c }

/-- The model container `IGES` as far as the constructor uses it: its global data, the
entities it owns, each under its pointer, and the next pointer the factory hands out. -/
structure Model where
  globalData : GlobalData
  entities : List (Nat × Entity)
  fresh : Nat
deriving DecidableEq

/-- The entity behind a pointer; `none` when the model owns no such entity. -/
def Model.find (m : Model) (p : Nat) : Option Entity :=
  (m.entities.find? (fun x => x.1 == p)).map (fun x => x.2)

/-- The model with the entity behind `p` replaced by its image under `f`. -/
def Model.modify (m : Model) (p : Nat) (f : Entity → Entity) : Model :=
  { m with entities := m.entities.map (fun x => if x.1 = p then (x.1, f x.2) else x) }

/-- The model without the entity behind `p`. -/
def Model.erase (m : Model) (p : Nat) : Model :=
  { m with entities := m.entities.filter (fun x => x.1 != p) }

/-- Modelled from the spec: the entity that the factory `IGES::NewEntity` creates for a type
(not under src/): the constructors of the arc, the composite curve and the NURBS curve are
those of the source; a line, a surface of revolution, a curve on surface and a trimmed surface
start with zero fields and null pointers, a transformation matrix with the identity.  `none`
for a type the constructor never asks for. -/
def Entity.make (gd : GlobalData) (ty : Int) : Option Entity :=
  if ty = ENT_LINE then
    some (.line { X1 := 0, Y1 := 0, Z1 := 0, X2 := 0, Y2 := 0, Z2 := 0, refs := [],
                  depends := IGES_STAT_DEPENDS.STAT_INDEPENDENT })
  else if ty = ENT_SURFACE_OF_REVOLUTION then
    some (.revolution { L := none, C := none, startAngle := 0, endAngle := 0, refs := [],
                        depends := IGES_STAT_DEPENDS.STAT_INDEPENDENT })
  else if ty = ENT_TRANSFORMATION_MATRIX then
    some (.transform { T := { R := { v00 := 1, v01 := 0, v02 := 0, v10 := 0, v11 := 1,
                                     v12 := 0, v20 := 0, v21 := 0, v22 := 1 },
                              T := ⟨0, 0, 0⟩ },
                       form := 0, refs := [],
                       depends := IGES_STAT_DEPENDS.STAT_INDEPENDENT })
  else if ty = ENT_NURBS_CURVE then some (.nurbs (IGES_ENTITY_126.new (some gd)))
  else if ty = ENT_CIRCULAR_ARC then some (.arc IGES_ENTITY_100.new)
  else if ty = ENT_COMPOSITE_CURVE then some (.composite (IGES_ENTITY_102.new (some gd)))
  else if ty = ENT_CURVE_ON_PARAMETRIC_SURFACE then
    some (.bound { CRTN := 0, PREF := 0, SPTR := none, BPTR := none, CPTR := none, refs := [],
                   depends := IGES_STAT_DEPENDS.STAT_INDEPENDENT })
  else if ty = ENT_TRIMMED_PARAMETRIC_SURFACE then
    some (.trimmed { N1 := 0, N2 := 0, PTS := none, PTO := none, refs := [],
                     depends := IGES_STAT_DEPENDS.STAT_INDEPENDENT })
  else none

/-- Modelled from the spec: a successful `IGES::NewEntity( type, &ep )` (not under src/): the
model owns one more entity, of the type asked for, and `ep` is its pointer.  `none` for a type
the factory of this model does not make. -/
def Model.NewEntity (m : Model) (ty : Int) : Option (Nat × Model) :=
  match Entity.make m.globalData ty with
  | none => none
  | some e =>
    some (m.fresh, { m with entities := m.entities ++ [(m.fresh, e)], fresh := m.fresh + 1 })

/-- The cascade of `DelEntity`, bounded by `fuel`: the parents of the entity unlink it, the
entity leaves the model, each child loses the reference to it and, left without parents and
not independent, is deleted in turn. -/
def Model.DelEntityAux : Nat → Model → Nat → Model
  | 0, m, _ => m
  | fuel + 1, m, p =>
    match m.find p with
    | none => m
    | some e =>
      let m1 := e.refs.foldl (fun acc q => acc.modify q (Entity.Unlink p)) m
      let m2 := m1.erase p
      e.children.foldl (fun acc c =>
        let acc1 := acc.modify c (fun ce => ce.setRefs (ce.refs.erase p))
        match acc1.find c with
        | none => acc1
        | some ce =>
          if ce.refs.isEmpty ∧ ce.depends ≠ IGES_STAT_DEPENDS.STAT_INDEPENDENT
          then Model.DelEntityAux fuel acc1 c else acc1) m2

/-- Modelled from the spec: `IGES::DelEntity( ptr )` (not under src/): false when the model
does not own the entity; otherwise the entity is removed, after its parents unlinked it, and
the removal cascades to the children whose last parent reference it was and whose dependency
is not independent.  Every deletion removes an entity, so the number of entities bounds the
depth of the cascade. -/
def Model.DelEntity (m : Model) (p : Nat) : Bool × Model :=
  ((m.find p).isSome, Model.DelEntityAux m.entities.length m p)

/-- Modelled from the spec: `SetDependency` by kind: the arc runs the stub of
`IGES_ENTITY_100`, which stores nothing; the other kinds store the flag. -/
def Entity.SetDependency (d : IGES_STAT_DEPENDS) : Entity → Entity
  | .line e => .line { e with depends := d }
  | .revolution e => .revolution { e with depends := d }
  | .transform e => .transform { e with depends := d }
  | .nurbs e => .nurbs { e with depends := d }
  | .arc e => .arc (e.SetDependency d).2
  | .composite e => .composite { e with depends := d }
  | .bound e => .bound { e with depends := d }
  | .trimmed e => .trimmed { e with depends := d }

/-- Modelled from the spec: a setter of a child pointer that succeeded (`SetAxis`,
`SetGeneratrix`, `SetTransform`, `AddSegment`, `SetSPTR`, `SetBPTR`, `SetCPTR`, `SetPTS`,
`SetPTO`; none under src/): the field `set` of the parent now holds the child, and the child
has the parent among its `refs`.  `none` when a pointer is NULL or of another kind. -/
def Model.link (m : Model) (parent child : Option Nat) (set : Nat → Entity → Option Entity) :
    Option Model :=
  match parent, child with
  | some p, some c =>
    match m.find p, m.find c with
    | some e, some _ =>
      match set c e with
      | none => none
      | some e1 =>
        some ((m.modify p (fun _ => e1)).modify c
          (fun ce => ce.setRefs (baseAddReference ce.refs p).2))
    | _, _ => none
  | _, _ => none

/-- A write through an entity pointer: `none` when the pointer is NULL, the model does not own
the entity, or the entity is of another kind. -/
def Model.write (m : Model) (p : Option Nat) (f : Entity → Option Entity) : Option Model :=
  match p with
  | none => none
  | some q =>
    match m.find q with
    | none => none
    | some e =>
      match f e with
      | none => none
      | some e1 => some (m.modify q (fun _ => e1))

/-! ## The cylinder constructor -/

/-- State of `IGES_GEOM_CYLINDER`: `angles` is the array of 6 doubles, `arcs` the array of 5
points. -/
structure IGES_GEOM_CYLINDER where
  narcs : Int
  radius : ℚ
  angles : List ℚ
  arcs : List MCAD_POINT
deriving DecidableEq

/-- Outcomes of the calls that `Instantiate` makes on code that is not under src/.
`NewEntity ty i` tells whether the request number `i` of the loop that creates the entities of
type `ty` succeeds; `s1602 p0 p1 order dim startpar` is the curve and the status that SISL
returns; `AddSegment k j` tells whether call number `j` of `icc[k]->AddSegment` succeeds, and
`SetTransform i`, `SetSPTR i`, `SetBPTR i`, `SetCPTR i`, `SetPTS i`, `SetPTO i` whether the call
on `iarc[i]`, `ibound[i]`, `itps[i]` does. -/
structure CylinderCalls where
  NewEntity : Int → Nat → Bool
  s1602 : List ℚ → List ℚ → Int → Int → ℚ → Option SISLCurve × Int
  SetAxis : Bool
  SetGeneratrix : Bool
  SetTransform : Nat → Bool
  AddSegment : Nat → Nat → Bool
  SetSPTR : Nat → Bool
  SetBPTR : Nat → Bool
  SetCPTR : Nat → Bool
  SetPTS : Nat → Bool
  SetPTO : Nat → Bool

/-- The local variables of `Instantiate` together with the model: each pointer array holds the
pointers stored so far, the entries behind them being NULL. -/
structure Build where
  model : Model
  iline : List Nat
  isurf : Option Nat
  icurve : List Nat
  iarc : List Nat
  icc : List Nat
  ibound : List Nat
  itps : List Nat
  itrans : List Nat
  inurbs : List (Option SISLCurve)

/-- The macro `CLEANUP`: `DelEntity` on every pointer of `iline`, `icurve`, `iarc`, `icc`,
`ibound`, `itps` and `itrans`, in this order.  The macro does not name `isurf`.  The SISL
curves it frees are not part of the model. -/
def CLEANUP (b : Build) : Model :=
  (b.iline ++ b.icurve ++ b.iarc ++ b.icc ++ b.ibound ++ b.itps ++ b.itrans).foldl
    (fun m p => (m.DelEntity p).2) b.model

/-- Sequencing of two steps of `Instantiate`: the second runs when the first succeeded. -/
def Build.andThen (r : Option (Bool × Build)) (f : Build → Option (Bool × Build)) :
    Option (Bool × Build) :=
  match r with
  | none => none
  | some (false, b) => some (false, b)
  | some (true, b) => f b

/-- A loop `for( int i = ...; i < ...; ++i )` whose body may leave the function: `k` rounds
are left and `i` is the loop variable. -/
def forEach (body : Nat → Build → Option (Bool × Build)) : Nat → Nat → Build →
    Option (Bool × Build)
  | 0, _, b => some (true, b)
  | k + 1, i, b =>
    match body i b with
    | none => none
    | some (false, b1) => some (false, b1)
    | some (true, b1) => forEach body k (i + 1) b1

/-- One round of a loop that creates entities: `NewEntity`, the pointer stored in slot `i` of
an array of `cap` pointers, and the first settings `init` of the entity.  The factory returns
an entity of the type asked for, so the `dynamic_cast` succeeds.  `none` is a write behind the
array. -/
def newOne (F : CylinderCalls) (ty : Int) (cap : Nat) (init : Entity → Entity)
    (store : Build → Nat → Build) (i : Nat) (b : Build) : Option (Bool × Build) :=
  if !F.NewEntity ty i then some (false, b) else
  match b.model.NewEntity ty with
  | none => some (false, b)
  | some (p, m) =>
    if cap ≤ i then none
    else some (true, store { b with model := m.modify p init } p)

/-- The settings of a new transformation matrix: `T.T.x = arcs[0].x`, `T.T.z = 2.0 * bot`,
`T.R.v[0][0] = -1.0`, `T.R.v[2][2] = -1.0` and `SetEntityForm( 1 )`. -/
def initTransform (x bot : ℚ) : Entity → Entity
  | .transform e =>
    .transform { e with T := { R := { e.T.R with v00 := -1, v22 := -1 },
                               T := { e.T.T with x := x, z := 2 * bot } },
                        form := 1 }
  | e => e

/-- The part of `Instantiate` that creates the entities. -/
def IGES_GEOM_CYLINDER.newEntities (F : CylinderCalls) (c : IGES_GEOM_CYLINDER) (bot : ℚ)
    (b : Build) : Option (Bool × Build) :=
  Build.andThen (forEach (newOne F ENT_LINE 8
      (Entity.SetDependency IGES_STAT_DEPENDS.STAT_DEP_PHY)
      (fun b p => { b with iline := b.iline ++ [p] })) (c.narcs * 2 + 2).toNat 0 b) fun b =>
  Build.andThen (newOne F ENT_SURFACE_OF_REVOLUTION 1
      (Entity.SetDependency IGES_STAT_DEPENDS.STAT_DEP_PHY)
      (fun b p => { b with isurf := some p }) 0 b) fun b =>
  Build.andThen (forEach (fun i b =>
      match c.arcs[0]? with
      | none => if F.NewEntity ENT_TRANSFORMATION_MATRIX i then none else some (false, b)
      | some a0 => newOne F ENT_TRANSFORMATION_MATRIX 3 (initTransform a0.x bot)
          (fun b p => { b with itrans := b.itrans ++ [p] }) i b) c.narcs.toNat 0 b) fun b =>
  Build.andThen (forEach (newOne F ENT_NURBS_CURVE 12
      (Entity.SetDependency IGES_STAT_DEPENDS.STAT_DEP_PHY)
      (fun b p => { b with icurve := b.icurve ++ [p] })) (c.narcs * 4).toNat 0 b) fun b =>
  Build.andThen (forEach (newOne F ENT_CIRCULAR_ARC 6
      (Entity.SetDependency IGES_STAT_DEPENDS.STAT_DEP_PHY)
      (fun b p => { b with iarc := b.iarc ++ [p] })) (c.narcs * 2).toNat 0 b) fun b =>
  Build.andThen (forEach (newOne F ENT_COMPOSITE_CURVE 6
      (Entity.SetDependency IGES_STAT_DEPENDS.STAT_DEP_PHY)
      (fun b p => { b with icc := b.icc ++ [p] })) (c.narcs * 2).toNat 0 b) fun b =>
  Build.andThen (forEach (newOne F ENT_CURVE_ON_PARAMETRIC_SURFACE 3
      (Entity.SetDependency IGES_STAT_DEPENDS.STAT_DEP_PHY)
      (fun b p => { b with ibound := b.ibound ++ [p] })) c.narcs.toNat 0 b) fun b =>
  forEach (newOne F ENT_TRIMMED_PARAMETRIC_SURFACE 3 (fun e => e)
      (fun b p => { b with itps := b.itps ++ [p] })) c.narcs.toNat 0 b

/-- The six coordinates of a line written through its pointer. -/
def setLine (x1 y1 z1 x2 y2 z2 : ℚ) : Entity → Option Entity
  | .line e => some (.line { e with X1 := x1, Y1 := y1, Z1 := z1, X2 := x2, Y2 := y2, Z2 := z2 })
  | _ => none

/-- The seven parameters of an arc written through its pointer. -/
def setArc (zOffset xCenter yCenter xStart yStart xEnd yEnd : ℚ) : Entity → Option Entity
  | .arc e => some (.arc { e with zOffset := zOffset, xCenter := xCenter, yCenter := yCenter,
                                  xStart := xStart, yStart := yStart, xEnd := xEnd,
                                  yEnd := yEnd })
  | _ => none

/-- The field that `SetAxis` sets. -/
def setL (c : Nat) : Entity → Option Entity
  | .revolution e => some (.revolution { e with L := some c })
  | _ => none

/-- The field that `SetGeneratrix` sets. -/
def setC (c : Nat) : Entity → Option Entity
  | .revolution e => some (.revolution { e with C := some c })
  | _ => none

/-- The field that `SetTransform` sets on an arc. -/
def setTransform (c : Nat) : Entity → Option Entity
  | .arc e => some (.arc { e with pTransform := some c })
  | _ => none

/-- Modelled from the spec: the list that `IGES_ENTITY_102::AddSegment` extends (the method is
not under src/): the segment becomes the last member of the composite curve. -/
def pushCurve (c : Nat) : Entity → Option Entity
  | .composite e => some (.composite { e with curves := e.curves ++ [c] })
  | _ => none

/-- The field that `SetSPTR` sets. -/
def setSPTR (c : Nat) : Entity → Option Entity
  | .bound e => some (.bound { e with SPTR := some c })
  | _ => none

/-- The field that `SetBPTR` sets. -/
def setBPTR (c : Nat) : Entity → Option Entity
  | .bound e => some (.bound { e with BPTR := some c })
  | _ => none

/-- The field that `SetCPTR` sets. -/
def setCPTR (c : Nat) : Entity → Option Entity
  | .bound e => some (.bound { e with CPTR := some c })
  | _ => none

/-- The field that `SetPTS` sets. -/
def setPTS (c : Nat) : Entity → Option Entity
  | .trimmed e => some (.trimmed { e with PTS := some c })
  | _ => none

/-- The field that `SetPTO` sets. -/
def setPTO (c : Nat) : Entity → Option Entity
  | .trimmed e => some (.trimmed { e with PTO := some c })
  | _ => none

/-- The axis of revolution `iline[0]`, the generatrix `iline[1]`, and the calls `SetAxis` and
`SetGeneratrix` on the surface. -/
def IGES_GEOM_CYLINDER.setAxis (F : CylinderCalls) (c : IGES_GEOM_CYLINDER) (top bot : ℚ)
    (b : Build) : Option (Bool × Build) := do
  let a0 ← c.arcs[0]?
  let m ← b.model.write b.iline[0]? (setLine a0.x a0.y bot a0.x a0.y top)
  let m ← m.write b.iline[1]?
    (setLine (a0.x + c.radius) a0.y top (a0.x + c.radius) a0.y bot)
  let _ ← b.isurf
  if !F.SetAxis then return (false, { b with model := m })
  let m ← m.link b.isurf b.iline[0]? setL
  if !F.SetGeneratrix then return (false, { b with model := m })
  let m ← m.link b.isurf b.iline[1]? setC
  return (true, { b with model := m })

/-- The top arc `iarc[2 * i]` and the bottom arc `iarc[2 * i + 1]` of part `i`, from the point
`s` to the point `e` about the centre `a0`; the bottom arc takes the transform `itrans[i]`. -/
def setArcPair (F : CylinderCalls) (b : Build) (i : Nat) (a0 s e : MCAD_POINT) (top bot : ℚ)
    (m : Model) : Option Model := do
  let m ← m.write b.iarc[2 * i]? (setArc top a0.x a0.y s.x s.y e.x e.y)
  let m ← m.write b.iarc[2 * i + 1]? (setArc bot 0 a0.y (a0.x - e.x) e.y (a0.x - s.x) s.y)
  if F.SetTransform (2 * i + 1) then m.link b.iarc[2 * i + 1]? b.itrans[i]? setTransform
  else some m

/-- The angles of the surface, the lines `iline[2]` .. `iline[7]` and the arcs of the geometric
bounds. -/
def IGES_GEOM_CYLINDER.setGeometry (F : CylinderCalls) (c : IGES_GEOM_CYLINDER) (top bot : ℚ)
    (b : Build) : Option (Bool × Build) := do
  let m ← b.model.write b.isurf (fun e => match e with
    | .revolution s => some (.revolution { s with startAngle := 0, endAngle := 2 * M_PI })
    | _ => none)
  let a0 ← c.arcs[0]?
  let a1 ← c.arcs[1]?
  let a2 ← c.arcs[2]?
  let m ← m.write b.iline[2]? (setLine a2.x a2.y top a2.x a2.y bot)
  let m ← m.write b.iline[3]? (setLine a1.x a1.y bot a1.x a1.y top)
  let m ← if c.narcs > 1 then do
      let a3 ← c.arcs[3]?
      let m ← m.write b.iline[4]? (setLine a3.x a3.y top a3.x a3.y bot)
      m.write b.iline[5]? (setLine a2.x a2.y bot a2.x a2.y top)
    else some m
  let m ← if c.narcs > 2 then do
      let a3 ← c.arcs[3]?
      let a4 ← c.arcs[4]?
      let m ← m.write b.iline[6]? (setLine a4.x a4.y top a4.x a4.y bot)
      m.write b.iline[7]? (setLine a3.x a3.y bot a3.x a3.y top)
    else some m
  let m ← setArcPair F b 0 a0 a1 a2 top bot m
  let m ← if c.narcs > 1 then do
      let a3 ← c.arcs[3]?
      setArcPair F b 1 a0 a2 a3 top bot m
    else some m
  let m ← if c.narcs > 2 then do
      let a3 ← c.arcs[3]?
      let a4 ← c.arcs[4]?
      setArcPair F b 2 a0 a3 a4 top bot m
    else some m
  return (true, { b with model := m })

/-- A chain `!cc->AddSegment( s0 ) || !cc->AddSegment( s1 ) || ...` on the composite curve
`icc[k]`: the calls run in order until one fails; `j` numbers the call. -/
def addSegments (F : CylinderCalls) (k : Nat) (cc : Option Nat) :
    List (Option Nat) → Nat → Model → Option (Bool × Model)
  | [], _, m => some (true, m)
  | s :: rest, j, m =>
    match cc with
    | none => none
    | some _ =>
      if !F.AddSegment k j then some (false, m) else
      match m.link cc s pushCurve with
      | none => none
      | some m1 => addSegments F k cc rest (j + 1) m1

/-- The composite curves of the geometric bounds: `icc[narcs + i]` takes the top arc, the line
down, the bottom arc and the line up of part `i`. -/
def IGES_GEOM_CYLINDER.geometricBounds (F : CylinderCalls) (c : IGES_GEOM_CYLINDER)
    (b : Build) : Option (Bool × Build) :=
  let n := c.narcs.toNat
  let step (i : Nat) (b : Build) : Option (Bool × Build) :=
    match addSegments F (n + i) b.icc[n + i]?
        [b.iarc[2 * i]?, b.iline[2 * i + 2]?, b.iarc[2 * i + 1]?, b.iline[2 * i + 3]?] 0
        b.model with
    | none => none
    | some (ok, m) => some (ok, { b with model := m })
  Build.andThen (step 0 b) fun b =>
  Build.andThen (if c.narcs > 1 then step 1 b else some (true, b)) fun b =>
  if c.narcs > 2 then step 2 b else some (true, b)

/-- The static function `makeNurb( p0, p1, pCurve )`: the linear curve from `p0` to `p1` that
`s1602` makes, of order 2 in 3 dimensions, starting at parameter 0; status 0 and status 1
succeed.  The result is the returned `bool` and `*pCurve`. -/
def makeNurb (F : CylinderCalls) (p0 p1 : List ℚ) : Bool × Option SISLCurve :=
  let r := F.s1602 p0 p1 2 3 0
  if r.2 = 0 then (true, r.1)
  else if r.2 = 1 then (true, r.1)
  else (false, r.1)

/-- A chain of `makeNurb` calls that fill consecutive entries of `inurbs`; the first failure
leaves the function. -/
def makeNurbs (F : CylinderCalls) : List (List ℚ × List ℚ) → Build → Bool × Build
  | [], b => (true, b)
  | (p0, p1) :: rest, b =>
    let r := makeNurb F p0 p1
    let b1 := { b with inurbs := b.inurbs ++ [r.2] }
    if r.1 then makeNurbs F rest b1 else (false, b1)

/-- The loop that makes the NURBS bounds of part `i`, the rectangle `(0, s)`, `(0, e)`,
`(1, e)`, `(1, s)` with `s = angles[2 * i]` and `e = angles[2 * i + 1]`. -/
def IGES_GEOM_CYLINDER.nurbsBounds (F : CylinderCalls) (c : IGES_GEOM_CYLINDER) (i : Nat)
    (b : Build) : Option (Bool × Build) := do
  let s ← c.angles[i * 2]?
  let e ← c.angles[i * 2 + 1]?
  if 12 ≤ i * 4 + 3 then none
  return makeNurbs F
    [([0, s, 0], [0, e, 0]), ([0, e, 0], [1, e, 0]), ([1, e, 0], [1, s, 0]),
     ([1, s, 0], [0, s, 0])] b

/-- The loop that hands the data of `inurbs[i]` to `icurve[i]` with `SetNURBSData`. -/
def IGES_GEOM_CYLINDER.transferNurbs (X : Library) (i : Nat) (b : Build) :
    Option (Bool × Build) := do
  let p ← b.icurve[i]?
  let cur ← (b.inurbs[i]?).join
  match b.model.find p with
  | some (.nurbs e) =>
    match e.SetNURBSData X cur.n cur.order (some cur.knots) (some cur.coeffs) false with
    | none => none
    | some (ok, e1) => some (ok, { b with model := b.model.modify p (fun _ => .nurbs e1) })
  | _ => none

/-- The loop that fills the composite curve `icc[i]` of the NURBS bound of part `i` with
`icurve[4 * i]` .. `icurve[4 * i + 3]`. -/
def IGES_GEOM_CYLINDER.nurbsComposite (F : CylinderCalls) (i : Nat) (b : Build) :
    Option (Bool × Build) :=
  match addSegments F i b.icc[i]?
      [b.icurve[i * 4]?, b.icurve[i * 4 + 1]?, b.icurve[i * 4 + 2]?, b.icurve[i * 4 + 3]?] 0
      b.model with
  | none => none
  | some (ok, m) => some (ok, { b with model := m })

/-- One call of a setter of a child pointer in a chain `!a || !b || ...`: `ok` is the outcome
of the call; a failed call changes nothing. -/
def setChild (ok : Bool) (parent child : Option Nat) (set : Nat → Entity → Option Entity)
    (m : Model) : Option (Bool × Model) :=
  match parent with
  | none => none
  | some _ =>
    if !ok then some (false, m) else
    match m.link parent child set with
    | none => none
    | some m1 => some (true, m1)

/-- Sequencing of two calls of a chain `!a || !b`. -/
def andAlso (r : Option (Bool × Model)) (f : Model → Option (Bool × Model)) :
    Option (Bool × Model) :=
  match r with
  | none => none
  | some (false, m) => some (false, m)
  | some (true, m) => f m

/-- The loop over the curves on surface: `CRTN = 1`, `PREF = 1`, the surface as `SPTR`, the
NURBS bound `icc[i]` as `BPTR` and the geometric bound `icc[i + narcs]` as `CPTR`. -/
def IGES_GEOM_CYLINDER.setBound (F : CylinderCalls) (c : IGES_GEOM_CYLINDER) (i : Nat)
    (b : Build) : Option (Bool × Build) :=
  match b.model.write b.ibound[i]? (fun e => match e with
      | .bound s => some (.bound { s with CRTN := 1, PREF := 1 })
      | _ => none) with
  | none => none
  | some m =>
    match andAlso (setChild (F.SetSPTR i) b.ibound[i]? b.isurf setSPTR m) fun m =>
          andAlso (setChild (F.SetBPTR i) b.ibound[i]? b.icc[i]? setBPTR m) fun m =>
          setChild (F.SetCPTR i) b.ibound[i]? b.icc[i + c.narcs.toNat]? setCPTR m with
    | none => none
    | some (ok, m1) => some (ok, { b with model := m1 })

/-- The loop over the trimmed surfaces: `N1 = 1`, `N2 = 0`, the surface as `PTS` and the curve
on surface `ibound[i]` as `PTO`. -/
def IGES_GEOM_CYLINDER.setTrimmed (F : CylinderCalls) (i : Nat) (b : Build) :
    Option (Bool × Build) :=
  match b.model.write b.itps[i]? (fun e => match e with
      | .trimmed s => some (.trimmed { s with N1 := 1, N2 := 0 })
      | _ => none) with
  | none => none
  | some m =>
    match andAlso (setChild (F.SetPTS i) b.itps[i]? b.isurf setPTS m) fun m =>
          setChild (F.SetPTO i) b.itps[i]? b.ibound[i]? setPTO m with
    | none => none
    | some (ok, m1) => some (ok, { b with model := m1 })

/-- The body of `Instantiate` from the creation of the entities to the last point where it can
fail, `top` and `bot` being in order.  The result is `false` with the state at the point of
failure, or `true` with the final state. -/
def IGES_GEOM_CYLINDER.build (F : CylinderCalls) (X : Library) (c : IGES_GEOM_CYLINDER)
    (top bot : ℚ) (b : Build) : Option (Bool × Build) :=
  Build.andThen (c.newEntities F bot b) fun b =>
  Build.andThen (c.setAxis F top bot b) fun b =>
  Build.andThen (c.setGeometry F top bot b) fun b =>
  Build.andThen (c.geometricBounds F b) fun b =>
  Build.andThen (forEach (c.nurbsBounds F) c.narcs.toNat 0 b) fun b =>
  Build.andThen (forEach (IGES_GEOM_CYLINDER.transferNurbs X) (c.narcs * 4).toNat 0 b) fun b =>
  Build.andThen (forEach (IGES_GEOM_CYLINDER.nurbsComposite F) c.narcs.toNat 0 b) fun b =>
  Build.andThen (forEach (c.setBound F) c.narcs.toNat 0 b) fun b =>
  forEach (IGES_GEOM_CYLINDER.setTrimmed F) c.narcs.toNat 0 b

/-- `IGES_GEOM_CYLINDER::Instantiate( model, top, bot, result )`.  The result is the returned
`bool`, the model and the vector `result` after the call; every failure after the first checks
runs `CLEANUP`, and the pointers `itps[i]` are pushed onto `result` after the last point of
failure.  `none` is an access through a NULL pointer or outside an array. -/
def IGES_GEOM_CYLINDER.Instantiate (F : CylinderCalls) (X : Library) (c : IGES_GEOM_CYLINDER)
    (model : Option Model) (top bot : ℚ) (result : List Nat) :
    Option (Bool × Option Model × List Nat) :=
  if c.narcs = 0 then some (false, model, result) else
  match model with
  | none => some (false, none, result)
  | some m =>
    if |top - bot| < 1 / 1000 then some (false, some m, result) else
    let hi := if top < bot then bot else top
    let lo := if top < bot then top else bot
    match c.build F X hi lo
        { model := m, iline := [], isurf := none, icurve := [], iarc := [], icc := [],
          ibound := [], itps := [], itrans := [], inurbs := [] } with
    | none => none
    | some (false, b) => some (false, some (CLEANUP b), result)
    | some (true, b) => some (true, some b.model, result ++ b.itps.take c.narcs.toNat)

/-- The cylinder state that `SetParams` leaves for the full circle of the fourth scenario,
centre `(0,0,0)` and start = end = `(10,0,0)`: two arcs of radius 10, from 0 to `M_PI` and from
`M_PI` to `2 * M_PI`. -/
def Examples.fullCircle : IGES_GEOM_CYLINDER :=
  { narcs := 2, radius := 10,
    angles := [0, M_PI, M_PI, 2 * M_PI, 0, 0],
    arcs := [⟨0, 0, 0⟩, ⟨10, 0, 0⟩, ⟨-10, 0, 0⟩, ⟨10, 0, 0⟩, ⟨0, 0, 0⟩] }

/-- A model that owns no entity yet. -/
def Examples.emptyModel : Model :=
  { globalData := Examples.globals, entities := [], fresh := 0 }

/-- Calls that all succeed, except that the factory has no transformation matrix (124) to
give when `matrices` is false; `s1602` returns the linear curve through the two points. -/
def Examples.calls (matrices : Bool) : CylinderCalls :=
  { NewEntity := fun ty _ => if ty = ENT_TRANSFORMATION_MATRIX then matrices else true,
    s1602 := fun p0 p1 order _ startpar =>
      (some { n := 2, order := order, knots := [startpar, startpar, 1, 1],
              coeffs := p0 ++ p1, kind := 1 }, 0),
    SetAxis := true, SetGeneratrix := true, SetTransform := fun _ => true,
    AddSegment := fun _ _ => true, SetSPTR := fun _ => true, SetBPTR := fun _ => true,
    SetCPTR := fun _ => true, SetPTS := fun _ => true, SetPTO := fun _ => true }

/-! ## Directory entry, parameter data and forms -/

/-- `IGES_ENTITY_100::ReadPD`.  `baseOk` is the result of `IGES_ENTITY::ReadPD` and `pdout` the
record it leaves, field by field from the start of the record, the entity-type field
included: the reads start at `idx = 0`.  The seven reals go to `zOffset`, `xCenter`,
`yCenter`, `xStart`, `yStart`, `xEnd`, `yEnd`, and the record delimiter has to follow the last
one. -/
def IGES_ENTITY_100.ReadPD (e : IGES_ENTITY_100) (baseOk : Bool) (pdout : List Field) :
    Bool × IGES_ENTITY_100 :=
  if !baseOk then (false, e) else
  match ParseReal pdout with
  | none => (false, e)
  | some (v, fs) =>
    let e := { e with zOffset := v }
    match ParseReal fs with
    | none => (false, e)
    | some (v, fs) =>
      let e := { e with xCenter := v }
      match ParseReal fs with
      | none => (false, e)
      | some (v, fs) =>
        let e := { e with yCenter := v }
        match ParseReal fs with
        | none => (false, e)
        | some (v, fs) =>
          let e := { e with xStart := v }
          match ParseReal fs with
          | none => (false, e)
          | some (v, fs) =>
            let e := { e with yStart := v }
            match ParseReal fs with
            | none => (false, e)
            | some (v, fs) =>
              let e := { e with xEnd := v }
              match ParseReal fs with
              | none => (false, e)
              | some (v, fs) =>
                let e := { e with yEnd := v }
                if !eor fs then (false, e) else (true, e)

/-- The record `100,0.0,0.0,0.0,1.0,0.0,-1.0,0.0;` of the first scenario, field by field from
the start of the record. -/
def Examples.arcRecord : List Field :=
  [Field.ofInt 100, Field.ofReal 0, Field.ofReal 0, Field.ofReal 0, Field.ofReal 1,
   Field.ofReal 0, Field.ofReal (-1), Field.ofReal 0]

/-- `IGES_ENTITY_100::SetEntityForm`: true for form 0 alone; nothing is stored. -/
def IGES_ENTITY_100.SetEntityForm (e : IGES_ENTITY_100) (aForm : Int) :
    Bool × IGES_ENTITY_100 :=
  if aForm = 0 then (true, e) else (false, e)

/-- `IGES_ENTITY_102::SetEntityForm`: true for form 0 alone; nothing is stored. -/
def IGES_ENTITY_102.SetEntityForm (e : IGES_ENTITY_102) (aForm : Int) :
    Bool × IGES_ENTITY_102 :=
  if aForm = 0 then (true, e) else (false, e)

/-- `IGES_ENTITY_126::SetEntityForm`: the forms 0 .. 5 are stored, the others refused. -/
def IGES_ENTITY_126.SetEntityForm (e : IGES_ENTITY_126) (aForm : Int) :
    Bool × IGES_ENTITY_126 :=
  if aForm ≠ 0 ∧ aForm ≠ 1 ∧ aForm ≠ 2 ∧ aForm ≠ 3 ∧ aForm ≠ 4 ∧ aForm ≠ 5 then (false, e)
  else (true, { e with form := aForm })

/-- `IGES_ENTITY_126::SetHierarchy`: the hierarchy is ignored and the call returns true. -/
def IGES_ENTITY_126.SetHierarchy (e : IGES_ENTITY_126) (_aHierarchy : IGES_STAT_HIER) :
    Bool × IGES_ENTITY_126 :=
  (true, e)

/-- `IGES_ENTITY_100::ReadDE`.  `base` is what `IGES_ENTITY::ReadDE` (not under src/) returns
and the entity as it leaves it, the fields of the directory entry stored. -/
def IGES_ENTITY_100.ReadDE (base : Bool × IGES_ENTITY_100) : Bool × IGES_ENTITY_100 :=
  if !base.1 then (false, base.2) else
  let e := { base.2 with structure_ := 0, hierarchy := IGES_STAT_HIER.STAT_HIER_ALL_SUB }
  if e.form ≠ 0 then (false, e) else (true, e)

/-- `IGES_ENTITY_102::ReadDE`; `base` as for the arc. -/
def IGES_ENTITY_102.ReadDE (base : Bool × IGES_ENTITY_102) : Bool × IGES_ENTITY_102 :=
  if !base.1 then (false, base.2) else
  let e := { base.2 with structure_ := 0 }
  if e.form ≠ 0 then (false, e) else (true, e)

/-- `IGES_ENTITY_126::ReadDE`; `base` as for the arc. -/
def IGES_ENTITY_126.ReadDE (base : Bool × IGES_ENTITY_126) : Bool × IGES_ENTITY_126 :=
  if !base.1 then (false, base.2) else
  let e := { base.2 with structure_ := 0, hierarchy := IGES_STAT_HIER.STAT_HIER_ALL_SUB }
  if e.form ≠ 0 ∧ e.form ≠ 1 ∧ e.form ≠ 2 ∧ e.form ≠ 3 ∧ e.form ≠ 4 ∧ e.form ≠ 5
  then (false, e) else (true, e)

/-- The variables of the caller that `GetNURBSData` writes to: `knot` and `coeff` are the
arrays that `*knot` and `*coeff` point to, `none` for NULL. -/
structure NURBSData where
  nCoeff : Int
  order : Int
  knot : Option (List ℚ)
  coeff : Option (List ℚ)
  isRational : Bool
  isClosed : Bool
  isPeriodic : Bool
deriving DecidableEq

/-- `IGES_ENTITY_126::GetNURBSData`, `out` being the variables of the caller before the call.
The statements `knot = NULL; coeff = NULL;` assign the parameters themselves, so the later
`*knot = knots` writes through a NULL pointer: `none`. -/
def IGES_ENTITY_126.GetNURBSData (e : IGES_ENTITY_126) (out : NURBSData) :
    Option (Bool × NURBSData) :=
  let out := { out with nCoeff := 0, order := 0 }
  let knot : Option Unit := none
  let coeff : Option Unit := none
  match e.knots with
  | none => some (false, out)
  | some _ =>
    match knot, coeff with
    | some _, some _ =>
      some (true, { out with knot := e.knots, coeff := e.coeffs, nCoeff := e.nCoeffs,
                             order := e.M + 1,
                             isClosed := if e.PROP2 ≠ 0 then true else false,
                             isRational := if e.PROP3 ≠ 0 then false else true,
                             isPeriodic := if e.PROP4 ≠ 0 then true else false })
    | _, _ => none

/-- `IGES_ENTITY_126::Interpolate( pt, nSeg, var, xform )`.  `transform` is the action of the
matrix of `pTransform` on a point, `none` for a NULL `pTransform`.  The result is the returned
`bool`, `pt` and the entity; `none` is a read outside `knots`.  The parameter computed into
`var` is not the one handed to `s1225`, which gets `V1`; the status of `s1225` does not change
the result. -/
def IGES_ENTITY_126.Interpolate (X : Library) (e : IGES_ENTITY_126)
    (transform : Option (MCAD_POINT → MCAD_POINT)) (nSeg : Int) (var : ℚ) (xform : Bool) :
    Option (Bool × MCAD_POINT × IGES_ENTITY_126) :=
  let pt : MCAD_POINT := ⟨0, 0, 0⟩
  if e.nCoeffs < 2 then some (false, pt, e) else
  if !e.scurve && !X.newCurve e.curve then some (false, pt, e) else
  let e := { e with scurve := true }
  if var < 0 ∨ var > 1 then some (false, pt, e) else
  if nSeg < 0 ∨ nSeg ≥ e.nCoeffs then some (false, pt, e) else
  let idx0 : Int := (e.nKnots - e.nCoeffs) / 2
  if idx0 + nSeg < 0 then none else
  match e.knots with
  | none => none
  | some knots =>
    match load knots (idx0 + nSeg).toNat, load knots (idx0 + nSeg + 1).toNat with
    | some k0, some k1 =>
      let _var : ℚ := (1 - var) * k0 + var * k1
      let r := X.s1225 e.curve e.V1
      let pt := r.1
      match xform, transform with
      | true, some T => some (true, T pt, e)
      | _, _ => some (true, pt, e)
    | _, _ => none
/-- The library of the examples with an evaluator for straight segments: `s1225` returns the
point `a + t (b - a)` between the first two control points `a`, `b` of the curve, with
status 0. -/
def Examples.lineLib : Library :=
  { Examples.lib with
    s1225 := fun c t =>
      match loadPoint c.coeffs 0, loadPoint c.coeffs (if c.kind = 2 then 4 else 3) with
      | some a, some b => (a.sub ((a.sub b).smul t), 0)
      | _, _ => (⟨0, 0, 0⟩, 0) }

/-- The library of the examples with an evaluator for the straight segments of order 2:
`s1225` returns the point `a + (t - k1) / (k2 - k1) (b - a)` between the two control points
`a`, `b`, the inner knots being `k1`, `k2`, with status 0. -/
def Examples.chordLib : Library :=
  { Examples.lib with
    s1225 := fun c t =>
      match loadPoint c.coeffs 0, loadPoint c.coeffs 3 with
      | some a, some b =>
        (a.sub ((a.sub b).smul ((t - c.knots.getD 1 0) / (c.knots.getD 2 0 - c.knots.getD 1 0))),
          0)
      | _, _ => (⟨0, 0, 0⟩, 0) }

/-- The knot vector `[0,0,0,0,1,1,1,1]` of the cubic of the third scenario. -/
def Examples.cubicKnots : List ℚ := [0, 0, 0, 0, 1, 1, 1, 1]

/-- The control points `(0,0,0)`, `(1,2,0)`, `(2,2,0)`, `(3,0,0)` of the cubic of the third
scenario, as the array handed to `SetNURBSData` with `isRational = false`. -/
def Examples.cubicPoints : List ℚ := [0, 0, 0, 1, 2, 0, 2, 2, 0, 3, 0, 0]

/-- The functions of `<cmath>` that `SetParams` calls, on doubles. -/
structure CMath where
  sqrt : ℚ → ℚ
  atan2 : ℚ → ℚ → ℚ
  cos : ℚ → ℚ
  sin : ℚ → ℚ

/-- `IGES_GEOM_CYLINDER::clear`: no arcs, radius 0, the 6 angles and the 5 points zeroed. -/
def IGES_GEOM_CYLINDER.clear (_c : IGES_GEOM_CYLINDER) : IGES_GEOM_CYLINDER :=
  { narcs := 0, radius := 0, angles := List.replicate 6 0, arcs := List.replicate 5 ⟨0, 0, 0⟩ }

/-- The part of `SetParams` that cuts the sweep from `ang1` to `ang2`, the two results of
`atan2`, into arcs: the result is `narcs` and the array `angles`, which is `a` where it is not
assigned. -/
def IGES_GEOM_CYLINDER.splitAngles (a : List ℚ) (ang1 ang2 : ℚ) : Int × List ℚ :=
  let ang2 := if ang2 < ang1 then ang2 + 2 * M_PI else ang2
  if ang1 < 0 then
    let ang1 := ang1 + 2 * M_PI
    let ang2 := ang2 + 2 * M_PI
    let a := a.set 0 ang1
    if ang2 ≤ 2 * M_PI then (1, a.set 1 ang2)
    else
      let a := (a.set 1 (2 * M_PI)).set 2 0
      if ang2 ≤ 3 * M_PI then (2, a.set 3 (ang2 - 2 * M_PI))
      else (3, ((a.set 3 M_PI).set 4 M_PI).set 5 (ang2 - 2 * M_PI))
  else
    let a := a.set 0 ang1
    if ang2 ≤ M_PI ∨ (ang1 ≥ M_PI ∧ ang2 ≤ 2 * M_PI) then (1, a.set 1 ang2)
    else if ang1 < M_PI then
      let a := (a.set 1 M_PI).set 2 M_PI
      if ang2 ≤ 2 * M_PI then (2, a.set 3 ang2)
      else (3, ((a.set 3 (2 * M_PI)).set 4 0).set 5 (ang2 - 2 * M_PI))
    else
      if ang2 ≤ 2 * M_PI then (1, a.set 1 ang2)
      else (2, ((a.set 1 (2 * M_PI)).set 2 0).set 3 (ang2 - 2 * M_PI))

/-- The end of `SetParams`: `arcs[1] = start`, `arcs[narcs + 1] = end`, and for a second and a
third arc the point where it starts, at the angle `angles[2]`, `angles[4]` on the circle. -/
def IGES_GEOM_CYLINDER.setArcPoints (Mth : CMath) (c : IGES_GEOM_CYLINDER)
    (center start end_ : MCAD_POINT) : IGES_GEOM_CYLINDER :=
  let c := { c with arcs := c.arcs.set 1 start }
  let c := { c with arcs := c.arcs.set (c.narcs + 1).toNat end_ }
  let p2 : MCAD_POINT :=
    ⟨center.x + c.radius * Mth.cos (c.angles.getD 2 0),
     center.y + c.radius * Mth.sin (c.angles.getD 2 0), 0⟩
  let c := if c.narcs > 1 then { c with arcs := c.arcs.set 2 p2 } else c
  let p3 : MCAD_POINT :=
    ⟨center.x + c.radius * Mth.cos (c.angles.getD 4 0),
     center.y + c.radius * Mth.sin (c.angles.getD 4 0), 0⟩
  if c.narcs > 2 then { c with arcs := c.arcs.set 3 p3 } else c

/-- `IGES_GEOM_CYLINDER::SetParams( center, start, end )`.  The result is the returned `bool`
and the object after the call. -/
def IGES_GEOM_CYLINDER.SetParams (Mth : CMath) (X : Library) (c : IGES_GEOM_CYLINDER)
    (center start end_ : MCAD_POINT) : Bool × IGES_GEOM_CYLINDER :=
  let c := c.clear
  if center.z < 0 ∨ center.z > 0 ∨ start.z < 0 ∨ start.z > 0 ∨ end_.z < 0 ∨ end_.z > 0 then
    (false, c) else
  if X.PointMatches center start (1 / 100000000) = true
      ∨ X.PointMatches center end_ (1 / 100000000) = true then (false, c) else
  let p0 := center.sub start
  let rad1 := Mth.sqrt (p0.x * p0.x + p0.y * p0.y)
  let p0 := center.sub end_
  let rad2 := Mth.sqrt (p0.x * p0.x + p0.y * p0.y)
  if |rad1 - rad2| > 1 / 100000000 then (false, c) else
  let c := { c with radius := rad1, arcs := c.arcs.set 0 center }
  if X.PointMatches start end_ (1 / 100000000) = true then
    let a1 : MCAD_POINT := { center with x := center.x + c.radius }
    let a2 : MCAD_POINT := { center with x := center.x - c.radius }
    (true, { c with arcs := ((c.arcs.set 1 a1).set 2 a2).set 3 a1, narcs := 2,
                    angles := (((c.angles.set 0 0).set 1 M_PI).set 2 M_PI).set 3 (2 * M_PI) })
  else
  let ang1 := Mth.atan2 (start.y - center.y) (start.x - center.x)
  let ang2 := Mth.atan2 (end_.y - center.y) (end_.x - center.x)
  let r := IGES_GEOM_CYLINDER.splitAngles c.angles ang1 ang2
  (true, IGES_GEOM_CYLINDER.setArcPoints Mth { c with narcs := r.1, angles := r.2 }
    center start end_)

/-- The cylinder object as its constructor leaves it (`init`). -/
def IGES_GEOM_CYLINDER.new : IGES_GEOM_CYLINDER :=
  { narcs := 0, radius := 0, angles := List.replicate 6 0, arcs := List.replicate 5 ⟨0, 0, 0⟩ }

/-- Functions for the worked examples: `sqrt` is exact on squares of rationals; `atan2`, `cos`
and `sin` are exact at the multiples of a quarter turn, with `M_PI` for the half turn, and
`atan2` stays within `[-M_PI, M_PI]` elsewhere. -/
def Examples.cmath : CMath :=
  { sqrt := fun q => (Examples.exactRoot q).getD 0,
    atan2 := fun y x =>
      if y = 0 then (if x < 0 then M_PI else 0)
      else if x = 0 then (if 0 < y then M_PI / 2 else -(M_PI / 2))
      else if 0 < y then (if 0 < x then M_PI / 4 else 3 * M_PI / 4)
      else (if 0 < x then -(M_PI / 4) else -(3 * M_PI / 4)),
    cos := fun t =>
      if t = 0 ∨ t = 2 * M_PI then 1 else if t = M_PI then -1 else 0,
    sin := fun t =>
      if t = M_PI / 2 then 1 else if t = 3 * M_PI / 2 then -1 else 0 }

/-! ## The parameter-data layout of a NURBS curve -/

/-- Modelled from the spec: the field that a formatted item is in the record.  `fmt v tol` is
the real that the text written by `FormatPDREal( v, tol )` (not under src/) stands for; the
spec describes that text as the shortest representation that does not exceed the relative
tolerance `tol`. -/
def PDItem.toFieldWith (fmt : ℚ → ℚ → ℚ) : PDItem → Field
  | .int v => Field.ofInt v
  | .real v tol => Field.ofReal (fmt v tol)

/-- The tolerance with which `format` writes entry `i` of `coeffs`: `1e-6` for a weight, the
fourth entry of each control point of a rational curve, and `1e-15` for a coordinate. -/
def IGES_ENTITY_126.coeffTolerance (PROP3 : Int) (i : Nat) : ℚ :=
  if PROP3 = 0 ∧ i % 4 = 3 then 1 / 1000000 else 1 / 1000000000000000

/-- The coefficient array with every entry replaced by the real that its written form stands
for. -/
def IGES_ENTITY_126.writtenCoeffs (fmt : ℚ → ℚ → ℚ) (PROP3 : Int) (cs : List ℚ) : List ℚ :=
  (List.range cs.length).map (fun i => fmt (cs.getD i 0) (coeffTolerance PROP3 i))

/-- The entries `ks[i]`, `ks[i+1]`, ... of the knot array, `n` of them. -/
def IGES_ENTITY_126.knotsOf (ks : List ℚ) : Nat → Nat → List ℚ
  | 0, _ => []
  | n + 1, i => ks.getD i 0 :: knotsOf ks n (i + 1)

/-- The weights of `n` control points as the layout lists them: the stored weight `cs[j]`,
`cs[j+4]`, ... of each control point on a rational curve, 1 for each on a polynomial one. -/
def IGES_ENTITY_126.weightsOf (PROP3 : Int) (cs : List ℚ) : Nat → Nat → List ℚ
  | 0, _ => []
  | n + 1, j =>
    (if PROP3 = 0 then cs.getD j 0 else 1)
      :: weightsOf PROP3 cs n ((if PROP3 = 0 then j + 1 else j) + 3)

/-- The coordinates `x, y, z` of `n` control points as the layout lists them, the first being
stored from `cs[j]` on. -/
def IGES_ENTITY_126.pointsOf (PROP3 : Int) (cs : List ℚ) : Nat → Nat → List ℚ
  | 0, _ => []
  | n + 1, j =>
    cs.getD j 0 :: cs.getD (j + 1) 0 :: cs.getD (j + 2) 0
      :: pointsOf PROP3 cs n (if PROP3 = 0 then j + 4 else j + 3)

/-- The parameter data of a NURBS curve in the order of the entity catalogue: the entity type,
`K`, `M`, `PROP1` .. `PROP4`, the `K + M + 2` knots, the `K + 1` weights, the `K + 1` control
points as `x, y, z`, then `V0`, `V1` and the three components of the normal.  Knots, points,
`V0`, `V1` and the normal carry the tolerance `1e-15`, the weights `1e-6`. -/
def IGES_ENTITY_126.layout (e : IGES_ENTITY_126) (ks cs : List ℚ) : List PDItem :=
  [PDItem.int 126, PDItem.int e.K, PDItem.int e.M, PDItem.int e.PROP1,
    PDItem.int e.PROP2, PDItem.int e.PROP3, PDItem.int e.PROP4]
  ++ ks.map (fun v => PDItem.real v (1 / 1000000000000000))
  ++ (IGES_ENTITY_126.weightsOf e.PROP3 cs (e.K + 1).toNat 3).map
      (fun v => PDItem.real v (1 / 1000000))
  ++ (IGES_ENTITY_126.pointsOf e.PROP3 cs (e.K + 1).toNat 0).map
      (fun v => PDItem.real v (1 / 1000000000000000))
  ++ [PDItem.real e.V0 (1 / 1000000000000000), PDItem.real e.V1 (1 / 1000000000000000),
      PDItem.real e.vnorm.x (1 / 1000000000000000),
      PDItem.real e.vnorm.y (1 / 1000000000000000),
      PDItem.real e.vnorm.z (1 / 1000000000000000)]

/-! ## The inventory of a cylinder -/

/-- Pointer and type of every entity that the model owns, in the order of its list. -/
def Model.shape (m : Model) : List (Nat × Int) :=
  m.entities.map (fun x => (x.1, x.2.entityType))

/-- The number of entities of type `ty` that the model owns. -/
def Model.countType (m : Model) (ty : Int) : Nat :=
  (m.shape.filter (fun x => x.2 = ty)).length

/-- The pointers of a model are distinct and lie below the next pointer of the factory. -/
def Model.wellFormed (m : Model) : Prop :=
  (m.shape.map Prod.fst).Nodup ∧ ∀ x ∈ m.shape, x.1 < m.fresh

instance (m : Model) : Decidable m.wellFormed := by
  unfold Model.wellFormed; infer_instance

/-- The types of the entities of a cylinder of `n` parts, in the order in which `Instantiate`
asks the factory for them: `2n + 2` lines, the surface of revolution, `n` transformation
matrices, `4n` NURBS curves, `2n` circular arcs, `2n` composite curves, `n` curves on surface
and `n` trimmed surfaces. -/
def cylinderTypes (n : Nat) : List Int :=
  List.replicate (2 * n + 2) ENT_LINE ++ [ENT_SURFACE_OF_REVOLUTION]
    ++ List.replicate n ENT_TRANSFORMATION_MATRIX ++ List.replicate (4 * n) ENT_NURBS_CURVE
    ++ List.replicate (2 * n) ENT_CIRCULAR_ARC ++ List.replicate (2 * n) ENT_COMPOSITE_CURVE
    ++ List.replicate n ENT_CURVE_ON_PARAMETRIC_SURFACE
    ++ List.replicate n ENT_TRIMMED_PARAMETRIC_SURFACE

/-- The entity is a trimmed surface whose surface pointer `PTS` is `s`. -/
def Entity.trimmedOn (s : Nat) : Entity → Prop
  | .trimmed t => t.PTS = some s
  | _ => False

instance (s : Nat) (e : Entity) : Decidable (e.trimmedOn s) := by
  cases e <;> unfold Entity.trimmedOn <;> infer_instance

/-- The pointer `p` leads to a trimmed surface of the model whose `PTS` is `s`. -/
def Model.trimmedOn (m : Model) (s p : Nat) : Prop :=
  match m.find p with
  | some e => e.trimmedOn s
  | none => False

instance (m : Model) (s p : Nat) : Decidable (m.trimmedOn s p) := by
  unfold Model.trimmedOn; cases m.find p <;> infer_instance
/-- The second model owns the entities of the first under the same pointers and with the same
types, hands out the same next pointer, and is well formed. -/
def Model.keeps (m m' : Model) : Prop :=
  m'.wellFormed ∧ m'.shape = m.shape ∧ m'.fresh = m.fresh

/-- The second state of `Instantiate` keeps the entities of the first with their pointers and
types, and its variables `itps` and `isurf`. -/
def Build.keeps (b b' : Build) : Prop :=
  b.model.keeps b'.model ∧ b'.itps = b.itps ∧ b'.isurf = b.isurf

/-! ## Setters of the arc and point accessors of the NURBS curve -/

/-- `IGES_ENTITY_100::SetEntityUse`: to be implemented; it stores nothing and returns
false. -/
def IGES_ENTITY_100.SetEntityUse (e : IGES_ENTITY_100) (_aUseCase : IGES_STAT_USE) :
    Bool × IGES_ENTITY_100 :=
  (false, e)

/-- `IGES_ENTITY_100::SetHierarchy`: to be implemented; it stores nothing and returns
false. -/
def IGES_ENTITY_100.SetHierarchy (e : IGES_ENTITY_100) (_aHierarchy : IGES_STAT_HIER) :
    Bool × IGES_ENTITY_100 :=
  (false, e)

/-- The part that `GetStartPoint` and `GetEndPoint` share: the curve is evaluated at the
parameter `at_`; an evaluator status other than 0 and 1 makes the call return false and leaves
`pt` as it was.  The result is the returned `bool`, `pt` and the entity. -/
def IGES_ENTITY_126.pointAt (X : Library) (e : IGES_ENTITY_126)
    (transform : Option (MCAD_POINT → MCAD_POINT)) (at_ : IGES_ENTITY_126 → ℚ)
    (pt : MCAD_POINT) (xform : Bool) : Bool × MCAD_POINT × IGES_ENTITY_126 :=
  if e.nCoeffs < 2 then (false, pt, e) else
  if !e.scurve && !X.newCurve e.curve then (false, pt, e) else
  let e := { e with scurve := true }
  let r := X.s1225 e.curve (at_ e)
  if r.2 ≠ 0 ∧ r.2 ≠ 1 then (false, pt, e) else
  let pt := r.1
  match xform, transform with
  | true, some T => (true, T pt, e)
  | _, _ => (true, pt, e)

/-- `IGES_ENTITY_126::GetStartPoint( pt, xform )`: the curve at `V0`. -/
def IGES_ENTITY_126.GetStartPoint (X : Library) (e : IGES_ENTITY_126)
    (transform : Option (MCAD_POINT → MCAD_POINT)) (pt : MCAD_POINT) (xform : Bool) :
    Bool × MCAD_POINT × IGES_ENTITY_126 :=
  e.pointAt X transform (fun e => e.V0) pt xform

/-- `IGES_ENTITY_126::GetEndPoint( pt, xform )`: the curve at `V1`. -/
def IGES_ENTITY_126.GetEndPoint (X : Library) (e : IGES_ENTITY_126)
    (transform : Option (MCAD_POINT → MCAD_POINT)) (pt : MCAD_POINT) (xform : Bool) :
    Bool × MCAD_POINT × IGES_ENTITY_126 :=
  e.pointAt X transform (fun e => e.V1) pt xform

/-- `IGES_ENTITY_126::IsRational`. -/
def IGES_ENTITY_126.IsRational (e : IGES_ENTITY_126) : Bool :=
  if e.PROP3 ≠ 0 then false else true

/-- The library of the examples with an evaluator that fails: `s1225` reports the status
`-1` and leaves `(7,7,7)` in the array of the caller. -/
def Examples.failingLib : Library :=
  { Examples.lib with s1225 := fun _ _ => (⟨7, 7, 7⟩, -1) }

/-- The library `X` with an evaluator that always succeeds at the origin. -/
def Library.withGoodEvaluator (X : Library) : Library :=
  { X with s1225 := fun _ _ => (⟨0, 0, 0⟩, 0) }

/-- The curve that `SetNURBSData` hands to `newCurve` and `s1363` once it has copied the
arrays of the caller. -/
def copiedCurve (nCoeff order : Int) (knot coeff : List ℚ) (isRational : Bool) : SISLCurve :=
  { n := nCoeff, order := order - 1 + 1, knots := knot.take (nCoeff + order).toNat,
    coeffs := coeff.take (if isRational then nCoeff * 4 else nCoeff * 3).toNat,
    kind := if isRational then 2 else 1 }

/-! ## Interleaved points in a composite curve -/

/-- A connect point (132) at `a` as an entry of the entity table. -/
def Examples.connectPoint (a : MCAD_POINT) : Node :=
  { entityType := 132, refs := [], BPTR := none, startPoint := a, endPoint := a }

/-- A point, a connect point, a point and a connect point, all at `(1,0,0)`, and the composite
curve of the four at position 4. -/
def Examples.interleaved : Graph :=
  [Examples.point ⟨1, 0, 0⟩, Examples.connectPoint ⟨1, 0, 0⟩, Examples.point ⟨1, 0, 0⟩,
   Examples.connectPoint ⟨1, 0, 0⟩, Examples.compositeNode]

/-- The composite curve of the four members of `Examples.interleaved`. -/
def Examples.fourPoints (gd : GlobalData) : IGES_ENTITY_102 :=
  { IGES_ENTITY_102.new (some gd) with iCurves := [0, 1, 2, 3], curves := [0, 1, 2, 3] }

/-- Two consecutive members of the curve are points of the same kind, 116 and 116 or 132 and
132, and `iCurves` has a size other than 2: what the consecutive-point rule of `associate`
looks for. -/
def IGES_ENTITY_102.samePointKindAdjacent (g : Graph) (e : IGES_ENTITY_102) : Prop :=
  ∃ i qp qc prev cur, e.curves[i]? = some qp ∧ e.curves[i + 1]? = some qc ∧
    g[qp]? = some prev ∧ g[qc]? = some cur ∧
    (cur.entityType = 116 ∨ cur.entityType = 132) ∧ prev.entityType = cur.entityType ∧
    e.iCurves.length ≠ 2

/-! ## The sweep of the arcs of a cylinder -/

/-- The sum of the spans `a[2i+1] - a[2i]` of the first `n` arcs of the array `a` of
angles. -/
def spanSum (a : List ℚ) : Nat → ℚ
  | 0 => 0
  | n + 1 => spanSum a n + (a.getD (2 * n + 1) 0 - a.getD (2 * n) 0)

/-- The sweep from the polar angle `a1` of the start to the polar angle `a2` of the end,
counter-clockwise: `a2 - a1` brought to `[0, 2 pi]` by one turn when `a2 < a1`. -/
def sweepBetween (a1 a2 : ℚ) : ℚ := (if a2 < a1 then a2 + 2 * M_PI else a2) - a1

/-! ## The boundaries of a cylinder -/

/-- Modelled from the spec: the action of a transformation matrix (124) on a point,
`R p + T`. -/
def MCAD_TRANSFORM.apply (t : MCAD_TRANSFORM) (p : MCAD_POINT) : MCAD_POINT :=
  ⟨t.R.v00 * p.x + t.R.v01 * p.y + t.R.v02 * p.z + t.T.x,
   t.R.v10 * p.x + t.R.v11 * p.y + t.R.v12 * p.z + t.T.y,
   t.R.v20 * p.x + t.R.v21 * p.y + t.R.v22 * p.z + t.T.z⟩

/-- Modelled from the spec: the start point and the end point of a line and of an arc in their
own frame (their `GetStartPoint` and `GetEndPoint` are not under src/): a line runs from
`(X1, Y1, Z1)` to `(X2, Y2, Z2)`, an arc from `(xStart, yStart, zOffset)` to
`(xEnd, yEnd, zOffset)`.  For a NURBS curve the two points are what
`IGES_ENTITY_126::GetStartPoint` and `IGES_ENTITY_126::GetEndPoint` give, called one after
the other, `none` when one of the two calls returns false. -/
def Entity.ends (X : Library) : Entity → Option (MCAD_POINT × MCAD_POINT)
  | .line e => some (⟨e.X1, e.Y1, e.Z1⟩, ⟨e.X2, e.Y2, e.Z2⟩)
  | .arc e => some (⟨e.xStart, e.yStart, e.zOffset⟩, ⟨e.xEnd, e.yEnd, e.zOffset⟩)
  | .nurbs e =>
    let s := e.GetStartPoint X none ⟨0, 0, 0⟩ true
    let t := s.2.2.GetEndPoint X none ⟨0, 0, 0⟩ true
    if s.1 && t.1 then some (s.2.1, t.2.1) else none
  | _ => none

/-- The transform pointer of a curve, for the kinds that the cylinder gives one. -/
def Entity.transformPtr : Entity → Option Nat
  | .arc e => e.pTransform
  | _ => none

/-- Modelled from the spec: the start point and the end point of the curve behind `p` in
model space, its transformation matrix applied when it has one. -/
def Model.ends (X : Library) (m : Model) (p : Nat) : Option (MCAD_POINT × MCAD_POINT) :=
  match m.find p with
  | none => none
  | some e =>
    match e.ends X, e.transformPtr with
    | none, _ => none
    | some se, none => some se
    | some se, some q =>
      match m.find q with
      | some (.transform t) => some (t.T.apply se.1, t.T.apply se.2)
      | _ => none

/-- What the boundaries of a cylinder need of SISL on a straight segment, a curve of order 2
through two control points `a` and `b`: `s1363` reports the two inner knots as the parameter
range, with status 0, and, when these differ, `s1225` finds `a` at the lower and `b` at the
upper one, with status 0. -/
def Library.evaluatesSegments (X : Library) : Prop :=
  (∀ c : SISLCurve, c.n = 2 → c.order = 2 →
    X.s1363 c = (c.knots.getD 1 0, c.knots.getD 2 0, 0)) ∧
  ∀ (c : SISLCurve) (a b : MCAD_POINT), c.n = 2 → c.order = 2 → c.kind = 1 →
    c.coeffs = [a.x, a.y, a.z, b.x, b.y, b.z] → c.knots.getD 1 0 ≠ c.knots.getD 2 0 →
    X.s1225 c (c.knots.getD 1 0) = (a, 0) ∧ X.s1225 c (c.knots.getD 2 0) = (b, 0)

/-- The sequencing condition of a closed composite curve in exact arithmetic: every segment
ends where the next one starts, and the last one ends where the first one starts. -/
def closedChain (l : List (MCAD_POINT × MCAD_POINT)) : Prop :=
  l ≠ [] ∧ ∀ k, k < l.length →
    (l.getD k (⟨0, 0, 0⟩, ⟨0, 0, 0⟩)).2
      = (l.getD ((k + 1) % l.length) (⟨0, 0, 0⟩, ⟨0, 0, 0⟩)).1

instance (l : List (MCAD_POINT × MCAD_POINT)) : Decidable (closedChain l) := by
  unfold closedChain; infer_instance

/-- The members of the composite curve behind `p`; `none` when `p` is no composite curve. -/
def Model.members (m : Model) (p : Nat) : Option (List Nat) :=
  match m.find p with
  | some (.composite e) => some e.curves
  | _ => none

/-- The pointers `BPTR` and `CPTR` of the curve on surface behind `p`. -/
def Model.boundaries (m : Model) (p : Nat) : Option (Option Nat × Option Nat) :=
  match m.find p with
  | some (.bound e) => some (e.BPTR, e.CPTR)
  | _ => none

/-- The pointer `PTO` of the trimmed surface behind `p`. -/
def Model.outer (m : Model) (p : Nat) : Option (Option Nat) :=
  match m.find p with
  | some (.trimmed e) => some e.PTO
  | _ => none

/-- The entity behind `x` exists and satisfies `Q`. -/
def Model.has (m : Model) (x : Nat) (Q : Entity → Prop) : Prop :=
  ∃ e, m.find x = some e ∧ Q e

/-- One step of `Instantiate` on the model, as data: a write through the pointer `target`
(`child` is `none`) or the call of a pointer setter on it for the child `child`; `set` is
what the step does to the entity behind `target`. -/
structure Op where
  target : Option Nat
  child : Option (Option Nat)
  set : Entity → Option Entity

/-- A write through `p`. -/
def Op.write (p : Option Nat) (f : Entity → Option Entity) : Op :=
  { target := p, child := none, set := f }

/-- The call of the setter `set` on `p` for the child `ch`. -/
def Op.link (p ch : Option Nat) (set : Nat → Entity → Option Entity) : Op :=
  { target := p, child := some ch, set := fun e => ch.bind (fun c => set c e) }

/-- The model after a step. -/
def Op.run (op : Op) (m : Model) : Option Model :=
  match op.child with
  | none => m.write op.target op.set
  | some ch => m.link op.target ch (fun _ => op.set)

/-- The model after a list of steps. -/
def runOps : List Op → Model → Option Model
  | [], m => some m
  | op :: rest, m => (op.run m).bind (runOps rest)

/-- The point `arcs[k]` of the cylinder. -/
def IGES_GEOM_CYLINDER.pt (c : IGES_GEOM_CYLINDER) (k : Nat) : MCAD_POINT :=
  c.arcs.getD k ⟨0, 0, 0⟩

/-- The steps of `setAxis`. -/
def axisOps (c : IGES_GEOM_CYLINDER) (top bot : ℚ) (b : Build) : List Op :=
  [Op.write b.iline[0]? (setLine (c.pt 0).x (c.pt 0).y bot (c.pt 0).x (c.pt 0).y top),
   Op.write b.iline[1]?
     (setLine ((c.pt 0).x + c.radius) (c.pt 0).y top ((c.pt 0).x + c.radius) (c.pt 0).y bot),
   Op.link b.isurf b.iline[0]? setL, Op.link b.isurf b.iline[1]? setC]

/-- The write of the angles of the surface of revolution. -/
def surfaceOp (b : Build) : Op :=
  Op.write b.isurf (fun e => match e with
    | .revolution s => some (.revolution { s with startAngle := 0, endAngle := 2 * M_PI })
    | _ => none)

/-- The writes of the two lines of part `i`: `iline[2i+2]` goes down at `arcs[i+2]` and
`iline[2i+3]` goes up at `arcs[i+1]`. -/
def lineOps (c : IGES_GEOM_CYLINDER) (top bot : ℚ) (b : Build) (i : Nat) : List Op :=
  [Op.write b.iline[2 * i + 2]?
     (setLine (c.pt (i + 2)).x (c.pt (i + 2)).y top (c.pt (i + 2)).x (c.pt (i + 2)).y bot),
   Op.write b.iline[2 * i + 3]?
     (setLine (c.pt (i + 1)).x (c.pt (i + 1)).y bot (c.pt (i + 1)).x (c.pt (i + 1)).y top)]

/-- The steps of `setArcPair` for part `i`. -/
def arcOps (F : CylinderCalls) (c : IGES_GEOM_CYLINDER) (top bot : ℚ) (b : Build) (i : Nat) :
    List Op :=
  [Op.write b.iarc[2 * i]?
     (setArc top (c.pt 0).x (c.pt 0).y (c.pt (i + 1)).x (c.pt (i + 1)).y
       (c.pt (i + 2)).x (c.pt (i + 2)).y),
   Op.write b.iarc[2 * i + 1]?
     (setArc bot 0 (c.pt 0).y ((c.pt 0).x - (c.pt (i + 2)).x) (c.pt (i + 2)).y
       ((c.pt 0).x - (c.pt (i + 1)).x) (c.pt (i + 1)).y)]
  ++ (if F.SetTransform (2 * i + 1) then [Op.link b.iarc[2 * i + 1]? b.itrans[i]? setTransform]
      else [])

/-- The steps of `addSegments` on the composite curve `cc`. -/
def segmentOps (cc : Option Nat) (segs : List (Option Nat)) : List Op :=
  segs.map (fun s => Op.link cc s pushCurve)

/-- The steps that fill the geometric bound of part `i`. -/
def boundOps (n : Nat) (b : Build) (i : Nat) : List Op :=
  segmentOps b.icc[n + i]?
    [b.iarc[2 * i]?, b.iline[2 * i + 2]?, b.iarc[2 * i + 1]?, b.iline[2 * i + 3]?]

/-- What `transferNurbs` does to the NURBS curve `icurve[j]`. -/
def nurbsSetter (X : Library) (cur : Option SISLCurve) : Entity → Option Entity
  | .nurbs e =>
    match cur with
    | none => none
    | some cur =>
      match e.SetNURBSData X cur.n cur.order (some cur.knots) (some cur.coeffs) false with
      | some (true, e1) => some (.nurbs e1)
      | _ => none
  | _ => none

/-- The step of `transferNurbs` for `icurve[j]`. -/
def nurbsOps (X : Library) (b : Build) (j : Nat) : List Op :=
  [Op.write b.icurve[j]? (nurbsSetter X (b.inurbs[j]?).join)]

/-- The steps that fill the NURBS bound of part `i`. -/
def paramOps (b : Build) (i : Nat) : List Op :=
  segmentOps b.icc[i]?
    [b.icurve[i * 4]?, b.icurve[i * 4 + 1]?, b.icurve[i * 4 + 2]?, b.icurve[i * 4 + 3]?]

/-- The steps of `setBound` for part `i`. -/
def curveOnSurfaceOps (n : Nat) (b : Build) (i : Nat) : List Op :=
  [Op.write b.ibound[i]? (fun e => match e with
      | .bound s => some (.bound { s with CRTN := 1, PREF := 1 })
      | _ => none),
   Op.link b.ibound[i]? b.isurf setSPTR, Op.link b.ibound[i]? b.icc[i]? setBPTR,
   Op.link b.ibound[i]? b.icc[i + n]? setCPTR]

/-- The steps of `setTrimmed` for part `i`. -/
def trimOps (b : Build) (i : Nat) : List Op :=
  [Op.write b.itps[i]? (fun e => match e with
      | .trimmed s => some (.trimmed { s with N1 := 1, N2 := 0 })
      | _ => none),
   Op.link b.itps[i]? b.isurf setPTS, Op.link b.itps[i]? b.ibound[i]? setPTO]

/-- The four curves that `nurbsBounds` makes for part `i`. -/
def nurbsOf (F : CylinderCalls) (c : IGES_GEOM_CYLINDER) (i : Nat) : List (Option SISLCurve) :=
  [(F.s1602 [0, c.angles.getD (i * 2) 0, 0] [0, c.angles.getD (i * 2 + 1) 0, 0] 2 3 0).1,
   (F.s1602 [0, c.angles.getD (i * 2 + 1) 0, 0] [1, c.angles.getD (i * 2 + 1) 0, 0] 2 3 0).1,
   (F.s1602 [1, c.angles.getD (i * 2 + 1) 0, 0] [1, c.angles.getD (i * 2) 0, 0] 2 3 0).1,
   (F.s1602 [1, c.angles.getD (i * 2) 0, 0] [0, c.angles.getD (i * 2) 0, 0] 2 3 0).1]

/-- The local variables of `Instantiate` once the entities exist, on a model whose factory
handed out the pointers `f`, `f + 1`, ...: the arrays hold consecutive pointers in the order
of creation, for a cylinder of `n` parts. -/
def cylinderLayout (m : Model) (f n : Nat) (u : List (Option SISLCurve)) : Build :=
  { model := m, iline := List.range' f (2 * n + 2), isurf := some (f + (2 * n + 2)),
    itrans := List.range' (f + (2 * n + 3)) n,
    icurve := List.range' (f + (3 * n + 3)) (4 * n),
    iarc := List.range' (f + (7 * n + 3)) (2 * n),
    icc := List.range' (f + (9 * n + 3)) (2 * n),
    ibound := List.range' (f + (11 * n + 3)) n,
    itps := List.range' (f + (12 * n + 3)) n, inurbs := u }

/-- The members of a composite curve. -/
def Entity.members : Entity → Option (List Nat)
  | .composite e => some e.curves
  | _ => none

/-- The pointers `BPTR` and `CPTR` of a curve on surface. -/
def Entity.boundaries : Entity → Option (Option Nat × Option Nat)
  | .bound e => some (e.BPTR, e.CPTR)
  | _ => none

/-- The pointer `PTO` of a trimmed surface. -/
def Entity.outer : Entity → Option (Option Nat)
  | .trimmed e => some e.PTO
  | _ => none

/-- The matrix that `Instantiate` gives the bottom arcs of a cylinder whose centre has the
abscissa `cx`: `x' = cx - x`, `y' = y`, `z' = 2 bot - z`. -/
def bottomTransform (cx bot : ℚ) : MCAD_TRANSFORM :=
  { R := { v00 := -1, v01 := 0, v02 := 0, v10 := 0, v11 := 1, v12 := 0,
           v20 := 0, v21 := 0, v22 := -1 },
    T := ⟨cx, 0, 2 * bot⟩ }

/-- A successful run of the body of `Instantiate` on a model whose factory hands out the
pointers from `f` on, for a cylinder of `n` parts: the models between the stages, what the
new matrices, arcs and composite curves are when they have been created, and the steps of
every stage.  `mF` is the model at the end. -/
structure CylinderRun (F : CylinderCalls) (X : Library) (c : IGES_GEOM_CYLINDER)
    (top bot : ℚ) (f n : Nat) (mF : Model) where
  M1 : Model
  m2 : Model
  m3 : Model
  m4 : Model
  m5 : Model
  m6 : Model
  m7 : Model
  m8 : Model
  m9 : Model
  matrices : ∀ i, i < n →
    M1.find (f + (2 * n + 3) + i)
      = some (.transform { T := bottomTransform (c.pt 0).x bot, form := 1, refs := [],
                           depends := IGES_STAT_DEPENDS.STAT_INDEPENDENT })
  newArcs : ∀ j, j < 2 * n →
    ∃ e, M1.find (f + (7 * n + 3) + j) = some (.arc e) ∧ e.pTransform = none
  newComposites : ∀ j, j < 2 * n →
    ∃ e, M1.find (f + (9 * n + 3) + j) = some (.composite e) ∧ e.curves = []
  axis : runOps (axisOps c top bot (cylinderLayout M1 f n [])) M1 = some m2
  surface : (surfaceOp (cylinderLayout m2 f n [])).run m2 = some m3
  lines : runOps ((List.range n).flatMap (lineOps c top bot (cylinderLayout m2 f n []))) m3
    = some m4
  arcs : runOps ((List.range n).flatMap (arcOps F c top bot (cylinderLayout m2 f n []))) m4
    = some m5
  bounds : runOps ((List.range n).flatMap (boundOps n (cylinderLayout m5 f n []))) m5
    = some m6
  nurbs : runOps ((List.range (4 * n)).flatMap
      (nurbsOps X (cylinderLayout m6 f n ((List.range n).flatMap (nurbsOf F c))))) m6
    = some m7
  params : runOps ((List.range n).flatMap
      (paramOps (cylinderLayout m7 f n ((List.range n).flatMap (nurbsOf F c))))) m7
    = some m8
  curves : runOps ((List.range n).flatMap
      (curveOnSurfaceOps n (cylinderLayout m8 f n ((List.range n).flatMap (nurbsOf F c)))))
      m8 = some m9
  trims : runOps ((List.range n).flatMap
      (trimOps (cylinderLayout m9 f n ((List.range n).flatMap (nurbsOf F c))))) m9
    = some mF

/-- The four segments of a boundary that runs from `a` through `b`, `c` and `d` back to
`a`, each with its start point and its end point. -/
def fourSides (a b c d : MCAD_POINT) : List (MCAD_POINT × MCAD_POINT) :=
  [(a, b), (b, c), (c, d), (d, a)]

/-! # Theorems -/

theorem readHeader_ok {e e1 : IGES_ENTITY_126} {fs fs1 : List Field}
    (h : IGES_ENTITY_126.readHeader e fs = Except.ok (e1, fs1)) :
    1 ≤ e1.K ∧ 1 ≤ e1.M ∧ (e1.PROP1 = 0 ∨ e1.PROP1 = 1) ∧ (e1.PROP2 = 0 ∨ e1.PROP2 = 1) ∧
    (e1.PROP3 = 0 ∨ e1.PROP3 = 1) ∧ (e1.PROP4 = 0 ∨ e1.PROP4 = 1) ∧
    e1.knots = e.knots ∧ e1.coeffs = e.coeffs := by
  unfold IGES_ENTITY_126.readHeader at h
  repeat' (first | contradiction | (split at h) | (dsimp only at h))
  simp only [Except.ok.injEq, Prod.mk.injEq] at h
  obtain ⟨rfl, rfl⟩ := h
  refine ⟨?_, ?_, ?_, ?_, ?_, ?_, rfl, rfl⟩ <;> dsimp only <;> omega

theorem readWeights_spec (n : Nat) : ∀ (j : Nat) (fs : List Field) (cs ds : List ℚ)
    (fs' : List Field), IGES_ENTITY_126.readWeights 0 n j fs cs = some (ds, fs') →
    ds.length = cs.length ∧
    (∀ i, i < n → j + 4 * i < cs.length → ∃ w, ds[j + 4 * i]? = some w ∧ 0 < w) ∧
    (∀ idx, idx < j → ds[idx]? = cs[idx]?) := by
  induction n with
  | zero =>
    intro j fs cs ds fs' h
    simp only [IGES_ENTITY_126.readWeights, Option.some.injEq, Prod.mk.injEq] at h
    obtain ⟨rfl, -⟩ := h
    exact ⟨rfl, fun i hi => absurd hi (Nat.not_lt_zero i), fun _ _ => rfl⟩
  | succ n ih =>
    intro j fs cs ds fs' h
    unfold IGES_ENTITY_126.readWeights at h
    split at h
    · contradiction
    · rename_i tR fs1 hp
      split at h
      · contradiction
      · rename_i hpos
        simp only [if_true] at h
        obtain ⟨hl, hw, hk⟩ := ih _ _ _ _ _ h
        rw [List.length_set] at hl hw
        refine ⟨hl, ?_, ?_⟩
        · intro i hi hb
          cases i with
          | zero =>
            refine ⟨tR, ?_, lt_of_not_ge hpos⟩
            have hb' : j < cs.length := by omega
            rw [show j + 4 * 0 = j by omega, hk j (by omega)]
            exact List.getElem?_set_self hb'
          | succ i =>
            have := hw i (by omega) (by omega)
            rwa [show j + 4 * (i + 1) = j + 4 + 4 * i by ring]
        · intro idx hidx
          rw [hk idx (by omega), List.getElem?_set_ne (by omega)]

theorem readWeights_length (p : Int) (n : Nat) : ∀ (j : Nat) (fs : List Field) (cs ds : List ℚ)
    (fs' : List Field), IGES_ENTITY_126.readWeights p n j fs cs = some (ds, fs') →
    ds.length = cs.length := by
  induction n with
  | zero =>
    intro j fs cs ds fs' h
    simp only [IGES_ENTITY_126.readWeights, Option.some.injEq, Prod.mk.injEq] at h
    rw [h.1]
  | succ n ih =>
    intro j fs cs ds fs' h
    unfold IGES_ENTITY_126.readWeights at h
    split at h
    · contradiction
    · split at h
      · contradiction
      · split at h
        · rw [ih _ _ _ _ _ h, List.length_set]
        · exact ih _ _ _ _ _ h

theorem readPoints_spec (n : Nat) : ∀ (j : Nat) (fs : List Field) (cs ds : List ℚ)
    (fs' : List Field), IGES_ENTITY_126.readPoints 0 n j fs cs = some (ds, fs') → j % 4 = 0 →
    ds.length = cs.length ∧ (∀ idx, idx % 4 = 3 → ds[idx]? = cs[idx]?) := by
  induction n with
  | zero =>
    intro j fs cs ds fs' h _
    simp only [IGES_ENTITY_126.readPoints, Option.some.injEq, Prod.mk.injEq] at h
    obtain ⟨rfl, -⟩ := h
    exact ⟨rfl, fun _ _ => rfl⟩
  | succ n ih =>
    intro j fs cs ds fs' h hj
    unfold IGES_ENTITY_126.readPoints at h
    repeat' (first | contradiction | (split at h))
    · obtain ⟨hl, hk⟩ := ih _ _ _ _ _ h (by omega)
      simp only [List.length_set] at hl
      refine ⟨hl, ?_⟩
      intro idx hidx
      rw [hk idx hidx, List.getElem?_set_ne (by omega), List.getElem?_set_ne (by omega),
        List.getElem?_set_ne (by omega)]


theorem readPoints_length (p : Int) (n : Nat) : ∀ (j : Nat) (fs : List Field) (cs ds : List ℚ)
    (fs' : List Field), IGES_ENTITY_126.readPoints p n j fs cs = some (ds, fs') →
    ds.length = cs.length := by
  induction n with
  | zero =>
    intro j fs cs ds fs' h
    simp only [IGES_ENTITY_126.readPoints, Option.some.injEq, Prod.mk.injEq] at h
    rw [h.1]
  | succ n ih =>
    intro j fs cs ds fs' h
    unfold IGES_ENTITY_126.readPoints at h
    repeat' (first | contradiction | (split at h))
    all_goals rw [ih _ _ _ _ _ h]
    all_goals simp only [List.length_set]

theorem ParseReal_cons {fs rest : List Field} {v : ℚ} (h : ParseReal fs = some (v, rest)) :
    ∃ f, fs = f :: rest ∧ f.asReal = some v := by
  cases fs with
  | nil => simp [ParseReal] at h
  | cons f tl =>
    simp only [ParseReal] at h
    cases hv : f.asReal with
    | none => simp [hv] at h
    | some u =>
      simp only [hv, Option.some.injEq, Prod.mk.injEq] at h
      obtain ⟨rfl, rfl⟩ := h
      exact ⟨f, rfl, hv⟩

theorem ParseInt_cons {fs rest : List Field} {v : Int} (h : ParseInt fs = some (v, rest)) :
    ∃ f, fs = f :: rest ∧ f.asInt = some v := by
  cases fs with
  | nil => simp [ParseInt] at h
  | cons f tl =>
    simp only [ParseInt] at h
    cases hv : f.asInt with
    | none => simp [hv] at h
    | some u =>
      simp only [hv, Option.some.injEq, Prod.mk.injEq] at h
      obtain ⟨rfl, rfl⟩ := h
      exact ⟨f, rfl, hv⟩

theorem readKnots_consumes (n : Nat) : ∀ (i : Nat) (fs : List Field) (ks ks' : List ℚ)
    (fs' : List Field), IGES_ENTITY_126.readKnots n i fs ks = some (ks', fs') →
    ks'.length = ks.length ∧ ∃ pre, fs = pre ++ fs' ∧ pre.length = n := by
  induction n with
  | zero =>
    intro i fs ks ks' fs' h
    simp only [IGES_ENTITY_126.readKnots, Option.some.injEq, Prod.mk.injEq] at h
    obtain ⟨rfl, rfl⟩ := h
    exact ⟨rfl, [], rfl, rfl⟩
  | succ n ih =>
    intro i fs ks ks' fs' h
    unfold IGES_ENTITY_126.readKnots at h
    split at h
    · contradiction
    · rename_i tR fs1 hp
      obtain ⟨f, rfl, -⟩ := ParseReal_cons hp
      obtain ⟨hl, pre, rfl, hlen⟩ := ih _ _ _ _ _ h
      rw [List.length_set] at hl
      exact ⟨hl, f :: pre, rfl, by simp [hlen]⟩

theorem readWeights_consumes (p : Int) (n : Nat) : ∀ (j : Nat) (fs : List Field)
    (cs ds : List ℚ) (fs' : List Field),
    IGES_ENTITY_126.readWeights p n j fs cs = some (ds, fs') →
    ∃ pre, fs = pre ++ fs' ∧ pre.length = n ∧ ∀ f ∈ pre, ∃ w, f.asReal = some w ∧ 0 < w := by
  induction n with
  | zero =>
    intro j fs cs ds fs' h
    simp only [IGES_ENTITY_126.readWeights, Option.some.injEq, Prod.mk.injEq] at h
    obtain ⟨-, rfl⟩ := h
    exact ⟨[], rfl, rfl, by simp⟩
  | succ n ih =>
    intro j fs cs ds fs' h
    unfold IGES_ENTITY_126.readWeights at h
    split at h
    · contradiction
    · rename_i tR fs1 hp
      obtain ⟨f, rfl, hf⟩ := ParseReal_cons hp
      split at h
      · contradiction
      · rename_i hpos
        have key : ∃ pre, fs1 = pre ++ fs' ∧ pre.length = n ∧
            ∀ f ∈ pre, ∃ w, f.asReal = some w ∧ 0 < w := by
          split at h
          · exact ih _ _ _ _ _ h
          · exact ih _ _ _ _ _ h
        obtain ⟨pre, rfl, hlen, hall⟩ := key
        refine ⟨f :: pre, rfl, by simp [hlen], ?_⟩
        intro g hg
        rcases List.mem_cons.mp hg with rfl | hg
        · exact ⟨tR, hf, lt_of_not_ge hpos⟩
        · exact hall g hg

theorem readArrays_ok {e e2 : IGES_ENTITY_126} {fs fs2 : List Field}
    (h : IGES_ENTITY_126.readArrays e fs = Except.ok (e2, fs2)) :
    e2.K = e.K ∧ e2.M = e.M ∧ e2.PROP1 = e.PROP1 ∧ e2.PROP2 = e.PROP2 ∧ e2.PROP3 = e.PROP3 ∧
    e2.PROP4 = e.PROP4 ∧ e2.nKnots = 2 + e.K + e.M ∧ e2.nCoeffs = e.K + 1 ∧
    (∃ ks cs, e2.knots = some ks ∧ e2.coeffs = some cs ∧
      ks.length = (2 + e.K + e.M).toNat ∧
      (e.PROP3 = 0 → cs.length = ((e.K + 1) * 4).toNat ∧
        ∀ i, i < (e.K + 1).toNat → ∃ w, cs[4 * i + 3]? = some w ∧ 0 < w)) ∧
    (∃ pk pw, pk.length = (2 + e.K + e.M).toNat ∧ pw.length = (e.K + 1).toNat ∧
      (∃ tl, fs = pk ++ pw ++ tl) ∧ ∀ f ∈ pw, ∃ w, f.asReal = some w ∧ 0 < w) := by
  unfold IGES_ENTITY_126.readArrays at h
  dsimp only at h
  split at h
  · contradiction
  · rename_i ks fs1 hk
    split at h
    · contradiction
    · rename_i cs fs3 hw
      split at h
      · contradiction
      · rename_i ds fs4 hp
        simp only [Except.ok.injEq, Prod.mk.injEq] at h
        obtain ⟨rfl, rfl⟩ := h
        obtain ⟨hkl, pk, rfl, hpk⟩ := readKnots_consumes _ _ _ _ _ _ hk
        obtain ⟨pw, rfl, hpw, hall⟩ := readWeights_consumes _ _ _ _ _ _ _ hw
        refine ⟨rfl, rfl, rfl, rfl, rfl, rfl, rfl, rfl, ⟨ks, ds, rfl, rfl, ?_, ?_⟩,
          ⟨pk, pw, hpk, hpw, ⟨fs3, by simp⟩, hall⟩⟩
        · simpa using hkl
        · intro h3
          rw [h3] at hw hp
          simp only [h3, if_true] at hw hp
          obtain ⟨hl1, hw1, -⟩ := readWeights_spec _ _ _ _ _ _ hw
          obtain ⟨hl2, hk2⟩ := readPoints_spec _ _ _ _ _ _ hp rfl
          rw [List.length_replicate] at hl1 hw1
          refine ⟨by rw [hl2, hl1], ?_⟩
          intro i hi
          obtain ⟨w, hw2, hpos⟩ := hw1 i hi (by omega)
          refine ⟨w, ?_, hpos⟩
          rw [hk2 _ (by omega), show 4 * i + 3 = 3 + 4 * i by ring]
          exact hw2

theorem readArrays_error {e e2 : IGES_ENTITY_126} {fs : List Field}
    (h : IGES_ENTITY_126.readArrays e fs = Except.error e2) :
    e2.knots = none ∧ e2.coeffs = none := by
  unfold IGES_ENTITY_126.readArrays at h
  dsimp only at h
  repeat' (first | contradiction | (split at h))
  all_goals
    simp only [Except.error.injEq] at h
    subst h
    exact ⟨rfl, rfl⟩

theorem readTail_ok {X : Library} {r : PDRecord} {e e3 : IGES_ENTITY_126} {fs : List Field}
    (h : IGES_ENTITY_126.readTail X r e fs = Except.ok e3) :
    e3.K = e.K ∧ e3.M = e.M ∧ e3.PROP1 = e.PROP1 ∧ e3.PROP2 = e.PROP2 ∧ e3.PROP3 = e.PROP3 ∧
    e3.PROP4 = e.PROP4 ∧ e3.nKnots = e.nKnots ∧ e3.nCoeffs = e.nCoeffs ∧
    e3.knots = e.knots ∧ e3.coeffs = e.coeffs := by
  unfold IGES_ENTITY_126.readTail at h
  repeat' (first | contradiction | (split at h) | (dsimp only at h))
  all_goals
    simp only [Except.ok.injEq] at h
    subst h
    exact ⟨rfl, rfl, rfl, rfl, rfl, rfl, rfl, rfl, rfl, rfl⟩

theorem readTail_error {X : Library} {r : PDRecord} {e e3 : IGES_ENTITY_126} {fs : List Field}
    (h : IGES_ENTITY_126.readTail X r e fs = Except.error e3) :
    e3.knots = none ∧ e3.coeffs = none := by
  unfold IGES_ENTITY_126.readTail at h
  repeat' (first | contradiction | (split at h) | (dsimp only at h))
  all_goals
    simp only [Except.error.injEq] at h
    subst h
    exact ⟨rfl, rfl⟩

theorem readHeader_error {e e1 : IGES_ENTITY_126} {fs : List Field}
    (h : IGES_ENTITY_126.readHeader e fs = Except.error e1) :
    e1.knots = e.knots ∧ e1.coeffs = e.coeffs := by
  unfold IGES_ENTITY_126.readHeader at h
  repeat' (first | contradiction | (split at h) | (dsimp only at h))
  all_goals
    simp only [Except.error.injEq] at h
    subst h
    exact ⟨rfl, rfl⟩

theorem readHeader_fields {e e1 : IGES_ENTITY_126} {fs fs1 : List Field}
    (h : IGES_ENTITY_126.readHeader e fs = Except.ok (e1, fs1)) :
    ∃ f0 f1 f2 f3 f4 f5, fs = f0 :: f1 :: f2 :: f3 :: f4 :: f5 :: fs1 ∧
      f0.asInt = some e1.K ∧ f1.asInt = some e1.M := by
  unfold IGES_ENTITY_126.readHeader at h
  split at h
  · contradiction
  rename_i k t0 h0
  obtain ⟨f0, rfl, hf0⟩ := ParseInt_cons h0
  try dsimp only at h
  split at h
  · contradiction
  split at h
  · contradiction
  rename_i m t1 h1
  obtain ⟨f1, rfl, hf1⟩ := ParseInt_cons h1
  try dsimp only at h
  split at h
  · contradiction
  split at h
  · contradiction
  rename_i p1 t2 h2
  obtain ⟨f2, rfl, -⟩ := ParseInt_cons h2
  try dsimp only at h
  split at h
  · contradiction
  split at h
  · contradiction
  rename_i p2 t3 h3
  obtain ⟨f3, rfl, -⟩ := ParseInt_cons h3
  try dsimp only at h
  split at h
  · contradiction
  split at h
  · contradiction
  rename_i p3 t4 h4
  obtain ⟨f4, rfl, -⟩ := ParseInt_cons h4
  try dsimp only at h
  split at h
  · contradiction
  split at h
  · contradiction
  rename_i p4 t5 h5
  obtain ⟨f5, rfl, -⟩ := ParseInt_cons h5
  try dsimp only at h
  split at h
  · contradiction
  simp only [Except.ok.injEq, Prod.mk.injEq] at h
  obtain ⟨rfl, rfl⟩ := h
  exact ⟨f0, f1, f2, f3, f4, f5, rfl, hf0, hf1⟩

theorem ReadPD_returns (X : Library) {e : IGES_ENTITY_126} (r : PDRecord) {g : GlobalData}
    (hp : e.parent = some g) : ∃ res, IGES_ENTITY_126.ReadPD X e r = some res := by
  unfold IGES_ENTITY_126.ReadPD
  dsimp only
  split
  · exact ⟨_, rfl⟩
  · rw [hp]
    exact ⟨_, rfl⟩

theorem ReadPD_true {X : Library} {e e' : IGES_ENTITY_126} {r : PDRecord}
    (h : IGES_ENTITY_126.ReadPD X e r = some (true, e')) :
    e'.structural ∧
    (∃ ks cs, e'.knots = some ks ∧ e'.coeffs = some cs ∧ ks.length = (2 + e'.K + e'.M).toNat ∧
      (e'.PROP3 = 0 → cs.length = ((e'.K + 1) * 4).toNat ∧
        ∀ i, i < (e'.K + 1).toNat → ∃ w, cs[4 * i + 3]? = some w ∧ 0 < w)) ∧
    (∃ f0 f1 f2 f3 f4 f5 pk pw tl, r.fields = f0 :: f1 :: f2 :: f3 :: f4 :: f5 :: (pk ++ pw ++ tl) ∧
      f0.asInt = some e'.K ∧ f1.asInt = some e'.M ∧
      pk.length = (2 + e'.K + e'.M).toNat ∧ pw.length = (e'.K + 1).toNat ∧
      ∀ f ∈ pw, ∃ w, f.asReal = some w ∧ 0 < w) := by
  unfold IGES_ENTITY_126.ReadPD at h
  try dsimp only at h
  split at h
  · simp at h
  split at h
  · simp at h
  simp only [Option.some.injEq] at h
  unfold IGES_ENTITY_126.readFields at h
  split at h
  · simp at h
  split at h
  · simp at h
  rename_i e1 fs1 hh
  split at h
  · simp at h
  rename_i e2 fs2 ha
  split at h
  · simp at h
  rename_i e3 ht
  simp only [Prod.mk.injEq, true_and] at h
  subst h
  obtain ⟨hK, hM, h1, h2, h3, h4, -, -⟩ := readHeader_ok hh
  obtain ⟨f0, f1, f2, f3, f4, f5, hfs, hf0, hf1⟩ := readHeader_fields hh
  obtain ⟨aK, aM, a1, a2, a3, a4, anK, anC, ⟨ks, cs, hks, hcs, hkl, hwt⟩,
    ⟨pk, pw, hpk, hpw, ⟨tl, htl⟩, hall⟩⟩ := readArrays_ok ha
  obtain ⟨tK, tM, t1, t2, t3, t4, tnK, tnC, tks, tcs⟩ := readTail_ok ht
  have eK : e3.K = e1.K := by rw [tK, aK]
  have eM : e3.M = e1.M := by rw [tM, aM]
  refine ⟨⟨?_, ?_, ?_, ?_, ?_, ?_, ?_, ?_⟩, ⟨ks, cs, ?_, ?_, ?_, ?_⟩,
    ⟨f0, f1, f2, f3, f4, f5, pk, pw, tl, ?_, ?_, ?_, ?_, ?_, hall⟩⟩
  · rw [eK]; exact hK
  · rw [eM]; exact hM
  · rw [tnK, anK, eK, eM]; ring
  · rw [tnC, anC, eK]
  · rw [t1, a1]; exact h1
  · rw [t2, a2]; exact h2
  · rw [t3, a3]; exact h3
  · rw [t4, a4]; exact h4
  · rw [tks, hks]
  · rw [tcs, hcs]
  · rw [eK, eM]; exact hkl
  · rw [eK, t3, a3]; exact hwt
  · rw [hfs, htl]
  · rw [eK]; exact hf0
  · rw [eM]; exact hf1
  · rw [eK, eM]; exact hpk
  · rw [eK]; exact hpw

theorem hasUniquePlane_false_of_lt {X : Library} {e : IGES_ENTITY_126} {norm : MCAD_POINT}
    (h : e.nCoeffs < 3) : IGES_ENTITY_126.hasUniquePlane X e norm = some (false, ⟨0, 0, 1⟩) := by
  unfold IGES_ENTITY_126.hasUniquePlane
  simp [h]

theorem classify_true {X : Library} {e e' : IGES_ENTITY_126}
    (h : IGES_ENTITY_126.classify X e = some (true, e')) :
    e'.K = e.K ∧ e'.M = e.M ∧ e'.nKnots = e.nKnots ∧ e'.nCoeffs = e.nCoeffs ∧
    e'.PROP3 = e.PROP3 ∧ e'.knots = e.knots ∧ e'.coeffs = e.coeffs ∧
    (e'.PROP1 = 0 ∨ e'.PROP1 = 1) ∧ (e'.PROP2 = 0 ∨ e'.PROP2 = 1) ∧
    (e'.PROP4 = 0 ∨ e'.PROP4 = 1) ∧
    (∃ planar, IGES_ENTITY_126.hasUniquePlane X e e.vnorm = some (planar, e'.vnorm) ∧
      e'.PROP1 = if planar then 1 else 0) := by
  unfold IGES_ENTITY_126.classify at h
  split at h
  · contradiction
  rename_i planar nrm hp
  dsimp only at h
  repeat' (first | contradiction | (split at h))
  all_goals (simp only [Option.some.injEq, Prod.mk.injEq, true_and, Bool.false_eq_true,
    false_and] at h)
  all_goals
    subst h
    refine ⟨rfl, rfl, rfl, rfl, rfl, rfl, rfl, ?_, ?_, ?_, ⟨planar, hp, ?_⟩⟩
  all_goals first | (left; rfl) | (right; rfl) | simp_all

theorem buildCurve_true {X : Library} {e e' : IGES_ENTITY_126}
    (h : IGES_ENTITY_126.buildCurve X e = some (true, e')) :
    e'.K = e.K ∧ e'.M = e.M ∧ e'.nKnots = e.nKnots ∧ e'.nCoeffs = e.nCoeffs ∧
    e'.PROP3 = e.PROP3 ∧ e'.coeffs = e.coeffs ∧
    (e'.PROP1 = 0 ∨ e'.PROP1 = 1) ∧ (e'.PROP2 = 0 ∨ e'.PROP2 = 1) ∧
    (e'.PROP4 = 0 ∨ e'.PROP4 = 1) := by
  unfold IGES_ENTITY_126.buildCurve at h
  split at h
  · simp at h
  dsimp only at h
  split at h
  · simp at h
  split at h
  · simp at h
  obtain ⟨hK, hM, hnK, hnC, h3, -, hc, p1, p2, p4, -⟩ := classify_true h
  refine ⟨?_, ?_, ?_, ?_, ?_, ?_, p1, p2, p4⟩
  · rw [hK]; split <;> rfl
  · rw [hM]; split <;> rfl
  · rw [hnK]; split <;> rfl
  · rw [hnC]; split <;> rfl
  · rw [h3]; split <;> rfl
  · rw [hc]; split <;> rfl

theorem SetNURBSData_true {X : Library} {e e' : IGES_ENTITY_126} {nCoeff order : Int}
    {knot coeff : Option (List ℚ)} {isRational : Bool}
    (h : IGES_ENTITY_126.SetNURBSData X e nCoeff order knot coeff isRational = some (true, e')) :
    2 ≤ order ∧ order ≤ nCoeff ∧ e'.K = nCoeff - 1 ∧ e'.M = order - 1 ∧
    e'.nKnots = nCoeff + order ∧ e'.nCoeffs = nCoeff ∧
    e'.PROP3 = (if isRational then 0 else 1) ∧
    (e'.PROP1 = 0 ∨ e'.PROP1 = 1) ∧ (e'.PROP2 = 0 ∨ e'.PROP2 = 1) ∧
    (e'.PROP4 = 0 ∨ e'.PROP4 = 1) := by
  unfold IGES_ENTITY_126.SetNURBSData at h
  split at h
  · split at h
    · simp at h
    split at h
    · simp at h
    dsimp only at h
    split at h
    · contradiction
    split at h
    · contradiction
    obtain ⟨hK, hM, hnK, hnC, h3, -, p1, p2, p4⟩ := buildCurve_true h
    exact ⟨by omega, by omega, hK, hM, hnK, hnC, h3, p1, p2, p4⟩
  · simp at h

theorem readHeader_of_headerValid {r : PDRecord} (e : IGES_ENTITY_126) (h : r.headerValid) :
    ∀ e2, IGES_ENTITY_126.readHeader e r.fields ≠ Except.error e2 := by
  obtain ⟨-, -, -, f0, f1, f2, f3, f4, f5, tl, hf, k, m, p1, p2, p3, p4, h0, h1, h2, h3, h4, h5,
    hk, hm, q1, q2, q3, q4⟩ := h
  have n1 : ¬ (p1 ≠ 0 ∧ p1 ≠ 1) := by omega
  have n2 : ¬ (p2 ≠ 0 ∧ p2 ≠ 1) := by omega
  have n3 : ¬ (p3 ≠ 0 ∧ p3 ≠ 1) := by omega
  have n4 : ¬ (p4 ≠ 0 ∧ p4 ≠ 1) := by omega
  intro e2
  rw [hf]
  simp only [IGES_ENTITY_126.readHeader, ParseInt, h0, h1, h2, h3, h4, h5, not_lt.mpr hk,
    not_lt.mpr hm, if_false, n1, n2, n3, n4]
  intro hc
  cases hc

theorem ReadPD_false_arrays {X : Library} {e e' : IGES_ENTITY_126} {r : PDRecord}
    (h : IGES_ENTITY_126.ReadPD X e r = some (false, e'))
    (hpre : (e.knots = none ∧ e.coeffs = none) ∨ r.headerValid) :
    e'.knots = none ∧ e'.coeffs = none := by
  unfold IGES_ENTITY_126.ReadPD at h
  dsimp only at h
  split at h
  · rename_i hb
    simp only [Option.some.injEq, Prod.mk.injEq, true_and] at h
    subst h
    rcases hpre with hpre | hpre
    · exact hpre
    · rw [hpre.1] at hb; simp at hb
  split at h
  · simp at h
  simp only [Option.some.injEq] at h
  unfold IGES_ENTITY_126.readFields at h
  split at h
  · rename_i hd
    simp only [Prod.mk.injEq, true_and] at h
    subst h
    rcases hpre with hpre | hpre
    · exact hpre
    · have := hpre.2.1; have := hpre.2.2.1; omega
  split at h
  · rename_i e1 hh
    simp only [Prod.mk.injEq, true_and] at h
    subst h
    rcases hpre with hpre | hpre
    · obtain ⟨hk, hc⟩ := readHeader_error hh
      rw [hk, hc]
      exact hpre
    · exact absurd hh (readHeader_of_headerValid _ hpre _)
  rename_i e1 fs1 hh
  split at h
  · rename_i e2 ha
    simp only [Prod.mk.injEq, true_and] at h
    subst h
    exact readArrays_error ha
  split at h
  · rename_i e3 ht
    simp only [Prod.mk.injEq, true_and] at h
    subst h
    exact readTail_error ht
  · simp at h

theorem getElem?_mid {α : Type} (a b t : List α) (i : Nat) (h : i < b.length) :
    (a ++ b ++ t)[a.length + i]? = b[i]? := by
  rw [List.append_assoc, List.getElem?_append_right (by omega)]
  rw [show a.length + i - a.length = i by omega, List.getElem?_append_left h]

theorem ReadPD_weights_positive {X : Library} {e e' : IGES_ENTITY_126} {r : PDRecord}
    (h : IGES_ENTITY_126.ReadPD X e r = some (true, e'))
    {k m : Int} {i : Nat} {g0 g1 f : Field} {w : ℚ}
    (h0 : r.fields[0]? = some g0) (hK : g0.asInt = some k)
    (h1 : r.fields[1]? = some g1) (hM : g1.asInt = some m)
    (hi : (i : Int) ≤ k)
    (hf : r.fields[6 + (2 + k + m).toNat + i]? = some f)
    (hw : f.asReal = some w) : 0 < w := by
  obtain ⟨-, -, f0, f1, f2, f3, f4, f5, pk, pw, tl, hfs, hf0, hf1, hpk, hpw, hall⟩ :=
    ReadPD_true h
  rw [hfs] at h0 h1 hf
  simp only [List.getElem?_cons_zero, List.getElem?_cons_succ, Option.some.injEq] at h0 h1
  subst h0 h1
  rw [hK] at hf0
  rw [hM] at hf1
  simp only [Option.some.injEq] at hf0 hf1
  subst hf0 hf1
  have hlt : i < pw.length := by omega
  rw [show 6 + (2 + e'.K + e'.M).toNat + i = (pk.length + i) + 6 by omega] at hf
  simp only [List.getElem?_cons_succ] at hf
  rw [getElem?_mid pk pw tl i hlt] at hf
  have hmem : f ∈ pw := List.getElem?_mem hf
  obtain ⟨w', hw', hpos⟩ := hall f hmem
  rw [hw] at hw'
  cases hw'
  exact hpos

/-- C1 (the part the code decides).  `format` of a Circular Arc (100) and of a Composite Curve
(102) returns false for every state of the entity and every sequence number, and leaves the
entity as it was: neither kind ever yields parameter data, so neither can be written back. -/
theorem format_100_102_never_succeeds (a : IGES_ENTITY_100) (c : IGES_ENTITY_102)
    (index : Int) :
    IGES_ENTITY_100.format a index = (false, a) ∧ IGES_ENTITY_102.format c index = (false, c) :=
  ⟨rfl, rfl⟩

theorem formatRejects_of_not_structural (e : IGES_ENTITY_126) (h : ¬ e.structural) :
    e.formatRejects = true := by
  unfold IGES_ENTITY_126.formatRejects
  split_ifs with hK hM h1 h2 h3 h4 hnk hnc
  any_goals rfl
  exfalso
  apply h
  unfold IGES_ENTITY_126.structural
  omega

theorem format_false_of_not_structural (X : Library) (e : IGES_ENTITY_126) (index : Int)
    (h : ¬ e.structural) : ∃ e', IGES_ENTITY_126.format X e index = some (false, e') := by
  unfold IGES_ENTITY_126.format
  dsimp only
  split
  · split
    · exact ⟨_, rfl⟩
    split
    · exact ⟨_, rfl⟩
    split
    · exact ⟨_, rfl⟩
    · rename_i hr
      exact absurd (formatRejects_of_not_structural _ h) hr
  · exact ⟨_, rfl⟩

/-- C2.  Structural invariant of the NURBS curve (126): an entity on which `ReadPD` or
`SetNURBSData` returned true has `K >= 1`, `M >= 1`, `nKnots = K + M + 2`, `nCoeffs = K + 1` and
every one of `PROP1` .. `PROP4` equal to 0 or 1; and `format` returns false on every entity
that violates one of these conditions. -/
theorem nurbs_structural_invariant (X : Library) (e e' : IGES_ENTITY_126) (r : PDRecord)
    (nCoeff order : Int) (knot coeff : Option (List ℚ)) (isRational : Bool) (index : Int) :
    (IGES_ENTITY_126.ReadPD X e r = some (true, e') → e'.structural) ∧
    (IGES_ENTITY_126.SetNURBSData X e nCoeff order knot coeff isRational = some (true, e') →
      e'.structural) ∧
    (¬ e.structural → ∃ e2, IGES_ENTITY_126.format X e index = some (false, e2)) := by
  refine ⟨fun h => (ReadPD_true h).1, fun h => ?_, format_false_of_not_structural X e index⟩
  obtain ⟨ho, hn, hK, hM, hnK, hnC, -, p1, p2, p4⟩ := SetNURBSData_true h
  have p3 : e'.PROP3 = 0 ∨ e'.PROP3 = 1 := by
    have := (SetNURBSData_true h).2.2.2.2.2.2.1
    cases isRational
    · right; simpa using this
    · left; simpa using this
  exact ⟨by omega, by omega, by omega, by omega, p1, p2, p3, p4⟩

/-- Witness of C2: the rational segment with unit weights is read, and set, into an entity that
satisfies the structural conditions, and `format` refuses the freshly constructed entity, whose
`K` is 0. -/
theorem nurbs_structural_invariant_witness :
    (IGES_ENTITY_126.ReadPD Examples.lib (IGES_ENTITY_126.new (some Examples.globals))
        (Examples.segmentRecord 1 1)
        = some (true, { Examples.segment 1 1 with scurve := false }) ∧
      IGES_ENTITY_126.structural { Examples.segment 1 1 with scurve := false }) ∧
    (IGES_ENTITY_126.SetNURBSData Examples.lib (IGES_ENTITY_126.new (some Examples.globals)) 2 2
        (some [0, 0, 1, 1]) (some [0, 0, 0, 1, 1, 0, 0, 1]) true
        = some (true, Examples.segment 1 1) ∧
      (Examples.segment 1 1).structural) ∧
    (¬ (IGES_ENTITY_126.new (some Examples.globals)).structural ∧
      ∃ e2, IGES_ENTITY_126.format Examples.lib (IGES_ENTITY_126.new (some Examples.globals)) 1
        = some (false, e2)) :=
  ⟨⟨by decide!, (nurbs_structural_invariant Examples.lib
      (IGES_ENTITY_126.new (some Examples.globals)) { Examples.segment 1 1 with scurve := false }
      (Examples.segmentRecord 1 1) 2 2 none none true 1).1 (by decide!)⟩,
   ⟨by decide!, (nurbs_structural_invariant Examples.lib
      (IGES_ENTITY_126.new (some Examples.globals)) (Examples.segment 1 1)
      (Examples.segmentRecord 1 1) 2 2 (some [0, 0, 1, 1]) (some [0, 0, 0, 1, 1, 0, 0, 1]) true
      1).2.1 (by decide!)⟩,
   ⟨by decide, (nurbs_structural_invariant Examples.lib
      (IGES_ENTITY_126.new (some Examples.globals)) (IGES_ENTITY_126.new (some Examples.globals))
      (Examples.segmentRecord 1 1) 2 2 none none true 1).2.2 (by decide)⟩⟩

/-- C3 fails as stated.  A record whose leading integers are not valid is refused before the
arrays are touched: read into an entity that holds the segment of the examples, the record
with `PROP1 = 7` whose second weight is `-1` makes `ReadPD` return false, and the entity keeps
its knots and its coefficients. -/
theorem ReadPD_keeps_arrays_on_bad_header :
    Examples.flaggedRecord.fields[6 + 4 + 1]? = some (Field.ofReal (-1)) ∧
    (Examples.segment 1 1).knots = some [0, 0, 1, 1] ∧
    (IGES_ENTITY_126.ReadPD Examples.lib (Examples.segment 1 1) Examples.flaggedRecord).map
        (fun res => (res.1, res.2.knots, res.2.coeffs))
      = some (false, some [0, 0, 1, 1], some [0, 0, 0, 1, 1, 0, 0, 1]) :=
  ⟨by decide!, rfl, by decide!⟩

/-- C3, amended.  On an entity that has a parent, `ReadPD` of a NURBS curve (126) returns false
whenever one of the `K + 1` weight fields holds a value `<= 0`, on a rational and on a
polynomial curve alike (nothing is assumed of `PROP3`); the entity is then left without knots
and without coefficients when it had none before the call or when the leading part of the
record (base reader, first delimiter, six integers) is valid; and a rational curve on which
`ReadPD` returned true stores a weight `> 0` at `coeffs[4 i + 3]` for every `i <= K`. -/
theorem ReadPD_rejects_nonpositive_weight (X : Library) (e : IGES_ENTITY_126) (r : PDRecord)
    (g : GlobalData) (hp : e.parent = some g) :
    (∀ (k m : Int) (i : Nat) (g0 g1 f : Field) (w : ℚ),
      r.fields[0]? = some g0 → g0.asInt = some k →
      r.fields[1]? = some g1 → g1.asInt = some m →
      (i : Int) ≤ k → r.fields[6 + (2 + k + m).toNat + i]? = some f →
      f.asReal = some w → w ≤ 0 →
      ∃ e', IGES_ENTITY_126.ReadPD X e r = some (false, e') ∧
        ((e.knots = none ∧ e.coeffs = none) ∨ r.headerValid →
          e'.knots = none ∧ e'.coeffs = none)) ∧
    (∀ e', IGES_ENTITY_126.ReadPD X e r = some (true, e') → e'.PROP3 = 0 →
      ∃ cs, e'.coeffs = some cs ∧
        ∀ i : Nat, (i : Int) ≤ e'.K → ∃ w, cs[4 * i + 3]? = some w ∧ 0 < w) := by
  constructor
  · intro k m i g0 g1 f w h0 hK h1 hM hi hf hw hneg
    obtain ⟨⟨b, e'⟩, hres⟩ := ReadPD_returns X r hp
    cases b with
    | true =>
      exact absurd (ReadPD_weights_positive hres h0 hK h1 hM hi hf hw) (not_lt.mpr hneg)
    | false => exact ⟨e', hres, fun hpre => ReadPD_false_arrays hres hpre⟩
  · intro e' h h3
    obtain ⟨-, ⟨ks, cs, -, hcs, -, hwt⟩, -⟩ := ReadPD_true h
    refine ⟨cs, hcs, fun i hi => (hwt h3).2 i (by omega)⟩

/-- Witness of C3 as amended: the record of the rational segment whose second weight is `-1`
is refused and leaves a fresh entity without arrays, while the record with unit weights is
read and stores positive weights. -/
theorem ReadPD_rejects_nonpositive_weight_witness :
    (∃ e', IGES_ENTITY_126.ReadPD Examples.lib (IGES_ENTITY_126.new (some Examples.globals))
        (Examples.segmentRecord 1 (-1)) = some (false, e') ∧
      e'.knots = none ∧ e'.coeffs = none) ∧
    (∃ cs, ({ Examples.segment 1 1 with scurve := false } : IGES_ENTITY_126).coeffs = some cs ∧
        ∀ i : Nat, (i : Int) ≤ 1 → ∃ w, cs[4 * i + 3]? = some w ∧ 0 < w) :=
  by
  obtain ⟨e', h1, h2⟩ := (ReadPD_rejects_nonpositive_weight Examples.lib
    (IGES_ENTITY_126.new (some Examples.globals)) (Examples.segmentRecord 1 (-1))
    Examples.globals rfl).1
    1 1 1 (Field.ofInt 1) (Field.ofInt 1) (Field.ofReal (-1)) (-1) rfl rfl rfl rfl
    (by decide) rfl rfl (by decide!)
  exact ⟨⟨e', h1, h2 (Or.inl ⟨rfl, rfl⟩)⟩,
    (ReadPD_rejects_nonpositive_weight Examples.lib
      (IGES_ENTITY_126.new (some Examples.globals)) (Examples.segmentRecord 1 1)
      Examples.globals rfl).2
      { Examples.segment 1 1 with scurve := false } (by decide!) rfl⟩

/-- C4 at the failing input.  Under a library whose calls succeed, `SetNURBSData` stores the
rational segment whose first weight is `-1` and returns true, and `format` of the resulting
entity returns true and emits the weight `-1` (the twelfth item) with the rest of the
parameter data. -/
theorem negative_weight_is_emitted :
    IGES_ENTITY_126.SetNURBSData Examples.lib (IGES_ENTITY_126.new (some Examples.globals)) 2 2
        (some [0, 0, 1, 1]) (some [0, 0, 0, -1, 1, 0, 0, 1]) true
      = some (true, Examples.segment (-1) 1) ∧
    (IGES_ENTITY_126.format Examples.lib (Examples.segment (-1) 1) 1).map
        (fun res => (res.1, res.2.pdout))
      = some (true,
          [PDItem.int 126, PDItem.int 1, PDItem.int 1, PDItem.int 0, PDItem.int 0,
           PDItem.int 0, PDItem.int 0,
           PDItem.real 0 (1 / 1000000000000000), PDItem.real 0 (1 / 1000000000000000),
           PDItem.real 1 (1 / 1000000000000000), PDItem.real 1 (1 / 1000000000000000),
           PDItem.real (-1) (1 / 1000000), PDItem.real 1 (1 / 1000000),
           PDItem.real 0 (1 / 1000000000000000), PDItem.real 0 (1 / 1000000000000000),
           PDItem.real 0 (1 / 1000000000000000), PDItem.real 1 (1 / 1000000000000000),
           PDItem.real 0 (1 / 1000000000000000), PDItem.real 0 (1 / 1000000000000000),
           PDItem.real 0 (1 / 1000000000000000), PDItem.real 1 (1 / 1000000000000000),
           PDItem.real 0 (1 / 1000000000000000), PDItem.real 0 (1 / 1000000000000000),
           PDItem.real 1 (1 / 1000000000000000)]) :=
  ⟨by decide!, by decide!⟩

/-- C5 fails as stated, on both paths.  `ReadPD` accepts the record of a polyline that is not
planar but is flagged planar with the z axis as normal: it returns true, the entity keeps
`PROP1 = 1`, and its last control point `(1,1,1)` is at distance 1 from the plane through the
first.  `SetNURBSData` flags the polyline of `Examples.tilted` planar, because the normals of
its two triples of control points match within `1e-8`, while its last control point lies
`2e-8` above the plane of the first three. -/
theorem planar_flag_counterexample :
    (IGES_ENTITY_126.ReadPD Examples.lib (IGES_ENTITY_126.new (some Examples.globals))
        Examples.skewRecord = some (true, Examples.skew) ∧
      Examples.skew.PROP1 = 1 ∧ ¬ Examples.skew.planarWithin) ∧
    (IGES_ENTITY_126.SetNURBSData Examples.lib (IGES_ENTITY_126.new (some Examples.globals)) 4 2
        (some [0, 0, 1, 2, 3, 3])
        (some [0, 0, 0, 1, 0, 0, 1, 1, 0,
          1 + 9999999999999999990 / 1000000000000000001, 1,
          20000000000 / 1000000000000000001]) false
        = some (true, Examples.tilted) ∧
      Examples.tilted.PROP1 = 1 ∧ ¬ Examples.tilted.planarWithin) := by
  refine ⟨⟨by decide!, rfl, ?_⟩, ⟨by decide!, rfl, ?_⟩⟩
  · intro h
    have := h.2 3 ⟨0, 0, 0⟩ ⟨1, 1, 1⟩ (by decide) (by decide!) (by decide!)
    revert this
    simp only [MCAD_POINT.dot, MCAD_POINT.sub, Examples.skew]
    norm_num
  · intro h
    have := h.2 3 ⟨0, 0, 0⟩
      ⟨1 + 9999999999999999990 / 1000000000000000001, 1,
        20000000000 / 1000000000000000001⟩ (by decide) (by decide!) (by decide!)
    revert this
    simp only [MCAD_POINT.dot, MCAD_POINT.sub, Examples.tilted]
    norm_num
    rw [abs_of_pos (by norm_num)]
    norm_num
theorem planeLoop_true (X : Library) (p : Int) (cs : List ℚ) (n : Nat) :
    ∀ (j : Nat) (a b t0 t1 norm nrm : MCAD_POINT),
    IGES_ENTITY_126.planeLoop X p cs n j a b t0 t1 norm = some (true, nrm) →
    nrm = norm ∧ ∃ pts : List MCAD_POINT, pts.length = n ∧
      (∀ i, i < n → loadPoint cs (j + (if p = 0 then 4 else 3) * i) = pts[i]?) ∧
      normalsAgree X a b t0 t1 pts := by
  induction n with
  | zero =>
    intro j a b t0 t1 norm nrm h
    simp only [IGES_ENTITY_126.planeLoop, Option.some.injEq, Prod.mk.injEq, true_and] at h
    exact ⟨h.symm, [], rfl, fun i hi => absurd hi (Nat.not_lt_zero i), trivial⟩
  | succ n ih =>
    intro j a b t0 t1 norm nrm h
    unfold IGES_ENTITY_126.planeLoop at h
    split at h
    · contradiction
    rename_i pt hpt
    dsimp only at h
    split at h
    · simp at h
    rename_i hm
    obtain ⟨hn, pts, hlen, hpts, hag⟩ := ih _ _ _ _ _ _ _ h
    refine ⟨hn, pt :: pts, by simp [hlen], ?_, ?_⟩
    · intro i hi
      cases i with
      | zero => simpa using hpt
      | succ i =>
        have := hpts i (by omega)
        rw [List.getElem?_cons_succ, ← this]
        congr 1
        split <;> ring
    · refine ⟨?_, hag⟩
      simp only [Bool.and_eq_true, Bool.not_eq_true', not_and, Bool.not_eq_false] at hm
      by_cases h1 : X.PointMatches t0 (X.CalcNormal a b pt t1) (1 / 100000000) = true
      · exact Or.inl h1
      · exact Or.inr (hm (by simpa using h1))

theorem hasUniquePlane_true {X : Library} {e : IGES_ENTITY_126} {norm nrm : MCAD_POINT}
    (h : IGES_ENTITY_126.hasUniquePlane X e norm = some (true, nrm)) :
    3 ≤ e.nCoeffs ∧ ∃ (p0 p1 p2 : MCAD_POINT) (rest : List MCAD_POINT),
      e.controlPoint 0 = some p0 ∧ e.controlPoint 1 = some p1 ∧ e.controlPoint 2 = some p2 ∧
      nrm = X.CalcNormal p0 p1 p2 norm ∧ (rest.length : Int) = e.nCoeffs - 3 ∧
      (∀ i, i < rest.length → e.controlPoint (3 + i) = rest[i]?) ∧
      normalsAgree X p1 p2 nrm ⟨0, 0, 0⟩ rest := by
  unfold IGES_ENTITY_126.hasUniquePlane at h
  split at h
  · simp at h
  rename_i h3
  split at h
  · contradiction
  rename_i cs hcs
  dsimp only at h
  split at h
  · rename_i p0 p1 p2 hp0 hp1 hp2
    have c0 : e.controlPoint 0 = some p0 := by
      simp only [IGES_ENTITY_126.controlPoint, hcs, Nat.mul_zero]; exact hp0
    have c1 : e.controlPoint 1 = some p1 := by
      simp only [IGES_ENTITY_126.controlPoint, hcs, IGES_ENTITY_126.stride, Nat.mul_one]
      exact hp1
    have c2 : e.controlPoint 2 = some p2 := by
      simp only [IGES_ENTITY_126.controlPoint, hcs, IGES_ENTITY_126.stride]
      rw [Nat.mul_comm]; exact hp2
    split at h
    · rename_i heq
      simp only [Option.some.injEq, Prod.mk.injEq, true_and] at h
      refine ⟨by omega, p0, p1, p2, [], c0, c1, c2, h.symm, by simp [heq], ?_, trivial⟩
      intro i hi
      simp at hi
    · obtain ⟨hn, pts, hlen, hpts, hag⟩ := planeLoop_true _ _ _ _ _ _ _ _ _ _ _ h
      subst hn
      refine ⟨by omega, p0, p1, p2, pts, c0, c1, c2, rfl, by omega, ?_, hag⟩
      intro i hi
      rw [← hpts i (by omega)]
      simp only [IGES_ENTITY_126.controlPoint, hcs, IGES_ENTITY_126.stride]
      congr 1
      split <;> ring
  · contradiction
theorem controlPoint_congr {e1 e2 : IGES_ENTITY_126} (hc : e1.coeffs = e2.coeffs)
    (hp : e1.PROP3 = e2.PROP3) (i : Nat) : e1.controlPoint i = e2.controlPoint i := by
  simp only [IGES_ENTITY_126.controlPoint, IGES_ENTITY_126.stride, hc, hp]

theorem planeChecked_of_hasUniquePlane {X : Library} {e e' : IGES_ENTITY_126}
    {old : MCAD_POINT}
    (h : IGES_ENTITY_126.hasUniquePlane X e old = some (true, e'.vnorm))
    (hn : e'.nCoeffs = e.nCoeffs) (hc : e'.coeffs = e.coeffs) (hp : e'.PROP3 = e.PROP3) :
    e'.planeChecked X old := by
  obtain ⟨h3, p0, p1, p2, rest, c0, c1, c2, hv, hl, hr, hag⟩ := hasUniquePlane_true h
  refine ⟨by omega, p0, p1, p2, rest, ?_, ?_, ?_, hv, by omega, ?_, hag⟩
  · rw [controlPoint_congr hc hp]; exact c0
  · rw [controlPoint_congr hc hp]; exact c1
  · rw [controlPoint_congr hc hp]; exact c2
  · intro i hi
    rw [controlPoint_congr hc hp]; exact hr i hi

theorem classify_plane {X : Library} {e e' : IGES_ENTITY_126}
    (h : IGES_ENTITY_126.classify X e = some (true, e')) (h1 : e'.PROP1 = 1) :
    e'.planeChecked X e.vnorm := by
  obtain ⟨-, -, -, hnC, h3, -, hc, -, -, -, planar, hp, hflag⟩ := classify_true h
  cases planar with
  | false => rw [h1] at hflag; simp at hflag
  | true => exact planeChecked_of_hasUniquePlane hp hnC hc h3

theorem buildCurve_plane {X : Library} {e e' : IGES_ENTITY_126}
    (h : IGES_ENTITY_126.buildCurve X e = some (true, e')) (h1 : e'.PROP1 = 1) :
    e'.planeChecked X e.vnorm := by
  unfold IGES_ENTITY_126.buildCurve at h
  split at h
  · simp at h
  dsimp only at h
  split at h
  · simp at h
  split at h
  · simp at h
  have := classify_plane h h1
  split at this <;> exact this

theorem SetNURBSData_plane {X : Library} {e e' : IGES_ENTITY_126} {nCoeff order : Int}
    {knot coeff : Option (List ℚ)} {isRational : Bool}
    (h : IGES_ENTITY_126.SetNURBSData X e nCoeff order knot coeff isRational = some (true, e'))
    (h1 : e'.PROP1 = 1) : e'.planeChecked X e.vnorm := by
  unfold IGES_ENTITY_126.SetNURBSData at h
  split at h
  · split at h
    · simp at h
    split at h
    · simp at h
    dsimp only at h
    split at h
    · contradiction
    split at h
    · contradiction
    have key := buildCurve_plane h h1
    exact key
  · simp at h

theorem readTail_normal {X : Library} {r : PDRecord} {e e3 : IGES_ENTITY_126} {fs : List Field}
    (h : IGES_ENTITY_126.readTail X r e fs = Except.ok e3) :
    (e.PROP1 = 1 → ∃ t, X.CheckNormal t = some e3.vnorm) ∧
    (e.PROP1 ≠ 1 → e3.vnorm = ⟨0, 0, 1⟩) := by
  unfold IGES_ENTITY_126.readTail at h
  split at h
  · contradiction
  try dsimp only at h
  split at h
  · contradiction
  try dsimp only at h
  split at h
  · contradiction
  split at h
  · contradiction
  split at h
  · contradiction
  rename_i tX _ _ _ tY _ _ _ tZ _ _
  split at h
  · contradiction
  rename_i nrm hn
  try dsimp only at h
  split at h
  · contradiction
  split at h
  · contradiction
  simp only [Except.ok.injEq] at h
  subst h
  constructor
  · intro hp
    rw [if_pos hp] at hn
    exact ⟨_, hn⟩
  · intro hp
    rw [if_neg hp] at hn
    simp only [Option.some.injEq] at hn
    exact hn.symm

theorem readPoints_consumes (p : Int) (n : Nat) : ∀ (j : Nat) (fs : List Field)
    (cs ds : List ℚ) (fs' : List Field),
    IGES_ENTITY_126.readPoints p n j fs cs = some (ds, fs') →
    ∃ pre, fs = pre ++ fs' ∧ pre.length = 3 * n := by
  induction n with
  | zero =>
    intro j fs cs ds fs' h
    simp only [IGES_ENTITY_126.readPoints, Option.some.injEq, Prod.mk.injEq] at h
    obtain ⟨-, rfl⟩ := h
    exact ⟨[], rfl, rfl⟩
  | succ n ih =>
    intro j fs cs ds fs' h
    unfold IGES_ENTITY_126.readPoints at h
    split at h
    · contradiction
    rename_i tX fs1 hx
    obtain ⟨fx, rfl, -⟩ := ParseReal_cons hx
    split at h
    · contradiction
    rename_i tY fs2 hy
    obtain ⟨fy, rfl, -⟩ := ParseReal_cons hy
    split at h
    · contradiction
    rename_i tZ fs3 hz
    obtain ⟨fz, rfl, -⟩ := ParseReal_cons hz
    obtain ⟨pre, rfl, hlen⟩ := ih _ _ _ _ _ h
    refine ⟨fx :: fy :: fz :: pre, rfl, ?_⟩
    simp only [List.length_cons, hlen]
    omega

theorem readArrays_consumes {e e2 : IGES_ENTITY_126} {fs fs2 : List Field}
    (h : IGES_ENTITY_126.readArrays e fs = Except.ok (e2, fs2)) :
    ∃ pre, fs = pre ++ fs2 ∧
      pre.length = (2 + e.K + e.M).toNat + 4 * (e.K + 1).toNat := by
  unfold IGES_ENTITY_126.readArrays at h
  dsimp only at h
  split at h
  · contradiction
  · rename_i ks fs1 hk
    split at h
    · contradiction
    · rename_i cs fs3 hw
      split at h
      · contradiction
      · rename_i ds fs4 hp
        simp only [Except.ok.injEq, Prod.mk.injEq] at h
        obtain ⟨-, rfl⟩ := h
        obtain ⟨-, pk, rfl, hpk⟩ := readKnots_consumes _ _ _ _ _ _ hk
        obtain ⟨pw, rfl, hpw, -⟩ := readWeights_consumes _ _ _ _ _ _ _ hw
        obtain ⟨pp, rfl, hpp⟩ := readPoints_consumes _ _ _ _ _ _ _ hp
        refine ⟨pk ++ pw ++ pp, by simp, ?_⟩
        simp only [List.length_append, hpk, hpw, hpp]
        omega

theorem readTail_fields {X : Library} {r : PDRecord} {e e3 : IGES_ENTITY_126} {fs : List Field}
    (h : IGES_ENTITY_126.readTail X r e fs = Except.ok e3) :
    ∃ f0 f1 fx fy fz rest tX tY tZ, fs = f0 :: f1 :: fx :: fy :: fz :: rest ∧
      fx.asReal = some tX ∧ fy.asReal = some tY ∧ fz.asReal = some tZ ∧
      (e.PROP1 = 1 → X.CheckNormal ⟨tX, tY, tZ⟩ = some e3.vnorm) := by
  unfold IGES_ENTITY_126.readTail at h
  split at h
  · contradiction
  rename_i v0 fs0 h0
  obtain ⟨f0, rfl, -⟩ := ParseReal_cons h0
  try dsimp only at h
  split at h
  · contradiction
  rename_i v1 fs1 h1
  obtain ⟨f1, rfl, -⟩ := ParseReal_cons h1
  try dsimp only at h
  split at h
  · contradiction
  rename_i tX fsx hx
  obtain ⟨fx, rfl, hfx⟩ := ParseReal_cons hx
  split at h
  · contradiction
  rename_i tY fsy hy
  obtain ⟨fy, rfl, hfy⟩ := ParseReal_cons hy
  split at h
  · contradiction
  rename_i tZ fsz hz
  obtain ⟨fz, rfl, hfz⟩ := ParseReal_cons hz
  split at h
  · contradiction
  rename_i nrm hn
  try dsimp only at h
  split at h
  · contradiction
  split at h
  · contradiction
  simp only [Except.ok.injEq] at h
  subst h
  refine ⟨f0, f1, fx, fy, fz, _, tX, tY, tZ, rfl, hfx, hfy, hfz, ?_⟩
  intro hp
  rw [if_pos hp] at hn
  exact hn

theorem getElem?_past (hd pre post : List Field) (i : Nat) :
    (hd ++ (pre ++ post))[hd.length + pre.length + i]? = post[i]? := by
  rw [List.getElem?_append_right (by omega), List.getElem?_append_right (by omega)]
  congr 1
  omega

/-- C5, amended.  On a NURBS curve (126) flagged planar (`PROP1 = 1`): after a successful
`ReadPD` the stored normal is the vector that `CheckNormal` returned for the three reals that
follow `V0` and `V1` in the record, hence of length one whenever `CheckNormal` returns vectors
of length one, and nothing is established of the control points; after a successful
`SetNURBSData` the curve has at least three control points, the stored normal is the one
`CalcNormal` computes from the first three, and the normal of every later triple of
consecutive control points matches the normal of the triple before it, or its opposite, within
`1e-8`. -/
theorem planar_flag_provenance (X : Library) (e e' : IGES_ENTITY_126) (r : PDRecord)
    (nCoeff order : Int) (knot coeff : Option (List ℚ)) (isRational : Bool) :
    (IGES_ENTITY_126.ReadPD X e r = some (true, e') → e'.PROP1 = 1 →
      (∃ fx fy fz tX tY tZ,
        r.fields[6 + ((2 + e'.K + e'.M).toNat + 4 * (e'.K + 1).toNat) + 2]? = some fx ∧
        r.fields[6 + ((2 + e'.K + e'.M).toNat + 4 * (e'.K + 1).toNat) + 3]? = some fy ∧
        r.fields[6 + ((2 + e'.K + e'.M).toNat + 4 * (e'.K + 1).toNat) + 4]? = some fz ∧
        fx.asReal = some tX ∧ fy.asReal = some tY ∧ fz.asReal = some tZ ∧
        X.CheckNormal ⟨tX, tY, tZ⟩ = some e'.vnorm) ∧
      ((∀ t v, X.CheckNormal t = some v → v.dot v = 1) → e'.vnorm.dot e'.vnorm = 1)) ∧
    (IGES_ENTITY_126.SetNURBSData X e nCoeff order knot coeff isRational = some (true, e') →
      e'.PROP1 = 1 → e'.planeChecked X e.vnorm) := by
  refine ⟨fun h h1 => ?_, fun h h1 => SetNURBSData_plane h h1⟩
  unfold IGES_ENTITY_126.ReadPD at h
  dsimp only at h
  split at h
  · simp at h
  split at h
  · simp at h
  simp only [Option.some.injEq] at h
  unfold IGES_ENTITY_126.readFields at h
  split at h
  · simp at h
  split at h
  · simp at h
  rename_i e1 fs1 hh
  split at h
  · simp at h
  rename_i e2 fs2 ha
  split at h
  · simp at h
  rename_i e3 ht
  simp only [Prod.mk.injEq, true_and] at h
  subst h
  obtain ⟨t1, t2, t3, -, -, -, -, -, -, -⟩ := readTail_ok ht
  obtain ⟨a1, a2, a3, -, -, -, -, -, -, -⟩ := readArrays_ok ha
  have hp : e2.PROP1 = 1 := by rw [← t3]; exact h1
  obtain ⟨f0, f1, f2, f3, f4, f5, hfs, -, -⟩ := readHeader_fields hh
  obtain ⟨pre, hpre, hlen⟩ := readArrays_consumes ha
  obtain ⟨g0, g1, fx, fy, fz, rest, tX, tY, tZ, htl, hfx, hfy, hfz, hcn⟩ := readTail_fields ht
  have hK : e3.K = e1.K := t1.trans a1
  have hM : e3.M = e1.M := t2.trans a2
  have hall : r.fields = [f0, f1, f2, f3, f4, f5] ++ (pre ++ g0 :: g1 :: fx :: fy :: fz :: rest) := by
    rw [hfs, hpre, htl]
    rfl
  have hidx : ∀ i, r.fields[6 + ((2 + e3.K + e3.M).toNat + 4 * (e3.K + 1).toNat) + i]?
      = (g0 :: g1 :: fx :: fy :: fz :: rest)[i]? := by
    intro i
    rw [hall, hK, hM, ← hlen]
    exact getElem?_past [f0, f1, f2, f3, f4, f5] pre _ i
  refine ⟨⟨fx, fy, fz, tX, tY, tZ, ?_, ?_, ?_, hfx, hfy, hfz, hcn hp⟩,
    fun hu => hu _ _ (hcn hp)⟩
  · rw [hidx 2]; simp
  · rw [hidx 3]; simp
  · rw [hidx 4]; simp

/-- Witness of C5 as amended: the flagged polyline of `Examples.skewRecord` is read with the
z axis, which `CheckNormal` returned for the last three fields of the record, as its normal;
and `SetNURBSData` flags the planar polyline `Examples.zigzag` after the checks of
`planeChecked`. -/
theorem planar_flag_provenance_witness :
    ((∃ fx fy fz tX tY tZ,
        Examples.skewRecord.fields[30]? = some fx ∧ Examples.skewRecord.fields[31]? = some fy ∧
        Examples.skewRecord.fields[32]? = some fz ∧
        fx.asReal = some tX ∧ fy.asReal = some tY ∧ fz.asReal = some tZ ∧
        Examples.lib.CheckNormal ⟨tX, tY, tZ⟩ = some Examples.skew.vnorm) ∧
      Examples.skew.vnorm.dot Examples.skew.vnorm = 1) ∧
    (IGES_ENTITY_126.SetNURBSData Examples.lib (IGES_ENTITY_126.new (some Examples.globals)) 4 2
        (some [0, 0, 1, 2, 3, 3]) (some [0, 0, 0, 1, 0, 0, 0, 1, 0, 1, 1, 0]) false
        = some (true, Examples.zigzag) ∧
      Examples.zigzag.planeChecked Examples.lib ⟨0, 0, 0⟩) := by
  have h1 := (planar_flag_provenance Examples.lib (IGES_ENTITY_126.new (some Examples.globals))
    Examples.skew Examples.skewRecord 4 2 none none false).1 (by decide!) rfl
  have hs : IGES_ENTITY_126.SetNURBSData Examples.lib
      (IGES_ENTITY_126.new (some Examples.globals)) 4 2 (some [0, 0, 1, 2, 3, 3])
      (some [0, 0, 0, 1, 0, 0, 0, 1, 0, 1, 1, 0]) false = some (true, Examples.zigzag) := by
    decide!
  have h2 := (planar_flag_provenance Examples.lib (IGES_ENTITY_126.new (some Examples.globals))
    Examples.zigzag Examples.skewRecord 4 2 (some [0, 0, 1, 2, 3, 3])
    (some [0, 0, 0, 1, 0, 0, 0, 1, 0, 1, 1, 0]) false).2 hs rfl
  exact ⟨⟨h1.1, by decide!⟩, hs, h2⟩

theorem nodup_length_le (l : List Nat) (n : Nat) (hn : l.Nodup) (hb : ∀ x ∈ l, x < n) :
    l.length ≤ n := by
  have hsub : l.toFinset ⊆ Finset.range n := by
    intro x hx
    rw [List.mem_toFinset] at hx
    exact Finset.mem_range.mpr (hb x hx)
  have := Finset.card_le_card hsub
  rwa [List.toFinset_card_of_nodup hn, Finset.card_range] at this

theorem ancestorWalk_ends (g : Graph) (hc : g.closed) (ha : g.acyclic) :
    ∀ (fuel : Nat) (ep : Option Nat) (eps : List Nat),
    eps.Nodup → (∀ x ∈ eps, x < g.length) →
    (∀ p, ep = some p → p < g.length ∧ ∀ x ∈ eps, g.ancestor x p) →
    g.length ≤ fuel + eps.length →
    ∃ cps eps', IGES_ENTITY_126.ancestorWalk g fuel ep eps = some (cps, eps') ∧
      ∀ c, cps = some c → (∃ nd, g[c]? = some nd ∧ nd.entityType = 142) ∧
        ∀ x ∈ eps, g.ancestor x c := by
  intro fuel
  induction fuel with
  | zero =>
    intro ep eps hnd hrange hep hfuel
    cases ep with
    | none => exact ⟨none, eps, by simp [IGES_ENTITY_126.ancestorWalk], by simp⟩
    | some p =>
      exfalso
      obtain ⟨hp, hanc⟩ := hep p rfl
      have hnot : p ∉ eps := fun hmem => ha p (hanc p hmem)
      have := nodup_length_le (p :: eps) g.length (List.nodup_cons.mpr ⟨hnot, hnd⟩)
        (by
          intro x hx
          rcases List.mem_cons.mp hx with rfl | hx
          · exact hp
          · exact hrange x hx)
      simp only [List.length_cons] at this
      omega
  | succ fuel ih =>
    intro ep eps hnd hrange hep hfuel
    cases ep with
    | none => exact ⟨none, eps, by simp [IGES_ENTITY_126.ancestorWalk], by simp⟩
    | some p =>
      obtain ⟨hp, hanc⟩ := hep p rfl
      have hnot : p ∉ eps := fun hmem => ha p (hanc p hmem)
      obtain ⟨nd, hnd'⟩ : ∃ nd, g[p]? = some nd := ⟨g[p], List.getElem?_eq_getElem hp⟩
      unfold IGES_ENTITY_126.ancestorWalk
      simp only [hnd']
      split
      · rename_i h142
        refine ⟨some p, eps, rfl, ?_⟩
        intro c hcq
        simp only [Option.some.injEq] at hcq
        subst hcq
        exact ⟨⟨nd, hnd', h142⟩, hanc⟩
      · have hnd2 : (eps ++ [p]).Nodup := by
          rw [List.nodup_append]
          refine ⟨hnd, List.nodup_singleton p, ?_⟩
          intro x hx hx'
          rw [List.mem_singleton] at hx'
          subst hx'
          exact hnot hx
        have hrange2 : ∀ x ∈ eps ++ [p], x < g.length := by
          intro x hx
          rcases List.mem_append.mp hx with hx | hx
          · exact hrange x hx
          · rw [List.mem_singleton] at hx; subst hx; exact hp
        have hep2 : ∀ q, nd.GetFirstParentRef = some q →
            q < g.length ∧ ∀ x ∈ eps ++ [p], g.ancestor x q := by
          intro q hq
          have hmem : q ∈ nd.refs := List.mem_of_mem_head? hq
          have hpar : g.parentOf p q := ⟨nd, hnd', hmem⟩
          refine ⟨hc p q hpar, ?_⟩
          intro x hx
          rcases List.mem_append.mp hx with hx | hx
          · exact Relation.TransGen.tail (hanc x hx) hpar
          · rw [List.mem_singleton] at hx; subst hx; exact Relation.TransGen.single hpar
        obtain ⟨cps, eps', hw, hcps⟩ := ih nd.GetFirstParentRef (eps ++ [p]) hnd2 hrange2 hep2
          (by simp only [List.length_append, List.length_singleton]; omega)
        refine ⟨cps, eps', hw, ?_⟩
        intro c hcq
        obtain ⟨h1, h2⟩ := hcps c hcq
        exact ⟨h1, fun x hx => h2 x (List.mem_append.mpr (Or.inl hx))⟩
theorem mulAt_spec {cs ds : List ℚ} {j : Nat} {sf : ℚ} (h : mulAt cs j sf = some ds) :
    ds.length = cs.length ∧
    ∀ idx, ds[idx]? = (cs[idx]?).map (fun v => v * (if idx = j then sf else 1)) := by
  unfold mulAt load at h
  split at h
  · contradiction
  rename_i v hv
  unfold store at h
  split at h
  · rename_i hj
    simp only [Option.some.injEq] at h
    subst h
    refine ⟨List.length_set _ _ _, fun idx => ?_⟩
    by_cases hi : idx = j
    · subst hi
      rw [List.getElem?_set_self hj, hv]
      simp
    · rw [List.getElem?_set_ne (Ne.symm hi)]
      cases cs[idx]? <;> simp [hi]
  · contradiction

theorem mulAt_total {cs : List ℚ} {j : Nat} (sf : ℚ) (hj : j < cs.length) :
    ∃ ds, mulAt cs j sf = some ds := by
  unfold mulAt load store
  rw [List.getElem?_eq_getElem hj]
  simp [hj]

theorem scaleLoop_spec (sxy : Bool) (p : Int) (sf : ℚ) (n : Nat) :
    ∀ (j : Nat) (cs ds : List ℚ),
    IGES_ENTITY_126.scaleLoop sxy p sf n j cs = some ds →
    ds.length = cs.length ∧
    ∀ idx, ds[idx]? =
      (cs[idx]?).map (fun v => v * scaleFactor sxy (if p = 0 then 4 else 3) sf n j idx) := by
  induction n with
  | zero =>
    intro j cs ds h
    simp only [IGES_ENTITY_126.scaleLoop, Option.some.injEq] at h
    subst h
    refine ⟨rfl, fun idx => ?_⟩
    cases cs[idx]? <;> simp [scaleFactor]
  | succ n ih =>
    intro j cs ds h
    unfold IGES_ENTITY_126.scaleLoop at h
    split at h
    · contradiction
    rename_i c1 h1
    split at h
    · contradiction
    rename_i c2 h2
    have hstep : (if p = 0 then j + 4 else j + 3) = j + (if p = 0 then 4 else 3) := by
      split <;> rfl
    rw [hstep] at h
    obtain ⟨hl, hk⟩ := ih _ _ _ h
    obtain ⟨hl2, hk2⟩ := mulAt_spec h2
    have hc1 : c1.length = cs.length ∧ ∀ idx, c1[idx]? = (cs[idx]?).map
        (fun v => v * (if idx = j ∨ idx = j + 1 then (if sxy then sf else 1) else 1)) := by
      cases sxy with
      | false =>
        simp only [Bool.false_eq_true, if_false, Option.some.injEq] at h1
        subst h1
        refine ⟨rfl, fun idx => ?_⟩
        cases cs[idx]? <;> simp
      | true =>
        simp only [if_true] at h1
        cases ha : mulAt cs j sf with
        | none => rw [ha] at h1; simp at h1
        | some ca =>
          rw [ha] at h1
          simp only [Option.some_bind] at h1
          obtain ⟨la, ka⟩ := mulAt_spec ha
          obtain ⟨lb, kb⟩ := mulAt_spec h1
          refine ⟨by rw [lb, la], fun idx => ?_⟩
          rw [kb idx, ka idx]
          cases cs[idx]? with
          | none => rfl
          | some v =>
            simp only [Option.map_some', Option.some.injEq, if_true]
            split_ifs <;> first | (exfalso; omega) | ring1
    refine ⟨by rw [hl, hl2, hc1.1], fun idx => ?_⟩
    rw [hk idx, hk2 idx, hc1.2 idx]
    cases cs[idx]? with
    | none => rfl
    | some v =>
      simp only [Option.map_some', Option.some.injEq, scaleFactor]
      generalize scaleFactor sxy (if p = 0 then 4 else 3) sf n
        (j + if p = 0 then 4 else 3) idx = F
      split_ifs <;> first | (exfalso; omega) | ring1

theorem scaleLoop_total (sxy : Bool) (p : Int) (sf : ℚ) (n : Nat) :
    ∀ (j : Nat) (cs : List ℚ), j + (if p = 0 then 4 else 3) * n ≤ cs.length →
    ∃ ds, IGES_ENTITY_126.scaleLoop sxy p sf n j cs = some ds := by
  induction n with
  | zero => intro j cs _; exact ⟨cs, rfl⟩
  | succ n ih =>
    intro j cs hlen
    have h3 : 3 ≤ (if p = 0 then 4 else 3) := by split <;> omega
    have hmul : (if p = 0 then 4 else 3) * (n + 1)
        = (if p = 0 then 4 else 3) * n + (if p = 0 then 4 else 3) := by ring
    have hj2 : j + 2 < cs.length := by omega
    obtain ⟨c1, h1, l1⟩ : ∃ c1, (if sxy = true then
        (mulAt cs j sf).bind (fun cc => mulAt cc (j + 1) sf) else some cs) = some c1 ∧
        c1.length = cs.length := by
      cases sxy with
      | false => exact ⟨cs, by simp, rfl⟩
      | true =>
        obtain ⟨ca, ha⟩ := mulAt_total sf (show j < cs.length by omega)
        obtain ⟨la, -⟩ := mulAt_spec ha
        obtain ⟨cb, hb⟩ := mulAt_total sf (show j + 1 < ca.length by omega)
        obtain ⟨lb, -⟩ := mulAt_spec hb
        exact ⟨cb, by simp [ha, hb], by rw [lb, la]⟩
    obtain ⟨c2, h2⟩ := mulAt_total sf (show j + 2 < c1.length by omega)
    obtain ⟨l2, -⟩ := mulAt_spec h2
    have hstep : (if p = 0 then j + 4 else j + 3) = j + (if p = 0 then 4 else 3) := by
      split <;> rfl
    obtain ⟨ds, hds⟩ := ih (j + (if p = 0 then 4 else 3)) c2 (by rw [l2, l1]; omega)
    refine ⟨ds, ?_⟩
    unfold IGES_ENTITY_126.scaleLoop
    rw [h1]
    simp only [h2, hstep]
    exact hds
theorem scaleFactor_before (sxy : Bool) (step : Nat) (sf : ℚ) (n : Nat) :
    ∀ (j idx : Nat), idx < j → scaleFactor sxy step sf n j idx = 1 := by
  induction n with
  | zero => intro j idx _; rfl
  | succ n ih =>
    intro j idx h
    unfold scaleFactor
    rw [ih (j + step) idx (by omega), if_neg (by omega), if_neg (by omega)]
    ring

theorem scaleFactor_point (sxy : Bool) (step : Nat) (sf : ℚ) (hs : 3 ≤ step) (n : Nat) :
    ∀ (j i d : Nat), i < n → d < 3 →
    scaleFactor sxy step sf n j (j + step * i + d)
      = if d < 2 ∧ sxy = false then 1 else sf := by
  induction n with
  | zero => intro j i d hi; omega
  | succ n ih =>
    intro j i d hi hd
    unfold scaleFactor
    cases i with
    | zero =>
      rw [scaleFactor_before sxy step sf n (j + step) _ (by omega)]
      simp only [Nat.mul_zero, Nat.add_zero, mul_one]
      interval_cases d <;> cases sxy <;> simp
    | succ i =>
      have hidx : j + step * (i + 1) + d = (j + step) + step * i + d := by ring
      rw [hidx, ih (j + step) i d (by omega) hd, if_neg, if_neg, one_mul]
      · have : step ≤ step * (i + 1) := Nat.le_mul_of_pos_right step (by omega)
        have h2 : step * (i + 1) = step + step * i := by ring
        omega
      · have h2 : step * (i + 1) = step + step * i := by ring
        have : 0 ≤ step * i := Nat.zero_le _
        omega

theorem scaleFactor_weight (sxy : Bool) (sf : ℚ) (n : Nat) :
    ∀ (j i : Nat), scaleFactor sxy 4 sf n j (j + 4 * i + 3) = 1 := by
  induction n with
  | zero => intro j i; rfl
  | succ n ih =>
    intro j i
    unfold scaleFactor
    cases i with
    | zero =>
      rw [scaleFactor_before sxy 4 sf n (j + 4) _ (by omega), if_neg (by omega),
        if_neg (by omega)]
      ring
    | succ i =>
      have hidx : j + 4 * (i + 1) + 3 = (j + 4) + 4 * i + 3 := by ring
      rw [hidx, ih (j + 4) i, if_neg (by omega), if_neg (by omega)]
      ring

theorem scaleFactor_inverse (sxy : Bool) (step : Nat) (sf : ℚ) (hsf : sf ≠ 0) (n : Nat) :
    ∀ (j idx : Nat),
    scaleFactor sxy step sf n j idx * scaleFactor sxy step (1 / sf) n j idx = 1 := by
  induction n with
  | zero => intro j idx; simp [scaleFactor]
  | succ n ih =>
    intro j idx
    unfold scaleFactor
    have key := ih (j + step) idx
    generalize scaleFactor sxy step sf n (j + step) idx = A at key ⊢
    generalize scaleFactor sxy step (1 / sf) n (j + step) idx = B at key ⊢
    have hinv : sf * (1 / sf) = 1 := by field_simp
    split_ifs
    · calc sf * A * (1 / sf * B) = (sf * (1 / sf)) * (A * B) := by ring
        _ = 1 := by rw [hinv, key]; ring
    · calc 1 * A * (1 * B) = A * B := by ring
        _ = 1 := key
    · calc sf * A * (1 / sf * B) = (sf * (1 / sf)) * (A * B) := by ring
        _ = 1 := by rw [hinv, key]; ring
    · calc 1 * A * (1 * B) = A * B := by ring
        _ = 1 := key

theorem scaleXY_total {g : Graph} {cps : Option Nat} (eps : List Nat)
    (h : ∀ c, cps = some c → ∃ nd, g[c]? = some nd ∧ nd.entityType = 142) :
    ∃ b, IGES_ENTITY_126.scaleXY g cps eps = some b ∧ (cps = none → b = true) := by
  cases cps with
  | none => exact ⟨true, rfl, fun _ => rfl⟩
  | some c =>
    obtain ⟨nd, hnd, -⟩ := h c rfl
    unfold IGES_ENTITY_126.scaleXY
    simp only [hnd]
    cases nd.BPTR with
    | none => exact ⟨true, rfl, fun hc => by cases hc⟩
    | some b => exact ⟨_, rfl, fun hc => by cases hc⟩

theorem rescale_shape (g : Graph) (self : Nat) (hc : g.closed) (ha : g.acyclic)
    (hself : self < g.length) :
    ∃ sxy : Bool,
      (∀ (e : IGES_ENTITY_126) (sf : ℚ), IGES_ENTITY_126.rescale g self e sf =
        match e.coeffs with
        | none => some (true, e)
        | some cs =>
          match IGES_ENTITY_126.scaleLoop sxy e.PROP3 sf e.nCoeffs.toNat 0 cs with
          | none => none
          | some ds => some (true, { e with coeffs := some ds })) ∧
      ((∀ a nd, g.ancestor self a → g[a]? = some nd → nd.entityType ≠ 142) → sxy = true) := by
  obtain ⟨me, hme⟩ : ∃ me, g[self]? = some me := ⟨g[self], List.getElem?_eq_getElem hself⟩
  have hep : ∀ p, me.GetFirstParentRef = some p →
      p < g.length ∧ ∀ x ∈ [self], g.ancestor x p := by
    intro p hp
    have hpar : g.parentOf self p := ⟨me, hme, List.mem_of_mem_head? hp⟩
    refine ⟨hc self p hpar, ?_⟩
    intro x hx
    rw [List.mem_singleton] at hx
    subst hx
    exact Relation.TransGen.single hpar
  obtain ⟨cps, eps, hw, hcps⟩ := ancestorWalk_ends g hc ha g.length me.GetFirstParentRef
    [self] (List.nodup_singleton self)
    (by intro x hx; rw [List.mem_singleton] at hx; subst hx; exact hself) hep (by simp)
  obtain ⟨b, hb, hnone⟩ := @scaleXY_total g cps eps
    (fun c hcq => (hcps c hcq).1)
  refine ⟨b, ?_, ?_⟩
  · intro e sf
    unfold IGES_ENTITY_126.rescale
    simp only [hme, hw, hb]
  · intro hno
    apply hnone
    cases cps with
    | none => rfl
    | some c =>
      exfalso
      obtain ⟨⟨nd, hnd, h142⟩, hanc⟩ := hcps c rfl
      exact hno c nd (hanc self (List.mem_singleton.mpr rfl)) hnd h142

theorem parentsAboveFrom_spec (len : Nat) (l : List Node) :
    ∀ (i : Nat), parentsAboveFrom len i l = true →
    ∀ (k : Nat) (nd : Node), l[k]? = some nd → ∀ b ∈ nd.refs, i + k < b ∧ b < len := by
  induction l with
  | nil => intro i _ k nd h; simp at h
  | cons hd tl ih =>
    intro i h k nd hk b hb
    simp only [parentsAboveFrom, Bool.and_eq_true, List.all_eq_true, decide_eq_true_eq] at h
    cases k with
    | zero =>
      simp only [List.getElem?_cons_zero, Option.some.injEq] at hk
      subst hk
      simpa using h.1 b hb
    | succ k =>
      simp only [List.getElem?_cons_succ] at hk
      have := ih (i + 1) h.2 k nd hk b hb
      omega

theorem parentsAbove_closed_acyclic (g : Graph) (h : g.parentsAbove = true) :
    g.closed ∧ g.acyclic := by
  have key : ∀ a b, g.parentOf a b → a < b ∧ b < g.length := by
    intro a b hab
    obtain ⟨nd, hnd, hb⟩ := hab
    have := parentsAboveFrom_spec g.length g 0 h a nd hnd b hb
    omega
  refine ⟨fun a b hab => (key a b hab).2, ?_⟩
  have mono : ∀ a b, g.ancestor a b → a < b := by
    intro a b hab
    induction hab with
    | single h1 => exact (key _ _ h1).1
    | tail _ h2 ih => exact lt_trans ih (key _ _ h2).1
  intro a haa
  exact lt_irrefl a (mono a a haa)

theorem scaleFactor_after (sxy : Bool) (step : Nat) (sf : ℚ) (hs : 3 ≤ step) (n : Nat) :
    ∀ (j idx : Nat), j + step * n ≤ idx → scaleFactor sxy step sf n j idx = 1 := by
  induction n with
  | zero => intro j idx _; rfl
  | succ n ih =>
    intro j idx h
    have h2 : step * (n + 1) = step + step * n := by ring
    unfold scaleFactor
    rw [ih (j + step) idx (by omega), if_neg (by omega), if_neg (by omega)]
    ring
/-- C6 at the failing input.  In `Examples.trimmed` the curve at position 0 is a member of the
composite curve 2, which is the `BPTR` of the curve on surface 3, so the composite curve is an
ancestor of the curve; yet `rescale( 25.4 )` multiplies X and Y of both control points, because
the walk follows only the first parent reference, which leads to the associativity 1 and ends
there.  With the two references in the other order the same call leaves X and Y alone. -/
theorem rescale_misses_second_parent :
    Examples.trimmed.ancestor 0 2 ∧
    (Examples.trimmed[3]?).map (fun nd => (nd.entityType, nd.BPTR)) = some (142, some 2) ∧
    IGES_ENTITY_126.rescale Examples.trimmed 0 Examples.uvSegment (127 / 5)
      = some (true, { Examples.uvSegment with
          coeffs := some [127 / 5, 254 / 5, 0, 1, 381 / 5, 508 / 5, 0, 1] }) ∧
    IGES_ENTITY_126.rescale Examples.trimmedSwapped 0 Examples.uvSegment (127 / 5)
      = some (true, Examples.uvSegment) :=
  ⟨Relation.TransGen.single ⟨_, rfl, by decide⟩, by decide, by decide!, by decide!⟩

/-- C7.  On a table without dangling references and without cycles, for a NURBS curve (126) none
of whose ancestors is a Curve on Surface (142): `rescale( sf )` returns true; an entity without
coefficient data is left as it was; otherwise only `coeffs` changes, X, Y and Z of each of the
`nCoeffs` control points are multiplied by `sf`, the weight of each control point of a rational
curve (every fourth entry) keeps its value, and so does every entry past the control points.
Knots, `V0`, `V1`, the normal, `K`, `M` and the flags are fields of the entity other than
`coeffs` and so are unchanged. -/
theorem rescale_without_142 (g : Graph) (self : Nat) (e : IGES_ENTITY_126) (sf : ℚ)
    (hc : g.closed) (ha : g.acyclic) (hself : self < g.length)
    (hno : ∀ a nd, g.ancestor self a → g[a]? = some nd → nd.entityType ≠ 142) :
    (e.coeffs = none → IGES_ENTITY_126.rescale g self e sf = some (true, e)) ∧
    (∀ cs, e.coeffs = some cs → e.stride * e.nCoeffs.toNat ≤ cs.length →
      ∃ ds, IGES_ENTITY_126.rescale g self e sf = some (true, { e with coeffs := some ds }) ∧
        ds.length = cs.length ∧
        (∀ i, i < e.nCoeffs.toNat →
          ds[e.stride * i]? = (cs[e.stride * i]?).map (fun v => v * sf) ∧
          ds[e.stride * i + 1]? = (cs[e.stride * i + 1]?).map (fun v => v * sf) ∧
          ds[e.stride * i + 2]? = (cs[e.stride * i + 2]?).map (fun v => v * sf) ∧
          (e.PROP3 = 0 → ds[4 * i + 3]? = cs[4 * i + 3]?)) ∧
        ∀ idx, e.stride * e.nCoeffs.toNat ≤ idx → ds[idx]? = cs[idx]?) := by
  obtain ⟨sxy, hshape, hsxy⟩ := rescale_shape g self hc ha hself
  have hs := hsxy hno
  subst hs
  constructor
  · intro hnone
    rw [hshape e sf, hnone]
  · intro cs hcs hlen
    have hstride : e.stride = if e.PROP3 = 0 then 4 else 3 := rfl
    have h3 : 3 ≤ e.stride := by rw [hstride]; split <;> omega
    obtain ⟨ds, hds⟩ := scaleLoop_total true e.PROP3 sf e.nCoeffs.toNat 0 cs
      (by rw [← hstride]; omega)
    obtain ⟨hl, hk⟩ := scaleLoop_spec true e.PROP3 sf e.nCoeffs.toNat 0 cs ds hds
    rw [← hstride] at hk
    refine ⟨ds, ?_, hl, ?_, ?_⟩
    · rw [hshape e sf, hcs]
      simp only [hds]
    · intro i hi
      have f0 := scaleFactor_point true e.stride sf h3 e.nCoeffs.toNat 0 i 0 hi (by omega)
      have f1 := scaleFactor_point true e.stride sf h3 e.nCoeffs.toNat 0 i 1 hi (by omega)
      have f2 := scaleFactor_point true e.stride sf h3 e.nCoeffs.toNat 0 i 2 hi (by omega)
      simp only [Nat.zero_add, Nat.add_zero, Bool.true_eq_false, and_false, if_false] at f0 f1 f2
      refine ⟨by rw [hk, f0], by rw [hk, f1], by rw [hk, f2], ?_⟩
      intro hp
      have h4 : e.stride = 4 := by rw [hstride, if_pos hp]
      have fw := scaleFactor_weight true sf e.nCoeffs.toNat 0 i
      rw [Nat.zero_add] at fw
      rw [hk, h4, fw]
      cases cs[4 * i + 3]? <;> simp
    · intro idx hidx
      rw [hk, scaleFactor_after true e.stride sf h3 e.nCoeffs.toNat 0 idx (by omega)]
      cases cs[idx]? <;> simp

/-- Witness of C7: the curve of `Examples.plainComposite`, whose only ancestor is a composite
curve, scaled by 25.4. -/
theorem rescale_without_142_witness :
    ∃ ds, IGES_ENTITY_126.rescale Examples.plainComposite 0 Examples.uvSegment (127 / 5)
        = some (true, { Examples.uvSegment with coeffs := some ds }) ∧
      ds.length = 8 ∧ ds[0]? = some (127 / 5) ∧ ds[3]? = some 1 := by
  have hg := parentsAbove_closed_acyclic Examples.plainComposite (by decide)
  have hno : ∀ a nd, Examples.plainComposite.ancestor 0 a →
      Examples.plainComposite[a]? = some nd → nd.entityType ≠ 142 := by
    intro a nd _ hnd
    match a, hnd with
    | 0, hnd => simp [Examples.plainComposite] at hnd; subst hnd; decide
    | 1, hnd => simp [Examples.plainComposite] at hnd; subst hnd; decide
    | n + 2, hnd => simp [Examples.plainComposite] at hnd
  obtain ⟨ds, hres, hl, hpts, -⟩ := (rescale_without_142 Examples.plainComposite 0
    Examples.uvSegment (127 / 5) hg.1 hg.2 (by decide) hno).2 [1, 2, 0, 1, 3, 4, 0, 1] rfl
    (by decide)
  refine ⟨ds, hres, hl, ?_, ?_⟩
  · have := (hpts 0 (by decide)).1
    simpa using this
  · have := (hpts 0 (by decide)).2.2.2 rfl
    simpa using this

/-- C8 fails in floating point.  The coordinate `2^-540` and the factor `a = 2^-540` are
`double`s, and so is `1/a = 2^540`; `rescale( a )` returns true and leaves 0 in the place of
the coordinate, because the product `2^-1080` lies below half the smallest `double`;
`rescale( 1/a )` returns true and leaves the 0.  The coordinate is then `2^-540` away from its
original value, and 2 ulp of that value are `2^-591`. -/
theorem rescale_round_trip_underflows :
    toDouble (pow2 (-540)) = some (pow2 (-540)) ∧ toDouble (pow2 540) = some (pow2 540) ∧
    1 / pow2 (-540) = pow2 540 ∧
    IGES_ENTITY_126.rescaleDouble Examples.plainComposite 0 Examples.tinySegment (pow2 (-540))
      = some (true, { Examples.tinySegment with coeffs := some [0, 0, 0, 1, 0, 0, 0, 1] }) ∧
    IGES_ENTITY_126.rescaleDouble Examples.plainComposite 0
        { Examples.tinySegment with coeffs := some [0, 0, 0, 1, 0, 0, 0, 1] } (pow2 540)
      = some (true, { Examples.tinySegment with coeffs := some [0, 0, 0, 1, 0, 0, 0, 1] }) ∧
    2 * ulp (pow2 (-540)) = pow2 (-591) ∧
    ¬ |0 - pow2 (-540)| ≤ 2 * ulp (pow2 (-540)) := by
  refine ⟨by decide!, by decide!, by decide!, by decide!, by decide!, by decide!, by decide!⟩

/-- C8, amended.  In exact arithmetic, on a table without dangling references and without
cycles, for every factor `a` other than 0 and every NURBS curve (126) whose coefficient array
holds its `nCoeffs` control points: `rescale( a )` returns true and changes neither the knots
nor, on a rational curve, any weight, and `rescale( 1/a )` applied next, on the same table,
returns true and gives back the entity exactly as it was before the first call, every
coordinate, weight and knot included. -/
theorem rescale_round_trip (g : Graph) (self : Nat) (e : IGES_ENTITY_126) (a : ℚ)
    (hc : g.closed) (hacyc : g.acyclic) (hself : self < g.length) (hne : a ≠ 0)
    (hlen : ∀ cs, e.coeffs = some cs → e.stride * e.nCoeffs.toNat ≤ cs.length) :
    ∃ e1, IGES_ENTITY_126.rescale g self e a = some (true, e1) ∧
      e1.knots = e.knots ∧
      (∀ cs ds, e.coeffs = some cs → e1.coeffs = some ds → e.PROP3 = 0 →
        ∀ i, ds[4 * i + 3]? = cs[4 * i + 3]?) ∧
      IGES_ENTITY_126.rescale g self e1 (1 / a) = some (true, e) := by
  obtain ⟨sxy, hshape, -⟩ := rescale_shape g self hc hacyc hself
  cases hcs : e.coeffs with
  | none =>
    refine ⟨e, ?_, rfl, ?_, ?_⟩
    · rw [hshape e a, hcs]
    · intro cs ds h1; cases h1
    · rw [hshape e (1 / a), hcs]
  | some cs =>
    have hstride : e.stride = if e.PROP3 = 0 then 4 else 3 := rfl
    obtain ⟨ds, hds⟩ := scaleLoop_total sxy e.PROP3 a e.nCoeffs.toNat 0 cs
      (by rw [← hstride]; have := hlen cs hcs; omega)
    obtain ⟨hl, hk⟩ := scaleLoop_spec sxy e.PROP3 a e.nCoeffs.toNat 0 cs ds hds
    obtain ⟨ds2, hds2⟩ := scaleLoop_total sxy e.PROP3 (1 / a) e.nCoeffs.toNat 0 ds
      (by rw [← hstride, hl]; have := hlen cs hcs; omega)
    obtain ⟨hl2, hk2⟩ := scaleLoop_spec sxy e.PROP3 (1 / a) e.nCoeffs.toNat 0 ds ds2 hds2
    have hback : ds2 = cs := by
      apply List.ext_getElem?
      intro idx
      rw [hk2 idx, hk idx]
      cases cs[idx]? with
      | none => rfl
      | some v =>
        simp only [Option.map_some', Option.some.injEq]
        rw [mul_assoc, scaleFactor_inverse sxy _ a hne, mul_one]
    refine ⟨{ e with coeffs := some ds }, ?_, rfl, ?_, ?_⟩
    · rw [hshape e a, hcs]
      simp only [hds]
    · intro cs' ds' h1 h2 hp i
      simp only [Option.some.injEq] at h1 h2
      subst h1 h2
      rw [hk, if_pos hp]
      have fw := scaleFactor_weight sxy a e.nCoeffs.toNat 0 i
      rw [Nat.zero_add] at fw
      rw [fw]
      cases cs[4 * i + 3]? <;> simp
    · rw [hshape _ (1 / a)]
      simp only [hds2, hback]
      congr 2
      cases e
      simp only at hcs
      subst hcs
      rfl

/-- Witness of C8 as amended: the curve of `Examples.trimmed` scaled by 4 and back. -/
theorem rescale_round_trip_witness :
    ∃ e1, IGES_ENTITY_126.rescale Examples.trimmed 0 Examples.uvSegment 4
        = some (true, e1) ∧
      IGES_ENTITY_126.rescale Examples.trimmed 0 e1 (1 / 4)
        = some (true, Examples.uvSegment) := by
  have hg := parentsAbove_closed_acyclic Examples.trimmed (by decide)
  obtain ⟨e1, h1, -, -, h2⟩ := rescale_round_trip Examples.trimmed 0 Examples.uvSegment
    4 hg.1 hg.2 (by decide) (by norm_num)
    (by
      intro cs hcs
      simp only [Examples.uvSegment, Option.some.injEq] at hcs
      subst hcs
      decide)
  exact ⟨e1, h1, h2⟩

theorem resolve_view (self : Nat) (ty : Int) (l : List Int) :
    ∀ (g : Graph) (extras : List Nat) (ok : Bool),
    (IGES_ENTITY_102.resolve self ty l g extras ok).1.length = g.length ∧
    ∀ q : Nat, ((IGES_ENTITY_102.resolve self ty l g extras ok).1[q]?).map Node.view
      = (g[q]?).map Node.view := by
  induction l with
  | nil => intro g extras ok; exact ⟨rfl, fun _ => rfl⟩
  | cons bcur rest ih =>
    intro g extras ok
    unfold IGES_ENTITY_102.resolve
    split
    · split
      · exact ih g extras false
      · rename_i child hchild
        dsimp only
        obtain ⟨hl, hv⟩ := ih (g.set bcur.toNat (child.AddReference self ty).2)
          (extras ++ [bcur.toNat]) (if (child.AddReference self ty).1 = true then ok else false)
        refine ⟨by rw [hl, List.length_set], fun q => ?_⟩
        rw [hv q]
        by_cases hq : bcur.toNat = q
        · subst hq
          rw [List.getElem?_set_self (by
            have := List.getElem?_eq_some_iff.mp hchild
            exact this.1), hchild]
          simp only [Option.map_some', Option.some.injEq, Node.view, Node.AddReference]
          split <;> rfl
        · rw [List.getElem?_set_ne hq]
    · exact ih g extras false

theorem resolve_ok (self : Nat) (ty : Int) (l : List Int) :
    ∀ (g : Graph) (extras : List Nat) (ok : Bool),
    (∀ i ∈ l, 0 ≤ i ∧ i < (g.length : Int) ∧
      ∀ nd, g[i.toNat]? = some nd → ¬ (nd.entityType = 102 ∧ ty = 102)) →
    (IGES_ENTITY_102.resolve self ty l g extras ok).2.2 = ok := by
  induction l with
  | nil => intro g extras ok _; rfl
  | cons bcur rest ih =>
    intro g extras ok h
    obtain ⟨h0, hlt, hacc⟩ := h bcur (List.mem_cons_self _ _)
    have hb : bcur.toNat < g.length := by omega
    unfold IGES_ENTITY_102.resolve
    rw [if_pos ⟨h0, hlt⟩, List.getElem?_eq_getElem hb]
    dsimp only
    have hadd : (g[bcur.toNat].AddReference self ty).1 = true := by
      have := hacc g[bcur.toNat] (List.getElem?_eq_getElem hb)
      unfold Node.AddReference
      rw [if_neg this]
      unfold baseAddReference
      split <;> rfl
    rw [hadd, if_pos rfl]
    apply ih
    intro i hi
    obtain ⟨i0, ilt, iacc⟩ := h i (List.mem_cons_of_mem _ hi)
    refine ⟨i0, by rw [List.length_set]; exact ilt, ?_⟩
    intro nd hnd
    have hi' : i.toNat < g.length := by omega
    by_cases hq : bcur.toNat = i.toNat
    · rw [← hq, List.getElem?_set_self hb] at hnd
      simp only [Option.some.injEq] at hnd
      subst hnd
      have := iacc g[i.toNat] (List.getElem?_eq_getElem hi')
      intro hcon
      apply this
      refine ⟨?_, hcon.2⟩
      have ht : (g[bcur.toNat].AddReference self ty).2.entityType = g[bcur.toNat].entityType := by
        unfold Node.AddReference
        split <;> rfl
      rw [ht] at hcon
      have hidx : g[bcur.toNat] = g[i.toNat] := by
        congr 1
      rw [← hidx]
      exact hcon.1
    · rw [List.getElem?_set_ne hq] at hnd
      exact iacc nd hnd
theorem chain'_iff_getElem? {R : Nat → Nat → Prop} (l : List Nat) :
    List.Chain' R l ↔ ∀ (i a b : Nat), l[i]? = some a → l[i + 1]? = some b → R a b := by
  induction l with
  | nil => simp
  | cons x tl ih =>
    rw [List.chain'_cons', ih]
    constructor
    · intro h i a b ha hb
      cases i with
      | zero =>
        simp only [List.getElem?_cons_zero, Option.some.injEq] at ha
        simp only [List.getElem?_cons_succ] at hb
        subst ha
        apply h.1 b
        rw [List.head?_eq_getElem?]
        exact hb
      | succ i =>
        simp only [List.getElem?_cons_succ] at ha hb
        exact h.2 i a b ha hb
    · intro h
      refine ⟨?_, ?_⟩
      · intro y hy
        rw [List.head?_eq_getElem?] at hy
        exact h 0 x y (by simp) (by simpa using hy)
      · intro i a b ha hb
        exact h (i + 1) a b (by simpa using ha) (by simpa using hb)

theorem lookup_view {g g' : Graph}
    (hv : ∀ q : Nat, (g'[q]?).map Node.view = (g[q]?).map Node.view) (q : Nat) :
    (g[q]? = none ∧ g'[q]? = none) ∨
    ∃ nd nd', g[q]? = some nd ∧ g'[q]? = some nd' ∧ nd'.entityType = nd.entityType ∧
      nd'.startPoint = nd.startPoint ∧ nd'.endPoint = nd.endPoint := by
  have := hv q
  cases h1 : g[q]? with
  | none =>
    cases h2 : g'[q]? with
    | none => exact Or.inl ⟨rfl, rfl⟩
    | some nd' => rw [h1, h2] at this; simp at this
  | some nd =>
    cases h2 : g'[q]? with
    | none => rw [h1, h2] at this; simp at this
    | some nd' =>
      rw [h1, h2] at this
      simp only [Option.map_some', Option.some.injEq, Node.view, Prod.mk.injEq] at this
      exact Or.inr ⟨nd, nd', rfl, rfl, this.1, this.2.1, this.2.2⟩

theorem checkLoop_congr {g g' : Graph}
    (hv : ∀ q : Nat, (g'[q]?).map Node.view = (g[q]?).map Node.view) (dN : ℚ) (nI : Nat) :
    ∀ (l : List Nat) (acc : Nat) (jEnt : Int) (pp : Option Nat) (iEnt : Int) (ok : Bool),
    IGES_ENTITY_102.checkLoop g' dN nI l acc jEnt pp iEnt ok
      = IGES_ENTITY_102.checkLoop g dN nI l acc jEnt pp iEnt ok := by
  intro l
  induction l with
  | nil => intro acc jEnt pp iEnt ok; rfl
  | cons sp rest ih =>
    intro acc jEnt pp iEnt ok
    unfold IGES_ENTITY_102.checkLoop
    rcases lookup_view hv sp with ⟨h1, h2⟩ | ⟨cur, cur', h1, h2, ht, hs, he⟩
    · rw [h1, h2]
    · rw [h1, h2]
      dsimp only
      rw [ht]
      by_cases hacc : acc > 0
      · rw [if_pos hacc, if_pos hacc]
        cases pp with
        | none => rfl
        | some pv =>
          simp only [Option.some_bind]
          rcases lookup_view hv pv with ⟨p1, p2⟩ | ⟨prev, prev', p1, p2, pt, ps, pe⟩
          · rw [p1, p2]
          · rw [p1, p2]
            dsimp only
            have hg : gapSq cur' prev' = gapSq cur prev := by
              unfold gapSq
              rw [hs, pe]
            rw [hg, ih]
      · rw [if_neg hacc, if_neg hacc, ih]

theorem checkLoop_chain (g : Graph) (dN : ℚ) (nI : Nat) :
    ∀ (l : List Nat) (pv : Nat) (prev : Node) (acc : Nat) (iEnt : Int) (ok ok' : Bool)
      (iEnt' : Int),
    0 < acc → g[pv]? = some prev →
    IGES_ENTITY_102.checkLoop g dN nI l acc prev.entityType (some pv) iEnt ok
      = some (ok', iEnt') →
    (ok' = true ↔ ok = true ∧
      (∀ q ∈ l, ∀ nd, g[q]? = some nd → allowedInComposite nd.entityType = true) ∧
      List.Chain (IGES_ENTITY_102.pairOk g dN nI) pv l) ∧
    (l = [] → iEnt' = iEnt) := by
  intro l
  induction l with
  | nil =>
    intro pv prev acc iEnt ok ok' iEnt' _ _ h
    simp only [IGES_ENTITY_102.checkLoop, Option.some.injEq, Prod.mk.injEq] at h
    obtain ⟨rfl, rfl⟩ := h
    simp
  | cons sp rest ih =>
    intro pv prev acc iEnt ok ok' iEnt' hacc hprev h
    unfold IGES_ENTITY_102.checkLoop at h
    cases hcur : g[sp]? with
    | none => rw [hcur] at h; simp at h
    | some cur =>
      rw [hcur] at h
      dsimp only at h
      rw [if_pos hacc] at h
      simp only [Option.some_bind, hprev] at h
      obtain ⟨hiff, -⟩ := ih sp cur (acc + 1) cur.entityType _ ok' iEnt' (Nat.succ_pos _) hcur h
      refine ⟨?_, fun hnil => by cases hnil⟩
      rw [hiff, List.chain_cons]
      have hpair : IGES_ENTITY_102.pairOk g dN nI pv sp ↔
          ¬ ((cur.entityType = 116 ∨ cur.entityType = 132) ∧ prev.entityType = cur.entityType
            ∧ nI ≠ 2) ∧ ¬ (gapSq cur prev > dN) := by
        constructor
        · intro hp; exact hp prev cur hprev hcur
        · intro hp prev2 cur2 h1 h2
          rw [hprev] at h1; rw [hcur] at h2
          cases h1; cases h2
          exact hp
      rw [hpair]
      constructor
      · rintro ⟨h3, hall, hch⟩
        by_cases hg : gapSq cur prev > dN
        · rw [if_pos hg] at h3; cases h3
        rw [if_neg hg] at h3
        by_cases hvio : (cur.entityType = 116 ∨ cur.entityType = 132) ∧ acc > 0 ∧
            prev.entityType = cur.entityType ∧ nI ≠ 2
        · rw [if_pos hvio] at h3; cases h3
        rw [if_neg hvio] at h3
        by_cases hal : (!allowedInComposite cur.entityType) = true
        · rw [if_pos hal] at h3; cases h3
        rw [if_neg hal] at h3
        refine ⟨h3, ?_, ⟨fun hc => hvio ⟨hc.1, hacc, hc.2⟩, hg⟩, hch⟩
        intro q hq nd hnd
        rcases List.mem_cons.mp hq with rfl | hq
        · rw [hcur] at hnd; cases hnd
          simpa using hal
        · exact hall q hq nd hnd
      · rintro ⟨hok, hall, ⟨hvio, hg⟩, hch⟩
        refine ⟨?_, fun q hq => hall q (List.mem_cons_of_mem _ hq), hch⟩
        have hal := hall sp (List.mem_cons_self _ _) cur hcur
        rw [if_neg hg, if_neg (fun hc => hvio ⟨hc.1, hc.2.2⟩), if_neg (by simp [hal])]
        exact hok

theorem checkLoop_total (g : Graph) (dN : ℚ) (nI : Nat) :
    ∀ (l : List Nat) (acc : Nat) (jEnt : Int) (pp : Option Nat) (iEnt : Int) (ok : Bool),
    (∀ q ∈ l, q < g.length) → (0 < acc → ∃ pv, pp = some pv ∧ pv < g.length) →
    ∃ res, IGES_ENTITY_102.checkLoop g dN nI l acc jEnt pp iEnt ok = some res := by
  intro l
  induction l with
  | nil => intro acc jEnt pp iEnt ok _ _; exact ⟨_, rfl⟩
  | cons sp rest ih =>
    intro acc jEnt pp iEnt ok hl hpp
    have hsp : sp < g.length := hl sp (List.mem_cons_self _ _)
    have hrest : ∀ q ∈ rest, q < g.length := fun q hq => hl q (List.mem_cons_of_mem _ hq)
    unfold IGES_ENTITY_102.checkLoop
    rw [List.getElem?_eq_getElem hsp]
    dsimp only
    by_cases hacc : acc > 0
    · obtain ⟨pv, rfl, hpv⟩ := hpp hacc
      rw [if_pos hacc]
      simp only [Option.some_bind, List.getElem?_eq_getElem hpv]
      exact ih _ _ _ _ _ hrest (fun _ => ⟨sp, rfl, hsp⟩)
    · rw [if_neg hacc]
      exact ih _ _ _ _ _ hrest (fun _ => ⟨sp, rfl, hsp⟩)

theorem checkLoop_top (g : Graph) (dN : ℚ) (nI : Nat) (l : List Nat) (ok ok' : Bool)
    (iEnt' : Int)
    (h : IGES_ENTITY_102.checkLoop g dN nI l 0 0 none 0 ok = some (ok', iEnt')) :
    (ok' = true ↔ ok = true ∧
      (∀ q ∈ l, ∀ nd, g[q]? = some nd → allowedInComposite nd.entityType = true) ∧
      List.Chain' (IGES_ENTITY_102.pairOk g dN nI) l) ∧
    (∀ q nd, l = [q] → g[q]? = some nd → iEnt' = nd.entityType) := by
  cases l with
  | nil =>
    simp only [IGES_ENTITY_102.checkLoop, Option.some.injEq, Prod.mk.injEq] at h
    obtain ⟨rfl, rfl⟩ := h
    simp
  | cons sp rest =>
    unfold IGES_ENTITY_102.checkLoop at h
    cases hcur : g[sp]? with
    | none => rw [hcur] at h; simp at h
    | some cur =>
      rw [hcur] at h
      dsimp only at h
      rw [if_neg (by omega)] at h
      obtain ⟨hiff, hnil⟩ := checkLoop_chain g dN nI rest sp cur (0 + 1) cur.entityType _ ok'
        iEnt' (Nat.succ_pos _) hcur h
      refine ⟨?_, ?_⟩
      · rw [hiff]
        simp only [List.Chain']
        constructor
        · rintro ⟨h3, hall, hch⟩
          by_cases hal : (!allowedInComposite cur.entityType) = true
          · rw [if_pos hal] at h3; cases h3
          rw [if_neg hal] at h3
          refine ⟨h3, ?_, hch⟩
          intro q hq nd hnd
          rcases List.mem_cons.mp hq with rfl | hq
          · rw [hcur] at hnd; cases hnd
            simpa using hal
          · exact hall q hq nd hnd
        · rintro ⟨hok, hall, hch⟩
          refine ⟨?_, fun q hq => hall q (List.mem_cons_of_mem _ hq), hch⟩
          have hal := hall sp (List.mem_cons_self _ _) cur hcur
          rw [if_neg (by simp [hal])]
          exact hok
      · intro q nd hq hnd
        simp only [List.cons.injEq] at hq
        obtain ⟨rfl, rfl⟩ := hq
        rw [hcur] at hnd; cases hnd
        exact hnil rfl
theorem associate_shape (baseOk : Bool) (g : Graph) (self : Nat) (e : IGES_ENTITY_102)
    (b : Bool) (e' : IGES_ENTITY_102) (g' : Graph)
    (h : IGES_ENTITY_102.associate baseOk g self e = some (b, e', g')) (hb : baseOk = true) :
    ∃ ok' iEnt',
      IGES_ENTITY_102.checkLoop g e.tolerance e.iCurves.length e.curves 0 0 none 0
        (IGES_ENTITY_102.resolve self e.entityType e.iCurves g e.extras true).2.2
        = some (ok', iEnt') ∧
      b = (if e.curves.length = 1 ∧ (iEnt' = 116 ∨ iEnt' = 132) then false else ok') := by
  unfold IGES_ENTITY_102.associate at h
  rw [hb] at h
  simp only [Bool.not_true, Bool.false_eq_true, if_false] at h
  have hcong := checkLoop_congr
    (resolve_view self e.entityType e.iCurves g e.extras true).2 e.tolerance e.iCurves.length
    e.curves 0 0 none 0
    (IGES_ENTITY_102.resolve self e.entityType e.iCurves g e.extras true).2.2
  have htol : IGES_ENTITY_102.tolerance { e with extras :=
      (IGES_ENTITY_102.resolve self e.entityType e.iCurves g e.extras true).2.1 }
      = e.tolerance := rfl
  rw [htol, hcong] at h
  cases hchk : IGES_ENTITY_102.checkLoop g e.tolerance e.iCurves.length e.curves 0 0 none 0
      (IGES_ENTITY_102.resolve self e.entityType e.iCurves g e.extras true).2.2 with
  | none => rw [hchk] at h; simp at h
  | some res =>
    obtain ⟨ok', iEnt'⟩ := res
    rw [hchk] at h
    simp only [Option.some.injEq, Prod.mk.injEq] at h
    exact ⟨ok', iEnt', rfl, h.1.symm⟩

theorem associate_true_chain (baseOk : Bool) (g : Graph) (self : Nat) (e : IGES_ENTITY_102)
    (e' : IGES_ENTITY_102) (g' : Graph)
    (h : IGES_ENTITY_102.associate baseOk g self e = some (true, e', g')) :
    List.Chain' (IGES_ENTITY_102.pairOk g e.tolerance e.iCurves.length) e.curves := by
  have hb : baseOk = true := by
    cases baseOk with
    | true => rfl
    | false => simp [IGES_ENTITY_102.associate] at h
  obtain ⟨ok', iEnt', hchk, hfin⟩ := associate_shape baseOk g self e true e' g' h hb
  have hok : ok' = true := by
    split at hfin
    · cases hfin
    · exact hfin.symm
  exact ((checkLoop_top g _ _ _ _ _ _ hchk).1.mp hok).2.2

/-- C9.  For a composite curve (102) that passes the other rules of `associate`, the call
returns, and it returns false if and only if for some consecutive members `i`, `i + 1` the
squared distance between the end point of member `i` and the start point of member `i + 1`
exceeds the tolerance, which is `1e-9` without an owning model and the cube of `minResolution`
of the owning model otherwise.  The members are those of the list `curves`, the one the loop
of `associate` and `GetSegment` go through. -/
theorem associate_sequencing (baseOk : Bool) (g : Graph) (self : Nat) (e : IGES_ENTITY_102)
    (h : e.otherRulesPass baseOk g) :
    (∃ b e' g', IGES_ENTITY_102.associate baseOk g self e = some (b, e', g') ∧
      (b = false ↔ e.gapExceeds g e.tolerance)) ∧
    (e.parent = none → e.tolerance = 1 / 1000000000) ∧
    (∀ gd, e.parent = some gd → e.tolerance = gd.minResolution ^ 3) := by
  obtain ⟨hb, hres, hmem, hpt, hsingle⟩ := h
  refine ⟨?_, ?_, ?_⟩
  · have hok := resolve_ok self e.entityType e.iCurves g e.extras true hres
    have hvalid : ∀ q ∈ e.curves, q < g.length := by
      intro q hq
      obtain ⟨nd, hnd, -⟩ := hmem q hq
      exact (List.getElem?_eq_some_iff.mp hnd).1
    obtain ⟨res, hchk⟩ := checkLoop_total g e.tolerance e.iCurves.length e.curves 0 0 none 0
      true hvalid (fun h0 => absurd h0 (Nat.lt_irrefl 0))
    obtain ⟨ok', iEnt'⟩ := res
    obtain ⟨hiff, hlast⟩ := checkLoop_top g _ _ _ _ _ _ hchk
    have hns : ¬ (e.curves.length = 1 ∧ (iEnt' = 116 ∨ iEnt' = 132)) := by
      rintro ⟨hlen, hty⟩
      obtain ⟨q, hq⟩ := List.length_eq_one.mp hlen
      obtain ⟨nd, hnd, -⟩ := hmem q (by rw [hq]; exact List.mem_singleton.mpr rfl)
      have := hlast q nd hq hnd
      rw [this] at hty
      exact hsingle q nd hq hnd hty
    have hcong := checkLoop_congr
      (resolve_view self e.entityType e.iCurves g e.extras true).2 e.tolerance
      e.iCurves.length e.curves 0 0 none 0
      (IGES_ENTITY_102.resolve self e.entityType e.iCurves g e.extras true).2.2
    rw [hok] at hcong
    refine ⟨ok', { e with extras :=
        (IGES_ENTITY_102.resolve self e.entityType e.iCurves g e.extras true).2.1 },
      (IGES_ENTITY_102.resolve self e.entityType e.iCurves g e.extras true).1, ?_, ?_⟩
    · unfold IGES_ENTITY_102.associate
      rw [hb]
      simp only [Bool.not_true, Bool.false_eq_true, if_false]
      have htol : IGES_ENTITY_102.tolerance { e with extras :=
          (IGES_ENTITY_102.resolve self e.entityType e.iCurves g e.extras true).2.1 }
          = e.tolerance := rfl
      rw [htol, hok, hcong, hchk]
      simp only [if_neg hns]
    · have hall : ∀ q ∈ e.curves, ∀ nd, g[q]? = some nd →
          allowedInComposite nd.entityType = true := by
        intro q hq nd hnd
        obtain ⟨nd', hnd', hal⟩ := hmem q hq
        rw [hnd] at hnd'; cases hnd'
        exact hal
      have hch : ok' = true ↔
          List.Chain' (IGES_ENTITY_102.pairOk g e.tolerance e.iCurves.length) e.curves := by
        rw [hiff]
        exact ⟨fun hh => hh.2.2, fun hh => ⟨rfl, hall, hh⟩⟩
      rw [chain'_iff_getElem?] at hch
      constructor
      · intro hf
        by_contra hno
        have : ok' = true := by
          rw [hch]
          intro i qp qc hqp hqc prev cur hp hcu
          refine ⟨hpt i qp qc prev cur hqp hqc hp hcu, ?_⟩
          intro hg
          exact hno ⟨i, qp, qc, prev, cur, hqp, hqc, hp, hcu, hg⟩
        rw [hf] at this
        cases this
      · rintro ⟨i, qp, qc, prev, cur, hqp, hqc, hp, hcu, hg⟩
        cases hok' : ok' with
        | false => rfl
        | true =>
          exfalso
          exact (hch.mp hok' i qp qc hqp hqc prev cur hp hcu).2 hg
  · intro hp
    simp only [IGES_ENTITY_102.tolerance, hp]
  · intro gd hp
    simp only [IGES_ENTITY_102.tolerance, hp]
    ring

/-- Witness of C9: in the model of the second scenario the composite curve of the two lines
passes the other rules and associates (the call returns true); with the end points of the
second line swapped the call returns false. -/
theorem associate_sequencing_witness :
    IGES_ENTITY_102.associate true Examples.polyline 2 (Examples.composite Examples.globals)
      = some (true, { Examples.composite Examples.globals with extras := [0, 1] },
          [Examples.referenced (Examples.line ⟨0, 0, 0⟩ ⟨1, 0, 0⟩),
           Examples.referenced (Examples.line ⟨1, 0, 0⟩ ⟨1, 1, 0⟩), Examples.compositeNode]) ∧
    (∃ b e' g', IGES_ENTITY_102.associate true Examples.polylineSwapped 2
        (Examples.composite Examples.globals) = some (b, e', g') ∧ b = false) := by
  have hrules : (Examples.composite Examples.globals).otherRulesPass true
      Examples.polylineSwapped := by
    refine ⟨rfl, ?_, ?_, ?_, ?_⟩
    · intro i hi
      simp only [Examples.composite, List.mem_cons, List.mem_singleton, List.not_mem_nil,
        or_false] at hi
      rcases hi with rfl | rfl <;>
        exact ⟨by decide, by decide, fun nd hnd hc => by
          simp [Examples.polylineSwapped, Examples.line] at hnd
          subst hnd
          simp at hc⟩
    · intro q hq
      simp only [Examples.composite, List.mem_cons, List.mem_singleton, List.not_mem_nil,
        or_false] at hq
      rcases hq with rfl | rfl <;> exact ⟨_, rfl, by decide⟩
    · intro i qp qc prev cur _ _ _ _ hc
      exact hc.2.2 rfl
    · intro q nd hq
      simp [Examples.composite] at hq
  obtain ⟨⟨b, e2, g2, h2, hiff⟩, -, -⟩ := associate_sequencing true Examples.polylineSwapped 2
    (Examples.composite Examples.globals) hrules
  have hb : b = false := hiff.mpr
    ⟨0, 0, 1, Examples.line ⟨0, 0, 0⟩ ⟨1, 0, 0⟩, Examples.line ⟨1, 1, 0⟩ ⟨1, 0, 0⟩,
      rfl, rfl, rfl, rfl, by decide!⟩
  exact ⟨by decide!, b, e2, g2, h2, hb⟩
/-- C10 fails as stated.  With `minResolution = 4` the composite curve of `Examples.wideGap`
associates (the call returns true), although its second member starts at distance 7 from the
end of the first, which is more than `minResolution`. -/
theorem associate_gap_counterexample :
    IGES_ENTITY_102.associate true Examples.wideGap 2 (Examples.composite Examples.coarse)
      = some (true, { Examples.composite Examples.coarse with extras := [0, 1] },
          [Examples.referenced (Examples.line ⟨0, 0, 0⟩ ⟨1, 0, 0⟩),
           Examples.referenced (Examples.line ⟨8, 0, 0⟩ ⟨9, 0, 0⟩), Examples.compositeNode]) ∧
    (Examples.composite Examples.coarse).parent = some Examples.coarse ∧
    (0 : ℚ) < Examples.coarse.minResolution ∧
    ((Examples.coarse.minResolution : ℚ) : ℝ)
      < Real.sqrt ((gapSq (Examples.line ⟨8, 0, 0⟩ ⟨9, 0, 0⟩)
          (Examples.line ⟨0, 0, 0⟩ ⟨1, 0, 0⟩) : ℚ) : ℝ) := by
  refine ⟨by decide!, rfl, by decide!, ?_⟩
  have hg : gapSq (Examples.line ⟨8, 0, 0⟩ ⟨9, 0, 0⟩) (Examples.line ⟨0, 0, 0⟩ ⟨1, 0, 0⟩)
      = 49 := by decide!
  have hm : Examples.coarse.minResolution = 4 := rfl
  rw [hg, hm, Real.lt_sqrt (by norm_num)]
  norm_num

/-- C10, amended.  For every composite curve (102) on which `associate` returned true and every
pair of consecutive members, the squared distance between the start point of the later member
and the end point of the earlier one is at most the tolerance of `associate`, which for a
curve owned by a model is the cube of `minResolution`; hence the distance itself is at most
`minResolution` whenever `0 < minResolution <= 1`. -/
theorem associate_gap_bound (baseOk : Bool) (g : Graph) (self : Nat) (e e' : IGES_ENTITY_102)
    (g' : Graph) (h : IGES_ENTITY_102.associate baseOk g self e = some (true, e', g'))
    (i qp qc : Nat) (prev cur : Node)
    (hqp : e.curves[i]? = some qp) (hqc : e.curves[i + 1]? = some qc)
    (hp : g[qp]? = some prev) (hcu : g[qc]? = some cur) :
    gapSq cur prev ≤ e.tolerance ∧
    ∀ gd, e.parent = some gd →
      gapSq cur prev ≤ gd.minResolution ^ 3 ∧
      (0 < gd.minResolution → gd.minResolution ≤ 1 →
        Real.sqrt ((gapSq cur prev : ℚ) : ℝ) ≤ ((gd.minResolution : ℚ) : ℝ)) := by
  have hch := associate_true_chain baseOk g self e e' g' h
  rw [chain'_iff_getElem?] at hch
  have hle : gapSq cur prev ≤ e.tolerance :=
    not_lt.mp (hch i qp qc hqp hqc prev cur hp hcu).2
  refine ⟨hle, fun gd hgd => ?_⟩
  have ht : e.tolerance = gd.minResolution ^ 3 := by
    simp only [IGES_ENTITY_102.tolerance, hgd]
    ring
  rw [ht] at hle
  refine ⟨hle, fun h0 h1 => ?_⟩
  rw [Real.sqrt_le_left (by exact_mod_cast h0.le)]
  have h32 : gd.minResolution ^ 3 ≤ gd.minResolution ^ 2 := by
    have : gd.minResolution ^ 3 = gd.minResolution ^ 2 * gd.minResolution := by ring
    rw [this]
    calc gd.minResolution ^ 2 * gd.minResolution ≤ gd.minResolution ^ 2 * 1 :=
          mul_le_mul_of_nonneg_left h1 (sq_nonneg _)
      _ = gd.minResolution ^ 2 := by ring
  exact_mod_cast le_trans hle h32

/-- Witness of C10 as amended: in the model of the second scenario, whose `minResolution` is one
thousandth, the second line starts within that distance of the end of the first. -/
theorem associate_gap_bound_witness :
    IGES_ENTITY_102.associate true Examples.polyline 2 (Examples.composite Examples.globals)
      = some (true, { Examples.composite Examples.globals with extras := [0, 1] },
          [Examples.referenced (Examples.line ⟨0, 0, 0⟩ ⟨1, 0, 0⟩),
           Examples.referenced (Examples.line ⟨1, 0, 0⟩ ⟨1, 1, 0⟩), Examples.compositeNode]) ∧
    Real.sqrt ((gapSq (Examples.line ⟨1, 0, 0⟩ ⟨1, 1, 0⟩)
        (Examples.line ⟨0, 0, 0⟩ ⟨1, 0, 0⟩) : ℚ) : ℝ)
      ≤ ((Examples.globals.minResolution : ℚ) : ℝ) := by
  have hres : IGES_ENTITY_102.associate true Examples.polyline 2
      (Examples.composite Examples.globals)
      = some (true, { Examples.composite Examples.globals with extras := [0, 1] },
          [Examples.referenced (Examples.line ⟨0, 0, 0⟩ ⟨1, 0, 0⟩),
           Examples.referenced (Examples.line ⟨1, 0, 0⟩ ⟨1, 1, 0⟩), Examples.compositeNode]) := by
    decide!
  refine ⟨hres, ?_⟩
  exact ((associate_gap_bound true Examples.polyline 2 (Examples.composite Examples.globals)
    _ _ hres 0 0 1 (Examples.line ⟨0, 0, 0⟩ ⟨1, 0, 0⟩) (Examples.line ⟨1, 0, 0⟩ ⟨1, 1, 0⟩)
    rfl rfl rfl rfl).2 Examples.globals rfl).2 (by decide!) (by decide!)

theorem associate_eq (g : Graph) (self : Nat) (e : IGES_ENTITY_102)
    (hvalid : ∀ q ∈ e.curves, q < g.length) :
    ∃ ok' iEnt',
      IGES_ENTITY_102.checkLoop g e.tolerance e.iCurves.length e.curves 0 0 none 0
        (IGES_ENTITY_102.resolve self e.entityType e.iCurves g e.extras true).2.2
        = some (ok', iEnt') ∧
      IGES_ENTITY_102.associate true g self e
        = some ((if e.curves.length = 1 ∧ (iEnt' = 116 ∨ iEnt' = 132) then false else ok'),
            { e with extras :=
                (IGES_ENTITY_102.resolve self e.entityType e.iCurves g e.extras true).2.1 },
            (IGES_ENTITY_102.resolve self e.entityType e.iCurves g e.extras true).1) := by
  obtain ⟨res, hchk⟩ := checkLoop_total g e.tolerance e.iCurves.length e.curves 0 0 none 0
    (IGES_ENTITY_102.resolve self e.entityType e.iCurves g e.extras true).2.2 hvalid
    (fun h0 => absurd h0 (Nat.lt_irrefl 0))
  obtain ⟨ok', iEnt'⟩ := res
  refine ⟨ok', iEnt', hchk, ?_⟩
  have hcong := checkLoop_congr
    (resolve_view self e.entityType e.iCurves g e.extras true).2 e.tolerance
    e.iCurves.length e.curves 0 0 none 0
    (IGES_ENTITY_102.resolve self e.entityType e.iCurves g e.extras true).2.2
  unfold IGES_ENTITY_102.associate
  simp only [Bool.not_true, Bool.false_eq_true, if_false]
  have htol : IGES_ENTITY_102.tolerance { e with extras :=
      (IGES_ENTITY_102.resolve self e.entityType e.iCurves g e.extras true).2.1 }
      = e.tolerance := rfl
  rw [htol, hcong, hchk]

/-- C11 fails on the code.  `associate` pushes the resolved children onto `extras`, not onto
`curves`: whatever the entity and the table, the list of members after the call is the list
before it; and for a composite curve whose parameter data listed the in-range indices 0 and 1
the call returns true and both children have received the reference, but `GetNSegments()` is
0, not 2, and `GetSegment( 0 )` is the NULL pointer, not the entity at index 0. -/
theorem associate_fills_extras_not_curves :
    (∀ (baseOk : Bool) (g : Graph) (self : Nat) (e : IGES_ENTITY_102),
      (IGES_ENTITY_102.associate baseOk g self e).map (fun r => r.2.1.curves)
        = (IGES_ENTITY_102.associate baseOk g self e).map (fun _ => e.curves)) ∧
    ∃ e' g', IGES_ENTITY_102.associate true Examples.polyline 2 (Examples.listed Examples.globals)
        = some (true, e', g') ∧
      (Examples.listed Examples.globals).iCurves = [0, 1] ∧
      g' = [Examples.referenced (Examples.line ⟨0, 0, 0⟩ ⟨1, 0, 0⟩),
            Examples.referenced (Examples.line ⟨1, 0, 0⟩ ⟨1, 1, 0⟩), Examples.compositeNode] ∧
      e'.extras = [0, 1] ∧ e'.GetNSegments = 0 ∧ e'.GetSegment 0 = none := by
  refine ⟨?_, { Examples.listed Examples.globals with extras := [0, 1] }, _, by decide!, rfl,
    rfl, rfl, rfl, rfl⟩
  intro baseOk g self e
  unfold IGES_ENTITY_102.associate
  split
  · rfl
  · dsimp only
    split <;> rfl

/-- C13.  `associate` on a composite curve (102) whose list of members consists of exactly one
member, a point (116) or a connect point (132), returns, and it returns false. -/
theorem associate_rejects_single_point (baseOk : Bool) (g : Graph) (self : Nat)
    (e : IGES_ENTITY_102) (q : Nat) (nd : Node)
    (hq : e.curves = [q]) (hnd : g[q]? = some nd)
    (hty : nd.entityType = 116 ∨ nd.entityType = 132) :
    ∃ e' g', IGES_ENTITY_102.associate baseOk g self e = some (false, e', g') := by
  cases baseOk with
  | false => exact ⟨e, g, by simp [IGES_ENTITY_102.associate]⟩
  | true =>
    have hvalid : ∀ r ∈ e.curves, r < g.length := by
      intro r hr
      rw [hq, List.mem_singleton] at hr
      subst hr
      exact (List.getElem?_eq_some_iff.mp hnd).1
    obtain ⟨ok', iEnt', hchk, hassoc⟩ := associate_eq g self e hvalid
    have hlast := (checkLoop_top g _ _ _ _ _ _ hchk).2 q nd hq hnd
    have hsingle : e.curves.length = 1 ∧ (iEnt' = 116 ∨ iEnt' = 132) := by
      refine ⟨by rw [hq]; rfl, ?_⟩
      rw [hlast]
      exact hty
    rw [if_pos hsingle] at hassoc
    exact ⟨_, _, hassoc⟩

/-- Witness of C13: a composite curve whose only member is a point. -/
theorem associate_rejects_single_point_witness :
    ∃ e' g', IGES_ENTITY_102.associate true Examples.onePoint 1
      (Examples.single Examples.globals) = some (false, e', g') :=
  associate_rejects_single_point true Examples.onePoint 1 (Examples.single Examples.globals) 0
    (Examples.point ⟨1, 0, 0⟩) rfl rfl (Or.inl rfl)

theorem AddReference_node_type (child : Node) (p : Nat) (ty : Int) :
    (child.AddReference p ty).2.entityType = child.entityType := by
  unfold Node.AddReference
  split <;> rfl

theorem AddReference_node_keeps (child : Node) (p : Nat) (ty : Int) (r : Nat)
    (hr : r ∈ child.refs) : r ∈ (child.AddReference p ty).2.refs := by
  unfold Node.AddReference
  split
  · exact hr
  · unfold baseAddReference
    split
    · exact hr
    · exact List.mem_append_left _ hr

theorem AddReference_node_adds (child : Node) (p : Nat) (ty : Int)
    (h : ¬ (child.entityType = 102 ∧ ty = 102)) :
    (child.AddReference p ty).1 = true ∧ p ∈ (child.AddReference p ty).2.refs := by
  unfold Node.AddReference
  rw [if_neg h]
  unfold baseAddReference
  split
  · rename_i hc
    exact ⟨rfl, by simpa using hc⟩
  · exact ⟨rfl, by simp⟩

theorem AddReference_node_refused (child : Node) (p : Nat) (ty : Int)
    (h : child.entityType = 102 ∧ ty = 102) :
    (child.AddReference p ty).1 = false := by
  unfold Node.AddReference
  rw [if_pos h]

theorem resolve_false (self : Nat) (ty : Int) (l : List Int) :
    ∀ (g : Graph) (extras : List Nat),
    (IGES_ENTITY_102.resolve self ty l g extras false).2.2 = false := by
  induction l with
  | nil => intro g extras; rfl
  | cons bcur rest ih =>
    intro g extras
    unfold IGES_ENTITY_102.resolve
    split
    · split
      · exact ih g extras
      · dsimp only
        simp only [ite_self]
        exact ih _ _
    · exact ih g extras

theorem resolve_true_imp (self : Nat) (ty : Int) (l : List Int) :
    ∀ (g : Graph) (extras : List Nat) (ok : Bool),
    (IGES_ENTITY_102.resolve self ty l g extras ok).2.2 = true →
    ok = true ∧ ∀ i ∈ l, 0 ≤ i ∧ i < (g.length : Int) ∧
      ∀ nd, g[i.toNat]? = some nd → ¬ (nd.entityType = 102 ∧ ty = 102) := by
  induction l with
  | nil =>
    intro g extras ok h
    exact ⟨h, fun i hi => absurd hi (List.not_mem_nil _)⟩
  | cons bcur rest ih =>
    intro g extras ok h
    unfold IGES_ENTITY_102.resolve at h
    by_cases hr : 0 ≤ bcur ∧ bcur < (g.length : Int)
    · rw [if_pos hr] at h
      have hb : bcur.toNat < g.length := by omega
      rw [List.getElem?_eq_getElem hb] at h
      dsimp only at h
      obtain ⟨hok, hrest⟩ := ih _ _ _ h
      have hacc : ¬ (g[bcur.toNat].entityType = 102 ∧ ty = 102) := by
        intro hc
        rw [AddReference_node_refused _ _ _ hc] at hok
        simp at hok
      rw [(AddReference_node_adds g[bcur.toNat] self ty hacc).1] at hok
      simp only [if_true] at hok
      refine ⟨hok, ?_⟩
      intro i hi
      rcases List.mem_cons.mp hi with rfl | hi
      · refine ⟨hr.1, hr.2, ?_⟩
        intro nd hnd
        rw [List.getElem?_eq_getElem hb] at hnd
        cases hnd
        exact hacc
      · obtain ⟨i0, ilt, iacc⟩ := hrest i hi
        rw [List.length_set] at ilt
        refine ⟨i0, ilt, ?_⟩
        intro nd hnd
        by_cases hq : bcur.toNat = i.toNat
        · have hnd' : nd = g[bcur.toNat] := by
            rw [← hq, List.getElem?_eq_getElem hb] at hnd
            cases hnd
            rfl
          have := iacc (g[bcur.toNat].AddReference self ty).2
            (by rw [← hq, List.getElem?_set_self hb])
          rw [AddReference_node_type] at this
          rw [hnd']
          exact this
        · exact iacc nd (by rw [List.getElem?_set_ne hq]; exact hnd)
    · rw [if_neg hr] at h
      rw [resolve_false] at h
      cases h

theorem resolve_keeps (self : Nat) (ty : Int) (l : List Int) :
    ∀ (g : Graph) (extras : List Nat) (ok : Bool) (q : Nat) (nd : Node),
    g[q]? = some nd →
    ∃ nd', (IGES_ENTITY_102.resolve self ty l g extras ok).1[q]? = some nd' ∧
      nd'.entityType = nd.entityType ∧ ∀ r ∈ nd.refs, r ∈ nd'.refs := by
  induction l with
  | nil => intro g extras ok q nd h; exact ⟨nd, h, rfl, fun _ hr => hr⟩
  | cons bcur rest ih =>
    intro g extras ok q nd h
    unfold IGES_ENTITY_102.resolve
    split
    · split
      · exact ih g extras false q nd h
      · rename_i child hchild
        dsimp only
        have hb : bcur.toNat < g.length := (List.getElem?_eq_some_iff.mp hchild).1
        by_cases hq : bcur.toNat = q
        · subst hq
          rw [hchild] at h
          cases h
          obtain ⟨nd', h1, h2, h3⟩ := ih (g.set bcur.toNat (nd.AddReference self ty).2)
            (extras ++ [bcur.toNat]) (if (nd.AddReference self ty).1 = true then ok else false)
            bcur.toNat (nd.AddReference self ty).2 (List.getElem?_set_self hb)
          refine ⟨nd', h1, ?_, ?_⟩
          · rw [h2, AddReference_node_type]
          · intro r hr
            exact h3 r (AddReference_node_keeps _ _ _ r hr)
        · exact ih _ _ _ q nd (by rw [List.getElem?_set_ne hq]; exact h)
    · exact ih g extras false q nd h

theorem resolve_refs (self : Nat) (ty : Int) (l : List Int) :
    ∀ (g : Graph) (extras : List Nat) (ok : Bool),
    ∀ i ∈ l, 0 ≤ i → ∀ nd, g[i.toNat]? = some nd → ¬ (nd.entityType = 102 ∧ ty = 102) →
    ∃ nd', (IGES_ENTITY_102.resolve self ty l g extras ok).1[i.toNat]? = some nd' ∧
      self ∈ nd'.refs := by
  induction l with
  | nil => intro g extras ok i hi; exact absurd hi (List.not_mem_nil _)
  | cons bcur rest ih =>
    intro g extras ok i hi i0 nd hnd hacc
    have hlt : i.toNat < g.length := (List.getElem?_eq_some_iff.mp hnd).1
    by_cases hr : 0 ≤ bcur ∧ bcur < (g.length : Int)
    · have hb : bcur.toNat < g.length := by omega
      unfold IGES_ENTITY_102.resolve
      rw [if_pos hr, List.getElem?_eq_getElem hb]
      dsimp only
      by_cases hq : bcur.toNat = i.toNat
      · have hnd' : g[bcur.toNat] = nd := by
          rw [← hq, List.getElem?_eq_getElem hb] at hnd
          cases hnd
          rfl
        obtain ⟨nd', h1, -, h3⟩ := resolve_keeps self ty rest
          (g.set bcur.toNat (g[bcur.toNat].AddReference self ty).2)
          (extras ++ [bcur.toNat])
          (if (g[bcur.toNat].AddReference self ty).1 = true then ok else false)
          bcur.toNat (g[bcur.toNat].AddReference self ty).2 (List.getElem?_set_self hb)
        refine ⟨nd', by rw [← hq]; exact h1, ?_⟩
        apply h3
        rw [hnd']
        exact (AddReference_node_adds nd self ty hacc).2
      · rcases List.mem_cons.mp hi with rfl | hi
        · exact absurd rfl hq
        · exact ih _ _ _ i hi i0 nd (by rw [List.getElem?_set_ne hq]; exact hnd) hacc
    · unfold IGES_ENTITY_102.resolve
      rw [if_neg hr]
      rcases List.mem_cons.mp hi with rfl | hi
      · exact absurd ⟨i0, by omega⟩ hr
      · exact ih _ _ _ i hi i0 nd hnd hacc

theorem resolve_extras (self : Nat) (ty : Int) (l : List Int) :
    ∀ (g : Graph) (extras : List Nat) (ok : Bool),
    (IGES_ENTITY_102.resolve self ty l g extras ok).2.1
      = extras ++ (l.filter (fun i => decide (0 ≤ i ∧ i < (g.length : Int)))).map Int.toNat := by
  induction l with
  | nil => intro g extras ok; simp [IGES_ENTITY_102.resolve]
  | cons bcur rest ih =>
    intro g extras ok
    by_cases hr : 0 ≤ bcur ∧ bcur < (g.length : Int)
    · have hb : bcur.toNat < g.length := by omega
      unfold IGES_ENTITY_102.resolve
      rw [if_pos hr, List.getElem?_eq_getElem hb]
      dsimp only
      rw [ih, List.length_set, List.filter_cons_of_pos (by simpa using hr)]
      simp
    · unfold IGES_ENTITY_102.resolve
      rw [if_neg hr, ih, List.filter_cons_of_neg (by simpa using hr)]

theorem associate_false_of_loop (g : Graph) (self : Nat) (e : IGES_ENTITY_102)
    (hvalid : ∀ q ∈ e.curves, q < g.length)
    (hno : ¬ ((IGES_ENTITY_102.resolve self e.entityType e.iCurves g e.extras true).2.2 = true ∧
      (∀ q ∈ e.curves, ∀ nd, g[q]? = some nd → allowedInComposite nd.entityType = true) ∧
      List.Chain' (IGES_ENTITY_102.pairOk g e.tolerance e.iCurves.length) e.curves)) :
    ∃ e' g', IGES_ENTITY_102.associate true g self e = some (false, e', g') := by
  obtain ⟨ok', iEnt', hchk, hassoc⟩ := associate_eq g self e hvalid
  have hiff := (checkLoop_top g _ _ _ _ _ _ hchk).1
  have hok : ok' = false := by
    cases hok' : ok' with
    | false => rfl
    | true => exact absurd (hiff.mp hok') hno
  rw [hok] at hassoc
  simp only [ite_self] at hassoc
  exact ⟨_, _, hassoc⟩

/-- Claim C12.  `associate` on a composite curve (102) returns, and it returns false, whenever
two consecutive members of its segment list are two points (116) or two connect points
(132), whatever the entity-use flag and the number of members.  This holds in every state in
which `iCurves` does not hold exactly two indices; `iCurves` is empty after the constructor
and no code of the three files writes it.  The member pointers are taken to lie in the
table. -/
theorem associate_rejects_consecutive_points (baseOk : Bool) (g : Graph) (self : Nat)
    (e : IGES_ENTITY_102) (hvalid : ∀ q ∈ e.curves, q < g.length)
    (hI : e.iCurves.length ≠ 2)
    (i qp qc : Nat) (prev cur : Node)
    (hqp : e.curves[i]? = some qp) (hqc : e.curves[i + 1]? = some qc)
    (hp : g[qp]? = some prev) (hcu : g[qc]? = some cur)
    (hty : cur.entityType = 116 ∨ cur.entityType = 132)
    (hsame : prev.entityType = cur.entityType) :
    ∃ e' g', IGES_ENTITY_102.associate baseOk g self e = some (false, e', g') := by
  cases baseOk with
  | false => exact ⟨e, g, by simp [IGES_ENTITY_102.associate]⟩
  | true =>
    apply associate_false_of_loop g self e hvalid
    rintro ⟨-, -, hch⟩
    rw [chain'_iff_getElem?] at hch
    exact (hch i qp qc hqp hqc prev cur hp hcu).1 ⟨hty, hsame, hI⟩

/-- Witness of C12: two points (116) at the same place are the only two members of a composite
curve built through its interface, so that `iCurves` is empty; `associate` returns false. -/
theorem associate_rejects_consecutive_points_witness :
    ∃ e' g', IGES_ENTITY_102.associate true Examples.twoPoints 2
      { IGES_ENTITY_102.new (some Examples.globals) with curves := [0, 1] }
      = some (false, e', g') :=
  associate_rejects_consecutive_points true Examples.twoPoints 2
    { IGES_ENTITY_102.new (some Examples.globals) with curves := [0, 1] }
    (by
      intro q hq
      simp only [IGES_ENTITY_102.new, List.mem_cons, List.mem_singleton, List.not_mem_nil,
        or_false] at hq
      rcases hq with rfl | rfl <;> decide)
    (by decide) 0 0 1 (Examples.point ⟨1, 0, 0⟩) (Examples.point ⟨1, 0, 0⟩) rfl rfl rfl rfl
    (Or.inl rfl) rfl

/-- C14.  `associate` on a composite curve (102) returns, and it returns false, whenever one of
its child indices resolves to an entity of type 102, and whenever one of its members has a type
outside `{100, 104, 106, 110, 112, 116, 126, 132}`.  The member pointers are taken to lie in
the entity table. -/
theorem associate_rejects_member_types (baseOk : Bool) (g : Graph) (self : Nat)
    (e : IGES_ENTITY_102) (htype : e.entityType = 102)
    (hvalid : ∀ q ∈ e.curves, q < g.length) :
    (∀ i ∈ e.iCurves, 0 ≤ i → ∀ nd, g[i.toNat]? = some nd → nd.entityType = 102 →
      ∃ e' g', IGES_ENTITY_102.associate baseOk g self e = some (false, e', g')) ∧
    (∀ q ∈ e.curves, ∀ nd, g[q]? = some nd →
      nd.entityType ∉ ([100, 104, 106, 110, 112, 116, 126, 132] : List Int) →
      ∃ e' g', IGES_ENTITY_102.associate baseOk g self e = some (false, e', g')) := by
  cases baseOk with
  | false =>
    exact ⟨fun _ _ _ _ _ _ => ⟨e, g, by simp [IGES_ENTITY_102.associate]⟩,
      fun _ _ _ _ _ => ⟨e, g, by simp [IGES_ENTITY_102.associate]⟩⟩
  | true =>
    refine ⟨?_, ?_⟩
    · intro i hi i0 nd hnd hty
      apply associate_false_of_loop g self e hvalid
      rintro ⟨hres, -, -⟩
      exact ((resolve_true_imp self e.entityType e.iCurves g e.extras true hres).2 i hi).2.2
        nd hnd ⟨hty, htype⟩
    · intro q hq nd hnd hty
      apply associate_false_of_loop g self e hvalid
      rintro ⟨-, hall, -⟩
      have hal := hall q hq nd hnd
      apply hty
      simp only [allowedInComposite, ne_eq, Bool.not_eq_true', decide_eq_false_iff_not,
        not_and, not_not] at hal
      simp only [List.mem_cons, List.mem_singleton, List.not_mem_nil, or_false]
      by_contra hcon
      simp only [not_or] at hcon
      obtain ⟨h1, h2, h3, h4, h5, h6, h7, h8⟩ := hcon
      exact h3 (hal h1 h2 h4 h5 h6 h7 h8)

/-- Witness of C14: a composite curve that lists a composite curve as a child, and a composite
curve that has a transformation matrix (124) as a member. -/
theorem associate_rejects_member_types_witness :
    (∃ e' g', IGES_ENTITY_102.associate true Examples.nestedTable 2
      (Examples.nested Examples.globals) = some (false, e', g')) ∧
    (∃ e' g', IGES_ENTITY_102.associate true Examples.nestedTable 2
      (Examples.withMatrix Examples.globals) = some (false, e', g')) ∧
    (Examples.nestedTable[0]?).map Node.entityType = some 102 ∧
    (Examples.nestedTable[1]?).map Node.entityType = some 124 := by
  have h1 := associate_rejects_member_types true Examples.nestedTable 2
    (Examples.nested Examples.globals) rfl (fun q hq => absurd hq (List.not_mem_nil _))
  have h2 := associate_rejects_member_types true Examples.nestedTable 2
    (Examples.withMatrix Examples.globals) rfl
    (by
      intro q hq
      simp only [Examples.withMatrix, List.mem_singleton] at hq
      subst hq
      decide)
  exact ⟨h1.1 0 (List.mem_singleton.mpr rfl) (le_refl 0) Examples.compositeNode rfl rfl,
    h2.2 1 (List.mem_singleton.mpr rfl) Examples.matrix rfl (by decide), rfl, rfl⟩

/-- C15.  `AddReference` on a composite curve (102) returns false and leaves the entity, its
list `refs` included, unchanged for a null parent and for a parent of type 102; for every other
parent it returns what the base class `AddReference` returns and leaves `refs` as the base
class leaves it. -/
theorem AddReference_refuses_composite_parent (e : IGES_ENTITY_102) (p : Option Nat)
    (ty : Int) :
    ((p = none ∨ ty = 102) →
      e.AddReference p ty = (false, e) ∧ (e.AddReference p ty).2.refs = e.refs) ∧
    (p ≠ none → ty ≠ 102 →
      e.AddReference p ty = ((baseAddReferencePtr e.refs p).1,
        { e with refs := (baseAddReferencePtr e.refs p).2 })) := by
  refine ⟨?_, ?_⟩
  · intro h
    have : e.AddReference p ty = (false, e) := by
      unfold IGES_ENTITY_102.AddReference
      rcases h with h | h
      · subst h; rfl
      · cases p with
        | none => rfl
        | some q => dsimp only; rw [if_pos h]
    rw [this]
    exact ⟨rfl, rfl⟩
  · intro hp hty
    cases p with
    | none => exact absurd rfl hp
    | some q =>
      unfold IGES_ENTITY_102.AddReference
      dsimp only
      rw [if_neg hty]

/-- Witness of C15: a composite curve with one parent refuses the composite curve at position
5 and takes the parent of type 144 at position 7. -/
theorem AddReference_refuses_composite_parent_witness :
    { IGES_ENTITY_102.new none with refs := [3] }.AddReference (some 5) 102
      = (false, { IGES_ENTITY_102.new none with refs := [3] }) ∧
    { IGES_ENTITY_102.new none with refs := [3] }.AddReference (some 7) 144
      = (true, { IGES_ENTITY_102.new none with refs := [3, 7] }) := by
  refine ⟨((AddReference_refuses_composite_parent
    { IGES_ENTITY_102.new none with refs := [3] } (some 5) 102).1 (Or.inr rfl)).1, ?_⟩
  rw [(AddReference_refuses_composite_parent
    { IGES_ENTITY_102.new none with refs := [3] } (some 7) 144).2 (by simp) (by decide)]
  decide

theorem erase_append_self (refs : List Nat) (p : Nat) (h : p ∉ refs) :
    (refs ++ [p]).erase p = refs := by
  rw [List.erase_append_right _ h]
  simp

theorem baseAddReference_fresh (refs : List Nat) (p : Nat) (h : p ∉ refs) :
    baseAddReference refs p = (true, refs ++ [p]) := by
  unfold baseAddReference
  rw [if_neg (by simpa using h)]

theorem baseAddReference_present (refs : List Nat) (p : Nat) (h : p ∈ refs) :
    baseAddReference refs p = (true, refs) := by
  unfold baseAddReference
  rw [if_pos (by simpa using h)]

theorem baseDelReference_absent (refs : List Nat) (p : Nat) (h : p ∉ refs) :
    baseDelReference refs (some p) = (false, refs) := by
  unfold baseDelReference
  dsimp only
  rw [if_neg (by simpa using h)]

theorem baseDelReference_last (refs : List Nat) (p : Nat) (h : p ∉ refs) :
    baseDelReference (refs ++ [p]) (some p) = (true, refs) := by
  unfold baseDelReference
  dsimp only
  rw [if_pos (by simp), erase_append_self refs p h]

/-- C16 fails as stated.  `AddReference` of entities 100 and 102 has one argument and returns
only a `bool`: the second call with the same parent returns true, as the first one did, and
nothing reports the duplicate. -/
theorem second_reference_unreported :
    (IGES_ENTITY_100.new.AddReference (some 7)).1 = true ∧
    ((IGES_ENTITY_100.new.AddReference (some 7)).2.AddReference (some 7)).1 = true ∧
    ((IGES_ENTITY_102.new none).AddReference (some 7) 144).1 = true ∧
    (((IGES_ENTITY_102.new none).AddReference (some 7) 144).2.AddReference (some 7) 144).1
      = true := by
  decide

/-- C16, amended.  On entities 100, 102 and 126, for every parent `p` not in `refs`:
`AddReference( p )` followed by `DelReference( p )` leaves the entity as it was; a second
`AddReference( p )` leaves the entity as the first call left it, so no second back-edge is
added, and on entity 126, whose `AddReference` has the `isDuplicate` argument, it returns true
and reports `isDuplicate`, which the first call did not; `DelReference( p )` while `p` is
absent returns false and changes nothing.  `ty` is the type of the parent. -/
theorem reference_laws (a : IGES_ENTITY_100) (c : IGES_ENTITY_102) (n : IGES_ENTITY_126)
    (p : Nat) (ty : Int) (ha : p ∉ a.refs) (hc : p ∉ c.refs) (hn : p ∉ n.refs) :
    (((a.AddReference (some p)).2.DelReference (some p)).2 = a ∧
     ((c.AddReference (some p) ty).2.DelReference (some p)).2 = c ∧
     ((n.AddReference (some p)).2.2.DelReference (some p)).2 = n) ∧
    (((a.AddReference (some p)).2.AddReference (some p)).2 = (a.AddReference (some p)).2 ∧
     ((c.AddReference (some p) ty).2.AddReference (some p) ty).2
       = (c.AddReference (some p) ty).2 ∧
     (n.AddReference (some p)).2.1 = false ∧
     (n.AddReference (some p)).2.2.AddReference (some p)
       = (true, true, (n.AddReference (some p)).2.2)) ∧
    (a.DelReference (some p) = (false, a) ∧ c.DelReference (some p) = (false, c) ∧
     n.DelReference (some p) = (false, n)) := by
  have hadd100 : a.AddReference (some p) = (true, { a with refs := a.refs ++ [p] }) := by
    simp only [IGES_ENTITY_100.AddReference, baseAddReferencePtr, baseAddReference_fresh _ _ ha]
  have hadd126 : n.AddReference (some p) = (true, false, { n with refs := n.refs ++ [p] }) := by
    simp only [IGES_ENTITY_126.AddReference, baseAddReferenceDup]
    rw [if_neg (by simpa using hn)]
  have hdel102 : c.DelReference (some p) = (false, c) := by
    simp only [IGES_ENTITY_102.DelReference, baseDelReference_absent _ _ hc]
  refine ⟨⟨?_, ?_, ?_⟩, ⟨?_, ?_, ?_, ?_⟩, ?_, hdel102, ?_⟩
  · rw [hadd100]
    simp only [IGES_ENTITY_100.DelReference, baseDelReference_last _ _ ha]
  · by_cases hty : ty = 102
    · have : c.AddReference (some p) ty = (false, c) := by
        simp only [IGES_ENTITY_102.AddReference, if_pos hty]
      rw [this, hdel102]
    · have : c.AddReference (some p) ty = (true, { c with refs := c.refs ++ [p] }) := by
        simp only [IGES_ENTITY_102.AddReference, if_neg hty, baseAddReferencePtr,
          baseAddReference_fresh _ _ hc]
      rw [this]
      simp only [IGES_ENTITY_102.DelReference, baseDelReference_last _ _ hc]
  · rw [hadd126]
    simp only [IGES_ENTITY_126.DelReference, baseDelReference_last _ _ hn]
  · rw [hadd100]
    simp only [IGES_ENTITY_100.AddReference, baseAddReferencePtr,
      baseAddReference_present (a.refs ++ [p]) p (by simp)]
  · by_cases hty : ty = 102
    · have : c.AddReference (some p) ty = (false, c) := by
        simp only [IGES_ENTITY_102.AddReference, if_pos hty]
      rw [this, this]
    · have : c.AddReference (some p) ty = (true, { c with refs := c.refs ++ [p] }) := by
        simp only [IGES_ENTITY_102.AddReference, if_neg hty, baseAddReferencePtr,
          baseAddReference_fresh _ _ hc]
      rw [this]
      simp only [IGES_ENTITY_102.AddReference, if_neg hty, baseAddReferencePtr,
        baseAddReference_present (c.refs ++ [p]) p (by simp)]
  · rw [hadd126]
  · rw [hadd126]
    simp only [IGES_ENTITY_126.AddReference, baseAddReferenceDup]
    rw [if_pos (by simp)]
  · simp only [IGES_ENTITY_100.DelReference, baseDelReference_absent _ _ ha]
  · simp only [IGES_ENTITY_126.DelReference, baseDelReference_absent _ _ hn]

/-- Witness of C16: an arc, a composite curve and a NURBS curve without parents, and the parent
of type 144 at position 7. -/
theorem reference_laws_witness :
    ((IGES_ENTITY_126.new none).AddReference (some 7)).2.2.AddReference (some 7)
      = (true, true, ((IGES_ENTITY_126.new none).AddReference (some 7)).2.2) ∧
    ((IGES_ENTITY_100.new.AddReference (some 7)).2.DelReference (some 7)).2
      = IGES_ENTITY_100.new :=
  have h := reference_laws IGES_ENTITY_100.new (IGES_ENTITY_102.new none)
    (IGES_ENTITY_126.new none) 7 144 (by simp [IGES_ENTITY_100.new])
    (by simp [IGES_ENTITY_102.new]) (by simp [IGES_ENTITY_126.new])
  ⟨h.2.1.2.2.2, h.1.1⟩

/-- C17.  `IsOrphaned()` of a composite curve (102) and of a NURBS curve (126) is true if and
only if the entity has no parent references and its dependency is not independent; for a
circular arc (100) it is true if and only if the arc has no parent references, whatever its
dependency. -/
theorem IsOrphaned_iff (c : IGES_ENTITY_102) (n : IGES_ENTITY_126) (a : IGES_ENTITY_100) :
    (c.IsOrphaned = true ↔
      c.refs.length = 0 ∧ c.depends ≠ IGES_STAT_DEPENDS.STAT_INDEPENDENT) ∧
    (n.IsOrphaned = true ↔
      n.refs.length = 0 ∧ n.depends ≠ IGES_STAT_DEPENDS.STAT_INDEPENDENT) ∧
    (a.IsOrphaned = true ↔ a.refs.length = 0) := by
  refine ⟨?_, ?_, ?_⟩
  · simp [IGES_ENTITY_102.IsOrphaned, List.isEmpty_iff, List.length_eq_zero]
  · simp [IGES_ENTITY_126.IsOrphaned, List.isEmpty_iff, List.length_eq_zero]
  · simp [IGES_ENTITY_100.IsOrphaned, List.isEmpty_iff, List.length_eq_zero]

/-- C18 fails on the code.  `Unlink` of a composite curve never looks at the list of curves:
whatever the child, the list of members after the call is the list before it; and for a curve
whose members are the entities at positions 0 and 1, `Unlink` of the member at position 0
returns false and leaves the curve as it was. -/
theorem Unlink_ignores_segments :
    (∀ (e : IGES_ENTITY_102) (c : Nat), (e.Unlink c).2.curves = e.curves) ∧
    (Examples.composite Examples.globals).curves = [0, 1] ∧
    (Examples.composite Examples.globals).Unlink 0
      = (false, Examples.composite Examples.globals) := by
  refine ⟨?_, rfl, by decide!⟩
  intro e c
  unfold IGES_ENTITY_102.Unlink
  dsimp only
  split <;> rfl

/-- C19 fails as stated.  A composite curve that lists the indices 0 and 2, one zero and one
even, in a table of four entities associates (the call returns true), and the entities at both
positions have received the reference. -/
theorem associate_accepts_zero_and_even :
    IGES_ENTITY_102.associate true Examples.threeLines 3 (Examples.evenListed Examples.globals)
      = some (true, { Examples.evenListed Examples.globals with extras := [0, 2] },
          [{ Examples.line ⟨0, 0, 0⟩ ⟨1, 0, 0⟩ with refs := [3] },
           Examples.line ⟨1, 0, 0⟩ ⟨1, 1, 0⟩,
           { Examples.line ⟨1, 1, 0⟩ ⟨0, 1, 0⟩ with refs := [3] },
           Examples.compositeNode]) ∧
    (Examples.evenListed Examples.globals).iCurves = [0, 2] := by
  refine ⟨by decide!, rfl⟩

/-- C19, amended.  In `associate` of a composite curve (102) whose base class associated and
whose member pointers lie in the entity table, a child index is accepted if and only if it is
at least 0 and below the size of the table: the call returns, it returns false when some index
is negative or not below the size of the table, and it returns true when every index is in
that range, no entity found there is a composite curve and the curve has no members.  A failed
index does not abort the resolution: the entity found at every index in the range, unless it
is a composite curve, has this curve among its `refs` afterwards. -/
theorem associate_index_resolution (g : Graph) (self : Nat) (e : IGES_ENTITY_102)
    (hvalid : ∀ q ∈ e.curves, q < g.length) :
    ∃ b e' g', IGES_ENTITY_102.associate true g self e = some (b, e', g') ∧
      ((∃ i ∈ e.iCurves, i < 0 ∨ (g.length : Int) ≤ i) → b = false) ∧
      (e.curves = [] →
        (∀ i ∈ e.iCurves, 0 ≤ i ∧ i < (g.length : Int) ∧
          ∀ nd, g[i.toNat]? = some nd → nd.entityType ≠ 102) → b = true) ∧
      (∀ i ∈ e.iCurves, 0 ≤ i → ∀ nd, g[i.toNat]? = some nd → nd.entityType ≠ 102 →
        ∃ nd', g'[i.toNat]? = some nd' ∧ self ∈ nd'.refs) := by
  obtain ⟨ok', iEnt', hchk, hassoc⟩ := associate_eq g self e hvalid
  have hiff := (checkLoop_top g _ _ _ _ _ _ hchk).1
  refine ⟨_, _, _, hassoc, ?_, ?_, ?_⟩
  · rintro ⟨i, hi, hout⟩
    have hok : ok' = false := by
      cases hok' : ok' with
      | false => rfl
      | true =>
        have h1 := (resolve_true_imp self e.entityType e.iCurves g e.extras true
          (hiff.mp hok').1).2 i hi
        omega
    rw [hok]
    simp only [ite_self]
  · intro hcur hall
    have hres := resolve_ok self e.entityType e.iCurves g e.extras true
      (fun i hi => ⟨(hall i hi).1, (hall i hi).2.1,
        fun nd hnd hc => (hall i hi).2.2 nd hnd hc.1⟩)
    have hok : ok' = true := by
      rw [hiff, hres, hcur]
      exact ⟨rfl, fun q hq => absurd hq (List.not_mem_nil _), List.chain'_nil⟩
    rw [hok, if_neg (by rw [hcur]; simp)]
  · intro i hi i0 nd hnd hty
    exact resolve_refs self e.entityType e.iCurves g e.extras true i hi i0 nd hnd
      (fun hc => hty hc.1)

/-- Witness of C19 as amended: a composite curve that lists the indices -1, 0 and 9 in a table
of four entities: the call returns false, and the entity at position 0 has received the
reference. -/
theorem associate_index_resolution_witness :
    ∃ e' g', IGES_ENTITY_102.associate true Examples.threeLines 3
        (Examples.strayListed Examples.globals) = some (false, e', g') ∧
      ∃ nd', g'[0]? = some nd' ∧ 3 ∈ nd'.refs := by
  obtain ⟨b, e', g', h, hfalse, -, hrefs⟩ := associate_index_resolution
    Examples.threeLines 3 (Examples.strayListed Examples.globals)
    (fun q hq => absurd hq (List.not_mem_nil _))
  have hb : b = false := hfalse ⟨-1, by simp [Examples.strayListed], Or.inl (by decide)⟩
  subst hb
  exact ⟨e', g', h, hrefs 0 (by simp [Examples.strayListed]) (le_refl 0)
    (Examples.line ⟨0, 0, 0⟩ ⟨1, 0, 0⟩) rfl (by decide)⟩

/-- C20 fails on the code.  The macro `CLEANUP` deletes the lines, the NURBS curves, the arcs,
the composite curves, the curves on surface, the trimmed surfaces and the transforms, but not
`isurf`.  For the full circle of the fourth scenario in a model that owns no entity, with a
factory that fails on the first transformation matrix, `Instantiate` returns false and leaves
`result` unchanged, and the model owns one entity after the call, the surface of revolution
(120) that the call created. -/
theorem Instantiate_leaves_surface :
    Examples.fullCircle.Instantiate (Examples.calls false) Examples.lib
        (some Examples.emptyModel) 5 0 []
      = some (false,
          some { globalData := Examples.globals,
                 entities := [(6, Entity.revolution
                   { L := none, C := none, startAngle := 0, endAngle := 0, refs := [],
                     depends := IGES_STAT_DEPENDS.STAT_DEP_PHY })],
                 fresh := 7 },
          []) ∧
    Examples.emptyModel.entities = [] := by
  refine ⟨by decide!, rfl⟩

/-- C24 fails on the code.  `ReadPD` of the arc starts to read at the start of the record and
so takes the entity-type field for `zOffset`: every record made of the entity-type field and
seven more fields is refused, the eighth field being unread when the end of the record is
tested; on `100,0.0,0.0,0.0,1.0,0.0,-1.0,0.0;` the call returns false and leaves `zOffset =
100`, centre `(0,0)`, start `(0,1)`, end `(0,-1)`. -/
theorem ReadPD_100_reads_type_field :
    (∀ (e : IGES_ENTITY_100) (baseOk : Bool) (t f1 f2 f3 f4 f5 f6 f7 : Field),
      (e.ReadPD baseOk [t, f1, f2, f3, f4, f5, f6, f7]).1 = false) ∧
    IGES_ENTITY_100.new.ReadPD true Examples.arcRecord
      = (false,
          { IGES_ENTITY_100.new with
            zOffset := 100, xCenter := 0, yCenter := 0, xStart := 0, yStart := 1, xEnd := 0,
            yEnd := -1 }) := by
  refine ⟨?_, by decide!⟩
  intro e baseOk t f1 f2 f3 f4 f5 f6 f7
  cases baseOk
  · rfl
  · cases h0 : t.asReal <;> cases h1 : f1.asReal <;> cases h2 : f2.asReal <;>
      cases h3 : f3.asReal <;> cases h4 : f4.asReal <;> cases h5 : f5.asReal <;>
      cases h6 : f6.asReal <;>
      simp [IGES_ENTITY_100.ReadPD, ParseReal, eor, h0, h1, h2, h3, h4, h5, h6]

/-- C27 fails on the code.  `GetNURBSData` sets its parameters `knot` and `coeff` to NULL and
then writes `*knot = knots`: on every curve that holds knot data the call writes through a
NULL pointer and returns nothing, in particular after the `SetNURBSData` of a segment has
succeeded; on a curve without knot data it returns false with `nCoeff = 0` and
`order = 0`. -/
theorem GetNURBSData_writes_through_null :
    (∀ (e : IGES_ENTITY_126) (out : NURBSData),
      e.GetNURBSData out
        = if e.knots = none then some (false, { out with nCoeff := 0, order := 0 })
          else none) ∧
    ∃ e', (IGES_ENTITY_126.new (some Examples.globals)).SetNURBSData Examples.lib 2 2
        (some [0, 0, 1, 1]) (some [0, 0, 0, 1, 0, 0]) false = some (true, e') ∧
      e'.knots = some [0, 0, 1, 1] ∧ ∀ out, e'.GetNURBSData out = none := by
  have hgen : ∀ (e : IGES_ENTITY_126) (out : NURBSData),
      e.GetNURBSData out
        = if e.knots = none then some (false, { out with nCoeff := 0, order := 0 })
          else none := by
    intro e out
    unfold IGES_ENTITY_126.GetNURBSData
    cases e.knots <;> simp
  refine ⟨hgen, { IGES_ENTITY_126.new (some Examples.globals) with
      K := 1, M := 1, PROP3 := 1, nKnots := 4, nCoeffs := 2, V0 := 0, V1 := 1,
      vnorm := ⟨0, 0, 1⟩, knots := some [0, 0, 1, 1], coeffs := some [0, 0, 0, 1, 0, 0],
      scurve := true }, by decide!, rfl, ?_⟩
  intro out
  rw [hgen]
  rfl

/-- C28 fails on the code.  `Interpolate` computes the interpolated knot parameter into `var`
and then hands `V1` to the evaluator: on the segment from `(0,0,0)` to `(1,0,0)` with knots
`[0,0,1,1]`, `Interpolate( pt, 0, 0.5 )` returns true with `pt = (1,0,0)`, the end of the
curve, as it does for `var = 0`, while the curve at the interpolated parameter
`0.5 * knots[1] + 0.5 * knots[2] = 0.5` is at `(0.5,0,0)`. -/
theorem Interpolate_evaluates_at_V1 :
    IGES_ENTITY_126.Interpolate Examples.lineLib (Examples.segment 1 1) none 0 (1 / 2) false
      = some (true, ⟨1, 0, 0⟩, Examples.segment 1 1) ∧
    IGES_ENTITY_126.Interpolate Examples.lineLib (Examples.segment 1 1) none 0 0 false
      = some (true, ⟨1, 0, 0⟩, Examples.segment 1 1) ∧
    (Examples.segment 1 1).knots = some [0, 0, 1, 1] ∧
    ((Examples.segment 1 1).nKnots - (Examples.segment 1 1).nCoeffs) / 2 = 1 ∧
    (Examples.lineLib.s1225 (Examples.segment 1 1).curve
      ((1 - 1 / 2) * 0 + 1 / 2 * 1)).1 = ⟨1 / 2, 0, 0⟩ := by
  refine ⟨by decide!, by decide!, rfl, by decide, by decide!⟩

/-- C29 fails as stated.  `SetEntityForm` of the arc (100) and of the composite curve (102)
tests its argument and stores nothing.  `ReadDE` of an arc whose directory entry carries form
2 returns false and leaves the form 2 in the entity; `SetEntityForm( 0 )` on that entity then
returns true, and the stored form is still 2, not 0.  The same holds on a composite curve. -/
theorem SetEntityForm_keeps_refused_form :
    IGES_ENTITY_100.ReadDE (true, { IGES_ENTITY_100.new with form := 2 })
      = (false, { IGES_ENTITY_100.new with
          form := 2, structure_ := 0, hierarchy := IGES_STAT_HIER.STAT_HIER_ALL_SUB }) ∧
    ((IGES_ENTITY_100.ReadDE
        (true, { IGES_ENTITY_100.new with form := 2 })).2.SetEntityForm 0).1 = true ∧
    ((IGES_ENTITY_100.ReadDE
        (true, { IGES_ENTITY_100.new with form := 2 })).2.SetEntityForm 0).2.form = 2 ∧
    (IGES_ENTITY_102.ReadDE (true, { IGES_ENTITY_102.new none with form := 2 })).1 = false ∧
    ((IGES_ENTITY_102.ReadDE
        (true, { IGES_ENTITY_102.new none with form := 2 })).2.SetEntityForm 0).1 = true ∧
    ((IGES_ENTITY_102.ReadDE
        (true, { IGES_ENTITY_102.new none with form := 2 })).2.SetEntityForm 0).2.form = 2 := by
  refine ⟨by decide!, by decide!, by decide!, by decide!, by decide!, by decide!⟩

/-- C29, amended.  `SetEntityForm( f )` returns true if and only if `f = 0` on an arc (100)
and on a composite curve (102), and if and only if `0 <= f <= 5` on a NURBS curve (126); a refused
call leaves the entity unchanged; an accepted call on a 126 stores `f`, and on a 100 or a 102,
where nothing is stored, the form is `f = 0` afterwards whenever it was 0 before, as it is
after the constructor and after every successful `ReadDE`; `ReadDE` of each kind returns false
when the directory entry carries a form outside the same set. -/
theorem SetEntityForm_accepts_catalogue (a : IGES_ENTITY_100) (c : IGES_ENTITY_102)
    (n : IGES_ENTITY_126) (f : Int) :
    (((a.SetEntityForm f).1 = true ↔ f = 0) ∧ ((c.SetEntityForm f).1 = true ↔ f = 0) ∧
      ((n.SetEntityForm f).1 = true ↔ 0 ≤ f ∧ f ≤ 5)) ∧
    (((a.SetEntityForm f).1 = false → (a.SetEntityForm f).2 = a) ∧
      ((c.SetEntityForm f).1 = false → (c.SetEntityForm f).2 = c) ∧
      ((n.SetEntityForm f).1 = false → (n.SetEntityForm f).2 = n)) ∧
    (((n.SetEntityForm f).1 = true → (n.SetEntityForm f).2.form = f) ∧
      (a.form = 0 → (a.SetEntityForm f).1 = true → (a.SetEntityForm f).2.form = f) ∧
      (c.form = 0 → (c.SetEntityForm f).1 = true → (c.SetEntityForm f).2.form = f)) ∧
    ((∀ base : Bool × IGES_ENTITY_100, base.2.form ≠ 0 →
        (IGES_ENTITY_100.ReadDE base).1 = false) ∧
      (∀ base : Bool × IGES_ENTITY_102, base.2.form ≠ 0 →
        (IGES_ENTITY_102.ReadDE base).1 = false) ∧
      (∀ base : Bool × IGES_ENTITY_126, ¬ (0 ≤ base.2.form ∧ base.2.form ≤ 5) →
        (IGES_ENTITY_126.ReadDE base).1 = false)) ∧
    (IGES_ENTITY_100.new.form = 0 ∧ (∀ gd, (IGES_ENTITY_102.new gd).form = 0) ∧
      (∀ base : Bool × IGES_ENTITY_100, (IGES_ENTITY_100.ReadDE base).1 = true →
        (IGES_ENTITY_100.ReadDE base).2.form = 0) ∧
      (∀ base : Bool × IGES_ENTITY_102, (IGES_ENTITY_102.ReadDE base).1 = true →
        (IGES_ENTITY_102.ReadDE base).2.form = 0)) := by
  refine ⟨⟨?_, ?_, ?_⟩, ⟨?_, ?_, ?_⟩, ⟨?_, ?_, ?_⟩, ⟨?_, ?_, ?_⟩, rfl, fun _ => rfl, ?_, ?_⟩
  · unfold IGES_ENTITY_100.SetEntityForm
    split <;> simp_all
  · unfold IGES_ENTITY_102.SetEntityForm
    split <;> simp_all
  · unfold IGES_ENTITY_126.SetEntityForm
    split
    · simp only [Bool.false_eq_true, false_iff]
      omega
    · simp only [true_iff]
      omega
  · unfold IGES_ENTITY_100.SetEntityForm
    split <;> simp
  · unfold IGES_ENTITY_102.SetEntityForm
    split <;> simp
  · unfold IGES_ENTITY_126.SetEntityForm
    split <;> simp
  · unfold IGES_ENTITY_126.SetEntityForm
    split <;> simp
  · intro ha
    unfold IGES_ENTITY_100.SetEntityForm
    split
    · rename_i hf
      intro _
      rw [hf]
      exact ha
    · simp
  · intro hc
    unfold IGES_ENTITY_102.SetEntityForm
    split
    · rename_i hf
      intro _
      rw [hf]
      exact hc
    · simp
  · intro base hb
    unfold IGES_ENTITY_100.ReadDE
    split
    · rfl
    · dsimp only
      rw [if_pos hb]
  · intro base hb
    unfold IGES_ENTITY_102.ReadDE
    split
    · rfl
    · dsimp only
      rw [if_pos hb]
  · intro base hb
    unfold IGES_ENTITY_126.ReadDE
    split
    · rfl
    · dsimp only
      rw [if_pos (by omega)]
  · intro base
    unfold IGES_ENTITY_100.ReadDE
    split
    · simp
    · dsimp only
      split
      · simp
      · rename_i hform
        intro _
        simpa using hform
  · intro base
    unfold IGES_ENTITY_102.ReadDE
    split
    · simp
    · dsimp only
      split
      · simp
      · rename_i hform
        intro _
        simpa using hform

/-- Witness of C29: form 0 and form 3 on a fresh arc and a fresh NURBS curve, and a directory
entry of an arc that carries form 2. -/
theorem SetEntityForm_accepts_catalogue_witness :
    (IGES_ENTITY_100.new.SetEntityForm 0).2.form = 0 ∧
    ((IGES_ENTITY_126.new none).SetEntityForm 3).2.form = 3 ∧
    (IGES_ENTITY_100.new.SetEntityForm 3).2 = IGES_ENTITY_100.new ∧
    (IGES_ENTITY_100.ReadDE (true, { IGES_ENTITY_100.new with form := 2 })).1 = false := by
  have h := SetEntityForm_accepts_catalogue IGES_ENTITY_100.new (IGES_ENTITY_102.new none)
    (IGES_ENTITY_126.new none)
  exact ⟨(h 0).2.2.1.2.1 rfl (by decide), (h 3).2.2.1.1 (by decide), (h 3).2.1.1 (by decide),
    (h 0).2.2.2.1.1 (true, { IGES_ENTITY_100.new with form := 2 }) (by decide)⟩

/-- C30.  On a NURBS curve (126) `SetHierarchy( h )` returns true for every `h` and leaves the
entity, its stored hierarchy included, unchanged; and a successful `ReadDE` leaves
`hierarchy` all-subordinate and `structure` 0, whatever the directory entry held. -/
theorem SetHierarchy_126_ignored (n : IGES_ENTITY_126) (h : IGES_STAT_HIER)
    (base : Bool × IGES_ENTITY_126) :
    n.SetHierarchy h = (true, n) ∧
    ((IGES_ENTITY_126.ReadDE base).1 = true →
      (IGES_ENTITY_126.ReadDE base).2.hierarchy = IGES_STAT_HIER.STAT_HIER_ALL_SUB ∧
      (IGES_ENTITY_126.ReadDE base).2.structure_ = 0) := by
  refine ⟨rfl, ?_⟩
  unfold IGES_ENTITY_126.ReadDE
  split
  · simp
  · dsimp only
    split
    · simp
    · intro _
      exact ⟨rfl, rfl⟩

/-- Witness of C30: a directory entry with hierarchy 02, structure 7 and form 1. -/
theorem SetHierarchy_126_ignored_witness :
    (IGES_ENTITY_126.ReadDE (true, { IGES_ENTITY_126.new none with
        hierarchy := IGES_STAT_HIER.STAT_HIER_USE_PROP, structure_ := 7, form := 1 })).2.hierarchy
      = IGES_STAT_HIER.STAT_HIER_ALL_SUB ∧
    (IGES_ENTITY_126.ReadDE (true, { IGES_ENTITY_126.new none with
        hierarchy := IGES_STAT_HIER.STAT_HIER_USE_PROP, structure_ := 7, form := 1 })).2.structure_
      = 0 :=
  (SetHierarchy_126_ignored (IGES_ENTITY_126.new none) IGES_STAT_HIER.STAT_HIER_NO_SUB
    (true, { IGES_ENTITY_126.new none with
        hierarchy := IGES_STAT_HIER.STAT_HIER_USE_PROP, structure_ := 7, form := 1 })).2
    (by decide)

theorem formatKnots_prefix (X : Library) (uir : ℚ) (knots : List ℚ) (n : Nat) :
    ∀ (i : Nat) (out out' : List PDItem) (b : Bool),
    IGES_ENTITY_126.formatKnots X uir knots n i out = some (b, out') →
    ∃ t, out' = out ++ t := by
  induction n with
  | zero =>
    intro i out out' b h
    simp only [IGES_ENTITY_126.formatKnots, Option.some.injEq, Prod.mk.injEq] at h
    exact ⟨[], by rw [← h.2]; simp⟩
  | succ n ih =>
    intro i out out' b h
    unfold IGES_ENTITY_126.formatKnots at h
    split at h
    · cases h
    · split at h
      · simp only [Option.some.injEq, Prod.mk.injEq] at h
        exact ⟨[], by rw [← h.2]; simp⟩
      · obtain ⟨t, ht⟩ := ih _ _ _ _ h
        exact ⟨_, by rw [ht, List.append_assoc]⟩

theorem formatWeights_prefix (X : Library) (p : Int) (coeffs : List ℚ) (n : Nat) :
    ∀ (j : Nat) (out out' : List PDItem) (b : Bool),
    IGES_ENTITY_126.formatWeights X p coeffs n j out = some (b, out') →
    ∃ t, out' = out ++ t := by
  induction n with
  | zero =>
    intro j out out' b h
    simp only [IGES_ENTITY_126.formatWeights, Option.some.injEq, Prod.mk.injEq] at h
    exact ⟨[], by rw [← h.2]; simp⟩
  | succ n ih =>
    intro j out out' b h
    unfold IGES_ENTITY_126.formatWeights at h
    split at h
    · cases h
    · split at h
      · simp only [Option.some.injEq, Prod.mk.injEq] at h
        exact ⟨[], by rw [← h.2]; simp⟩
      · obtain ⟨t, ht⟩ := ih _ _ _ _ h
        exact ⟨_, by rw [ht, List.append_assoc]⟩

theorem formatPoints_prefix (X : Library) (uir : ℚ) (p : Int) (coeffs : List ℚ) (n : Nat) :
    ∀ (j : Nat) (out out' : List PDItem) (b : Bool),
    IGES_ENTITY_126.formatPoints X uir p coeffs n j out = some (b, out') →
    ∃ t, out' = out ++ t := by
  induction n with
  | zero =>
    intro j out out' b h
    simp only [IGES_ENTITY_126.formatPoints, Option.some.injEq, Prod.mk.injEq] at h
    exact ⟨[], by rw [← h.2]; simp⟩
  | succ n ih =>
    intro j out out' b h
    unfold IGES_ENTITY_126.formatPoints at h
    split at h
    · cases h
    · split at h
      · simp only [Option.some.injEq, Prod.mk.injEq] at h
        exact ⟨[], by rw [← h.2]; simp⟩
      · split at h
        · cases h
        · split at h
          · simp only [Option.some.injEq, Prod.mk.injEq] at h
            exact ⟨_, h.2.symm⟩
          · split at h
            · cases h
            · split at h
              · simp only [Option.some.injEq, Prod.mk.injEq] at h
                exact ⟨_, h.2.symm⟩
              · obtain ⟨t, ht⟩ := ih _ _ _ _ h
                exact ⟨_, by rw [ht, List.append_assoc]⟩

theorem formatTail_true (X : Library) (uir : ℚ) (e e' : IGES_ENTITY_126) (out : List PDItem)
    (h : IGES_ENTITY_126.formatTail X uir e out = (true, e')) :
    e' = { e with pdout := out ++ [PDItem.real e.V0 uir, PDItem.real e.V1 uir,
      PDItem.real e.vnorm.x uir, PDItem.real e.vnorm.y uir, PDItem.real e.vnorm.z uir] } := by
  unfold IGES_ENTITY_126.formatTail at h
  repeat' (first | contradiction | (split at h) | (simp only [Prod.mk.injEq, Bool.false_eq_true,
    false_and] at h))
  simp only [Prod.mk.injEq, true_and] at h
  rw [← h]
  simp

theorem format_true_head (X : Library) (e e' : IGES_ENTITY_126) (index : Int)
    (h : IGES_ENTITY_126.format X e index = some (true, e')) :
    ∃ t, e'.pdout = [PDItem.int e.entityType, PDItem.int e.K, PDItem.int e.M,
      PDItem.int e.PROP1, PDItem.int e.PROP2, PDItem.int e.PROP3, PDItem.int e.PROP4] ++ t := by
  unfold IGES_ENTITY_126.format at h
  dsimp only at h
  split at h
  · split at h
    · cases h
    · split at h
      · cases h
      · split at h
        · cases h
        · unfold IGES_ENTITY_126.formatItems at h
          dsimp only at h
          split at h
          · cases h
          · cases h
          · rename_i out1 hk
            obtain ⟨t1, ht1⟩ := formatKnots_prefix _ _ _ _ _ _ _ _ hk
            split at h
            · cases h
            · cases h
            · rename_i out2 hw
              obtain ⟨t2, ht2⟩ := formatWeights_prefix _ _ _ _ _ _ _ _ hw
              split at h
              · cases h
              · cases h
              · rename_i out3 hp
                obtain ⟨t3, ht3⟩ := formatPoints_prefix _ _ _ _ _ _ _ _ _ hp
                simp only [Option.some.injEq] at h
                have ht4 : ∃ t4, e'.pdout = out3 ++ t4 := by
                  rw [formatTail_true _ _ _ _ _ h]
                  exact ⟨_, rfl⟩
                obtain ⟨t4, ht4⟩ := ht4
                rw [ht4, ht3, ht2, ht1]
                exact ⟨t1 ++ (t2 ++ (t3 ++ t4)), by simp only [List.append_assoc]⟩
  · cases h
theorem hasUniquePlane_cubic (X : Library) (e : IGES_ENTITY_126) (v : MCAD_POINT)
    (hn : e.nCoeffs = 4) (hp : e.PROP3 = 1) (hc : e.coeffs = some Examples.cubicPoints)
    (hagree :
      X.PointMatches (X.CalcNormal ⟨0, 0, 0⟩ ⟨1, 2, 0⟩ ⟨2, 2, 0⟩ v)
        (X.CalcNormal ⟨1, 2, 0⟩ ⟨2, 2, 0⟩ ⟨3, 0, 0⟩ ⟨0, 0, 0⟩) (1 / 100000000) = true ∨
      X.PointMatches (X.CalcNormal ⟨0, 0, 0⟩ ⟨1, 2, 0⟩ ⟨2, 2, 0⟩ v)
        ((X.CalcNormal ⟨1, 2, 0⟩ ⟨2, 2, 0⟩ ⟨3, 0, 0⟩ ⟨0, 0, 0⟩).smul (-1))
        (1 / 100000000) = true) :
    e.hasUniquePlane X v = some (true, X.CalcNormal ⟨0, 0, 0⟩ ⟨1, 2, 0⟩ ⟨2, 2, 0⟩ v) := by
  have l0 : loadPoint Examples.cubicPoints 0 = some ⟨0, 0, 0⟩ := rfl
  have l1 : loadPoint Examples.cubicPoints 3 = some ⟨1, 2, 0⟩ := rfl
  have l2 : loadPoint Examples.cubicPoints (2 * 3) = some ⟨2, 2, 0⟩ := rfl
  have l3 : loadPoint Examples.cubicPoints (3 * 3) = some ⟨3, 0, 0⟩ := rfl
  unfold IGES_ENTITY_126.hasUniquePlane
  rw [hn, hc, hp]
  simp only [show ¬ ((4 : Int) < 3) by decide, if_false, show ¬ ((1 : Int) = 0) by decide,
    l0, l1, l2, show ¬ ((4 : Int) = 3) by decide]
  have h1 : ((4 : Int) - 3).toNat = 1 := by decide
  rw [h1]
  unfold IGES_ENTITY_126.planeLoop
  rw [l3]
  dsimp only
  have hcond : ¬ ((!X.PointMatches (X.CalcNormal ⟨0, 0, 0⟩ ⟨1, 2, 0⟩ ⟨2, 2, 0⟩ v)
        (X.CalcNormal ⟨1, 2, 0⟩ ⟨2, 2, 0⟩ ⟨3, 0, 0⟩ ⟨0, 0, 0⟩) (1 / 100000000) &&
      !X.PointMatches (X.CalcNormal ⟨0, 0, 0⟩ ⟨1, 2, 0⟩ ⟨2, 2, 0⟩ v)
        ((X.CalcNormal ⟨1, 2, 0⟩ ⟨2, 2, 0⟩ ⟨3, 0, 0⟩ ⟨0, 0, 0⟩).smul (-1))
        (1 / 100000000)) = true) := by
    rcases hagree with h | h <;> rw [h] <;> simp
  rw [if_neg hcond]
  unfold IGES_ENTITY_126.planeLoop
  rfl
theorem classify_cubic (X : Library) (e : IGES_ENTITY_126)
    (hn : e.nCoeffs = 4) (hp : e.PROP3 = 1) (hc : e.coeffs = some Examples.cubicPoints)
    (hopen : ∀ c t, X.s1364 c t = 0)
    (hagree :
      X.PointMatches (X.CalcNormal ⟨0, 0, 0⟩ ⟨1, 2, 0⟩ ⟨2, 2, 0⟩ e.vnorm)
        (X.CalcNormal ⟨1, 2, 0⟩ ⟨2, 2, 0⟩ ⟨3, 0, 0⟩ ⟨0, 0, 0⟩) (1 / 100000000) = true ∨
      X.PointMatches (X.CalcNormal ⟨0, 0, 0⟩ ⟨1, 2, 0⟩ ⟨2, 2, 0⟩ e.vnorm)
        ((X.CalcNormal ⟨1, 2, 0⟩ ⟨2, 2, 0⟩ ⟨3, 0, 0⟩ ⟨0, 0, 0⟩).smul (-1))
        (1 / 100000000) = true) :
    e.classify X = some (true,
      { e with vnorm := X.CalcNormal ⟨0, 0, 0⟩ ⟨1, 2, 0⟩ ⟨2, 2, 0⟩ e.vnorm, PROP1 := 1,
               PROP2 := 0, PROP4 := 0 }) := by
  unfold IGES_ENTITY_126.classify
  rw [hasUniquePlane_cubic X e e.vnorm hn hp hc hagree]
  simp only [hopen, if_true, show ¬ ((0 : Int) = 2) by decide, show ¬ ((0 : Int) = 1) by decide,
    if_false]

theorem M_PI_pos : 0 < M_PI := by
  unfold M_PI
  norm_num

theorem splitAngles_spans (a1 a2 : ℚ) (h1 : -M_PI ≤ a1 ∧ a1 ≤ M_PI)
    (h2 : -M_PI ≤ a2 ∧ a2 ≤ M_PI) :
    ((IGES_GEOM_CYLINDER.splitAngles (List.replicate 6 0) a1 a2).1 = 1 ∨
      (IGES_GEOM_CYLINDER.splitAngles (List.replicate 6 0) a1 a2).1 = 2 ∨
      (IGES_GEOM_CYLINDER.splitAngles (List.replicate 6 0) a1 a2).1 = 3) ∧
    ∀ i : Nat, (i : Int) < (IGES_GEOM_CYLINDER.splitAngles (List.replicate 6 0) a1 a2).1 →
      ∃ s e, (IGES_GEOM_CYLINDER.splitAngles (List.replicate 6 0) a1 a2).2[2 * i]? = some s ∧
        (IGES_GEOM_CYLINDER.splitAngles (List.replicate 6 0) a1 a2).2[2 * i + 1]? = some e ∧
        0 ≤ e - s ∧ e - s ≤ M_PI := by
  have hpi := M_PI_pos
  have hrep : List.replicate 6 (0 : ℚ) = [0, 0, 0, 0, 0, 0] := rfl
  obtain ⟨h1l, h1u⟩ := h1
  obtain ⟨h2l, h2u⟩ := h2
  unfold IGES_GEOM_CYLINDER.splitAngles
  rw [hrep]
  simp only [List.set_cons_zero, List.set_cons_succ]
  split_ifs with c1 c2 c3 c4 c5 c6 c7 c8 c9 c10 c11 c12 <;>
    refine ⟨by simp, ?_⟩ <;> intro i hi <;> simp only at hi <;>
    (have hi3 : i < 3 := by omega) <;> interval_cases i <;>
    first
    | (exfalso; omega)
    | (simp only [Nat.mul_zero, Nat.mul_one, Nat.zero_add, List.getElem?_cons_zero,
        List.getElem?_cons_succ, Option.some.injEq, exists_and_left, exists_eq_left',
        Nat.reduceMul, Nat.reduceAdd]
       push_neg at *
       first
       | (constructor <;> linarith)
       | (rcases ‹_ ∨ _› with h | h <;> constructor <;> linarith))

theorem setArcPoints_frame (Mth : CMath) (c : IGES_GEOM_CYLINDER)
    (center start end_ : MCAD_POINT) :
    (c.setArcPoints Mth center start end_).narcs = c.narcs ∧
    (c.setArcPoints Mth center start end_).angles = c.angles ∧
    (c.setArcPoints Mth center start end_).radius = c.radius := by
  unfold IGES_GEOM_CYLINDER.setArcPoints
  dsimp only
  split <;> split <;> exact ⟨rfl, rfl, rfl⟩

/-- C21 fails as stated.  For the full circle of the fourth scenario `SetParams` returns true
with two arcs, the first from angle 0 to angle `M_PI`, between the diametrically opposite
points `(10,0,0)` and `(-10,0,0)`: its span is `M_PI`, the pi of the program, not less. -/
theorem SetParams_half_turn_span :
    IGES_GEOM_CYLINDER.SetParams Examples.cmath Examples.lib IGES_GEOM_CYLINDER.new
        ⟨0, 0, 0⟩ ⟨10, 0, 0⟩ ⟨10, 0, 0⟩ = (true, Examples.fullCircle) ∧
    Examples.fullCircle.narcs = 2 ∧
    Examples.fullCircle.angles[0]? = some 0 ∧ Examples.fullCircle.angles[1]? = some M_PI ∧
    ¬ (M_PI - 0 < M_PI) ∧
    Examples.fullCircle.arcs[1]? = some ⟨10, 0, 0⟩ ∧
    Examples.fullCircle.arcs[2]? = some ⟨-10, 0, 0⟩ := by
  refine ⟨by decide!, rfl, rfl, rfl, by simp, rfl, rfl⟩

/-- C21, amended.  For every (centre, start, end) that `SetParams` accepts, `atan2` returning
angles in `[-M_PI, M_PI]`, the number of arcs `narcs` is 1, 2 or 3 and each arc `i < narcs`
covers a span `angles[2i+1] - angles[2i]` that is not negative and at most `M_PI`. -/
theorem SetParams_spans (Mth : CMath) (X : Library) (c c' : IGES_GEOM_CYLINDER)
    (center start end_ : MCAD_POINT)
    (hrange : ∀ y x, -M_PI ≤ Mth.atan2 y x ∧ Mth.atan2 y x ≤ M_PI)
    (h : c.SetParams Mth X center start end_ = (true, c')) :
    (c'.narcs = 1 ∨ c'.narcs = 2 ∨ c'.narcs = 3) ∧
    ∀ i : Nat, (i : Int) < c'.narcs →
      ∃ s e, c'.angles[2 * i]? = some s ∧ c'.angles[2 * i + 1]? = some e ∧
        0 ≤ e - s ∧ e - s ≤ M_PI := by
  have hpi := M_PI_pos
  unfold IGES_GEOM_CYLINDER.SetParams at h
  dsimp only at h
  split at h
  · simp at h
  split at h
  · simp at h
  split at h
  · simp at h
  split at h
  · simp only [Prod.mk.injEq, true_and] at h
    subst h
    refine ⟨Or.inr (Or.inl rfl), ?_⟩
    intro i hi
    dsimp only at hi
    have hi2 : i < 2 := by omega
    interval_cases i
    · exact ⟨0, M_PI, rfl, rfl, by linarith, by linarith⟩
    · exact ⟨M_PI, 2 * M_PI, rfl, rfl, by linarith, by linarith⟩
  · simp only [Prod.mk.injEq, true_and] at h
    subst h
    obtain ⟨hn, ha, -⟩ := setArcPoints_frame Mth
      { c.clear with
        radius := Mth.sqrt ((center.sub start).x * (center.sub start).x
          + (center.sub start).y * (center.sub start).y),
        arcs := c.clear.arcs.set 0 center,
        narcs := (IGES_GEOM_CYLINDER.splitAngles c.clear.angles
          (Mth.atan2 (start.y - center.y) (start.x - center.x))
          (Mth.atan2 (end_.y - center.y) (end_.x - center.x))).1,
        angles := (IGES_GEOM_CYLINDER.splitAngles c.clear.angles
          (Mth.atan2 (start.y - center.y) (start.x - center.x))
          (Mth.atan2 (end_.y - center.y) (end_.x - center.x))).2 }
      center start end_
    rw [hn, ha]
    exact splitAngles_spans _ _ (hrange _ _) (hrange _ _)

/-- Witness of C21: a quarter turn from `(10,0,0)` to `(0,10,0)` about the origin. -/
theorem SetParams_spans_witness :
    ∃ c', IGES_GEOM_CYLINDER.new.SetParams Examples.cmath Examples.lib
        ⟨0, 0, 0⟩ ⟨10, 0, 0⟩ ⟨0, 10, 0⟩ = (true, c') ∧
      (c'.narcs = 1 ∨ c'.narcs = 2 ∨ c'.narcs = 3) := by
  have hr : ∀ y x, -M_PI ≤ Examples.cmath.atan2 y x ∧ Examples.cmath.atan2 y x ≤ M_PI := by
    intro y x
    have hpi := M_PI_pos
    simp only [Examples.cmath]
    split_ifs <;> constructor <;> linarith
  have hrun : (IGES_GEOM_CYLINDER.new.SetParams Examples.cmath Examples.lib
      ⟨0, 0, 0⟩ ⟨10, 0, 0⟩ ⟨0, 10, 0⟩).1 = true := by decide!
  exact ⟨_, Prod.ext hrun rfl, (SetParams_spans Examples.cmath Examples.lib
    IGES_GEOM_CYLINDER.new _ ⟨0, 0, 0⟩ ⟨10, 0, 0⟩ ⟨0, 10, 0⟩ hr (Prod.ext hrun rfl)).1⟩
/-- C23.  `SetParams( centre, start, end )` returns false if and only if some point has a
non-zero Z, or `PointMatches` finds the centre at the start or at the end within `1e-8`, or
the radii `sqrt` gives for centre to start and centre to end differ by more than `1e-8`;
after a false return `narcs = 0` and `radius = 0`, whatever the object held before, and
`Instantiate` on that object returns false, leaving model and result as they were;
`Instantiate` on any object returns false for a NULL model and for `|top - bot| < 0.001`. -/
theorem SetParams_rejects (Mth : CMath) (X : Library) (c : IGES_GEOM_CYLINDER)
    (center start end_ : MCAD_POINT) :
    ((c.SetParams Mth X center start end_).1 = false ↔
      (center.z ≠ 0 ∨ start.z ≠ 0 ∨ end_.z ≠ 0) ∨
      (X.PointMatches center start (1 / 100000000) = true ∨
        X.PointMatches center end_ (1 / 100000000) = true) ∨
      |Mth.sqrt ((center.x - start.x) * (center.x - start.x)
          + (center.y - start.y) * (center.y - start.y))
        - Mth.sqrt ((center.x - end_.x) * (center.x - end_.x)
          + (center.y - end_.y) * (center.y - end_.y))| > 1 / 100000000) ∧
    ((c.SetParams Mth X center start end_).1 = false →
      (c.SetParams Mth X center start end_).2.narcs = 0 ∧
      (c.SetParams Mth X center start end_).2.radius = 0 ∧
      ∀ (F : CylinderCalls) (Y : Library) (model : Option Model) (top bot : ℚ)
        (result : List Nat),
        (c.SetParams Mth X center start end_).2.Instantiate F Y model top bot result
          = some (false, model, result)) ∧
    (∀ (F : CylinderCalls) (Y : Library) (d : IGES_GEOM_CYLINDER) (top bot : ℚ)
        (result : List Nat), d.Instantiate F Y none top bot result = some (false, none, result)) ∧
    (∀ (F : CylinderCalls) (Y : Library) (d : IGES_GEOM_CYLINDER) (model : Option Model)
        (top bot : ℚ) (result : List Nat), |top - bot| < 1 / 1000 →
        d.Instantiate F Y model top bot result = some (false, model, result)) := by
  have hinst0 : ∀ (d : IGES_GEOM_CYLINDER), d.narcs = 0 →
      ∀ (F : CylinderCalls) (Y : Library) (model : Option Model) (top bot : ℚ)
        (result : List Nat), d.Instantiate F Y model top bot result
          = some (false, model, result) := by
    intro d hd F Y model top bot result
    unfold IGES_GEOM_CYLINDER.Instantiate
    rw [if_pos hd]
  refine ⟨?_, ?_, ?_, ?_⟩
  · unfold IGES_GEOM_CYLINDER.SetParams
    dsimp only
    split
    · rename_i hz
      simp only [true_iff]
      left
      rcases hz with h | h | h | h | h | h
      · exact Or.inl (ne_of_lt h)
      · exact Or.inl (ne_of_gt h)
      · exact Or.inr (Or.inl (ne_of_lt h))
      · exact Or.inr (Or.inl (ne_of_gt h))
      · exact Or.inr (Or.inr (ne_of_lt h))
      · exact Or.inr (Or.inr (ne_of_gt h))
    · rename_i hz
      have hz0 : center.z = 0 ∧ start.z = 0 ∧ end_.z = 0 := by
        simp only [not_or, not_lt] at hz
        obtain ⟨a, b, a2, b2, a3, b3⟩ := hz
        exact ⟨le_antisymm b a, le_antisymm b2 a2, le_antisymm b3 a3⟩
      split
      · rename_i hm
        simp only [true_iff]
        exact Or.inr (Or.inl hm)
      · rename_i hm
        split
        · rename_i hr
          simp only [true_iff]
          right; right
          simpa [MCAD_POINT.sub] using hr
        · rename_i hr
          have hfalse : ¬ ((center.z ≠ 0 ∨ start.z ≠ 0 ∨ end_.z ≠ 0) ∨
              (X.PointMatches center start (1 / 100000000) = true ∨
                X.PointMatches center end_ (1 / 100000000) = true) ∨
              |Mth.sqrt ((center.x - start.x) * (center.x - start.x)
                  + (center.y - start.y) * (center.y - start.y))
                - Mth.sqrt ((center.x - end_.x) * (center.x - end_.x)
                  + (center.y - end_.y) * (center.y - end_.y))| > 1 / 100000000) := by
            rintro (h | h | h)
            · rcases h with h | h | h
              · exact h hz0.1
              · exact h hz0.2.1
              · exact h hz0.2.2
            · exact hm h
            · apply hr
              simpa [MCAD_POINT.sub] using h
          split <;> simp only [Bool.true_eq_false, false_iff] <;> exact hfalse
  · intro hf
    have hc : (c.SetParams Mth X center start end_).2 = c.clear := by
      unfold IGES_GEOM_CYLINDER.SetParams at hf ⊢
      dsimp only at hf ⊢
      split
      · rfl
      · rw [if_neg ‹_›] at hf
        split
        · rfl
        · rw [if_neg ‹_›] at hf
          split
          · rfl
          · rw [if_neg ‹_›] at hf
            split at hf <;> simp at hf
    rw [hc]
    exact ⟨rfl, rfl, hinst0 c.clear rfl⟩
  · intro F Y d top bot result
    unfold IGES_GEOM_CYLINDER.Instantiate
    split
    · rename_i hd
      rfl
    · rfl
  · intro F Y d model top bot result hgap
    unfold IGES_GEOM_CYLINDER.Instantiate
    split
    · rfl
    · cases model with
      | none => rfl
      | some m => simp only [if_pos hgap]

/-- Witness of C23: a start point above the plane is refused, and a cylinder of height
`0.0005` is refused by `Instantiate`. -/
theorem SetParams_rejects_witness :
    (IGES_GEOM_CYLINDER.new.SetParams Examples.cmath Examples.lib
        ⟨0, 0, 0⟩ ⟨10, 0, 1⟩ ⟨0, 10, 0⟩).2.narcs = 0 ∧
    Examples.fullCircle.Instantiate (Examples.calls true) Examples.lib
        (some Examples.emptyModel) (1 / 2000) 0 [] = some (false, some Examples.emptyModel, []) := by
  have h := SetParams_rejects Examples.cmath Examples.lib IGES_GEOM_CYLINDER.new
    ⟨0, 0, 0⟩ ⟨10, 0, 1⟩ ⟨0, 10, 0⟩
  exact ⟨(h.2.1 (h.1.mpr (Or.inl (Or.inr (Or.inl (by decide)))))).1,
    h.2.2.2 (Examples.calls true) Examples.lib Examples.fullCircle (some Examples.emptyModel)
      (1 / 2000) 0 [] (by norm_num [abs_of_pos])⟩

theorem knotsOf_length (ks : List ℚ) (n : Nat) : ∀ i, (IGES_ENTITY_126.knotsOf ks n i).length = n := by
  induction n with
  | zero => intro i; rfl
  | succ n ih => intro i; simp [IGES_ENTITY_126.knotsOf, ih]

theorem knotsOf_eq (ks : List ℚ) (n : Nat) :
    ∀ i, i + n = ks.length → IGES_ENTITY_126.knotsOf ks n i = ks.drop i := by
  induction n with
  | zero =>
    intro i h
    simp only [IGES_ENTITY_126.knotsOf]
    rw [List.drop_of_length_le (by omega)]
  | succ n ih =>
    intro i h
    simp only [IGES_ENTITY_126.knotsOf]
    rw [ih (i + 1) (by omega)]
    have hi : i < ks.length := by omega
    rw [List.getD_eq_getElem?_getD, List.getElem?_eq_getElem hi, Option.getD_some]
    exact (List.drop_eq_getElem_cons hi).symm

theorem weightsOf_length (p : Int) (cs : List ℚ) (n : Nat) :
    ∀ j, (IGES_ENTITY_126.weightsOf p cs n j).length = n := by
  induction n with
  | zero => intro j; rfl
  | succ n ih => intro j; simp [IGES_ENTITY_126.weightsOf, ih]

theorem pointsOf_length (p : Int) (cs : List ℚ) (n : Nat) :
    ∀ j, (IGES_ENTITY_126.pointsOf p cs n j).length = 3 * n := by
  induction n with
  | zero => intro j; rfl
  | succ n ih =>
    intro j
    simp only [IGES_ENTITY_126.pointsOf, List.length_cons, ih]
    omega

theorem formatKnots_all (X : Library) (hF : ∀ v t, X.FormatPDREal v t = true) (uir : ℚ)
    (ks : List ℚ) (n : Nat) : ∀ (i : Nat) (out : List PDItem), i + n ≤ ks.length →
    IGES_ENTITY_126.formatKnots X uir ks n i out
      = some (true, out ++ (IGES_ENTITY_126.knotsOf ks n i).map (fun v => PDItem.real v uir)) := by
  induction n with
  | zero => intro i out _; simp [IGES_ENTITY_126.formatKnots, IGES_ENTITY_126.knotsOf]
  | succ n ih =>
    intro i out h
    have hi : i < ks.length := by omega
    unfold IGES_ENTITY_126.formatKnots
    simp only [load, List.getElem?_eq_getElem hi, hF, Bool.not_true, Bool.false_eq_true,
      if_false]
    rw [ih (i + 1) _ (by omega)]
    simp [IGES_ENTITY_126.knotsOf, List.getD_eq_getElem?_getD, List.getElem?_eq_getElem hi]

theorem formatWeights_all (X : Library) (hF : ∀ v t, X.FormatPDREal v t = true) (p : Int)
    (cs : List ℚ) (n : Nat) : ∀ (j : Nat) (out : List PDItem),
    (p = 0 → n = 0 ∨ j + 4 * (n - 1) < cs.length) →
    IGES_ENTITY_126.formatWeights X p cs n j out
      = some (true, out ++ (IGES_ENTITY_126.weightsOf p cs n j).map
          (fun v => PDItem.real v (1 / 1000000))) := by
  induction n with
  | zero => intro j out _; simp [IGES_ENTITY_126.formatWeights, IGES_ENTITY_126.weightsOf]
  | succ n ih =>
    intro j out h
    unfold IGES_ENTITY_126.formatWeights
    by_cases hp : p = 0
    · subst hp
      have hj : j < cs.length := by
        rcases h rfl with h | h
        · omega
        · omega
      simp only [if_true, load, List.getElem?_eq_getElem hj, hF, Bool.not_true,
        Bool.false_eq_true, if_false]
      rw [ih (j + 1 + 3) _ (by
        intro _
        rcases h rfl with h | h
        · omega
        · by_cases hn : n = 0
          · exact Or.inl hn
          · right; omega)]
      simp [IGES_ENTITY_126.weightsOf, List.getD_eq_getElem?_getD, List.getElem?_eq_getElem hj]
    · simp only [hp, if_false, hF, Bool.not_true, Bool.false_eq_true]
      rw [ih (j + 3) _ (fun h0 => absurd h0 hp)]
      simp [IGES_ENTITY_126.weightsOf, hp]

theorem formatPoints_all (X : Library) (hF : ∀ v t, X.FormatPDREal v t = true) (uir : ℚ)
    (p : Int) (cs : List ℚ) (n : Nat) : ∀ (j : Nat) (out : List PDItem),
    j + (if p = 0 then 4 else 3) * n ≤ cs.length + (if p = 0 then 1 else 0) →
    IGES_ENTITY_126.formatPoints X uir p cs n j out
      = some (true, out ++ (IGES_ENTITY_126.pointsOf p cs n j).map
          (fun v => PDItem.real v uir)) := by
  induction n with
  | zero => intro j out _; simp [IGES_ENTITY_126.formatPoints, IGES_ENTITY_126.pointsOf]
  | succ n ih =>
    intro j out h
    have hj : j + 2 < cs.length := by
      split_ifs at h <;> omega
    have hj0 : j < cs.length := by omega
    have hj1 : j + 1 < cs.length := by omega
    unfold IGES_ENTITY_126.formatPoints
    simp only [load, List.getElem?_eq_getElem hj, List.getElem?_eq_getElem hj0,
      List.getElem?_eq_getElem hj1, hF, Bool.not_true, Bool.false_eq_true, if_false]
    rw [ih _ _ (by split_ifs at h ⊢ <;> omega)]
    simp [IGES_ENTITY_126.pointsOf, List.getD_eq_getElem?_getD, List.getElem?_eq_getElem hj,
      List.getElem?_eq_getElem hj0, List.getElem?_eq_getElem hj1]
theorem set_agree (arr cs : List ℚ) (j idx : Nat) (hlen : arr.length = cs.length)
    (h : idx = j ∨ arr[idx]? = cs[idx]?) :
    (arr.set j (cs.getD j 0))[idx]? = cs[idx]? := by
  rw [List.getElem?_set]
  by_cases hji : j = idx
  · subst hji
    rw [if_pos rfl]
    by_cases hj : j < cs.length
    · rw [if_pos (by omega), List.getD_eq_getElem?_getD, List.getElem?_eq_getElem hj,
        Option.getD_some]
    · rw [if_neg (by omega), List.getElem?_eq_none (by omega)]
  · rw [if_neg hji]
    rcases h with h | h
    · exact absurd h.symm hji
    · exact h

theorem ParseReal_ofReal (v : ℚ) (rest : List Field) :
    ParseReal (Field.ofReal v :: rest) = some (v, rest) := rfl

theorem ParseInt_ofInt (v : Int) (rest : List Field) :
    ParseInt (Field.ofInt v :: rest) = some (v, rest) := rfl

theorem readKnots_layout (ks : List ℚ) (rest : List Field) (n : Nat) :
    ∀ (i : Nat) (arr : List ℚ), arr.length = ks.length →
    ∃ arr', IGES_ENTITY_126.readKnots n i
        ((IGES_ENTITY_126.knotsOf ks n i).map Field.ofReal ++ rest) arr = some (arr', rest)
      ∧ arr'.length = ks.length
      ∧ ∀ idx, ((i ≤ idx ∧ idx < i + n) ∨ arr[idx]? = ks[idx]?) → arr'[idx]? = ks[idx]? := by
  induction n with
  | zero =>
    intro i arr hlen
    refine ⟨arr, rfl, hlen, ?_⟩
    intro idx h
    rcases h with h | h
    · omega
    · exact h
  | succ n ih =>
    intro i arr hlen
    obtain ⟨arr', hrun, hlen', hag⟩ := ih (i + 1) (arr.set i (ks.getD i 0))
      (by rw [List.length_set]; exact hlen)
    refine ⟨arr', ?_, hlen', ?_⟩
    · simp only [IGES_ENTITY_126.knotsOf, List.map_cons, List.cons_append,
        IGES_ENTITY_126.readKnots, ParseReal_ofReal]
      exact hrun
    · intro idx h
      apply hag
      by_cases hi : idx = i
      · exact Or.inr (set_agree arr ks i idx hlen (Or.inl hi))
      · rcases h with h | h
        · left; omega
        · exact Or.inr (set_agree arr ks i idx hlen (Or.inr h))

theorem readWeights_rational (cs : List ℚ) (rest : List Field) (n : Nat) :
    ∀ (j : Nat) (arr : List ℚ), arr.length = cs.length →
    (∀ k, k < n → 0 < cs.getD (j + 4 * k) 0) →
    ∃ arr', IGES_ENTITY_126.readWeights 0 n j
        ((IGES_ENTITY_126.weightsOf 0 cs n j).map Field.ofReal ++ rest) arr = some (arr', rest)
      ∧ arr'.length = cs.length
      ∧ ∀ idx, ((∃ k, k < n ∧ idx = j + 4 * k) ∨ arr[idx]? = cs[idx]?) →
          arr'[idx]? = cs[idx]? := by
  induction n with
  | zero =>
    intro j arr hlen _
    refine ⟨arr, rfl, hlen, ?_⟩
    intro idx h
    rcases h with ⟨k, hk, _⟩ | h
    · omega
    · exact h
  | succ n ih =>
    intro j arr hlen hpos
    obtain ⟨arr', hrun, hlen', hag⟩ := ih (j + 4) (arr.set j (cs.getD j 0))
      (by rw [List.length_set]; exact hlen)
      (by
        intro k hk
        have := hpos (k + 1) (by omega)
        rw [show j + 4 + 4 * k = j + 4 * (k + 1) by ring]
        exact this)
    have h0 : ¬ cs.getD j 0 ≤ 0 := not_le.mpr (by simpa using hpos 0 (by omega))
    refine ⟨arr', ?_, hlen', ?_⟩
    · simp only [IGES_ENTITY_126.weightsOf, if_true, List.map_cons, List.cons_append,
        IGES_ENTITY_126.readWeights, ParseReal_ofReal, if_neg h0]
      exact hrun
    · intro idx h
      apply hag
      by_cases hi : idx = j
      · exact Or.inr (set_agree arr cs j idx hlen (Or.inl hi))
      · rcases h with ⟨k, hk, hidx⟩ | h
        · left
          refine ⟨k - 1, ?_, ?_⟩
          · omega
          · have : k ≠ 0 := by
              intro hk0
              apply hi
              rw [hidx, hk0]
              rfl
            omega
        · exact Or.inr (set_agree arr cs j idx hlen (Or.inr h))

theorem readWeights_polynomial (p : Int) (hp : p ≠ 0) (cs : List ℚ) (rest : List Field)
    (arr : List ℚ) (n : Nat) : ∀ (j j' : Nat),
    IGES_ENTITY_126.readWeights p n j
      ((IGES_ENTITY_126.weightsOf p cs n j').map Field.ofReal ++ rest) arr = some (arr, rest) := by
  induction n with
  | zero => intro j j'; rfl
  | succ n ih =>
    intro j j'
    simp only [IGES_ENTITY_126.weightsOf, if_neg hp, List.map_cons, List.cons_append,
      IGES_ENTITY_126.readWeights, ParseReal_ofReal]
    rw [if_neg (by norm_num)]
    exact ih j (j' + 3)

theorem readPoints_layout (p : Int) (s : Nat)
    (hs : ∀ j : Nat, (if p = 0 then j + 4 else j + 3) = j + s)
    (cs : List ℚ) (rest : List Field) (n : Nat) :
    ∀ (j : Nat) (arr : List ℚ), arr.length = cs.length →
    ∃ arr', IGES_ENTITY_126.readPoints p n j
        ((IGES_ENTITY_126.pointsOf p cs n j).map Field.ofReal ++ rest) arr = some (arr', rest)
      ∧ arr'.length = cs.length
      ∧ ∀ idx, ((∃ k r, k < n ∧ r < 3 ∧ idx = j + s * k + r) ∨ arr[idx]? = cs[idx]?) →
          arr'[idx]? = cs[idx]? := by
  induction n with
  | zero =>
    intro j arr hlen
    refine ⟨arr, rfl, hlen, ?_⟩
    intro idx h
    rcases h with ⟨k, r, hk, _⟩ | h
    · omega
    · exact h
  | succ n ih =>
    intro j arr hlen
    have hl1 : (arr.set j (cs.getD j 0)).length = cs.length := by
      rw [List.length_set]; exact hlen
    have hl2 : ((arr.set j (cs.getD j 0)).set (j + 1) (cs.getD (j + 1) 0)).length
        = cs.length := by
      rw [List.length_set]; exact hl1
    obtain ⟨arr', hrun, hlen', hag⟩ := ih (j + s)
      ((((arr.set j (cs.getD j 0)).set (j + 1) (cs.getD (j + 1) 0)).set (j + 2)
        (cs.getD (j + 2) 0)))
      (by rw [List.length_set]; exact hl2)
    refine ⟨arr', ?_, hlen', ?_⟩
    · simp only [IGES_ENTITY_126.pointsOf, List.map_cons, List.cons_append,
        IGES_ENTITY_126.readPoints, ParseReal_ofReal, hs]
      exact hrun
    · intro idx h
      apply hag
      by_cases h2 : idx = j + 2
      · exact Or.inr (set_agree _ cs _ idx hl2 (Or.inl h2))
      · by_cases h1 : idx = j + 1
        · exact Or.inr (set_agree _ cs _ idx hl2
            (Or.inr (set_agree _ cs _ idx hl1 (Or.inl h1))))
        · by_cases h0 : idx = j
          · exact Or.inr (set_agree _ cs _ idx hl2
              (Or.inr (set_agree _ cs _ idx hl1
                (Or.inr (set_agree _ cs _ idx hlen (Or.inl h0))))))
          · rcases h with ⟨k, r, hk, hr, hidx⟩ | h
            · left
              have hk0 : k ≠ 0 := by
                intro hk0
                subst hk0
                omega
              refine ⟨k - 1, r, by omega, hr, ?_⟩
              obtain ⟨k', rfl⟩ : ∃ k', k = k' + 1 := ⟨k - 1, by omega⟩
              rw [hidx, Nat.add_sub_cancel, Nat.mul_succ]
              omega
            · exact Or.inr (set_agree _ cs _ idx hl2
                (Or.inr (set_agree _ cs _ idx hl1
                  (Or.inr (set_agree _ cs _ idx hlen (Or.inr h))))))
theorem agree_eq (arr cs : List ℚ) (hlen : arr.length = cs.length)
    (h : ∀ idx, idx < cs.length → arr[idx]? = cs[idx]?) : arr = cs := by
  apply List.ext_getElem?
  intro idx
  by_cases hi : idx < cs.length
  · exact h idx hi
  · rw [List.getElem?_eq_none (by omega), List.getElem?_eq_none (by omega)]

theorem readHeader_layout (e0 : IGES_ENTITY_126) (k m p1 p2 p3 p4 : Int) (rest : List Field)
    (hk : 1 ≤ k) (hm : 1 ≤ m) (h1 : p1 = 0 ∨ p1 = 1) (h2 : p2 = 0 ∨ p2 = 1)
    (h3 : p3 = 0 ∨ p3 = 1) (h4 : p4 = 0 ∨ p4 = 1) :
    e0.readHeader (Field.ofInt k :: Field.ofInt m :: Field.ofInt p1 :: Field.ofInt p2
        :: Field.ofInt p3 :: Field.ofInt p4 :: rest)
      = Except.ok ({ e0 with K := k, M := m, PROP1 := p1, PROP2 := p2, PROP3 := p3,
                             PROP4 := p4 }, rest) := by
  have hk' : ¬ k < 1 := not_lt.mpr hk
  have hm' : ¬ m < 1 := not_lt.mpr hm
  rcases h1 with rfl | rfl <;> rcases h2 with rfl | rfl <;> rcases h3 with rfl | rfl <;>
    rcases h4 with rfl | rfl <;>
    simp [IGES_ENTITY_126.readHeader, ParseInt_ofInt, hk', hm']

theorem readKnots_all (ks : List ℚ) (rest : List Field) :
    IGES_ENTITY_126.readKnots ks.length 0 (ks.map Field.ofReal ++ rest)
      (List.replicate ks.length 0) = some (ks, rest) := by
  obtain ⟨arr', hrun, hlen, hag⟩ := readKnots_layout ks rest ks.length 0
    (List.replicate ks.length 0) (by simp)
  rw [knotsOf_eq ks ks.length 0 (by omega), List.drop_zero] at hrun
  rw [hrun, agree_eq arr' ks hlen (fun idx hi => hag idx (Or.inl ⟨by omega, by omega⟩))]

theorem readCoeffs_all (p : Int) (hp : p = 0 ∨ p = 1) (cs : List ℚ) (n : Nat)
    (hlen : cs.length = (if p = 0 then 4 else 3) * n)
    (hw : p = 0 → ∀ i, i < n → 0 < cs.getD (4 * i + 3) 0) (rest : List Field) :
    ∃ arr, IGES_ENTITY_126.readWeights p n 3
        ((IGES_ENTITY_126.weightsOf p cs n 3).map Field.ofReal
          ++ ((IGES_ENTITY_126.pointsOf p cs n 0).map Field.ofReal ++ rest))
        (List.replicate cs.length 0)
        = some (arr, (IGES_ENTITY_126.pointsOf p cs n 0).map Field.ofReal ++ rest)
      ∧ IGES_ENTITY_126.readPoints p n 0
          ((IGES_ENTITY_126.pointsOf p cs n 0).map Field.ofReal ++ rest) arr
        = some (cs, rest) := by
  rcases hp with rfl | rfl
  · rw [if_pos rfl] at hlen
    obtain ⟨arr, hrun, hl, hag⟩ := readWeights_rational cs
      ((IGES_ENTITY_126.pointsOf 0 cs n 0).map Field.ofReal ++ rest) n 3
      (List.replicate cs.length 0) (by simp)
      (by
        intro k hk
        rw [show 3 + 4 * k = 4 * k + 3 by ring]
        exact hw rfl k hk)
    obtain ⟨arr', hrun', hl', hag'⟩ := readPoints_layout 0 4 (fun j => by simp) cs rest n 0
      arr hl
    refine ⟨arr, hrun, ?_⟩
    rw [hrun', agree_eq arr' cs hl' ?_]
    intro idx hi
    apply hag'
    by_cases h3 : idx % 4 = 3
    · right
      apply hag
      left
      exact ⟨idx / 4, by omega, by omega⟩
    · left
      exact ⟨idx / 4, idx % 4, by omega, by omega, by omega⟩
  · rw [if_neg (by norm_num)] at hlen
    obtain ⟨arr', hrun', hl', hag'⟩ := readPoints_layout 1 3 (fun j => by simp) cs rest n 0
      (List.replicate cs.length 0) (by simp)
    refine ⟨List.replicate cs.length 0, readWeights_polynomial 1 (by norm_num) cs _ _ n 3 3, ?_⟩
    rw [hrun', agree_eq arr' cs hl' ?_]
    intro idx hi
    apply hag'
    left
    exact ⟨idx / 3, idx % 3, by omega, by omega, by omega⟩

theorem readArrays_layout (e1 : IGES_ENTITY_126) (ks cs : List ℚ) (rest : List Field)
    (hK : 1 ≤ e1.K) (hp : e1.PROP3 = 0 ∨ e1.PROP3 = 1)
    (hlk : (ks.length : Int) = e1.K + e1.M + 2)
    (hlc : cs.length = (if e1.PROP3 = 0 then 4 else 3) * (e1.K + 1).toNat)
    (hw : e1.PROP3 = 0 → ∀ i, i < (e1.K + 1).toNat → 0 < cs.getD (4 * i + 3) 0) :
    e1.readArrays (ks.map Field.ofReal
        ++ ((IGES_ENTITY_126.weightsOf e1.PROP3 cs (e1.K + 1).toNat 3).map Field.ofReal
          ++ ((IGES_ENTITY_126.pointsOf e1.PROP3 cs (e1.K + 1).toNat 0).map Field.ofReal
            ++ rest)))
      = Except.ok ({ e1 with nKnots := 2 + e1.K + e1.M, knots := some ks, nCoeffs := e1.K + 1,
                             coeffs := some cs }, rest) := by
  obtain ⟨arr, hW, hP⟩ := readCoeffs_all e1.PROP3 hp cs (e1.K + 1).toNat hlc hw rest
  have hn : (2 + e1.K + e1.M).toNat = ks.length := by omega
  have hsize : (if e1.PROP3 = (0 : Int) then ((e1.K + 1) * 4).toNat else ((e1.K + 1) * 3).toNat)
      = cs.length := by
    rw [hlc]
    split_ifs <;> omega
  unfold IGES_ENTITY_126.readArrays
  simp only [hn, hsize, readKnots_all, hW, hP]
theorem readTail_layout (X : Library) (r : PDRecord) (e2 : IGES_ENTITY_126) (v0 v1 : ℚ)
    (n nrm : MCAD_POINT) (hc : r.commentsOk = true)
    (hn : (if e2.PROP1 = (1 : Int) then X.CheckNormal n else some (⟨0, 0, 1⟩ : MCAD_POINT))
      = some nrm) :
    e2.readTail X r [Field.ofReal v0, Field.ofReal v1, Field.ofReal n.x, Field.ofReal n.y,
        Field.ofReal n.z]
      = Except.ok { e2 with V0 := v0, V1 := v1, vnorm := nrm, pdout := [] } := by
  simp only [IGES_ENTITY_126.readTail, ParseReal_ofReal, hn, eor, hc, List.isEmpty_nil,
    Bool.not_true, Bool.false_and, Bool.false_eq_true, if_false]

theorem formatItems_layout (X : Library) (hF : ∀ v t, X.FormatPDREal v t = true)
    (hx : X.formatExtraParams = true) (hc : X.formatComments = true)
    (e : IGES_ENTITY_126) (ks cs : List ℚ) (het : e.entityType = 126) (hs : e.structural)
    (hlk : (ks.length : Int) = e.K + e.M + 2)
    (hlc : cs.length = e.stride * (e.K + 1).toNat) :
    e.formatItems X ks cs = some (true, { e with pdout := e.layout ks cs }) := by
  obtain ⟨hK, hM, hnk, hnc, _, _, _, _⟩ := hs
  have h1 : e.nKnots.toNat = ks.length := by omega
  have hpos : 1 ≤ (e.K + 1).toNat := by omega
  unfold IGES_ENTITY_126.stride at hlc
  unfold IGES_ENTITY_126.formatItems
  simp only [hnc, h1]
  rw [formatKnots_all X hF _ ks ks.length 0 _ (by omega),
    knotsOf_eq ks ks.length 0 (by omega), List.drop_zero]
  simp only []
  rw [formatWeights_all X hF e.PROP3 cs _ 3 _ (by
    intro h0
    right
    rw [if_pos h0] at hlc
    omega)]
  simp only []
  rw [formatPoints_all X hF _ e.PROP3 cs _ 0 _ (by
    split_ifs at hlc ⊢ <;> omega)]
  simp only [IGES_ENTITY_126.formatTail, hF, hx, hc, Bool.not_true, Bool.false_eq_true,
    if_false, Bool.and_false, IGES_ENTITY_126.layout, het, hnc, List.append_assoc,
    List.singleton_append, List.cons_append, List.nil_append]
theorem formatRejects_false (e : IGES_ENTITY_126) (hs : e.structural) :
    e.formatRejects = false := by
  obtain ⟨hK, hM, hnk, hnc, hp1, hp2, hp3, hp4⟩ := hs
  unfold IGES_ENTITY_126.formatRejects
  split_ifs <;> first | rfl | (exfalso; omega)

theorem format_layout (X : Library) (hF : ∀ v t, X.FormatPDREal v t = true)
    (hx : X.formatExtraParams = true) (hc : X.formatComments = true)
    (e : IGES_ENTITY_126) (ks cs : List ℚ) (index : Int)
    (hidx : 1 ≤ index ∧ index ≤ 9999999) (hpar : e.parent ≠ none)
    (het : e.entityType = 126) (hs : e.structural)
    (hk : e.knots = some ks) (hcs : e.coeffs = some cs)
    (hlk : (ks.length : Int) = e.K + e.M + 2)
    (hlc : cs.length = e.stride * (e.K + 1).toNat) :
    e.format X index
      = some (true, { e with parameterData := index, pdout := e.layout ks cs }) := by
  obtain ⟨g, hg⟩ := Option.ne_none_iff_exists'.mp hpar
  have hrej : IGES_ENTITY_126.formatRejects
      { e with pdout := [], parameterData := index } = false := formatRejects_false _ hs
  have hitems := formatItems_layout X hF hx hc { e with pdout := [], parameterData := index }
    ks cs het hs hlk hlc
  unfold IGES_ENTITY_126.format
  simp only [hk, hcs, hg] at hrej hitems ⊢
  rw [if_neg (by omega)]
  simp only [hrej, Bool.false_eq_true, if_false]
  exact hitems

theorem ReadPD_reads (X : Library) (e : IGES_ENTITY_126) (r : PDRecord) (g : GlobalData)
    (hp : e.parent = some g) (hb : r.baseOk = true) :
    e.ReadPD X r = some (IGES_ENTITY_126.readFields X { e with pdout := [] } r) := by
  unfold IGES_ENTITY_126.ReadPD
  dsimp only
  rw [if_neg (by simp [hb])]
  split
  · rename_i h
    rw [hp] at h
    cases h
  · rfl
theorem writtenCoeffs_length (fmt : ℚ → ℚ → ℚ) (p : Int) (cs : List ℚ) :
    (IGES_ENTITY_126.writtenCoeffs fmt p cs).length = cs.length := by
  simp [IGES_ENTITY_126.writtenCoeffs]

theorem writtenCoeffs_getD (fmt : ℚ → ℚ → ℚ) (p : Int) (cs : List ℚ) (i : Nat)
    (hi : i < cs.length) :
    (IGES_ENTITY_126.writtenCoeffs fmt p cs).getD i 0
      = fmt (cs.getD i 0) (IGES_ENTITY_126.coeffTolerance p i) := by
  simp [IGES_ENTITY_126.writtenCoeffs, List.getD_eq_getElem?_getD, List.getElem?_map,
    List.getElem?_range hi]

theorem weightsOf_written (fmt : ℚ → ℚ → ℚ) (cs : List ℚ) (n : Nat) :
    ∀ j, j % 4 = 3 → (∀ k, k < n → j + 4 * k < cs.length) →
    IGES_ENTITY_126.weightsOf 0 (IGES_ENTITY_126.writtenCoeffs fmt 0 cs) n j
      = (IGES_ENTITY_126.weightsOf 0 cs n j).map (fun v => fmt v (1 / 1000000)) := by
  induction n with
  | zero => intro j _ _; rfl
  | succ n ih =>
    intro j hj hb
    have h0 : j < cs.length := by simpa using hb 0 (by omega)
    simp only [IGES_ENTITY_126.weightsOf, if_true, List.map_cons]
    rw [writtenCoeffs_getD fmt 0 cs j h0, ih (j + 1 + 3) (by omega) (by
      intro k hk
      have := hb (k + 1) (by omega)
      omega)]
    simp [IGES_ENTITY_126.coeffTolerance, hj]

theorem pointsOf_written (fmt : ℚ → ℚ → ℚ) (p : Int) (cs : List ℚ) (n : Nat) :
    ∀ j, (p = 0 → j % 4 = 0) →
    (∀ k, k < n → j + (if p = 0 then 4 else 3) * k + 2 < cs.length) →
    IGES_ENTITY_126.pointsOf p (IGES_ENTITY_126.writtenCoeffs fmt p cs) n j
      = (IGES_ENTITY_126.pointsOf p cs n j).map (fun v => fmt v (1 / 1000000000000000)) := by
  induction n with
  | zero => intro j _ _; rfl
  | succ n ih =>
    intro j hj hb
    have h0 : j + 2 < cs.length := by simpa using hb 0 (by omega)
    have t0 : IGES_ENTITY_126.coeffTolerance p j = 1 / 1000000000000000 := by
      unfold IGES_ENTITY_126.coeffTolerance
      rw [if_neg]
      rintro ⟨h, h3⟩
      have := hj h
      omega
    have t1 : IGES_ENTITY_126.coeffTolerance p (j + 1) = 1 / 1000000000000000 := by
      unfold IGES_ENTITY_126.coeffTolerance
      rw [if_neg]
      rintro ⟨h, h3⟩
      have := hj h
      omega
    have t2 : IGES_ENTITY_126.coeffTolerance p (j + 2) = 1 / 1000000000000000 := by
      unfold IGES_ENTITY_126.coeffTolerance
      rw [if_neg]
      rintro ⟨h, h3⟩
      have := hj h
      omega
    simp only [IGES_ENTITY_126.pointsOf, List.map_cons]
    rw [writtenCoeffs_getD fmt p cs j (by omega), writtenCoeffs_getD fmt p cs (j + 1) (by omega),
      writtenCoeffs_getD fmt p cs (j + 2) (by omega), t0, t1, t2,
      ih (if p = 0 then j + 4 else j + 3) (by
        intro h
        rw [if_pos h]
        have := hj h
        omega) (by
        intro k hk
        have := hb (k + 1) (by omega)
        split_ifs at this ⊢ <;> omega)]

theorem weightsOf_pos (p : Int) (cs : List ℚ) (n : Nat) :
    ∀ j, (p = 0 → ∀ k, k < n → 0 < cs.getD (j + 4 * k) 0) →
    ∀ w ∈ IGES_ENTITY_126.weightsOf p cs n j, 0 < w := by
  induction n with
  | zero => intro j _ w hw; simp [IGES_ENTITY_126.weightsOf] at hw
  | succ n ih =>
    intro j hpos w hw
    simp only [IGES_ENTITY_126.weightsOf, List.mem_cons] at hw
    rcases hw with rfl | hw
    · split_ifs with h
      · simpa using hpos h 0 (by omega)
      · norm_num
    · refine ih _ ?_ w hw
      intro h k hk
      rw [if_pos h]
      have := hpos h (k + 1) (by omega)
      rw [show j + 1 + 3 + 4 * k = j + 4 * (k + 1) by ring]
      exact this

theorem readWeights_skips (p : Int) (hp : p ≠ 0) (rest : List Field) (arr : List ℚ) :
    ∀ (ws : List ℚ) (j : Nat), (∀ w ∈ ws, 0 < w) →
    IGES_ENTITY_126.readWeights p ws.length j (ws.map Field.ofReal ++ rest) arr
      = some (arr, rest) := by
  intro ws
  induction ws with
  | nil => intro j _; rfl
  | cons w ws ih =>
    intro j hpos
    have hw : ¬ w ≤ 0 := not_le.mpr (hpos w (List.mem_cons_self _ _))
    simp only [List.length_cons, List.map_cons, List.cons_append, IGES_ENTITY_126.readWeights,
      ParseReal_ofReal, if_neg hw, if_neg hp]
    exact ih j (fun w' hw' => hpos w' (List.mem_cons_of_mem _ hw'))

theorem written_pos (fmt : ℚ → ℚ → ℚ)
    (hfmt : ∀ v tol, 0 ≤ tol → |fmt v tol - v| ≤ tol * |v|) (w : ℚ) (hw : 0 < w) :
    0 < fmt w (1 / 1000000) := by
  have h := hfmt w (1 / 1000000) (by norm_num)
  rw [abs_of_pos hw] at h
  have h2 := (abs_le.mp h).1
  linarith

theorem readArrays_written (e1 : IGES_ENTITY_126) (ks cs W : List ℚ) (rest : List Field)
    (hK : 1 ≤ e1.K) (hp : e1.PROP3 = 0 ∨ e1.PROP3 = 1)
    (hlk : (ks.length : Int) = e1.K + e1.M + 2)
    (hlc : cs.length = (if e1.PROP3 = 0 then 4 else 3) * (e1.K + 1).toNat)
    (hw : e1.PROP3 = 0 → ∀ i, i < (e1.K + 1).toNat → 0 < cs.getD (4 * i + 3) 0)
    (hWl : W.length = (e1.K + 1).toNat) (hWp : ∀ w ∈ W, 0 < w)
    (hW0 : e1.PROP3 = 0 → W = IGES_ENTITY_126.weightsOf 0 cs (e1.K + 1).toNat 3) :
    e1.readArrays (ks.map Field.ofReal
        ++ (W.map Field.ofReal
          ++ ((IGES_ENTITY_126.pointsOf e1.PROP3 cs (e1.K + 1).toNat 0).map Field.ofReal
            ++ rest)))
      = Except.ok ({ e1 with nKnots := 2 + e1.K + e1.M, knots := some ks, nCoeffs := e1.K + 1,
                             coeffs := some cs }, rest) := by
  rcases hp with h0 | h1
  · have := readArrays_layout e1 ks cs rest hK (Or.inl h0) hlk hlc hw
    rw [hW0 h0]
    rw [h0] at this ⊢
    exact this
  · have hne : e1.PROP3 ≠ 0 := by rw [h1]; norm_num
    rw [if_neg hne] at hlc
    obtain ⟨arr', hrun', hl', hag'⟩ := readPoints_layout e1.PROP3 3
      (fun j => by rw [if_neg hne]) cs rest (e1.K + 1).toNat 0
      (List.replicate cs.length 0) (by simp)
    have hcs : arr' = cs := agree_eq arr' cs hl' (by
      intro idx hi
      apply hag'
      left
      exact ⟨idx / 3, idx % 3, by omega, by omega, by omega⟩)
    rw [hcs] at hrun'
    have hsk := readWeights_skips e1.PROP3 hne
      ((IGES_ENTITY_126.pointsOf e1.PROP3 cs (e1.K + 1).toNat 0).map Field.ofReal ++ rest)
      (List.replicate cs.length 0) W 3 hWp
    rw [hWl] at hsk
    have hn : (2 + e1.K + e1.M).toNat = ks.length := by omega
    have hsize : (if e1.PROP3 = (0 : Int) then ((e1.K + 1) * 4).toNat
        else ((e1.K + 1) * 3).toNat) = cs.length := by
      rw [hlc, if_neg hne]
      omega
    unfold IGES_ENTITY_126.readArrays
    simp only [hn, hsize, readKnots_all, hsk, hrun']

/-- Claim C25, spec-modelled in the orientation of `CalcNormal`.  For every library in which
SISL builds the curve, `s1363` returns status 0 or 1 and an upper end other than 0 for the
knot vector of the scenario, `s1364` classifies the curve as open, `CalcNormal` is the normal
modelled from the spec and `PointMatches` accepts a point compared with itself:
`SetNURBSData` with `isRational = false` on `K = 3`, `M = 3` (`nCoeff = 4`, `order = 4`),
knots `[0,0,0,0,1,1,1,1]` and control points `(0,0,0)`, `(1,2,0)`, `(2,2,0)`, `(3,0,0)`
returns true and leaves `PROP1 = 1` with the z-axis `(0,0,1)` as normal, `PROP2 = 0`,
`PROP3 = 1` and `PROP4 = 0`.  Every `format` of that entity that returns true has emitted
the entity type, `K`, `M` and then the four flags in this order; and `format` does return
true for an index in range when the entity has a parent and the formatters of the library
succeed. -/
theorem planar_cubic_flags (X : Library) (e : IGES_ENTITY_126)
    (hnew : ∀ c, X.newCurve c = true)
    (hrange : ∀ c : SISLCurve, c.n = 4 → c.knots = Examples.cubicKnots →
      ((X.s1363 c).2.2 = 0 ∨ (X.s1363 c).2.2 = 1) ∧ (X.s1363 c).2.1 ≠ 0)
    (hopen : ∀ c t, X.s1364 c t = 0)
    (hcalc : ∀ p0 p1 p2 old, X.CalcNormal p0 p1 p2 old = CalcNormal p0 p1 p2 old)
    (hmatch : ∀ p, X.PointMatches p p (1 / 100000000) = true) :
    ∃ e', e.SetNURBSData X 4 4 (some Examples.cubicKnots) (some Examples.cubicPoints) false
        = some (true, e') ∧
      e'.K = 3 ∧ e'.M = 3 ∧ e'.PROP1 = 1 ∧ e'.vnorm = ⟨0, 0, 1⟩ ∧ e'.PROP2 = 0 ∧
      e'.PROP3 = 1 ∧ e'.PROP4 = 0 ∧
      (∀ index e2, e'.format X index = some (true, e2) →
        ∃ t, e2.pdout = [PDItem.int e.entityType, PDItem.int 3, PDItem.int 3, PDItem.int 1,
          PDItem.int 0, PDItem.int 1, PDItem.int 0] ++ t) ∧
      ((∀ v t, X.FormatPDREal v t = true) → X.formatExtraParams = true →
        X.formatComments = true → e.parent ≠ none → e.entityType = 126 →
        ∀ index, 1 ≤ index → index ≤ 9999999 →
          ∃ e2, e'.format X index = some (true, e2)) := by
  have hk : copyArray Examples.cubicKnots 8 0 (List.replicate 8 0)
      = some Examples.cubicKnots := by decide!
  have hcs : copyArray Examples.cubicPoints 12 0 (List.replicate 12 0)
      = some Examples.cubicPoints := by decide!
  have hn0 : ∀ old, X.CalcNormal ⟨0, 0, 0⟩ ⟨1, 2, 0⟩ ⟨2, 2, 0⟩ old = ⟨0, 0, 1⟩ := by
    intro old
    have hv : Examples.normalize (((⟨2, 2, 0⟩ : MCAD_POINT).sub ⟨0, 0, 0⟩).cross
        ((⟨1, 2, 0⟩ : MCAD_POINT).sub ⟨0, 0, 0⟩)) = some ⟨0, 0, 1⟩ := by decide!
    rw [hcalc]
    unfold CalcNormal
    rw [hv]
    rfl
  have hn1 : ∀ old, X.CalcNormal ⟨1, 2, 0⟩ ⟨2, 2, 0⟩ ⟨3, 0, 0⟩ old = ⟨0, 0, 1⟩ := by
    intro old
    have hv : Examples.normalize (((⟨3, 0, 0⟩ : MCAD_POINT).sub ⟨1, 2, 0⟩).cross
        ((⟨2, 2, 0⟩ : MCAD_POINT).sub ⟨1, 2, 0⟩)) = some ⟨0, 0, 1⟩ := by decide!
    rw [hcalc]
    unfold CalcNormal
    rw [hv]
    rfl
  have hagree : ∀ v,
      X.PointMatches (X.CalcNormal ⟨0, 0, 0⟩ ⟨1, 2, 0⟩ ⟨2, 2, 0⟩ v)
        (X.CalcNormal ⟨1, 2, 0⟩ ⟨2, 2, 0⟩ ⟨3, 0, 0⟩ ⟨0, 0, 0⟩) (1 / 100000000) = true ∨
      X.PointMatches (X.CalcNormal ⟨0, 0, 0⟩ ⟨1, 2, 0⟩ ⟨2, 2, 0⟩ v)
        ((X.CalcNormal ⟨1, 2, 0⟩ ⟨2, 2, 0⟩ ⟨3, 0, 0⟩ ⟨0, 0, 0⟩).smul (-1))
        (1 / 100000000) = true := by
    intro v
    left
    rw [hn0, hn1]
    exact hmatch _
  have hset : ∃ e', e.SetNURBSData X 4 4 (some Examples.cubicKnots)
        (some Examples.cubicPoints) false = some (true, e') ∧
      e'.K = 3 ∧ e'.M = 3 ∧ e'.PROP1 = 1 ∧ e'.PROP2 = 0 ∧ e'.PROP3 = 1 ∧ e'.PROP4 = 0 ∧
      e'.vnorm = X.CalcNormal ⟨0, 0, 0⟩ ⟨1, 2, 0⟩ ⟨2, 2, 0⟩ e.vnorm ∧
      e'.entityType = e.entityType ∧ e'.parent = e.parent ∧ e'.nKnots = 8 ∧
      e'.nCoeffs = 4 ∧ e'.coeffs = some Examples.cubicPoints ∧
      ∃ ks, e'.knots = some ks ∧ ks.length = 8 := by
    unfold IGES_ENTITY_126.SetNURBSData
    dsimp only
    rw [if_neg (by decide), if_neg (by decide)]
    simp only [Bool.false_eq_true, if_false]
    have h8 : ((4 : Int) + 4).toNat = 8 := by decide
    have h12 : ((4 : Int) * 3).toNat = 12 := by decide
    rw [h8, h12, hk, hcs]
    dsimp only
    unfold IGES_ENTITY_126.buildCurve
    rw [hnew]
    simp only [Bool.not_true, Bool.false_eq_true, if_false]
    split
    · rename_i hbad
      refine absurd (hrange _ ?_ ?_).1 (not_or.mpr hbad) <;> rfl
    · split
      · rename_i hzero
        refine absurd hzero.2.1 (hrange _ ?_ ?_).2 <;> rfl
      · split
        · rw [classify_cubic X]
          · exact ⟨_, rfl, rfl, rfl, rfl, rfl, rfl, rfl, rfl, rfl, rfl, rfl, rfl, rfl, _, rfl,
              by simp [Examples.cubicKnots]⟩
          · rfl
          · rfl
          · rfl
          · exact hopen
          · exact hagree _
        · rw [classify_cubic X]
          · exact ⟨_, rfl, rfl, rfl, rfl, rfl, rfl, rfl, rfl, rfl, rfl, rfl, rfl, rfl, _, rfl,
              rfl⟩
          · rfl
          · rfl
          · rfl
          · exact hopen
          · exact hagree _
  obtain ⟨e', h, hK, hM, h1, h2, h3, h4, hv, hty, hpar', hnk, hnc, hco, ks, hks, hkl⟩ := hset
  refine ⟨e', h, hK, hM, h1, ?_, h2, h3, h4, ?_, ?_⟩
  · rw [hv, hn0]
  · intro index e2 hf
    obtain ⟨t, ht⟩ := format_true_head X e' e2 index hf
    rw [hK, hM, h1, h2, h3, h4, hty] at ht
    exact ⟨t, ht⟩
  · intro hF hx hc hpar het index hi1 hi2
    rw [← hpar'] at hpar
    have hs : e'.structural :=
      ⟨by omega, by omega, by omega, by omega, Or.inr h1, Or.inl h2, Or.inr h3, Or.inl h4⟩
    exact ⟨_, format_layout X hF hx hc e' ks Examples.cubicPoints index ⟨hi1, hi2⟩ hpar
      (by rw [hty, het]) hs hks hco (by omega) (by
        unfold IGES_ENTITY_126.stride
        rw [h3, hK]
        decide)⟩

/-- Witness of C25: under the library of the examples a fresh curve of a model with the global
data of the examples ends with `PROP1 = 1`, the normal `(0,0,1)`, `PROP2 = 0`, `PROP3 = 1`
and `PROP4 = 0`, and `format( 1 )` returns true with the four flags behind `K` and `M`. -/
theorem planar_cubic_flags_witness :
    ∃ e', (IGES_ENTITY_126.new (some Examples.globals)).SetNURBSData Examples.lib 4 4
        (some Examples.cubicKnots) (some Examples.cubicPoints) false = some (true, e') ∧
      e'.PROP1 = 1 ∧ e'.vnorm = ⟨0, 0, 1⟩ ∧ e'.PROP2 = 0 ∧ e'.PROP3 = 1 ∧ e'.PROP4 = 0 ∧
      ∃ e2 t, e'.format Examples.lib 1 = some (true, e2) ∧
        e2.pdout = [PDItem.int 126, PDItem.int 3, PDItem.int 3, PDItem.int 1,
          PDItem.int 0, PDItem.int 1, PDItem.int 0] ++ t := by
  obtain ⟨e', h, -, -, h1, hv, h2, h3, h4, hhead, hfmt⟩ := planar_cubic_flags Examples.lib
    (IGES_ENTITY_126.new (some Examples.globals)) (fun _ => rfl)
    (fun c hn hk => by
      refine ⟨Or.inl rfl, ?_⟩
      show c.knots.getD c.n.toNat 0 ≠ 0
      rw [hn, hk]
      decide!)
    (fun _ _ => rfl) (fun _ _ _ _ => rfl)
    (fun p => by simp [Examples.lib])
  obtain ⟨e2, he2⟩ := hfmt (fun _ _ => rfl) rfl rfl (by decide) rfl 1 (by decide) (by decide)
  obtain ⟨t, ht⟩ := hhead 1 e2 he2
  exact ⟨e', h, h1, hv, h2, h3, h4, e2, t, he2, ht⟩

/-- Claim C26.  `fmt v tol` is the real that the text written by `FormatPDREal( v, tol )`
stands for, taken to lie within the relative tolerance `tol` of `v`, as the spec says of
`FormatPDREal`.  For an entity 126 with a parent that meets the structural conditions, has
positive weights and, when planar, a normal whose written form `CheckNormal` accepts,
`format` returns true and hands to `AddPDItem`, in this order, 126, `K`, `M`, `PROP1` .. `PROP4`, the `K + M + 2` knots, the `K + 1` weights (the
stored ones when rational, 1 each when polynomial), the `K + 1` control points as `x, y, z`,
then `V0`, `V1` and the normal: `K + M + 2 + 4 (K + 1) + 12` fields.  `ReadPD`, run by an
entity with a parent on the record of those fields as written, returns true and restores
`K`, `M` and the four flags; the knots, the coefficient array (weights and control points),
`V0` and `V1` it stores are the written forms of the original ones, each within the relative
tolerance of its field (`1e-6` for a weight, `1e-15` otherwise), and they are the original
ones when the written forms are exact. -/
theorem format_ReadPD_round_trip (X : Library) (fmt : ℚ → ℚ → ℚ) (e e0 : IGES_ENTITY_126)
    (ks cs : List ℚ) (index : Int) (r : PDRecord) (g0 : GlobalData)
    (hF : ∀ v t, X.FormatPDREal v t = true) (hx : X.formatExtraParams = true)
    (hc : X.formatComments = true) (hidx : 1 ≤ index ∧ index ≤ 9999999)
    (hfmt : ∀ v tol, 0 ≤ tol → |fmt v tol - v| ≤ tol * |v|)
    (hpar : e.parent ≠ none) (hpar0 : e0.parent = some g0) (het : e.entityType = 126)
    (hs : e.structural)
    (hk : e.knots = some ks) (hcs : e.coeffs = some cs)
    (hlk : (ks.length : Int) = e.K + e.M + 2)
    (hlc : cs.length = e.stride * (e.K + 1).toNat)
    (hw : e.PROP3 = 0 → ∀ i, i < (e.K + 1).toNat → 0 < cs.getD (4 * i + 3) 0)
    (hn : e.PROP1 = 1 →
      X.CheckNormal ⟨fmt e.vnorm.x (1 / 1000000000000000), fmt e.vnorm.y (1 / 1000000000000000),
        fmt e.vnorm.z (1 / 1000000000000000)⟩ ≠ none)
    (hb : r.baseOk = true) (hd : 1 ≤ r.firstDelim ∧ r.firstDelim ≤ 8)
    (hrc : r.commentsOk = true)
    (hf : r.fields = (e.layout ks cs).tail.map (PDItem.toFieldWith fmt)) :
    e.format X index
        = some (true, { e with parameterData := index, pdout := e.layout ks cs }) ∧
    ((e.layout ks cs).length : Int) = e.K + e.M + 2 + 4 * (e.K + 1) + 12 ∧
    ∃ e', e0.ReadPD X r = some (true, e') ∧
      e'.K = e.K ∧ e'.M = e.M ∧ e'.PROP1 = e.PROP1 ∧ e'.PROP2 = e.PROP2 ∧
      e'.PROP3 = e.PROP3 ∧ e'.PROP4 = e.PROP4 ∧ e'.nKnots = e.nKnots ∧
      e'.nCoeffs = e.nCoeffs ∧
      e'.knots = some (ks.map (fun v => fmt v (1 / 1000000000000000))) ∧
      e'.coeffs = some (IGES_ENTITY_126.writtenCoeffs fmt e.PROP3 cs) ∧
      e'.V0 = fmt e.V0 (1 / 1000000000000000) ∧ e'.V1 = fmt e.V1 (1 / 1000000000000000) ∧
      (∀ i, i < ks.length →
        |(ks.map (fun v => fmt v (1 / 1000000000000000))).getD i 0 - ks.getD i 0|
          ≤ 1 / 1000000000000000 * |ks.getD i 0|) ∧
      (∀ i, i < cs.length →
        |(IGES_ENTITY_126.writtenCoeffs fmt e.PROP3 cs).getD i 0 - cs.getD i 0|
          ≤ IGES_ENTITY_126.coeffTolerance e.PROP3 i * |cs.getD i 0|) ∧
      |e'.V0 - e.V0| ≤ 1 / 1000000000000000 * |e.V0| ∧
      |e'.V1 - e.V1| ≤ 1 / 1000000000000000 * |e.V1| ∧
      ((∀ v tol, fmt v tol = v) →
        e'.knots = some ks ∧ e'.coeffs = some cs ∧ e'.V0 = e.V0 ∧ e'.V1 = e.V1) := by
  have hs' := hs
  obtain ⟨hK, hM, hnk, hnc, hp1, hp2, hp3, hp4⟩ := hs'
  have hlc' : cs.length = (if e.PROP3 = 0 then 4 else 3) * (e.K + 1).toNat := hlc
  refine ⟨?_, ?_, ?_⟩
  · exact format_layout X hF hx hc e ks cs index hidx hpar het hs hk hcs hlk hlc
  · simp only [IGES_ENTITY_126.layout, List.length_append, List.length_cons, List.length_nil,
      List.length_map, weightsOf_length, pointsOf_length]
    omega
  · obtain ⟨nrm, hnrm⟩ : ∃ nrm, (if e.PROP1 = (1 : Int) then
          X.CheckNormal ⟨fmt e.vnorm.x (1 / 1000000000000000),
            fmt e.vnorm.y (1 / 1000000000000000), fmt e.vnorm.z (1 / 1000000000000000)⟩
        else some (⟨0, 0, 1⟩ : MCAD_POINT)) = some nrm := by
      by_cases h1 : e.PROP1 = 1
      · rw [if_pos h1]
        exact Option.ne_none_iff_exists'.mp (hn h1)
      · rw [if_neg h1]
        exact ⟨_, rfl⟩
    -- the written arrays
    have hcl : (IGES_ENTITY_126.writtenCoeffs fmt e.PROP3 cs).length
        = (if e.PROP3 = 0 then 4 else 3) * (e.K + 1).toNat := by
      rw [writtenCoeffs_length]
      exact hlc'
    have hkl : (((ks.map (fun v => fmt v (1 / 1000000000000000))).length : Nat) : Int)
        = e.K + e.M + 2 := by
      rw [List.length_map]
      exact hlk
    have hpts : IGES_ENTITY_126.pointsOf e.PROP3 (IGES_ENTITY_126.writtenCoeffs fmt e.PROP3 cs)
          (e.K + 1).toNat 0
        = (IGES_ENTITY_126.pointsOf e.PROP3 cs (e.K + 1).toNat 0).map
            (fun v => fmt v (1 / 1000000000000000)) := by
      apply pointsOf_written
      · intro _
        rfl
      · intro k hkk
        rw [hlc']
        split_ifs <;> omega
    have hwr : e.PROP3 = 0 → ∀ i, i < (e.K + 1).toNat →
        0 < (IGES_ENTITY_126.writtenCoeffs fmt e.PROP3 cs).getD (4 * i + 3) 0 := by
      intro h0 i hi
      have hlen : cs.length = 4 * (e.K + 1).toNat := by rw [hlc', if_pos h0]
      rw [writtenCoeffs_getD fmt e.PROP3 cs (4 * i + 3) (by omega)]
      have ht : IGES_ENTITY_126.coeffTolerance e.PROP3 (4 * i + 3) = 1 / 1000000 := by
        unfold IGES_ENTITY_126.coeffTolerance
        rw [if_pos ⟨h0, by omega⟩]
      rw [ht]
      exact written_pos fmt hfmt _ (hw h0 i hi)
    have hWp : ∀ w ∈ (IGES_ENTITY_126.weightsOf e.PROP3 cs (e.K + 1).toNat 3).map
        (fun v => fmt v (1 / 1000000)), 0 < w := by
      intro w hmem
      obtain ⟨v, hv, rfl⟩ := List.mem_map.mp hmem
      refine written_pos fmt hfmt v (weightsOf_pos e.PROP3 cs _ 3 ?_ v hv)
      intro h0 k hkk
      rw [show 3 + 4 * k = 4 * k + 3 by ring]
      exact hw h0 k hkk
    have hW0 : e.PROP3 = 0 →
        (IGES_ENTITY_126.weightsOf e.PROP3 cs (e.K + 1).toNat 3).map
          (fun v => fmt v (1 / 1000000))
        = IGES_ENTITY_126.weightsOf 0 (IGES_ENTITY_126.writtenCoeffs fmt e.PROP3 cs)
            (e.K + 1).toNat 3 := by
      intro h0
      rw [h0]
      symm
      apply weightsOf_written
      · rfl
      · intro k hkk
        rw [hlc', if_pos h0]
        omega
    have hfields : r.fields = Field.ofInt e.K :: Field.ofInt e.M :: Field.ofInt e.PROP1
        :: Field.ofInt e.PROP2 :: Field.ofInt e.PROP3 :: Field.ofInt e.PROP4
        :: ((ks.map (fun v => fmt v (1 / 1000000000000000))).map Field.ofReal
          ++ (((IGES_ENTITY_126.weightsOf e.PROP3 cs (e.K + 1).toNat 3).map
                (fun v => fmt v (1 / 1000000))).map Field.ofReal
            ++ ((IGES_ENTITY_126.pointsOf e.PROP3
                  (IGES_ENTITY_126.writtenCoeffs fmt e.PROP3 cs) (e.K + 1).toNat 0).map
                  Field.ofReal
              ++ [Field.ofReal (fmt e.V0 (1 / 1000000000000000)),
                  Field.ofReal (fmt e.V1 (1 / 1000000000000000)),
                  Field.ofReal (fmt e.vnorm.x (1 / 1000000000000000)),
                  Field.ofReal (fmt e.vnorm.y (1 / 1000000000000000)),
                  Field.ofReal (fmt e.vnorm.z (1 / 1000000000000000))]))) := by
      rw [hf, hpts]
      simp only [IGES_ENTITY_126.layout, List.cons_append, List.nil_append, List.tail_cons,
        List.map_cons, List.map_append, List.map_map, List.map_nil, PDItem.toFieldWith,
        List.append_assoc, Function.comp_def]
    have hH := readHeader_layout { e0 with pdout := [] } e.K e.M e.PROP1 e.PROP2 e.PROP3
      e.PROP4 ((ks.map (fun v => fmt v (1 / 1000000000000000))).map Field.ofReal
          ++ (((IGES_ENTITY_126.weightsOf e.PROP3 cs (e.K + 1).toNat 3).map
                (fun v => fmt v (1 / 1000000))).map Field.ofReal
            ++ ((IGES_ENTITY_126.pointsOf e.PROP3
                  (IGES_ENTITY_126.writtenCoeffs fmt e.PROP3 cs) (e.K + 1).toNat 0).map
                  Field.ofReal
              ++ [Field.ofReal (fmt e.V0 (1 / 1000000000000000)),
                  Field.ofReal (fmt e.V1 (1 / 1000000000000000)),
                  Field.ofReal (fmt e.vnorm.x (1 / 1000000000000000)),
                  Field.ofReal (fmt e.vnorm.y (1 / 1000000000000000)),
                  Field.ofReal (fmt e.vnorm.z (1 / 1000000000000000))]))) hK hM hp1 hp2 hp3 hp4
    have hA := readArrays_written
      { e0 with pdout := [], K := e.K, M := e.M, PROP1 := e.PROP1, PROP2 := e.PROP2,
                PROP3 := e.PROP3, PROP4 := e.PROP4 }
      (ks.map (fun v => fmt v (1 / 1000000000000000)))
      (IGES_ENTITY_126.writtenCoeffs fmt e.PROP3 cs)
      ((IGES_ENTITY_126.weightsOf e.PROP3 cs (e.K + 1).toNat 3).map
        (fun v => fmt v (1 / 1000000)))
      [Field.ofReal (fmt e.V0 (1 / 1000000000000000)),
        Field.ofReal (fmt e.V1 (1 / 1000000000000000)),
        Field.ofReal (fmt e.vnorm.x (1 / 1000000000000000)),
        Field.ofReal (fmt e.vnorm.y (1 / 1000000000000000)),
        Field.ofReal (fmt e.vnorm.z (1 / 1000000000000000))] hK hp3 hkl hcl hwr
      (by rw [List.length_map, weightsOf_length]) hWp hW0
    have hT := readTail_layout X r
      { e0 with pdout := [], K := e.K, M := e.M, PROP1 := e.PROP1, PROP2 := e.PROP2,
                PROP3 := e.PROP3, PROP4 := e.PROP4, nKnots := 2 + e.K + e.M,
                knots := some (ks.map (fun v => fmt v (1 / 1000000000000000))),
                nCoeffs := e.K + 1,
                coeffs := some (IGES_ENTITY_126.writtenCoeffs fmt e.PROP3 cs) }
      (fmt e.V0 (1 / 1000000000000000)) (fmt e.V1 (1 / 1000000000000000))
      ⟨fmt e.vnorm.x (1 / 1000000000000000), fmt e.vnorm.y (1 / 1000000000000000),
        fmt e.vnorm.z (1 / 1000000000000000)⟩ nrm hrc hnrm
    have hbk : ∀ i, i < ks.length →
        |(ks.map (fun v => fmt v (1 / 1000000000000000))).getD i 0 - ks.getD i 0|
          ≤ 1 / 1000000000000000 * |ks.getD i 0| := by
      intro i hi
      have : (ks.map (fun v => fmt v (1 / 1000000000000000))).getD i 0
          = fmt (ks.getD i 0) (1 / 1000000000000000) := by
        simp [List.getD_eq_getElem?_getD, List.getElem?_map, List.getElem?_eq_getElem hi]
      rw [this]
      exact hfmt _ _ (by norm_num)
    have hbc : ∀ i, i < cs.length →
        |(IGES_ENTITY_126.writtenCoeffs fmt e.PROP3 cs).getD i 0 - cs.getD i 0|
          ≤ IGES_ENTITY_126.coeffTolerance e.PROP3 i * |cs.getD i 0| := by
      intro i hi
      rw [writtenCoeffs_getD fmt e.PROP3 cs i hi]
      refine hfmt _ _ ?_
      unfold IGES_ENTITY_126.coeffTolerance
      split_ifs <;> norm_num
    refine ⟨{ e0 with pdout := [], K := e.K, M := e.M, PROP1 := e.PROP1, PROP2 := e.PROP2,
                      PROP3 := e.PROP3, PROP4 := e.PROP4, nKnots := 2 + e.K + e.M,
                      knots := some (ks.map (fun v => fmt v (1 / 1000000000000000))),
                      nCoeffs := e.K + 1,
                      coeffs := some (IGES_ENTITY_126.writtenCoeffs fmt e.PROP3 cs),
                      V0 := fmt e.V0 (1 / 1000000000000000),
                      V1 := fmt e.V1 (1 / 1000000000000000), vnorm := nrm }, ?_, ?_⟩
    · rw [ReadPD_reads X e0 r g0 hpar0 hb]
      unfold IGES_ENTITY_126.readFields
      rw [if_neg (by omega), hfields]
      simp only [hH]
      simp only [hA]
      simp only [hT]
    · refine ⟨rfl, rfl, rfl, rfl, rfl, rfl, ?_, ?_, rfl, rfl, rfl, rfl, hbk, hbc,
        hfmt _ _ (by norm_num), hfmt _ _ (by norm_num), ?_⟩
      · show 2 + e.K + e.M = e.nKnots
        omega
      · show e.K + 1 = e.nCoeffs
        omega
      · intro hex
        refine ⟨?_, ?_, hex _ _, hex _ _⟩
        · show some (ks.map (fun v => fmt v (1 / 1000000000000000))) = some ks
          simp [hex]
        · show some (IGES_ENTITY_126.writtenCoeffs fmt e.PROP3 cs) = some cs
          congr 1
          apply agree_eq _ _ (writtenCoeffs_length fmt e.PROP3 cs)
          intro idx hi
          have h1 := writtenCoeffs_getD fmt e.PROP3 cs idx hi
          rw [hex] at h1
          rw [List.getD_eq_getElem?_getD, List.getD_eq_getElem?_getD,
            List.getElem?_eq_getElem (by rw [writtenCoeffs_length]; exact hi),
            List.getElem?_eq_getElem hi] at h1
          simp only [Option.getD_some] at h1
          rw [List.getElem?_eq_getElem (by rw [writtenCoeffs_length]; exact hi),
            List.getElem?_eq_getElem hi, h1]

/-- Witness of C26: the rational segment with weights 1 and 2, written under the library of
the examples with the weight 2 as `2.000001` and every other real exactly, and read back by a
fresh entity of the same model. -/
theorem format_ReadPD_round_trip_witness :
    (Examples.segment 1 2).format Examples.lib 1
        = some (true, { Examples.segment 1 2 with
            parameterData := 1,
            pdout := (Examples.segment 1 2).layout [0, 0, 1, 1] [0, 0, 0, 1, 1, 0, 0, 2] }) ∧
    (((Examples.segment 1 2).layout [0, 0, 1, 1] [0, 0, 0, 1, 1, 0, 0, 2]).length : Int) = 24 ∧
    ∃ e', (IGES_ENTITY_126.new (some Examples.globals)).ReadPD Examples.lib
          (Examples.segmentRecord 1 (2000001 / 1000000)) = some (true, e') ∧
      e'.K = 1 ∧ e'.M = 1 ∧ e'.PROP3 = 0 ∧ e'.knots = some [0, 0, 1, 1] ∧
      e'.coeffs = some [0, 0, 0, 1, 1, 0, 0, 2000001 / 1000000] ∧ e'.V0 = 0 ∧ e'.V1 = 1 := by
  obtain ⟨h1, h2, e', h3, hK, hM, -, -, hP3, -, -, -, hk, hc, hV0, hV1, -⟩ :=
    format_ReadPD_round_trip Examples.lib
      (fun v tol => if v = 2 ∧ tol = 1 / 1000000 then 2000001 / 1000000 else v)
      (Examples.segment 1 2) (IGES_ENTITY_126.new (some Examples.globals))
      [0, 0, 1, 1] [0, 0, 0, 1, 1, 0, 0, 2] 1 (Examples.segmentRecord 1 (2000001 / 1000000))
      Examples.globals
      (fun _ _ => rfl) rfl rfl (by decide)
      (by
        intro v tol htol
        dsimp only
        split_ifs with h
        · obtain ⟨rfl, rfl⟩ := h
          norm_num [abs_of_pos]
        · rw [sub_self, abs_zero]
          positivity)
      (by decide) rfl rfl (by decide) rfl rfl (by decide)
      (by decide)
      (by
        intro _ i hi
        have hi2 : i < 2 := hi
        interval_cases i <;> decide!)
      (by decide) rfl (by decide) rfl (by decide!)
  exact ⟨h1, h2, e', h3, hK, hM, hP3, by rw [hk]; decide!, by rw [hc]; decide!, by rw [hV0]; decide!,
    by rw [hV1]; decide!⟩

theorem find_modify (m : Model) (q p : Nat) (g : Entity → Entity) :
    (m.modify q g).find p = if p = q then (m.find q).map g else m.find p := by
  obtain ⟨gd, es, fr⟩ := m
  simp only [Model.find, Model.modify]
  induction es with
  | nil => simp
  | cons x rest ih =>
    simp only [List.map_cons, List.find?_cons]
    by_cases hpq : p = q
    · subst hpq
      rw [if_pos rfl] at ih ⊢
      by_cases hx : x.1 = p
      · simp [hx]
      · have hb : (x.1 == p) = false := by simpa using hx
        rw [if_neg hx, hb]
        exact ih
    · rw [if_neg hpq] at ih ⊢
      by_cases hx : x.1 = q
      · have h1 : (x.1 == p) = false := by
          simp only [beq_eq_false_iff_ne, ne_eq]
          intro h
          exact hpq (h.symm.trans hx)
        rw [if_pos hx]
        simp only [h1]
        exact ih
      · rw [if_neg hx]
        cases hxp : (x.1 == p)
        · exact ih
        · rfl

theorem shape_modify (m : Model) (q : Nat) (g : Entity → Entity)
    (hg : ∀ x ∈ m.entities, x.1 = q → (g x.2).entityType = x.2.entityType) :
    (m.modify q g).shape = m.shape := by
  simp only [Model.shape, Model.modify, List.map_map]
  apply List.map_congr_left
  intro x hx
  by_cases h : x.1 = q
  · simp [h, hg x hx h]
  · simp [h]

theorem fresh_modify (m : Model) (q : Nat) (g : Entity → Entity) :
    (m.modify q g).fresh = m.fresh := rfl

theorem find_of_mem (m : Model) (hwf : m.wellFormed) (x : Nat × Entity) (hx : x ∈ m.entities) :
    m.find x.1 = some x.2 := by
  obtain ⟨gd, es, fr⟩ := m
  have hnd : (es.map Prod.fst).Nodup := by
    have := hwf.1
    simpa [Model.shape, List.map_map, Function.comp_def] using this
  simp only [Model.find]
  clear hwf
  induction es with
  | nil => cases hx
  | cons y rest ih =>
    rw [List.map_cons, List.nodup_cons] at hnd
    rcases List.mem_cons.mp hx with rfl | hmem
    · simp [List.find?]
    · have hne : (y.1 == x.1) = false := by
        simp only [beq_eq_false_iff_ne, ne_eq]
        intro h
        apply hnd.1
        rw [h]
        exact List.mem_map_of_mem Prod.fst hmem
      simp only [List.find?, hne]
      exact ih hmem hnd.2

theorem shape_replace (m : Model) (hwf : m.wellFormed) (q : Nat) (e e1 : Entity)
    (hfind : m.find q = some e) (hty : e1.entityType = e.entityType) :
    (m.modify q (fun _ => e1)).shape = m.shape := by
  apply shape_modify
  intro x hx hq
  have := find_of_mem m hwf x hx
  rw [hq, hfind] at this
  rw [← Option.some.inj this]
  exact hty

theorem wellFormed_of_shape (m m' : Model) (hs : m'.shape = m.shape) (hf : m'.fresh = m.fresh)
    (hwf : m.wellFormed) : m'.wellFormed := by
  unfold Model.wellFormed
  rw [hs, hf]
  exact hwf

theorem setRefs_entityType (r : List Nat) (e : Entity) :
    (e.setRefs r).entityType = e.entityType := by
  cases e <;> rfl

theorem SetDependency_entityType (d : IGES_STAT_DEPENDS) (e : Entity) :
    (e.SetDependency d).entityType = e.entityType := by
  cases e <;> rfl

theorem initTransform_entityType (x bot : ℚ) (e : Entity) :
    (initTransform x bot e).entityType = e.entityType := by
  cases e <;> rfl

theorem write_keeps (m m' : Model) (hwf : m.wellFormed) (p : Option Nat)
    (f : Entity → Option Entity) (hf : ∀ e e1, f e = some e1 → e1.entityType = e.entityType)
    (h : m.write p f = some m') :
    m'.wellFormed ∧ m'.shape = m.shape ∧ m'.fresh = m.fresh := by
  unfold Model.write at h
  cases p with
  | none => cases h
  | some q =>
    simp only at h
    cases hq : m.find q with
    | none => rw [hq] at h; cases h
    | some e =>
      rw [hq] at h
      simp only at h
      cases he : f e with
      | none => rw [he] at h; cases h
      | some e1 =>
        rw [he] at h
        simp only [Option.some.injEq] at h
        subst h
        have hs := shape_replace m hwf q e e1 hq (hf e e1 he)
        exact ⟨wellFormed_of_shape m _ hs rfl hwf, hs, rfl⟩

theorem link_keeps (m m' : Model) (hwf : m.wellFormed) (par ch : Option Nat)
    (set : Nat → Entity → Option Entity)
    (hset : ∀ c e e1, set c e = some e1 → e1.entityType = e.entityType)
    (h : m.link par ch set = some m') :
    m'.wellFormed ∧ m'.shape = m.shape ∧ m'.fresh = m.fresh := by
  unfold Model.link at h
  cases par with
  | none => cases h
  | some p =>
    cases ch with
    | none => cases h
    | some c =>
      simp only at h
      cases hp : m.find p with
      | none => rw [hp] at h; cases h
      | some e =>
        cases hc : m.find c with
        | none => rw [hp, hc] at h; cases h
        | some ce =>
          rw [hp, hc] at h
          simp only at h
          cases he : set c e with
          | none => rw [he] at h; cases h
          | some e1 =>
            rw [he] at h
            simp only [Option.some.injEq] at h
            subst h
            have hs1 := shape_replace m hwf p e e1 hp (hset c e e1 he)
            have hs2 := shape_modify (m.modify p (fun _ => e1)) c
              (fun ce => ce.setRefs (baseAddReference ce.refs p).2)
              (fun x _ _ => setRefs_entityType _ _)
            have hs := hs2.trans hs1
            exact ⟨wellFormed_of_shape m _ hs rfl hwf, hs, rfl⟩
theorem make_entityType (gd : GlobalData) (ty : Int) (e : Entity)
    (h : Entity.make gd ty = some e) : e.entityType = ty := by
  unfold Entity.make at h
  split_ifs at h with h1 h2 h3 h4 h5 h6 h7 h8 <;> cases h
  · exact h1.symm
  · exact h2.symm
  · exact h3.symm
  · exact h4.symm
  · exact h5.symm
  · exact h6.symm
  · exact h7.symm
  · exact h8.symm

theorem andThen_true (r : Option (Bool × Build)) (f : Build → Option (Bool × Build))
    (b' : Build) (h : Build.andThen r f = some (true, b')) :
    ∃ b1, r = some (true, b1) ∧ f b1 = some (true, b') := by
  unfold Build.andThen at h
  split at h
  · cases h
  · cases h
  · exact ⟨_, rfl, h⟩

theorem newOne_true (F : CylinderCalls) (ty : Int) (cap : Nat) (init : Entity → Entity)
    (store : Build → Nat → Build) (i : Nat) (b b' : Build)
    (hinit : ∀ e, (init e).entityType = e.entityType)
    (h : newOne F ty cap init store i b = some (true, b')) :
    ∃ M, b' = store { b with model := M } b.model.fresh ∧
      M.shape = b.model.shape ++ [(b.model.fresh, ty)] ∧ M.fresh = b.model.fresh + 1 := by
  unfold newOne at h
  by_cases h1 : (!F.NewEntity ty i) = true
  · rw [if_pos h1] at h
    cases h
  · rw [if_neg h1] at h
    unfold Model.NewEntity at h
    cases hm : Entity.make b.model.globalData ty with
    | none => rw [hm] at h; cases h
    | some e =>
      rw [hm] at h
      simp only at h
      by_cases h2 : cap ≤ i
      · rw [if_pos h2] at h
        cases h
      · rw [if_neg h2] at h
        simp only [Option.some.injEq, Prod.mk.injEq, true_and] at h
        refine ⟨_, h.symm, ?_, rfl⟩
        rw [shape_modify _ _ _ (fun x _ _ => hinit x.2)]
        simp [Model.shape, make_entityType _ _ _ hm]

theorem forEach_newOne (F : CylinderCalls) (ty : Int) (cap : Nat) (init : Entity → Entity)
    (store : Build → Nat → Build)
    (hinit : ∀ e, (init e).entityType = e.entityType)
    (hstore : ∀ b p, (store b p).model = b.model) (k : Nat) :
    ∀ (i : Nat) (b b' : Build), forEach (newOne F ty cap init store) k i b = some (true, b') →
      b'.model.shape = b.model.shape ++ List.enumFrom b.model.fresh (List.replicate k ty) ∧
      b'.model.fresh = b.model.fresh + k := by
  induction k with
  | zero =>
    intro i b b' h
    simp only [forEach, Option.some.injEq, Prod.mk.injEq, true_and] at h
    subst h
    simp
  | succ k ih =>
    intro i b b' h
    unfold forEach at h
    split at h
    · cases h
    · cases h
    · rename_i b1 hb1
      obtain ⟨M, hM, hshape, hfresh⟩ := newOne_true F ty cap init store i b b1 hinit hb1
      obtain ⟨h1, h2⟩ := ih (i + 1) b1 b' h
      have hmodel : b1.model = M := by rw [hM, hstore]
      rw [hmodel] at h1 h2
      rw [h1, h2, hshape, hfresh]
      refine ⟨?_, by omega⟩
      simp [List.replicate_succ, List.enumFrom_cons]

theorem forEach_newOne_keeps {α : Type} (get : Build → α) (F : CylinderCalls) (ty : Int)
    (cap : Nat) (init : Entity → Entity) (store : Build → Nat → Build)
    (hinit : ∀ e, (init e).entityType = e.entityType)
    (hstore : ∀ b M p, get (store { b with model := M } p) = get b) (k : Nat) :
    ∀ (i : Nat) (b b' : Build), forEach (newOne F ty cap init store) k i b = some (true, b') →
      get b' = get b := by
  induction k with
  | zero =>
    intro i b b' h
    simp only [forEach, Option.some.injEq, Prod.mk.injEq, true_and] at h
    subst h
    rfl
  | succ k ih =>
    intro i b b' h
    unfold forEach at h
    split at h
    · cases h
    · cases h
    · rename_i b1 hb1
      obtain ⟨M, hM, -, -⟩ := newOne_true F ty cap init store i b b1 hinit hb1
      rw [ih (i + 1) b1 b' h, hM, hstore]

theorem forEach_newOne_fills (get : Build → List Nat) (F : CylinderCalls) (ty : Int)
    (cap : Nat) (init : Entity → Entity) (store : Build → Nat → Build)
    (hinit : ∀ e, (init e).entityType = e.entityType)
    (hmodel : ∀ b p, (store b p).model = b.model)
    (hstore : ∀ b M p, get (store { b with model := M } p) = get b ++ [p]) (k : Nat) :
    ∀ (i : Nat) (b b' : Build), forEach (newOne F ty cap init store) k i b = some (true, b') →
      get b' = get b ++ List.range' b.model.fresh k := by
  induction k with
  | zero =>
    intro i b b' h
    simp only [forEach, Option.some.injEq, Prod.mk.injEq, true_and] at h
    subst h
    simp
  | succ k ih =>
    intro i b b' h
    unfold forEach at h
    split at h
    · cases h
    · cases h
    · rename_i b1 hb1
      obtain ⟨M, hM, -, hfresh⟩ := newOne_true F ty cap init store i b b1 hinit hb1
      have hm : b1.model = M := by rw [hM, hmodel]
      rw [ih (i + 1) b1 b' h, hm, hfresh, hM, hstore]
      simp [List.range'_succ]
theorem newEntities_true (F : CylinderCalls) (c : IGES_GEOM_CYLINDER) (bot : ℚ) (b b' : Build)
    (a0 : MCAD_POINT) (harcs : c.arcs[0]? = some a0) (hn : 0 ≤ c.narcs)
    (h : c.newEntities F bot b = some (true, b')) :
    b'.model.shape
      = b.model.shape ++ List.enumFrom b.model.fresh (cylinderTypes c.narcs.toNat) ∧
    b'.model.fresh = b.model.fresh + (13 * c.narcs.toNat + 3) ∧
    b'.isurf = some (b.model.fresh + (2 * c.narcs.toNat + 2)) ∧
    b'.itps = b.itps ++ List.range' (b.model.fresh + (12 * c.narcs.toNat + 3)) c.narcs.toNat := by
  have e1 : (c.narcs * 2 + 2).toNat = 2 * c.narcs.toNat + 2 := by omega
  have e2 : (c.narcs * 4).toNat = 4 * c.narcs.toNat := by omega
  have e3 : (c.narcs * 2).toNat = 2 * c.narcs.toNat := by omega
  have hdep := SetDependency_entityType IGES_STAT_DEPENDS.STAT_DEP_PHY
  unfold IGES_GEOM_CYLINDER.newEntities at h
  simp only [harcs, e1, e2, e3] at h
  obtain ⟨b1, h1, h⟩ := andThen_true _ _ _ h
  obtain ⟨b2, h2, h⟩ := andThen_true _ _ _ h
  obtain ⟨b3, h3, h⟩ := andThen_true _ _ _ h
  obtain ⟨b4, h4, h⟩ := andThen_true _ _ _ h
  obtain ⟨b5, h5, h⟩ := andThen_true _ _ _ h
  obtain ⟨b6, h6, h⟩ := andThen_true _ _ _ h
  obtain ⟨b7, h7, h8⟩ := andThen_true _ _ _ h
  obtain ⟨s1, f1⟩ := forEach_newOne _ _ _ _ _ hdep (by intros; rfl) _ _ _ _ h1
  have t1 := forEach_newOne_keeps Build.itps _ _ _ _ _ hdep (by intros; rfl) _ _ _ _ h1
  obtain ⟨M, hM, s2, f2⟩ := newOne_true _ _ _ _ _ _ _ _ hdep h2
  have hm2 : b2.model = M := by rw [hM]
  have u2 : b2.isurf = some b1.model.fresh := by rw [hM]
  have t2 : b2.itps = b1.itps := by rw [hM]
  rw [← hm2] at s2 f2
  obtain ⟨s3, f3⟩ := forEach_newOne _ _ _ _ _ (initTransform_entityType a0.x bot)
    (by intros; rfl) _ _ _ _ h3
  have t3 := forEach_newOne_keeps Build.itps _ _ _ _ _ (initTransform_entityType a0.x bot)
    (by intros; rfl) _ _ _ _ h3
  have u3 := forEach_newOne_keeps Build.isurf _ _ _ _ _ (initTransform_entityType a0.x bot)
    (by intros; rfl) _ _ _ _ h3
  obtain ⟨s4, f4⟩ := forEach_newOne _ _ _ _ _ hdep (by intros; rfl) _ _ _ _ h4
  have t4 := forEach_newOne_keeps Build.itps _ _ _ _ _ hdep (by intros; rfl) _ _ _ _ h4
  have u4 := forEach_newOne_keeps Build.isurf _ _ _ _ _ hdep (by intros; rfl) _ _ _ _ h4
  obtain ⟨s5, f5⟩ := forEach_newOne _ _ _ _ _ hdep (by intros; rfl) _ _ _ _ h5
  have t5 := forEach_newOne_keeps Build.itps _ _ _ _ _ hdep (by intros; rfl) _ _ _ _ h5
  have u5 := forEach_newOne_keeps Build.isurf _ _ _ _ _ hdep (by intros; rfl) _ _ _ _ h5
  obtain ⟨s6, f6⟩ := forEach_newOne _ _ _ _ _ hdep (by intros; rfl) _ _ _ _ h6
  have t6 := forEach_newOne_keeps Build.itps _ _ _ _ _ hdep (by intros; rfl) _ _ _ _ h6
  have u6 := forEach_newOne_keeps Build.isurf _ _ _ _ _ hdep (by intros; rfl) _ _ _ _ h6
  obtain ⟨s7, f7⟩ := forEach_newOne _ _ _ _ _ hdep (by intros; rfl) _ _ _ _ h7
  have t7 := forEach_newOne_keeps Build.itps _ _ _ _ _ hdep (by intros; rfl) _ _ _ _ h7
  have u7 := forEach_newOne_keeps Build.isurf _ _ _ _ _ hdep (by intros; rfl) _ _ _ _ h7
  obtain ⟨s8, f8⟩ := forEach_newOne _ _ _ _ _ (by intros; rfl) (by intros; rfl) _ _ _ _ h8
  have t8 := forEach_newOne_fills Build.itps _ _ _ _ _ (by intros; rfl) (by intros; rfl)
    (by intros; rfl) _ _ _ _ h8
  have u8 := forEach_newOne_keeps Build.isurf _ _ _ _ _ (by intros; rfl) (by intros; rfl)
    _ _ _ _ h8
  refine ⟨?_, ?_, ?_, ?_⟩
  · rw [s8, s7, s6, s5, s4, s3, s2, s1, f7, f6, f5, f4, f3, f2, f1]
    simp only [cylinderTypes, List.enumFrom_append, List.length_append, List.length_replicate,
      List.length_cons, List.length_nil, List.append_assoc, List.enumFrom_cons,
      List.enumFrom_nil, List.singleton_append, List.cons_append, List.nil_append,
      Nat.add_assoc]
  · rw [f8, f7, f6, f5, f4, f3, f2, f1]
    omega
  · rw [u8, u7, u6, u5, u4, u3, u2, f1]
  · rw [t8, t7, t6, t5, t4, t3, t2, t1, f7, f6, f5, f4, f3, f2, f1]
    congr 2
    omega
theorem modelKeeps_trans {m1 m2 m3 : Model} (h12 : m1.keeps m2) (h23 : m2.keeps m3) :
    m1.keeps m3 :=
  ⟨h23.1, h23.2.1.trans h12.2.1, h23.2.2.trans h12.2.2⟩

theorem modelKeeps_refl (m : Model) (hwf : m.wellFormed) : m.keeps m := ⟨hwf, rfl, rfl⟩

theorem buildKeeps_trans {b1 b2 b3 : Build} (h12 : b1.keeps b2) (h23 : b2.keeps b3) :
    b1.keeps b3 :=
  ⟨modelKeeps_trans h12.1 h23.1, h23.2.1.trans h12.2.1, h23.2.2.trans h12.2.2⟩

theorem setLine_entityType (x1 y1 z1 x2 y2 z2 : ℚ) (e e1 : Entity)
    (h : setLine x1 y1 z1 x2 y2 z2 e = some e1) : e1.entityType = e.entityType := by
  cases e <;> simp [setLine] at h; subst h; rfl

theorem setArc_entityType (a b c d e' f g : ℚ) (e e1 : Entity)
    (h : setArc a b c d e' f g e = some e1) : e1.entityType = e.entityType := by
  cases e <;> simp [setArc] at h; subst h; rfl

theorem setL_entityType (c : Nat) (e e1 : Entity) (h : setL c e = some e1) :
    e1.entityType = e.entityType := by
  cases e <;> simp [setL] at h; subst h; rfl

theorem setC_entityType (c : Nat) (e e1 : Entity) (h : setC c e = some e1) :
    e1.entityType = e.entityType := by
  cases e <;> simp [setC] at h; subst h; rfl

theorem setTransform_entityType (c : Nat) (e e1 : Entity) (h : setTransform c e = some e1) :
    e1.entityType = e.entityType := by
  cases e <;> simp [setTransform] at h; subst h; rfl

theorem pushCurve_entityType (c : Nat) (e e1 : Entity) (h : pushCurve c e = some e1) :
    e1.entityType = e.entityType := by
  cases e <;> simp [pushCurve] at h; subst h; rfl

theorem setSPTR_entityType (c : Nat) (e e1 : Entity) (h : setSPTR c e = some e1) :
    e1.entityType = e.entityType := by
  cases e <;> simp [setSPTR] at h; subst h; rfl

theorem setBPTR_entityType (c : Nat) (e e1 : Entity) (h : setBPTR c e = some e1) :
    e1.entityType = e.entityType := by
  cases e <;> simp [setBPTR] at h; subst h; rfl

theorem setCPTR_entityType (c : Nat) (e e1 : Entity) (h : setCPTR c e = some e1) :
    e1.entityType = e.entityType := by
  cases e <;> simp [setCPTR] at h; subst h; rfl

theorem setPTS_entityType (c : Nat) (e e1 : Entity) (h : setPTS c e = some e1) :
    e1.entityType = e.entityType := by
  cases e <;> simp [setPTS] at h; subst h; rfl

theorem setPTO_entityType (c : Nat) (e e1 : Entity) (h : setPTO c e = some e1) :
    e1.entityType = e.entityType := by
  cases e <;> simp [setPTO] at h; subst h; rfl

theorem write_line_keeps {m m' : Model} (hwf : m.wellFormed) {p : Option Nat}
    {x1 y1 z1 x2 y2 z2 : ℚ} (h : m.write p (setLine x1 y1 z1 x2 y2 z2) = some m') :
    m.keeps m' :=
  write_keeps m m' hwf p _ (setLine_entityType x1 y1 z1 x2 y2 z2) h

theorem setAxis_keeps (F : CylinderCalls) (c : IGES_GEOM_CYLINDER) (top bot : ℚ)
    (b b' : Build) (hwf : b.model.wellFormed)
    (h : c.setAxis F top bot b = some (true, b')) : b.keeps b' := by
  unfold IGES_GEOM_CYLINDER.setAxis at h
  simp only [bind, Option.bind_eq_some, pure] at h
  obtain ⟨a0, -, m1, h1, m2, h2, s, -, h⟩ := h
  have k1 := write_line_keeps hwf h1
  have k2 := write_line_keeps k1.1 h2
  split_ifs at h
  · simp at h
  · simp [Option.bind_eq_some] at h
  · simp only [Option.some_bind, Option.bind_eq_some, Option.some.injEq, Prod.mk.injEq,
      true_and] at h
    obtain ⟨m3, h3, m4, h4, h⟩ := h
    have k3 := link_keeps m2 m3 k2.1 _ _ _ setL_entityType h3
    have k4 := link_keeps m3 m4 k3.1 _ _ _ setC_entityType h4
    subst h
    exact ⟨modelKeeps_trans (modelKeeps_trans (modelKeeps_trans k1 k2) k3) k4, rfl, rfl⟩
theorem setArcPair_keeps (F : CylinderCalls) (b : Build) (i : Nat) (a0 s e : MCAD_POINT)
    (top bot : ℚ) (m m' : Model) (hwf : m.wellFormed)
    (h : setArcPair F b i a0 s e top bot m = some m') : m.keeps m' := by
  unfold setArcPair at h
  simp only [bind, Option.bind_eq_some] at h
  obtain ⟨m1, h1, m2, h2, h⟩ := h
  have k1 := write_keeps m m1 hwf _ _ (setArc_entityType _ _ _ _ _ _ _) h1
  have k2 := write_keeps m1 m2 k1.1 _ _ (setArc_entityType _ _ _ _ _ _ _) h2
  split_ifs at h
  · have k3 := link_keeps m2 m' k2.1 _ _ _ setTransform_entityType h
    exact modelKeeps_trans (modelKeeps_trans k1 k2) k3
  · simp only [Option.some.injEq] at h
    subst h
    exact modelKeeps_trans k1 k2

theorem surfaceAngles_keeps {m m' : Model} (hwf : m.wellFormed) {p : Option Nat}
    (h : m.write p (fun e => match e with
      | .revolution s => some (.revolution { s with startAngle := 0, endAngle := 2 * M_PI })
      | _ => none) = some m') : m.keeps m' := by
  refine write_keeps _ _ hwf _ _ ?_ h
  intro e e1 he
  cases e <;> simp at he
  subst he
  rfl

theorem setGeometry_keeps (F : CylinderCalls) (c : IGES_GEOM_CYLINDER) (top bot : ℚ)
    (b b' : Build) (hwf : b.model.wellFormed)
    (h : c.setGeometry F top bot b = some (true, b')) : b.keeps b' := by
  unfold IGES_GEOM_CYLINDER.setGeometry at h
  by_cases g1 : c.narcs > 1 <;> by_cases g2 : c.narcs > 2 <;>
    simp only [g1, g2, if_true, if_false] at h
  · obtain ⟨m1, h1, h⟩ := Option.bind_eq_some.mp h
    obtain ⟨a0, -, h⟩ := Option.bind_eq_some.mp h
    obtain ⟨a1, -, h⟩ := Option.bind_eq_some.mp h
    obtain ⟨a2, -, h⟩ := Option.bind_eq_some.mp h
    obtain ⟨m2, h2, h⟩ := Option.bind_eq_some.mp h
    obtain ⟨m3, h3, h⟩ := Option.bind_eq_some.mp h
    obtain ⟨a3, -, h⟩ := Option.bind_eq_some.mp h
    obtain ⟨m4, h4, h⟩ := Option.bind_eq_some.mp h
    obtain ⟨m5, h5, h⟩ := Option.bind_eq_some.mp h
    obtain ⟨a3, -, h⟩ := Option.bind_eq_some.mp h
    obtain ⟨a4, -, h⟩ := Option.bind_eq_some.mp h
    obtain ⟨m6, h6, h⟩ := Option.bind_eq_some.mp h
    obtain ⟨m7, h7, h⟩ := Option.bind_eq_some.mp h
    obtain ⟨m8, h8, h⟩ := Option.bind_eq_some.mp h
    obtain ⟨a3, -, h⟩ := Option.bind_eq_some.mp h
    obtain ⟨m9, h9, h⟩ := Option.bind_eq_some.mp h
    obtain ⟨a3, -, h⟩ := Option.bind_eq_some.mp h
    obtain ⟨a4, -, h⟩ := Option.bind_eq_some.mp h
    obtain ⟨m10, h10, h⟩ := Option.bind_eq_some.mp h
    have k1 := surfaceAngles_keeps hwf h1
    have k2 := write_line_keeps k1.1 h2
    have k3 := write_line_keeps k2.1 h3
    have k4 := write_line_keeps k3.1 h4
    have k5 := write_line_keeps k4.1 h5
    have k6 := write_line_keeps k5.1 h6
    have k7 := write_line_keeps k6.1 h7
    have k8 := setArcPair_keeps _ _ _ _ _ _ _ _ _ _ k7.1 h8
    have k9 := setArcPair_keeps _ _ _ _ _ _ _ _ _ _ k8.1 h9
    have k10 := setArcPair_keeps _ _ _ _ _ _ _ _ _ _ k9.1 h10
    cases h
    exact ⟨modelKeeps_trans (modelKeeps_trans (modelKeeps_trans (modelKeeps_trans
      (modelKeeps_trans (modelKeeps_trans (modelKeeps_trans (modelKeeps_trans
      (modelKeeps_trans k1 k2) k3) k4) k5) k6) k7) k8) k9) k10, rfl, rfl⟩
  · obtain ⟨m1, h1, h⟩ := Option.bind_eq_some.mp h
    obtain ⟨a0, -, h⟩ := Option.bind_eq_some.mp h
    obtain ⟨a1, -, h⟩ := Option.bind_eq_some.mp h
    obtain ⟨a2, -, h⟩ := Option.bind_eq_some.mp h
    obtain ⟨m2, h2, h⟩ := Option.bind_eq_some.mp h
    obtain ⟨m3, h3, h⟩ := Option.bind_eq_some.mp h
    obtain ⟨a3, -, h⟩ := Option.bind_eq_some.mp h
    obtain ⟨m4, h4, h⟩ := Option.bind_eq_some.mp h
    obtain ⟨m5, h5, h⟩ := Option.bind_eq_some.mp h
    obtain ⟨y, hy, h⟩ := Option.bind_eq_some.mp h
    cases hy
    obtain ⟨m8, h8, h⟩ := Option.bind_eq_some.mp h
    obtain ⟨a3, -, h⟩ := Option.bind_eq_some.mp h
    obtain ⟨m9, h9, h⟩ := Option.bind_eq_some.mp h
    obtain ⟨y, hy, h⟩ := Option.bind_eq_some.mp h
    cases hy
    have k1 := surfaceAngles_keeps hwf h1
    have k2 := write_line_keeps k1.1 h2
    have k3 := write_line_keeps k2.1 h3
    have k4 := write_line_keeps k3.1 h4
    have k5 := write_line_keeps k4.1 h5
    have k8 := setArcPair_keeps _ _ _ _ _ _ _ _ _ _ k5.1 h8
    have k9 := setArcPair_keeps _ _ _ _ _ _ _ _ _ _ k8.1 h9
    cases h
    exact ⟨modelKeeps_trans (modelKeeps_trans (modelKeeps_trans (modelKeeps_trans
      (modelKeeps_trans (modelKeeps_trans k1 k2) k3) k4) k5) k8) k9, rfl, rfl⟩
  · exfalso
    omega
  · obtain ⟨m1, h1, h⟩ := Option.bind_eq_some.mp h
    obtain ⟨a0, -, h⟩ := Option.bind_eq_some.mp h
    obtain ⟨a1, -, h⟩ := Option.bind_eq_some.mp h
    obtain ⟨a2, -, h⟩ := Option.bind_eq_some.mp h
    obtain ⟨m2, h2, h⟩ := Option.bind_eq_some.mp h
    obtain ⟨m3, h3, h⟩ := Option.bind_eq_some.mp h
    obtain ⟨y, hy, h⟩ := Option.bind_eq_some.mp h
    cases hy
    obtain ⟨y, hy, h⟩ := Option.bind_eq_some.mp h
    cases hy
    obtain ⟨m8, h8, h⟩ := Option.bind_eq_some.mp h
    obtain ⟨y, hy, h⟩ := Option.bind_eq_some.mp h
    cases hy
    obtain ⟨y, hy, h⟩ := Option.bind_eq_some.mp h
    cases hy
    have k1 := surfaceAngles_keeps hwf h1
    have k2 := write_line_keeps k1.1 h2
    have k3 := write_line_keeps k2.1 h3
    have k8 := setArcPair_keeps _ _ _ _ _ _ _ _ _ _ k3.1 h8
    cases h
    exact ⟨modelKeeps_trans (modelKeeps_trans (modelKeeps_trans k1 k2) k3) k8, rfl, rfl⟩
theorem addSegments_keeps (F : CylinderCalls) (k : Nat) (cc : Option Nat)
    (segs : List (Option Nat)) : ∀ (j : Nat) (m m' : Model), m.wellFormed →
    addSegments F k cc segs j m = some (true, m') → m.keeps m' := by
  induction segs with
  | nil =>
    intro j m m' hwf h
    simp only [addSegments, Option.some.injEq, Prod.mk.injEq, true_and] at h
    subst h
    exact modelKeeps_refl m hwf
  | cons s rest ih =>
    intro j m m' hwf h
    unfold addSegments at h
    cases cc with
    | none => cases h
    | some q =>
      simp only at h
      by_cases hF : (!F.AddSegment k j) = true
      · rw [if_pos hF] at h
        cases h
      · rw [if_neg hF] at h
        cases hl : m.link (some q) s pushCurve with
        | none => rw [hl] at h; cases h
        | some m1 =>
          rw [hl] at h
          have k1 := link_keeps m m1 hwf _ _ _ pushCurve_entityType hl
          exact modelKeeps_trans k1 (ih (j + 1) m1 m' k1.1 h)

theorem segmentStep_keeps (F : CylinderCalls) (k : Nat) (cc : Option Nat)
    (segs : List (Option Nat)) (b b' : Build) (hwf : b.model.wellFormed)
    (h : (match addSegments F k cc segs 0 b.model with
      | none => none
      | some (ok, m) => some (ok, { b with model := m })) = some (true, b')) : b.keeps b' := by
  cases ha : addSegments F k cc segs 0 b.model with
  | none => rw [ha] at h; cases h
  | some r =>
    obtain ⟨ok, m⟩ := r
    rw [ha] at h
    simp only [Option.some.injEq, Prod.mk.injEq] at h
    obtain ⟨rfl, rfl⟩ := h
    exact ⟨addSegments_keeps F k cc segs 0 _ _ hwf ha, rfl, rfl⟩

theorem buildKeeps_refl (b : Build) (hwf : b.model.wellFormed) : b.keeps b :=
  ⟨modelKeeps_refl _ hwf, rfl, rfl⟩

theorem geometricBounds_keeps (F : CylinderCalls) (c : IGES_GEOM_CYLINDER)
    (b b' : Build) (hwf : b.model.wellFormed)
    (h : c.geometricBounds F b = some (true, b')) : b.keeps b' := by
  unfold IGES_GEOM_CYLINDER.geometricBounds at h
  simp only at h
  obtain ⟨b1, h1, h⟩ := andThen_true _ _ _ h
  obtain ⟨b2, h2, h3⟩ := andThen_true _ _ _ h
  have k1 := segmentStep_keeps _ _ _ _ _ _ hwf h1
  have k2 : b1.keeps b2 := by
    split_ifs at h2
    · exact segmentStep_keeps _ _ _ _ _ _ k1.1.1 h2
    · cases h2
      exact buildKeeps_refl _ k1.1.1
  have k3 : b2.keeps b' := by
    split_ifs at h3
    · exact segmentStep_keeps _ _ _ _ _ _ k2.1.1 h3
    · cases h3
      exact buildKeeps_refl _ k2.1.1
  exact buildKeeps_trans (buildKeeps_trans k1 k2) k3

theorem nurbsComposite_keeps (F : CylinderCalls) (i : Nat) (b b' : Build)
    (hwf : b.model.wellFormed)
    (h : IGES_GEOM_CYLINDER.nurbsComposite F i b = some (true, b')) : b.keeps b' := by
  unfold IGES_GEOM_CYLINDER.nurbsComposite at h
  exact segmentStep_keeps _ _ _ _ _ _ hwf h

theorem makeNurbs_keeps (F : CylinderCalls) (ps : List (List ℚ × List ℚ)) :
    ∀ (b b' : Build) (r : Bool), makeNurbs F ps b = (r, b') →
      b'.model = b.model ∧ b'.itps = b.itps ∧ b'.isurf = b.isurf := by
  induction ps with
  | nil =>
    intro b b' r h
    simp only [makeNurbs, Prod.mk.injEq] at h
    obtain ⟨-, rfl⟩ := h
    exact ⟨rfl, rfl, rfl⟩
  | cons p rest ih =>
    intro b b' r h
    obtain ⟨p0, p1⟩ := p
    unfold makeNurbs at h
    simp only at h
    split_ifs at h
    · have := ih _ _ _ h
      exact this
    · simp only [Prod.mk.injEq] at h
      obtain ⟨-, rfl⟩ := h
      exact ⟨rfl, rfl, rfl⟩

theorem nurbsBounds_keeps (F : CylinderCalls) (c : IGES_GEOM_CYLINDER) (i : Nat)
    (b b' : Build) (hwf : b.model.wellFormed)
    (h : c.nurbsBounds F i b = some (true, b')) : b.keeps b' := by
  unfold IGES_GEOM_CYLINDER.nurbsBounds at h
  obtain ⟨s, -, h⟩ := Option.bind_eq_some.mp h
  obtain ⟨e, -, h⟩ := Option.bind_eq_some.mp h
  split_ifs at h
  · cases h
  · obtain ⟨u, -, h⟩ := Option.bind_eq_some.mp h
    have h' := Option.some.inj h
    obtain ⟨hm, ht, hs⟩ := makeNurbs_keeps F _ _ _ _ h'
    refine ⟨?_, ht, hs⟩
    rw [Model.keeps, hm]
    exact ⟨hwf, rfl, rfl⟩

theorem classify_entityType (X : Library) (e e1 : IGES_ENTITY_126) (ok : Bool)
    (h : e.classify X = some (ok, e1)) : e1.entityType = e.entityType := by
  unfold IGES_ENTITY_126.classify at h
  cases hp : e.hasUniquePlane X e.vnorm with
  | none => rw [hp] at h; cases h
  | some r =>
    obtain ⟨planar, nrm⟩ := r
    rw [hp] at h
    simp only at h
    split_ifs at h <;> cases h <;> rfl

theorem buildCurve_entityType (X : Library) (e e1 : IGES_ENTITY_126) (ok : Bool)
    (h : e.buildCurve X = some (ok, e1)) : e1.entityType = e.entityType := by
  unfold IGES_ENTITY_126.buildCurve at h
  simp only at h
  split_ifs at h
  all_goals first | (cases h; done) | (cases h; rfl) |
    exact (classify_entityType X _ _ _ h :)

theorem SetNURBSData_entityType (X : Library) (e e1 : IGES_ENTITY_126) (nCoeff order : Int)
    (knot coeff : Option (List ℚ)) (isRational ok : Bool)
    (h : e.SetNURBSData X nCoeff order knot coeff isRational = some (ok, e1)) :
    e1.entityType = e.entityType := by
  unfold IGES_ENTITY_126.SetNURBSData at h
  cases knot with
  | none => cases h; rfl
  | some ks =>
    cases coeff with
    | none => cases h; rfl
    | some cs =>
      simp only at h
      split_ifs at h
      all_goals first
        | (cases h; rfl)
        | (split at h
           · cases h
           · split at h
             · cases h
             · have := buildCurve_entityType X _ _ _ h
               exact this)

theorem transferNurbs_keeps (X : Library) (i : Nat) (b b' : Build)
    (hwf : b.model.wellFormed)
    (h : IGES_GEOM_CYLINDER.transferNurbs X i b = some (true, b')) : b.keeps b' := by
  unfold IGES_GEOM_CYLINDER.transferNurbs at h
  obtain ⟨p, -, h⟩ := Option.bind_eq_some.mp h
  obtain ⟨cur, -, h⟩ := Option.bind_eq_some.mp h
  split at h
  · rename_i e hfind
    split at h
    · cases h
    · rename_i ok e1 hset
      simp only [Option.some.injEq, Prod.mk.injEq] at h
      obtain ⟨rfl, rfl⟩ := h
      have hs := shape_replace b.model hwf p (.nurbs e) (.nurbs e1) hfind
        (SetNURBSData_entityType X _ _ _ _ _ _ _ _ hset)
      exact ⟨⟨wellFormed_of_shape _ _ hs rfl hwf, hs, rfl⟩, rfl, rfl⟩
  · cases h

theorem setChild_keeps (ok : Bool) (par ch : Option Nat)
    (set : Nat → Entity → Option Entity)
    (hset : ∀ c e e1, set c e = some e1 → e1.entityType = e.entityType)
    (m m' : Model) (hwf : m.wellFormed) (h : setChild ok par ch set m = some (true, m')) :
    m.keeps m' := by
  unfold setChild at h
  cases par with
  | none => cases h
  | some p =>
    simp only at h
    split_ifs at h
    · cases h
    · cases hl : m.link (some p) ch set with
      | none => rw [hl] at h; cases h
      | some m1 =>
        rw [hl] at h
        simp only [Option.some.injEq, Prod.mk.injEq, true_and] at h
        subst h
        exact link_keeps m m1 hwf _ _ _ hset hl

theorem andAlso_true (r : Option (Bool × Model)) (f : Model → Option (Bool × Model))
    (m' : Model) (h : andAlso r f = some (true, m')) :
    ∃ m1, r = some (true, m1) ∧ f m1 = some (true, m') := by
  unfold andAlso at h
  split at h
  · cases h
  · cases h
  · exact ⟨_, rfl, h⟩

theorem setBound_keeps (F : CylinderCalls) (c : IGES_GEOM_CYLINDER) (i : Nat) (b b' : Build)
    (hwf : b.model.wellFormed)
    (h : c.setBound F i b = some (true, b')) : b.keeps b' := by
  unfold IGES_GEOM_CYLINDER.setBound at h
  split at h
  · cases h
  · rename_i m hw
    split at h
    · cases h
    · rename_i ok m1 hc
      simp only [Option.some.injEq, Prod.mk.injEq] at h
      obtain ⟨rfl, rfl⟩ := h
      obtain ⟨m2, c1, hc⟩ := andAlso_true _ _ _ hc
      obtain ⟨m3, c2, c3⟩ := andAlso_true _ _ _ hc
      have k0 : b.model.keeps m := by
        refine write_keeps _ _ hwf _ _ ?_ hw
        intro e e1 he
        cases e <;> simp at he
        subst he
        rfl
      have k1 := setChild_keeps _ _ _ _ setSPTR_entityType _ _ k0.1 c1
      have k2 := setChild_keeps _ _ _ _ setBPTR_entityType _ _ k1.1 c2
      have k3 := setChild_keeps _ _ _ _ setCPTR_entityType _ _ k2.1 c3
      exact ⟨modelKeeps_trans (modelKeeps_trans (modelKeeps_trans k0 k1) k2) k3, rfl, rfl⟩

theorem forEach_keeps (body : Nat → Build → Option (Bool × Build))
    (hbody : ∀ i b b', b.model.wellFormed → body i b = some (true, b') → b.keeps b')
    (k : Nat) : ∀ (i : Nat) (b b' : Build), b.model.wellFormed →
      forEach body k i b = some (true, b') → b.keeps b' := by
  induction k with
  | zero =>
    intro i b b' hwf h
    simp only [forEach, Option.some.injEq, Prod.mk.injEq, true_and] at h
    subst h
    exact buildKeeps_refl _ hwf
  | succ k ih =>
    intro i b b' hwf h
    unfold forEach at h
    split at h
    · cases h
    · cases h
    · rename_i b1 hb1
      have k1 := hbody i b b1 hwf hb1
      exact buildKeeps_trans k1 (ih (i + 1) b1 b' k1.1.1 h)
theorem trimmedOn_modify (m : Model) (c : Nat) (g : Entity → Entity) (s q : Nat)
    (hg : ∀ e, m.find c = some e → q = c → e.trimmedOn s → (g e).trimmedOn s)
    (h : m.trimmedOn s q) : (m.modify c g).trimmedOn s q := by
  unfold Model.trimmedOn at h ⊢
  rw [find_modify]
  by_cases hq : q = c
  · subst hq
    rw [if_pos rfl]
    cases hf : m.find q with
    | none => rw [hf] at h; exact h
    | some e =>
      rw [hf] at h
      exact hg e hf rfl h
  · rw [if_neg hq]
    exact h

theorem trimmedOn_modify_self (m : Model) (p : Nat) (g : Entity → Entity) (s : Nat)
    (e : Entity) (hf : m.find p = some e) (hg : (g e).trimmedOn s) :
    (m.modify p g).trimmedOn s p := by
  unfold Model.trimmedOn
  rw [find_modify, if_pos rfl, hf]
  exact hg

theorem setRefs_trimmedOn (r : List Nat) (s : Nat) (e : Entity) (h : e.trimmedOn s) :
    (e.setRefs r).trimmedOn s := by
  cases e <;> exact h

theorem write_trimmedOn (m m' : Model) (p : Option Nat) (f : Entity → Option Entity) (s : Nat)
    (hf : ∀ e e1, f e = some e1 → e.trimmedOn s → e1.trimmedOn s)
    (h : m.write p f = some m') (q : Nat) (hq : m.trimmedOn s q) : m'.trimmedOn s q := by
  unfold Model.write at h
  cases p with
  | none => cases h
  | some p =>
    simp only at h
    cases hp : m.find p with
    | none => rw [hp] at h; cases h
    | some e =>
      rw [hp] at h
      simp only at h
      cases he : f e with
      | none => rw [he] at h; cases h
      | some e1 =>
        rw [he] at h
        simp only [Option.some.injEq] at h
        subst h
        apply trimmedOn_modify _ _ _ _ _ _ hq
        intro e' hfe _ ht
        rw [hp] at hfe
        cases hfe
        exact hf e e1 he ht

theorem link_inv (m m' : Model) (par ch : Option Nat) (set : Nat → Entity → Option Entity)
    (h : m.link par ch set = some m') :
    ∃ p c e e1, par = some p ∧ ch = some c ∧ m.find p = some e ∧ set c e = some e1 ∧
      m' = (m.modify p (fun _ => e1)).modify c
        (fun ce => ce.setRefs (baseAddReference ce.refs p).2) := by
  unfold Model.link at h
  cases par with
  | none => cases h
  | some p =>
    cases ch with
    | none => cases h
    | some c =>
      simp only at h
      cases hp : m.find p with
      | none => rw [hp] at h; cases h
      | some e =>
        cases hc : m.find c with
        | none => rw [hp, hc] at h; cases h
        | some ce =>
          rw [hp, hc] at h
          simp only at h
          cases he : set c e with
          | none => rw [he] at h; cases h
          | some e1 =>
            rw [he] at h
            simp only [Option.some.injEq] at h
            exact ⟨p, c, e, e1, rfl, rfl, hp, he, h.symm⟩

theorem link_trimmedOn (m m' : Model) (par ch : Option Nat)
    (set : Nat → Entity → Option Entity) (s : Nat)
    (hset : ∀ c, ch = some c → ∀ e e1, set c e = some e1 → e.trimmedOn s → e1.trimmedOn s)
    (h : m.link par ch set = some m') (q : Nat) (hq : m.trimmedOn s q) :
    m'.trimmedOn s q := by
  obtain ⟨p, c, e, e1, -, hc, hp, he, rfl⟩ := link_inv m m' par ch set h
  apply trimmedOn_modify
  · intro e' _ _ ht
    exact setRefs_trimmedOn _ _ _ ht
  · apply trimmedOn_modify _ _ _ _ _ _ hq
    intro e' hfe _ ht
    rw [hp] at hfe
    cases hfe
    exact hset c hc e e1 he ht

theorem link_trimmedOn_self (m m' : Model) (p : Nat) (ch : Option Nat)
    (set : Nat → Entity → Option Entity) (s : Nat)
    (hset : ∀ c, ch = some c → ∀ e e1, set c e = some e1 → e1.trimmedOn s)
    (h : m.link (some p) ch set = some m') : m'.trimmedOn s p := by
  obtain ⟨p', c, e, e1, hp', hc, hp, he, rfl⟩ := link_inv m m' (some p) ch set h
  cases hp'
  apply trimmedOn_modify
  · intro e' _ _ ht
    exact setRefs_trimmedOn _ _ _ ht
  · exact trimmedOn_modify_self m p _ s e hp (hset c hc e e1 he)

theorem setChild_true (ok : Bool) (par ch : Option Nat) (set : Nat → Entity → Option Entity)
    (m m' : Model) (h : setChild ok par ch set m = some (true, m')) :
    ∃ p, par = some p ∧ m.link (some p) ch set = some m' := by
  unfold setChild at h
  cases par with
  | none => cases h
  | some p =>
    simp only at h
    split_ifs at h
    · cases h
    · cases hl : m.link (some p) ch set with
      | none => rw [hl] at h; cases h
      | some m1 =>
        rw [hl] at h
        simp only [Option.some.injEq, Prod.mk.injEq, true_and] at h
        subst h
        exact ⟨p, rfl, hl⟩

theorem setTrimmed_step (F : CylinderCalls) (i : Nat) (b b' : Build) (s : Nat)
    (hwf : b.model.wellFormed) (hs : b.isurf = some s)
    (h : IGES_GEOM_CYLINDER.setTrimmed F i b = some (true, b')) :
    b.keeps b' ∧ (∃ p, b.itps[i]? = some p ∧ b'.model.trimmedOn s p) ∧
      ∀ q, b.model.trimmedOn s q → b'.model.trimmedOn s q := by
  unfold IGES_GEOM_CYLINDER.setTrimmed at h
  split at h
  · cases h
  · rename_i m hw
    split at h
    · cases h
    · rename_i ok m1 hc
      simp only [Option.some.injEq, Prod.mk.injEq] at h
      obtain ⟨rfl, rfl⟩ := h
      obtain ⟨m2, c1, c2⟩ := andAlso_true _ _ _ hc
      have k0 : b.model.keeps m := by
        refine write_keeps _ _ hwf _ _ ?_ hw
        intro e e1 he
        cases e <;> simp at he
        subst he
        rfl
      have k1 := setChild_keeps _ _ _ _ setPTS_entityType _ _ k0.1 c1
      have k2 := setChild_keeps _ _ _ _ setPTO_entityType _ _ k1.1 c2
      obtain ⟨p, hp, l1⟩ := setChild_true _ _ _ _ _ _ c1
      obtain ⟨p', hp', l2⟩ := setChild_true _ _ _ _ _ _ c2
      rw [hp] at hp'
      cases hp'
      have hPTO : ∀ c, b.ibound[i]? = some c → ∀ e e1, setPTO c e = some e1 →
          e.trimmedOn s → e1.trimmedOn s := by
        intro c _ e e1 he ht
        cases e <;> simp [setPTO] at he
        subst he
        exact ht
      have hPTS : ∀ c, b.isurf = some c → ∀ e e1, setPTS c e = some e1 → e1.trimmedOn s := by
        intro c hc e e1 he
        rw [hs] at hc
        cases hc
        cases e <;> simp [setPTS] at he
        subst he
        rfl
      have hN : ∀ e e1 : Entity, (match e with
          | Entity.trimmed t => some (Entity.trimmed { t with N1 := 1, N2 := 0 })
          | _ => none) = some e1 → e.trimmedOn s → e1.trimmedOn s := by
        intro e e1 he ht
        cases e <;> simp at he
        subst he
        exact ht
      refine ⟨⟨modelKeeps_trans (modelKeeps_trans k0 k1) k2, rfl, rfl⟩, ⟨p, hp, ?_⟩, ?_⟩
      · exact link_trimmedOn _ _ _ _ _ s hPTO l2 p
          (link_trimmedOn_self _ _ p _ _ s hPTS l1)
      · intro q hq
        apply link_trimmedOn _ _ _ _ _ s hPTO l2 q
        apply link_trimmedOn _ _ _ _ _ s (fun c hc e e1 he _ => hPTS c hc e e1 he) l1 q
        exact write_trimmedOn _ _ _ _ s hN hw q hq

theorem forEach_setTrimmed (F : CylinderCalls) (s : Nat) (k : Nat) :
    ∀ (i : Nat) (b b' : Build), b.model.wellFormed → b.isurf = some s →
      forEach (IGES_GEOM_CYLINDER.setTrimmed F) k i b = some (true, b') →
      b.keeps b' ∧
      (∀ j, i ≤ j → j < i + k → ∃ p, b.itps[j]? = some p ∧ b'.model.trimmedOn s p) ∧
      ∀ q, b.model.trimmedOn s q → b'.model.trimmedOn s q := by
  induction k with
  | zero =>
    intro i b b' hwf hs h
    simp only [forEach, Option.some.injEq, Prod.mk.injEq, true_and] at h
    subst h
    refine ⟨buildKeeps_refl _ hwf, ?_, fun q hq => hq⟩
    intro j h1 h2
    omega
  | succ k ih =>
    intro i b b' hwf hs h
    unfold forEach at h
    split at h
    · cases h
    · cases h
    · rename_i b1 hb1
      obtain ⟨k1, ⟨p, hp, hpt⟩, hall⟩ := setTrimmed_step F i b b1 s hwf hs hb1
      obtain ⟨k2, hnew, hall2⟩ := ih (i + 1) b1 b' k1.1.1 (k1.2.2.trans hs) h
      refine ⟨buildKeeps_trans k1 k2, ?_, fun q hq => hall2 q (hall q hq)⟩
      intro j h1 h2
      by_cases hj : j = i
      · subst hj
        exact ⟨p, hp, hall2 p hpt⟩
      · obtain ⟨p', hp', hpt'⟩ := hnew j (by omega) (by omega)
        rw [k1.2.1] at hp'
        exact ⟨p', hp', hpt'⟩
theorem find_type_eq (m : Model) (p : Nat) :
    (m.find p).map Entity.entityType
      = (m.shape.find? (fun x => x.1 == p)).map Prod.snd := by
  obtain ⟨gd, es, fr⟩ := m
  simp only [Model.find, Model.shape]
  induction es with
  | nil => rfl
  | cons x rest ih =>
    simp only [List.map_cons, List.find?_cons]
    cases hx : (x.1 == p)
    · exact ih
    · rfl

theorem find_type_of_shape (m m' : Model) (hs : m'.shape = m.shape) (p : Nat) :
    (m'.find p).map Entity.entityType = (m.find p).map Entity.entityType := by
  rw [find_type_eq, find_type_eq, hs]

theorem setAxis_surface (F : CylinderCalls) (c : IGES_GEOM_CYLINDER) (top bot : ℚ)
    (b b' : Build) (hwf : b.model.wellFormed)
    (h : c.setAxis F top bot b = some (true, b')) :
    (∃ a0, c.arcs[0]? = some a0) ∧ (∃ l, b.iline[0]? = some l) ∧
    ∃ s, b.isurf = some s ∧ (b'.model.find s).map Entity.entityType = some 120 := by
  unfold IGES_GEOM_CYLINDER.setAxis at h
  simp only [bind, Option.bind_eq_some, pure] at h
  obtain ⟨a0, ha0, m1, h1, m2, h2, s, hs, h⟩ := h
  have k1 := write_line_keeps hwf h1
  have k2 := write_line_keeps k1.1 h2
  have hl : ∃ l, b.iline[0]? = some l := by
    cases hq : b.iline[0]? with
    | none => rw [hq] at h1; cases h1
    | some l => exact ⟨l, rfl⟩
  split_ifs at h
  · simp at h
  · simp [Option.bind_eq_some] at h
  · simp only [Option.some_bind, Option.bind_eq_some, Option.some.injEq, Prod.mk.injEq,
      true_and] at h
    obtain ⟨m3, h3, m4, h4, h⟩ := h
    have k3 := link_keeps m2 m3 k2.1 _ _ _ setL_entityType h3
    have k4 := link_keeps m3 m4 k3.1 _ _ _ setC_entityType h4
    subst h
    refine ⟨⟨a0, ha0⟩, hl, s, hs, ?_⟩
    obtain ⟨p, ch, e, e1, hp, -, hfind, hset, -⟩ := link_inv _ _ _ _ _ h4
    rw [hs] at hp
    cases hp
    show (m4.find s).map Entity.entityType = some 120
    rw [find_type_of_shape m3 m4 k4.2.1, hfind]
    cases e <;> simp [setC] at hset
    rfl

theorem newEntities_iline (F : CylinderCalls) (c : IGES_GEOM_CYLINDER) (bot : ℚ) (b b' : Build)
    (a0 : MCAD_POINT) (harcs : c.arcs[0]? = some a0)
    (h : c.newEntities F bot b = some (true, b')) :
    b'.iline = b.iline ++ List.range' b.model.fresh (c.narcs * 2 + 2).toNat := by
  have hdep := SetDependency_entityType IGES_STAT_DEPENDS.STAT_DEP_PHY
  unfold IGES_GEOM_CYLINDER.newEntities at h
  simp only [harcs] at h
  obtain ⟨b1, h1, h⟩ := andThen_true _ _ _ h
  obtain ⟨b2, h2, h⟩ := andThen_true _ _ _ h
  obtain ⟨b3, h3, h⟩ := andThen_true _ _ _ h
  obtain ⟨b4, h4, h⟩ := andThen_true _ _ _ h
  obtain ⟨b5, h5, h⟩ := andThen_true _ _ _ h
  obtain ⟨b6, h6, h⟩ := andThen_true _ _ _ h
  obtain ⟨b7, h7, h8⟩ := andThen_true _ _ _ h
  have t1 := forEach_newOne_fills Build.iline _ _ _ _ _ hdep (by intros; rfl)
    (by intros; rfl) _ _ _ _ h1
  obtain ⟨M, hM, -, -⟩ := newOne_true _ _ _ _ _ _ _ _ hdep h2
  have t2 : b2.iline = b1.iline := by rw [hM]
  have t3 := forEach_newOne_keeps Build.iline _ _ _ _ _ (initTransform_entityType a0.x bot)
    (by intros; rfl) _ _ _ _ h3
  have t4 := forEach_newOne_keeps Build.iline _ _ _ _ _ hdep (by intros; rfl) _ _ _ _ h4
  have t5 := forEach_newOne_keeps Build.iline _ _ _ _ _ hdep (by intros; rfl) _ _ _ _ h5
  have t6 := forEach_newOne_keeps Build.iline _ _ _ _ _ hdep (by intros; rfl) _ _ _ _ h6
  have t7 := forEach_newOne_keeps Build.iline _ _ _ _ _ hdep (by intros; rfl) _ _ _ _ h7
  have t8 := forEach_newOne_keeps Build.iline _ _ _ _ _ (by intros; rfl) (by intros; rfl)
    _ _ _ _ h8
  rw [t8, t7, t6, t5, t4, t3, t2, t1]

theorem cylinderTypes_length (n : Nat) : (cylinderTypes n).length = 13 * n + 3 := by
  simp only [cylinderTypes, List.length_append, List.length_replicate, List.length_cons,
    List.length_nil]
  omega

theorem wellFormed_extend (m m1 : Model) (types : List Int) (hwf : m.wellFormed)
    (hs : m1.shape = m.shape ++ List.enumFrom m.fresh types)
    (hf : m1.fresh = m.fresh + types.length) : m1.wellFormed := by
  obtain ⟨hnd, hlt⟩ := hwf
  unfold Model.wellFormed
  rw [hs, hf]
  refine ⟨?_, ?_⟩
  · rw [List.map_append, List.enumFrom_map_fst, List.nodup_append]
    refine ⟨hnd, List.nodup_range' _ _, ?_⟩
    intro a ha hb
    obtain ⟨x, hx, rfl⟩ := List.mem_map.mp ha
    have h1 := hlt x hx
    have h2 := (List.mem_range'_1.mp hb).1
    omega
  · intro x hx
    rcases List.mem_append.mp hx with h | h
    · have := hlt x h
      omega
    · have hmem : x.1 ∈ (List.enumFrom m.fresh types).map Prod.fst :=
        List.mem_map_of_mem Prod.fst h
      rw [List.enumFrom_map_fst] at hmem
      exact (List.mem_range'_1.mp hmem).2

theorem count_enumFrom (ty : Int) (l : List Int) : ∀ f : Nat,
    ((List.enumFrom f l).filter (fun x => x.2 = ty)).length = l.count ty := by
  induction l with
  | nil => intro f; rfl
  | cons a rest ih =>
    intro f
    simp only [List.enumFrom_cons, List.filter_cons, List.count_cons]
    by_cases h : a = ty
    · simp [h, ih (f + 1)]
    · simp [h, ih (f + 1)]

theorem countType_extend (m m1 : Model) (types : List Int) (ty : Int)
    (hs : m1.shape = m.shape ++ List.enumFrom m.fresh types) :
    m1.countType ty = m.countType ty + types.count ty := by
  unfold Model.countType
  rw [hs, List.filter_append, List.length_append, count_enumFrom]

theorem cylinderTypes_count (n : Nat) :
    (cylinderTypes n).count 110 = 2 * n + 2 ∧ (cylinderTypes n).count 120 = 1 ∧
    (cylinderTypes n).count 124 = n ∧ (cylinderTypes n).count 126 = 4 * n ∧
    (cylinderTypes n).count 100 = 2 * n ∧ (cylinderTypes n).count 102 = 2 * n ∧
    (cylinderTypes n).count 142 = n ∧ (cylinderTypes n).count 144 = n := by
  simp [cylinderTypes, List.count_append, List.count_replicate, List.count_cons,
    ENT_LINE, ENT_SURFACE_OF_REVOLUTION, ENT_TRANSFORMATION_MATRIX, ENT_NURBS_CURVE,
    ENT_CIRCULAR_ARC, ENT_COMPOSITE_CURVE, ENT_CURVE_ON_PARAMETRIC_SURFACE,
    ENT_TRIMMED_PARAMETRIC_SURFACE]
/-- Claim C22: when `Instantiate` returns true on a well-formed model, the cylinder has
`narcs > 0` parts; `result` keeps its elements and gains the `narcs` pointers `itps[i]`, each
leading to a trimmed surface (144) whose `PTS` is the one surface of revolution (120) that the
call created; and the model keeps its entities and gains, in this order, `2 narcs + 2` lines,
1 surface of revolution, `narcs` transformation matrices, `4 narcs` NURBS curves, `2 narcs`
circular arcs, `2 narcs` composite curves, `narcs` curves on surface and `narcs` trimmed
surfaces, and nothing else. -/
theorem Instantiate_adds_cylinder (F : CylinderCalls) (X : Library) (c : IGES_GEOM_CYLINDER)
    (m m' : Model) (top bot : ℚ) (result result' : List Nat) (hwf : m.wellFormed)
    (h : c.Instantiate F X (some m) top bot result = some (true, some m', result')) :
    0 < c.narcs ∧
    result' = result ++ List.range' (m.fresh + (12 * c.narcs.toNat + 3)) c.narcs.toNat ∧
    (∀ p ∈ List.range' (m.fresh + (12 * c.narcs.toNat + 3)) c.narcs.toNat,
      m'.trimmedOn (m.fresh + (2 * c.narcs.toNat + 2)) p) ∧
    (m'.find (m.fresh + (2 * c.narcs.toNat + 2))).map Entity.entityType = some 120 ∧
    m'.shape = m.shape ++ List.enumFrom m.fresh (cylinderTypes c.narcs.toNat) ∧
    m'.countType 110 = m.countType 110 + (2 * c.narcs.toNat + 2) ∧
    m'.countType 120 = m.countType 120 + 1 ∧
    m'.countType 124 = m.countType 124 + c.narcs.toNat ∧
    m'.countType 126 = m.countType 126 + 4 * c.narcs.toNat ∧
    m'.countType 100 = m.countType 100 + 2 * c.narcs.toNat ∧
    m'.countType 102 = m.countType 102 + 2 * c.narcs.toNat ∧
    m'.countType 142 = m.countType 142 + c.narcs.toNat ∧
    m'.countType 144 = m.countType 144 + c.narcs.toNat := by
  unfold IGES_GEOM_CYLINDER.Instantiate at h
  by_cases h0 : c.narcs = 0
  · rw [if_pos h0] at h
    cases h
  rw [if_neg h0] at h
  simp only at h
  by_cases hgap : |top - bot| < 1 / 1000
  · rw [if_pos hgap] at h
    cases h
  rw [if_neg hgap] at h
  split at h
  · cases h
  · cases h
  rename_i bF hbuild
  simp only [Option.some.injEq, Prod.mk.injEq, true_and] at h
  obtain ⟨rfl, rfl⟩ := h
  unfold IGES_GEOM_CYLINDER.build at hbuild
  obtain ⟨b1, g1, hbuild⟩ := andThen_true _ _ _ hbuild
  obtain ⟨b2, g2, hbuild⟩ := andThen_true _ _ _ hbuild
  obtain ⟨b3, g3, hbuild⟩ := andThen_true _ _ _ hbuild
  obtain ⟨b4, g4, hbuild⟩ := andThen_true _ _ _ hbuild
  obtain ⟨b5, g5, hbuild⟩ := andThen_true _ _ _ hbuild
  obtain ⟨b6, g6, hbuild⟩ := andThen_true _ _ _ hbuild
  obtain ⟨b7, g7, hbuild⟩ := andThen_true _ _ _ hbuild
  obtain ⟨b8, g8, g9⟩ := andThen_true _ _ _ hbuild
  -- the axis can only be set when the first point and the first line exist
  have hpre : (∃ a0, c.arcs[0]? = some a0) ∧ ∃ l, b1.iline[0]? = some l := by
    unfold IGES_GEOM_CYLINDER.setAxis at g2
    simp only [bind, Option.bind_eq_some, pure] at g2
    obtain ⟨a0, ha0, m1, h1, -⟩ := g2
    refine ⟨⟨a0, ha0⟩, ?_⟩
    cases hq : b1.iline[0]? with
    | none => rw [hq] at h1; cases h1
    | some l => exact ⟨l, rfl⟩
  obtain ⟨⟨a0, harcs⟩, l, hl⟩ := hpre
  have hn : 0 ≤ c.narcs := by
    by_contra hneg
    have hz : (c.narcs * 2 + 2).toNat = 0 := by omega
    have := newEntities_iline F c _ _ b1 a0 harcs g1
    rw [hz] at this
    rw [this] at hl
    cases hl
  have hpos : 0 < c.narcs := by omega
  obtain ⟨s1, f1, u1, t1⟩ := newEntities_true F c _ _ b1 a0 harcs hn g1
  simp only [List.nil_append] at t1
  have w1 : b1.model.wellFormed :=
    wellFormed_extend m b1.model _ hwf s1 (by rw [f1, cylinderTypes_length])
  obtain ⟨-, -, s, hs, hty⟩ := setAxis_surface F c _ _ b1 b2 w1 g2
  rw [u1] at hs
  cases hs
  have k2 := setAxis_keeps F c _ _ b1 b2 w1 g2
  have k3 := setGeometry_keeps F c _ _ b2 b3 k2.1.1 g3
  have k4 := geometricBounds_keeps F c b3 b4 k3.1.1 g4
  have k5 := forEach_keeps _ (fun i b b' => nurbsBounds_keeps F c i b b') _ _ _ _ k4.1.1 g5
  have k6 := forEach_keeps _ (fun i b b' => transferNurbs_keeps X i b b') _ _ _ _ k5.1.1 g6
  have k7 := forEach_keeps _ (fun i b b' => nurbsComposite_keeps F i b b') _ _ _ _ k6.1.1 g7
  have k8 := forEach_keeps _ (fun i b b' => setBound_keeps F c i b b') _ _ _ _ k7.1.1 g8
  have k28 := buildKeeps_trans (buildKeeps_trans (buildKeeps_trans (buildKeeps_trans
    (buildKeeps_trans k3 k4) k5) k6) k7) k8
  have k18 := buildKeeps_trans k2 k28
  obtain ⟨k9, hnew, -⟩ := forEach_setTrimmed F _ _ _ _ _ k8.1.1
    (k18.2.2.trans u1) g9
  have k19 := buildKeeps_trans k18 k9
  have k29 := buildKeeps_trans k28 k9
  have hshape : bF.model.shape
      = m.shape ++ List.enumFrom m.fresh (cylinderTypes c.narcs.toNat) :=
    k19.1.2.1.trans s1
  have hitps : bF.itps
      = List.range' (m.fresh + (12 * c.narcs.toNat + 3)) c.narcs.toNat :=
    k19.2.1.trans t1
  obtain ⟨c1, c2, c3, c4, c5, c6, c7, c8⟩ := cylinderTypes_count c.narcs.toNat
  refine ⟨hpos, ?_, ?_, ?_, hshape, ?_, ?_, ?_, ?_, ?_, ?_, ?_, ?_⟩
  · rw [hitps, List.take_of_length_le (by simp)]
  · intro p hp
    obtain ⟨hp1, hp2⟩ := List.mem_range'_1.mp hp
    obtain ⟨p', hp', ht⟩ := hnew (p - (m.fresh + (12 * c.narcs.toNat + 3))) (by omega)
      (by omega)
    rw [k18.2.1.trans t1, List.getElem?_range' _ _ (by omega)] at hp'
    simp only [one_mul, Option.some.injEq] at hp'
    have : p' = p := by omega
    rw [this] at ht
    exact ht
  · rw [find_type_of_shape b2.model bF.model k29.1.2.1]
    exact hty
  · rw [countType_extend m bF.model _ 110 hshape, c1]
  · rw [countType_extend m bF.model _ 120 hshape, c2]
  · rw [countType_extend m bF.model _ 124 hshape, c3]
  · rw [countType_extend m bF.model _ 126 hshape, c4]
  · rw [countType_extend m bF.model _ 100 hshape, c5]
  · rw [countType_extend m bF.model _ 102 hshape, c6]
  · rw [countType_extend m bF.model _ 142 hshape, c7]
  · rw [countType_extend m bF.model _ 144 hshape, c8]
/-- Witness of C22: the full circle of the fourth scenario, centre `(0,0,0)`, start = end =
`(10,0,0)`, top 5, bottom 0, in a model that owns no entity: `SetParams` gives two parts, and
`Instantiate` appends the two trimmed surfaces 27 and 28, both on the surface of revolution
6, the only one of the 29 entities of the model. -/
theorem Instantiate_adds_cylinder_witness :
    IGES_GEOM_CYLINDER.SetParams Examples.cmath Examples.lib IGES_GEOM_CYLINDER.new
        ⟨0, 0, 0⟩ ⟨10, 0, 0⟩ ⟨10, 0, 0⟩ = (true, Examples.fullCircle) ∧
    Examples.fullCircle.narcs = 2 ∧
    ∃ m', Examples.fullCircle.Instantiate (Examples.calls true) Examples.lib
        (some Examples.emptyModel) 5 0 [33] = some (true, some m', [33, 27, 28]) ∧
      m'.trimmedOn 6 27 ∧ m'.trimmedOn 6 28 ∧
      (m'.find 6).map Entity.entityType = some 120 ∧
      m'.countType 120 = 1 ∧ m'.countType 144 = 2 ∧ m'.entities.length = 29 := by
  have key : ((Examples.fullCircle.Instantiate (Examples.calls true) Examples.lib
      (some Examples.emptyModel) 5 0 [33]).map (fun r => (r.1, r.2.1.isSome, r.2.2)))
      = some (true, true, [33, 27, 28]) := by decide!
  cases hI : Examples.fullCircle.Instantiate (Examples.calls true) Examples.lib
      (some Examples.emptyModel) 5 0 [33] with
  | none => rw [hI] at key; cases key
  | some r =>
    obtain ⟨ok, om, res⟩ := r
    rw [hI] at key
    simp only [Option.map_some', Option.some.injEq, Prod.mk.injEq] at key
    obtain ⟨rfl, hsome, rfl⟩ := key
    cases om with
    | none => cases hsome
    | some m' =>
      obtain ⟨-, -, ht, hs, hshape, -, h120, -, -, -, -, -, h144⟩ :=
        Instantiate_adds_cylinder (Examples.calls true) Examples.lib Examples.fullCircle
          Examples.emptyModel m' 5 0 [33] [33, 27, 28] (by decide) hI
      refine ⟨by decide!, rfl, m', rfl, ht 27 (by decide), ht 28 (by decide), hs, h120, h144,
        ?_⟩
      have hlen := congrArg List.length hshape
      simp only [Model.shape, List.length_map] at hlen
      rw [hlen]
      rfl

/-- C31 fails on the code.  `SetDependency` and `SetEntityUse` of the arc (100) are stubs: each
returns false and leaves the entity as it was, whatever the value asked for.  So the arcs that
a successful `Instantiate` creates keep the dependency of the constructor, independent, while
the lines created by the same call carry the physical dependency: in the full circle of the
fourth scenario the entities 17 to 20 are the arcs and 0 to 5 the lines. -/
theorem SetDependency_100_is_a_stub :
    (∀ (e : IGES_ENTITY_100) (d : IGES_STAT_DEPENDS), e.SetDependency d = (false, e)) ∧
    (∀ (e : IGES_ENTITY_100) (u : IGES_STAT_USE), e.SetEntityUse u = (false, e)) ∧
    (Examples.fullCircle.Instantiate (Examples.calls true) Examples.lib
        (some Examples.emptyModel) 5 0 []).map
      (fun r => (r.1, r.2.1.map (fun m => ([17, 18, 19, 20, 0, 5] : List Nat).map
        (fun p => (m.find p).map (fun e => (e.entityType, e.depends))))))
      = some (true, some
          [some (100, IGES_STAT_DEPENDS.STAT_INDEPENDENT),
           some (100, IGES_STAT_DEPENDS.STAT_INDEPENDENT),
           some (100, IGES_STAT_DEPENDS.STAT_INDEPENDENT),
           some (100, IGES_STAT_DEPENDS.STAT_INDEPENDENT),
           some (110, IGES_STAT_DEPENDS.STAT_DEP_PHY),
           some (110, IGES_STAT_DEPENDS.STAT_DEP_PHY)]) := by
  refine ⟨fun _ _ => rfl, fun _ _ => rfl, by decide!⟩

/-- C33 fails on the code.  `GetStartPoint` and `GetEndPoint` return false exactly when the
curve has fewer than 2 control points, or SISL cannot build the curve, or the evaluator
reports a status other than 0 and 1; but the `bool` that `Interpolate` returns does not depend
on the evaluator at all: with an evaluator that reports the error status `-1`,
`Interpolate( pt, 0, 0.5 )` on a straight segment returns true and hands out what the
evaluator left in its array, while both other accessors return false.  The checks of
`Interpolate` on the number of control points, on `var` and on `nSeg` return false with
`pt = (0,0,0)`. -/
theorem Interpolate_ignores_evaluator_status :
    (∀ (X : Library) (e : IGES_ENTITY_126) (T : Option (MCAD_POINT → MCAD_POINT))
        (pt : MCAD_POINT) (xf : Bool),
      ((e.GetStartPoint X T pt xf).1 = false ↔
        (e.nCoeffs < 2 ∨ (e.scurve = false ∧ X.newCurve e.curve = false) ∨
          ((X.s1225 { e with scurve := true }.curve e.V0).2 ≠ 0 ∧
           (X.s1225 { e with scurve := true }.curve e.V0).2 ≠ 1))) ∧
      ((e.GetEndPoint X T pt xf).1 = false ↔
        (e.nCoeffs < 2 ∨ (e.scurve = false ∧ X.newCurve e.curve = false) ∨
          ((X.s1225 { e with scurve := true }.curve e.V1).2 ≠ 0 ∧
           (X.s1225 { e with scurve := true }.curve e.V1).2 ≠ 1)))) ∧
    (∀ (X : Library) (e : IGES_ENTITY_126) (T : Option (MCAD_POINT → MCAD_POINT))
        (nSeg : Int) (var : ℚ) (xf : Bool),
      (IGES_ENTITY_126.Interpolate X e T nSeg var xf).map (fun r => r.1)
        = (IGES_ENTITY_126.Interpolate X.withGoodEvaluator e T nSeg var xf).map
            (fun r => r.1)) ∧
    (∀ (X : Library) (e : IGES_ENTITY_126) (T : Option (MCAD_POINT → MCAD_POINT))
        (nSeg : Int) (var : ℚ) (xf : Bool),
      (if e.nCoeffs < 2 ∨ var < 0 ∨ var > 1 ∨ nSeg < 0 ∨ nSeg ≥ e.nCoeffs then
        (IGES_ENTITY_126.Interpolate X e T nSeg var xf).map (fun r => (r.1, r.2.1))
      else some (false, ⟨0, 0, 0⟩)) = some (false, ⟨0, 0, 0⟩)) ∧
    IGES_ENTITY_126.Interpolate Examples.failingLib (Examples.segment 1 1) none 0 (1 / 2) false
      = some (true, ⟨7, 7, 7⟩, Examples.segment 1 1) ∧
    (Examples.segment 1 1).GetStartPoint Examples.failingLib none ⟨0, 0, 0⟩ false
      = (false, ⟨0, 0, 0⟩, Examples.segment 1 1) ∧
    (Examples.segment 1 1).GetEndPoint Examples.failingLib none ⟨0, 0, 0⟩ false
      = (false, ⟨0, 0, 0⟩, Examples.segment 1 1) := by
  have hpt : ∀ (X : Library) (e : IGES_ENTITY_126) (T : Option (MCAD_POINT → MCAD_POINT))
      (f : IGES_ENTITY_126 → ℚ) (pt : MCAD_POINT) (xf : Bool),
      ((e.pointAt X T f pt xf).1 = false ↔
        (e.nCoeffs < 2 ∨ (e.scurve = false ∧ X.newCurve e.curve = false) ∨
          ((X.s1225 { e with scurve := true }.curve (f { e with scurve := true })).2 ≠ 0 ∧
           (X.s1225 { e with scurve := true }.curve (f { e with scurve := true })).2 ≠ 1)))
      := by
    intro X e T f pt xf
    unfold IGES_ENTITY_126.pointAt
    by_cases h1 : e.nCoeffs < 2
    · simp [h1]
    · rw [if_neg h1]
      by_cases h2 : (!e.scurve && !X.newCurve e.curve) = true
      · rw [if_pos h2]
        simp only [Bool.and_eq_true, Bool.not_eq_true'] at h2
        simp [h2]
      · rw [if_neg h2]
        have h2' : ¬ (e.scurve = false ∧ X.newCurve e.curve = false) := by
          simpa using h2
        dsimp only
        split_ifs with h3
        · simp [h3]
        · have : ¬ ((X.s1225 { e with scurve := true }.curve
              (f { e with scurve := true })).2 ≠ 0 ∧
              (X.s1225 { e with scurve := true }.curve
              (f { e with scurve := true })).2 ≠ 1) := h3
          cases xf <;> cases T <;> simp [h1, h2', this]
  refine ⟨fun X e T pt xf => ⟨hpt X e T _ pt xf, hpt X e T _ pt xf⟩, ?_, ?_, by decide!,
    by decide!, by decide!⟩
  · intro X e T nSeg var xf
    unfold IGES_ENTITY_126.Interpolate
    simp only [Library.withGoodEvaluator]
    split_ifs <;> try rfl
    cases e.knots with
    | none => rfl
    | some ks =>
      simp only
      split
      · cases xf <;> cases T <;> rfl
      · rfl
  · intro X e T nSeg var xf
    unfold IGES_ENTITY_126.Interpolate
    by_cases h1 : e.nCoeffs < 2
    · simp [h1]
    by_cases h2 : (!e.scurve && !X.newCurve e.curve) = true
    · rw [if_neg h1, if_pos h2]
      split_ifs <;> rfl
    by_cases h3 : var < 0 ∨ var > 1
    · rw [if_neg h1, if_neg h2]
      dsimp only
      rw [if_pos h3]
      split_ifs <;> rfl
    by_cases h4 : nSeg < 0 ∨ nSeg ≥ e.nCoeffs
    · rw [if_neg h1, if_neg h2]
      dsimp only
      rw [if_neg h3, if_pos h4]
      split_ifs <;> rfl
    · rw [if_neg (by tauto)]

/-- C34 fails on the code.  `hasUniquePlane` returns false with the normal `(0,0,1)` for fewer
than 3 control points, but with exactly 3 control points it returns true whatever they are:
the result of `CalcNormal` is not looked at.  For the three collinear control points
`(0,0,0)`, `(1,0,0)`, `(2,0,0)` `SetNURBSData` returns true and flags the curve planar,
`PROP1 = 1`, with the normal that `CalcNormal` left, here `(0,0,0)`. -/
theorem hasUniquePlane_accepts_three_collinear :
    (∀ (X : Library) (e : IGES_ENTITY_126) (norm : MCAD_POINT),
      (IGES_ENTITY_126.hasUniquePlane X { e with nCoeffs := 2 } norm).map (fun r => r.1)
        = some false ∧
      (IGES_ENTITY_126.hasUniquePlane X { e with nCoeffs := 3 } norm).map (fun r => r.1)
        ≠ some false) ∧
    (IGES_ENTITY_126.hasUniquePlane Examples.lib
        { IGES_ENTITY_126.new none with
          nCoeffs := 3, PROP3 := 1, coeffs := some [0, 0, 0, 1, 0, 0, 2, 0, 0] } ⟨0, 0, 0⟩)
      = some (true, ⟨0, 0, 0⟩) ∧
    (IGES_ENTITY_126.SetNURBSData Examples.lib (IGES_ENTITY_126.new (some Examples.globals))
        3 2 (some [0, 0, 1, 2, 2]) (some [0, 0, 0, 1, 0, 0, 2, 0, 0]) false).map
      (fun r => (r.1, r.2.PROP1, r.2.vnorm, r.2.coeffs))
      = some (true, 1, ⟨0, 0, 0⟩, some [0, 0, 0, 1, 0, 0, 2, 0, 0]) := by
  refine ⟨?_, by decide!, by decide!⟩
  intro X e norm
  constructor
  · rw [hasUniquePlane_false_of_lt (by show (2 : Int) < 3; norm_num)]
    rfl
  · unfold IGES_ENTITY_126.hasUniquePlane
    simp only [show ¬ ((3 : Int) < 3) by norm_num, if_false]
    cases e.coeffs with
    | none => simp
    | some cs =>
      simp only
      split
      · simp
      · simp

theorem copyArray_get (src : List ℚ) (n : Nat) : ∀ (i : Nat) (dst dst' : List ℚ),
    copyArray src n i dst = some dst' → i + n ≤ dst.length →
    dst'.length = dst.length ∧ (n = 0 ∨ i + n ≤ src.length) ∧
    ∀ idx, dst'[idx]? = if i ≤ idx ∧ idx < i + n then src[idx]? else dst[idx]? := by
  induction n with
  | zero =>
    intro i dst dst' h _
    simp only [copyArray, Option.some.injEq] at h
    subst h
    refine ⟨rfl, Or.inl rfl, ?_⟩
    intro idx
    rw [if_neg (by omega)]
  | succ n ih =>
    intro i dst dst' h hlen
    unfold copyArray at h
    cases hv : load src i with
    | none => rw [hv] at h; cases h
    | some v =>
      rw [hv] at h
      simp only at h
      have hi : i < src.length := by
        unfold load at hv
        by_contra hc
        rw [List.getElem?_eq_none (by omega)] at hv
        cases hv
      obtain ⟨h1, h2, h3⟩ := ih (i + 1) (dst.set i v) dst' h
        (by rw [List.length_set]; omega)
      rw [List.length_set] at h1
      refine ⟨h1, Or.inr (by omega), ?_⟩
      intro idx
      rw [h3 idx]
      by_cases hidx : idx = i
      · subst hidx
        rw [if_neg (by omega), if_pos (by omega), List.getElem?_set_self (by omega)]
        exact hv.symm
      · rw [List.getElem?_set_ne (fun hne => hidx hne.symm)]
        by_cases hr : i + 1 ≤ idx ∧ idx < i + 1 + n
        · rw [if_pos hr, if_pos (by omega)]
        · rw [if_neg hr, if_neg (by omega)]

theorem copyArray_take (src : List ℚ) (n : Nat) (dst : List ℚ)
    (h : copyArray src n 0 (List.replicate n 0) = some dst) : dst = src.take n := by
  obtain ⟨h1, h2, h3⟩ := copyArray_get src n 0 _ dst h (by simp)
  rw [List.length_replicate] at h1
  apply List.ext_getElem?
  intro idx
  rw [h3 idx, List.getElem?_take]
  by_cases hidx : idx < n
  · rw [if_pos ⟨Nat.zero_le _, by omega⟩, if_pos hidx]
  · rw [if_neg (by omega), if_neg hidx, List.getElem?_replicate, if_neg hidx]

/-- Claim C35: when `knot` or `coeff` is NULL, or `order < 2`, or `nCoeff < order`,
`SetNURBSData` returns false and leaves the entity, every field of it, exactly as it was: the
three tests come before the first assignment. -/
theorem SetNURBSData_validation_atomic (X : Library) (e : IGES_ENTITY_126)
    (nCoeff order : Int) (knot coeff : Option (List ℚ)) (isRational : Bool)
    (h : knot = none ∨ coeff = none ∨ order < 2 ∨ nCoeff < order) :
    e.SetNURBSData X nCoeff order knot coeff isRational = some (false, e) := by
  unfold IGES_ENTITY_126.SetNURBSData
  cases knot with
  | none => rfl
  | some ks =>
    cases coeff with
    | none => rfl
    | some cs =>
      simp only
      rcases h with h | h | h | h
      · cases h
      · cases h
      · rw [if_pos h]
      · by_cases h2 : order < 2
        · rw [if_pos h2]
        · rw [if_neg h2, if_pos h]

/-- Witness of C35: a request for one control point of order 2 on the segment of the
examples. -/
theorem SetNURBSData_validation_atomic_witness :
    (Examples.segment 1 2).SetNURBSData Examples.lib 1 2 (some [0, 0, 1]) (some [0, 0, 0])
      false = some (false, Examples.segment 1 2) :=
  SetNURBSData_validation_atomic Examples.lib (Examples.segment 1 2) 1 2 (some [0, 0, 1])
    (some [0, 0, 0]) false (Or.inr (Or.inr (Or.inr (by decide))))

/-- C36 fails on the code.  Nothing keeps the divisor of the loop under
`// normalize the knot vector` away from zero.  For the knot vector `[0,0,0,0]` of a segment
the library of the examples reports the range `V0 = 0`, `V1 = 0` with status 0; then
`V0 == 0` and `V1 != 1` hold and `SetNURBSData` divides every knot by `V1 = 0`, which the
embedding renders as `none`.  The same call under a library that reports the range `(0, 2)`
returns true with `V0 = 0`, `V1 = 1` and the knots divided by 2. -/
theorem SetNURBSData_divides_by_zero :
    Examples.lib.s1363 (copiedCurve 2 2 [0, 0, 0, 0] [0, 0, 0, 1, 0, 0] false) = (0, 0, 0) ∧
    IGES_ENTITY_126.SetNURBSData Examples.lib (IGES_ENTITY_126.new (some Examples.globals))
        2 2 (some [0, 0, 0, 0]) (some [0, 0, 0, 1, 0, 0]) false = none ∧
    (IGES_ENTITY_126.SetNURBSData { Examples.lib with s1363 := fun _ => (0, 2, 0) }
        (IGES_ENTITY_126.new (some Examples.globals))
        2 2 (some [0, 0, 0, 0]) (some [0, 0, 0, 1, 0, 0]) false).map
      (fun r => (r.1, r.2.knots, r.2.V0, r.2.V1))
      = some (true, some [0, 0, 0, 0], 0, 1) := by
  refine ⟨by decide!, by decide!, by decide!⟩

theorem classify_keeps {X : Library} {e e' : IGES_ENTITY_126} {ok : Bool}
    (h : IGES_ENTITY_126.classify X e = some (ok, e')) :
    e'.V0 = e.V0 ∧ e'.V1 = e.V1 ∧ e'.knots = e.knots ∧ e'.coeffs = e.coeffs ∧
    e'.PROP3 = e.PROP3 := by
  unfold IGES_ENTITY_126.classify at h
  cases hp : e.hasUniquePlane X e.vnorm with
  | none => rw [hp] at h; cases h
  | some r =>
    obtain ⟨planar, nrm⟩ := r
    rw [hp] at h
    simp only at h
    split_ifs at h <;> cases h <;> exact ⟨rfl, rfl, rfl, rfl, rfl⟩

theorem buildCurve_keeps {X : Library} {e e' : IGES_ENTITY_126}
    (h : IGES_ENTITY_126.buildCurve X e = some (true, e')) :
    ((X.s1363 e.curve).1 = 0 ∧ (X.s1363 e.curve).2.1 ≠ 1 →
      e'.knots = e.knots.map (fun ks => ks.map (fun k => k / (X.s1363 e.curve).2.1)) ∧
      e'.V0 = 0 ∧ e'.V1 = 1) ∧
    (¬ ((X.s1363 e.curve).1 = 0 ∧ (X.s1363 e.curve).2.1 ≠ 1) →
      e'.knots = e.knots ∧ e'.V0 = (X.s1363 e.curve).1 ∧ e'.V1 = (X.s1363 e.curve).2.1) ∧
    e'.coeffs = e.coeffs ∧ e'.PROP3 = e.PROP3 := by
  unfold IGES_ENTITY_126.buildCurve at h
  by_cases g1 : (!X.newCurve e.curve) = true
  · rw [if_pos g1] at h
    simp at h
  rw [if_neg g1] at h
  dsimp only at h
  by_cases g2 : (X.s1363 { e with scurve := true }.curve).2.2 ≠ 0 ∧
      (X.s1363 { e with scurve := true }.curve).2.2 ≠ 1
  · rw [if_pos g2] at h
    simp at h
  rw [if_neg g2] at h
  have hc : IGES_ENTITY_126.curve { e with scurve := true } = e.curve := rfl
  rw [hc] at h
  by_cases gz : (X.s1363 e.curve).1 = 0 ∧ (X.s1363 e.curve).2.1 = 0 ∧ 0 < e.nKnots
  · rw [if_pos gz] at h
    cases h
  rw [if_neg gz] at h
  by_cases g3 : (X.s1363 e.curve).1 = 0 ∧ (X.s1363 e.curve).2.1 ≠ 1
  · rw [if_pos g3] at h
    obtain ⟨a, b, c, d, f⟩ := classify_keeps h
    refine ⟨fun _ => ⟨c, ?_, b⟩, fun hn => absurd g3 hn, d, f⟩
    rw [a]
    exact g3.1
  · rw [if_neg g3] at h
    obtain ⟨a, b, c, d, f⟩ := classify_keeps h
    exact ⟨fun hp => absurd hp g3, fun _ => ⟨c, a, b⟩, d, f⟩

/-- Knot normalisation away from the division by zero.  After a `SetNURBSData` on the arrays
`ks` and `cs` of the caller that returns true without dividing by zero, `(v0, v1)` being the
range that `s1363` reports for the copied curve: if `v0 = 0` and `v1` is not 1 then every
stored knot is the input knot divided by `v1` and `V0 = 0`, `V1 = 1`; otherwise the stored
knots are the input knots and `V0 = v0`, `V1 = v1`.  In both cases the stored coefficients are the first `4 nCoeff` (rational) or
`3 nCoeff` (polynomial) entries of `cs`, `PROP3 = 0` exactly when `isRational`, and
`IsRational()` returns `isRational`. -/
theorem SetNURBSData_normalises (X : Library) (e e' : IGES_ENTITY_126) (nCoeff order : Int)
    (ks cs : List ℚ) (isRational : Bool)
    (h : e.SetNURBSData X nCoeff order (some ks) (some cs) isRational = some (true, e')) :
    ((X.s1363 (copiedCurve nCoeff order ks cs isRational)).1 = 0 ∧
        (X.s1363 (copiedCurve nCoeff order ks cs isRational)).2.1 ≠ 1 →
      e'.knots = some ((ks.take (nCoeff + order).toNat).map
        (fun k => k / (X.s1363 (copiedCurve nCoeff order ks cs isRational)).2.1)) ∧
      e'.V0 = 0 ∧ e'.V1 = 1) ∧
    (¬ ((X.s1363 (copiedCurve nCoeff order ks cs isRational)).1 = 0 ∧
        (X.s1363 (copiedCurve nCoeff order ks cs isRational)).2.1 ≠ 1) →
      e'.knots = some (ks.take (nCoeff + order).toNat) ∧
      e'.V0 = (X.s1363 (copiedCurve nCoeff order ks cs isRational)).1 ∧
      e'.V1 = (X.s1363 (copiedCurve nCoeff order ks cs isRational)).2.1) ∧
    e'.coeffs = some (cs.take (if isRational then nCoeff * 4 else nCoeff * 3).toNat) ∧
    (e'.PROP3 = 0 ↔ isRational = true) ∧ e'.IsRational = isRational ∧
    (nCoeff + order).toNat ≤ ks.length ∧
    (if isRational then nCoeff * 4 else nCoeff * 3).toNat ≤ cs.length := by
  unfold IGES_ENTITY_126.SetNURBSData at h
  simp only at h
  by_cases h1 : order < 2
  · rw [if_pos h1] at h
    simp at h
  rw [if_neg h1] at h
  by_cases h2 : nCoeff < order
  · rw [if_pos h2] at h
    simp at h
  rw [if_neg h2] at h
  cases hk : copyArray ks (nCoeff + order).toNat 0 (List.replicate (nCoeff + order).toNat 0) with
  | none => rw [hk] at h; cases h
  | some kcopy =>
    rw [hk] at h
    simp only at h
    cases hc : copyArray cs (if isRational = true then nCoeff * 4 else nCoeff * 3).toNat 0
        (List.replicate (if isRational = true then nCoeff * 4 else nCoeff * 3).toNat 0) with
    | none => rw [hc] at h; cases h
    | some ccopy =>
      rw [hc] at h
      simp only at h
      have ek := copyArray_take _ _ _ hk
      have ec := copyArray_take _ _ _ hc
      obtain ⟨-, lk, -⟩ := copyArray_get _ _ _ _ _ hk (by simp)
      obtain ⟨-, lc, -⟩ := copyArray_get _ _ _ _ _ hc (by simp)
      obtain ⟨b1, b2, b3, b4⟩ := buildCurve_keeps h
      have hcurve : IGES_ENTITY_126.curve
          { e with nKnots := nCoeff + order, nCoeffs := nCoeff, K := nCoeff - 1,
                   M := order - 1, scurve := false, knots := some kcopy,
                   coeffs := some ccopy, PROP3 := if isRational = true then 0 else 1 }
          = copiedCurve nCoeff order ks cs isRational := by
        unfold IGES_ENTITY_126.curve copiedCurve
        rw [ek, ec]
        cases isRational <;> simp
      rw [hcurve] at b1 b2
      refine ⟨?_, ?_, ?_, ?_, ?_, by omega, by omega⟩
      · intro hp
        obtain ⟨q1, q2, q3⟩ := b1 hp
        refine ⟨?_, q2, q3⟩
        rw [q1, ← ek]
        rfl
      · intro hn
        obtain ⟨q1, q2, q3⟩ := b2 hn
        refine ⟨?_, q2, q3⟩
        rw [q1, ← ek]
      · rw [b3, ← ec]
      · rw [b4]
        cases isRational <;> simp
      · unfold IGES_ENTITY_126.IsRational
        rw [b4]
        cases isRational <;> simp

/-- The segment with knots `[0,0,2,2]`, which the library reports as the range `(0, 2)`: the
stored knots are `[0,0,1,1]`. -/
theorem SetNURBSData_normalises_witness :
    ∃ e', (IGES_ENTITY_126.new (some Examples.globals)).SetNURBSData Examples.lib 2 2
        (some [0, 0, 2, 2]) (some [0, 0, 0, 1, 0, 0]) false = some (true, e') ∧
      e'.knots = some [0, 0, 1, 1] ∧ e'.V0 = 0 ∧ e'.V1 = 1 ∧
      e'.coeffs = some [0, 0, 0, 1, 0, 0] ∧ e'.IsRational = false := by
  have key : ((IGES_ENTITY_126.new (some Examples.globals)).SetNURBSData Examples.lib 2 2
      (some [0, 0, 2, 2]) (some [0, 0, 0, 1, 0, 0]) false).map (fun r => r.1)
      = some true := by decide!
  cases hI : (IGES_ENTITY_126.new (some Examples.globals)).SetNURBSData Examples.lib 2 2
      (some [0, 0, 2, 2]) (some [0, 0, 0, 1, 0, 0]) false with
  | none => rw [hI] at key; cases key
  | some r =>
    obtain ⟨ok, e'⟩ := r
    rw [hI] at key
    simp only [Option.map_some', Option.some.injEq] at key
    subst key
    obtain ⟨h1, -, h3, -, h5, -, -⟩ := SetNURBSData_normalises Examples.lib
      (IGES_ENTITY_126.new (some Examples.globals)) e' 2 2 [0, 0, 2, 2] [0, 0, 0, 1, 0, 0]
      false hI
    have hr : Examples.lib.s1363 (copiedCurve 2 2 [0, 0, 2, 2] [0, 0, 0, 1, 0, 0] false)
        = (0, 2, 0) := by decide!
    rw [hr] at h1
    obtain ⟨q1, q2, q3⟩ := h1 ⟨rfl, by norm_num⟩
    refine ⟨e', rfl, ?_, q2, q3, ?_, h5⟩
    · rw [q1]
      decide!
    · rw [h3]
      rfl

/-- Claim C32: the consecutive-point rule of `associate` is triggered only by two adjacent
members of the same point kind.  For a composite curve whose indices resolve, whose members
lie in the table with allowed types and positions within the tolerance of each other, and
which is not a single point, `associate` returns, and it returns false if and only if two
adjacent members are both 116 or both 132 (in a curve whose `iCurves` has a size other than
2); so a member list in which adjacent members always differ in type, such as one that
alternates 116 and 132, is accepted whatever its length. -/
theorem associate_accepts_interleaved_points (g : Graph) (self : Nat) (e : IGES_ENTITY_102)
    (hres : ∀ i ∈ e.iCurves, 0 ≤ i ∧ i < (g.length : Int) ∧
      ∀ nd, g[i.toNat]? = some nd → ¬ (nd.entityType = 102 ∧ e.entityType = 102))
    (hmem : ∀ q ∈ e.curves, ∃ nd, g[q]? = some nd ∧ allowedInComposite nd.entityType = true)
    (hgap : ¬ e.gapExceeds g e.tolerance)
    (hsingle : e.curves.length ≠ 1) :
    ∃ b e' g', IGES_ENTITY_102.associate true g self e = some (b, e', g') ∧
      (b = false ↔ e.samePointKindAdjacent g) ∧
      ((∀ i qp qc prev cur, e.curves[i]? = some qp → e.curves[i + 1]? = some qc →
          g[qp]? = some prev → g[qc]? = some cur → prev.entityType ≠ cur.entityType) →
        b = true) := by
  have hvalid : ∀ q ∈ e.curves, q < g.length := by
    intro q hq
    obtain ⟨nd, hnd, -⟩ := hmem q hq
    exact (List.getElem?_eq_some_iff.mp hnd).1
  obtain ⟨ok', iEnt', hchk, hassoc⟩ := associate_eq g self e hvalid
  rw [resolve_ok self e.entityType e.iCurves g e.extras true hres] at hchk
  rw [if_neg (fun hh => hsingle hh.1)] at hassoc
  obtain ⟨hiff, -⟩ := checkLoop_top g _ _ _ _ _ _ hchk
  have hall : ∀ q ∈ e.curves, ∀ nd, g[q]? = some nd →
      allowedInComposite nd.entityType = true := by
    intro q hq nd hnd
    obtain ⟨nd', hnd', hal⟩ := hmem q hq
    rw [hnd] at hnd'
    cases hnd'
    exact hal
  have hch : ok' = true ↔
      List.Chain' (IGES_ENTITY_102.pairOk g e.tolerance e.iCurves.length) e.curves := by
    rw [hiff]
    exact ⟨fun hh => hh.2.2, fun hh => ⟨rfl, hall, hh⟩⟩
  rw [chain'_iff_getElem?] at hch
  have hfalse : ok' = false ↔ e.samePointKindAdjacent g := by
    constructor
    · intro hf
      by_contra hno
      have : ok' = true := by
        rw [hch]
        intro i qp qc hqp hqc prev cur hp hcu
        refine ⟨?_, ?_⟩
        · rintro ⟨h1, h2, h3⟩
          exact hno ⟨i, qp, qc, prev, cur, hqp, hqc, hp, hcu, h1, h2, h3⟩
        · intro hg
          exact hgap ⟨i, qp, qc, prev, cur, hqp, hqc, hp, hcu, hg⟩
      rw [hf] at this
      cases this
    · rintro ⟨i, qp, qc, prev, cur, hqp, hqc, hp, hcu, h1, h2, h3⟩
      cases hok' : ok' with
      | false => rfl
      | true =>
        exfalso
        exact (hch.mp hok' i qp qc hqp hqc prev cur hp hcu).1 ⟨h1, h2, h3⟩
  refine ⟨ok', _, _, hassoc, hfalse, ?_⟩
  intro halt
  cases hok' : ok' with
  | true => rfl
  | false =>
    exfalso
    obtain ⟨i, qp, qc, prev, cur, hqp, hqc, hp, hcu, -, h2, -⟩ := hfalse.mp hok'
    exact halt i qp qc prev cur hqp hqc hp hcu h2

/-- Witness of C32: a point, a connect point, a point and a connect point at the same
position form a composite curve that `associate` accepts. -/
theorem associate_accepts_interleaved_points_witness :
    ∃ e' g', IGES_ENTITY_102.associate true Examples.interleaved 4
      (Examples.fourPoints Examples.globals) = some (true, e', g') := by
  have hres : ∀ i ∈ (Examples.fourPoints Examples.globals).iCurves,
      0 ≤ i ∧ i < (Examples.interleaved.length : Int) ∧
      ∀ nd, Examples.interleaved[i.toNat]? = some nd →
        ¬ (nd.entityType = 102 ∧ (Examples.fourPoints Examples.globals).entityType = 102) := by
    intro i hi
    simp only [Examples.fourPoints, IGES_ENTITY_102.new, List.mem_cons, List.mem_singleton,
      List.not_mem_nil, or_false] at hi
    rcases hi with rfl | rfl | rfl | rfl <;> decide
  have hmem : ∀ q ∈ (Examples.fourPoints Examples.globals).curves,
      ∃ nd, Examples.interleaved[q]? = some nd ∧ allowedInComposite nd.entityType = true := by
    intro q hq
    simp only [Examples.fourPoints, IGES_ENTITY_102.new, List.mem_cons, List.mem_singleton,
      List.not_mem_nil, or_false] at hq
    rcases hq with rfl | rfl | rfl | rfl <;> exact ⟨_, rfl, by decide⟩
  have hpairs : ∀ i qp qc prev cur,
      (Examples.fourPoints Examples.globals).curves[i]? = some qp →
      (Examples.fourPoints Examples.globals).curves[i + 1]? = some qc →
      Examples.interleaved[qp]? = some prev → Examples.interleaved[qc]? = some cur →
      prev.entityType ≠ cur.entityType ∧
        ¬ (gapSq cur prev > (Examples.fourPoints Examples.globals).tolerance) := by
    intro i qp qc prev cur hqp hqc hp hcu
    have hi : i < 3 := by
      by_contra hge
      have : (Examples.fourPoints Examples.globals).curves[i + 1]? = none := by
        apply List.getElem?_eq_none
        simp only [Examples.fourPoints, IGES_ENTITY_102.new, List.length_cons,
          List.length_nil]
        omega
      rw [this] at hqc
      cases hqc
    interval_cases i
    all_goals
      simp only [Examples.fourPoints, IGES_ENTITY_102.new, List.getElem?_cons_succ,
        List.getElem?_cons_zero, Option.some.injEq] at hqp hqc
      subst hqp hqc
      simp only [Examples.interleaved, List.getElem?_cons_succ, List.getElem?_cons_zero,
        Option.some.injEq] at hp hcu
      subst hp hcu
      exact ⟨by decide, by decide!⟩
  obtain ⟨b, e', g', hassoc, -, htrue⟩ := associate_accepts_interleaved_points
    Examples.interleaved 4 (Examples.fourPoints Examples.globals) hres hmem
    (by
      rintro ⟨i, qp, qc, prev, cur, hqp, hqc, hp, hcu, hg⟩
      exact (hpairs i qp qc prev cur hqp hqc hp hcu).2 hg)
    (by decide)
  have hb := htrue (fun i qp qc prev cur hqp hqc hp hcu =>
    (hpairs i qp qc prev cur hqp hqc hp hcu).1)
  subst hb
  exact ⟨e', g', hassoc⟩

theorem ancestorWalk_mono (g : Graph) : ∀ (fuel : Nat) (ep : Option Nat) (eps : List Nat)
    (r : Option Nat × List Nat) (k : Nat),
    IGES_ENTITY_126.ancestorWalk g fuel ep eps = some r →
    IGES_ENTITY_126.ancestorWalk g (fuel + k) ep eps = some r := by
  intro fuel
  induction fuel with
  | zero =>
    intro ep eps r k h
    cases ep with
    | none =>
      cases k <;> simpa [IGES_ENTITY_126.ancestorWalk] using h
    | some p => simp [IGES_ENTITY_126.ancestorWalk] at h
  | succ fuel ih =>
    intro ep eps r k h
    cases ep with
    | none => simpa [IGES_ENTITY_126.ancestorWalk] using h
    | some p =>
      rw [Nat.add_right_comm]
      unfold IGES_ENTITY_126.ancestorWalk at h ⊢
      cases hnd : g[p]? with
      | none => rw [hnd] at h; cases h
      | some nd =>
        rw [hnd] at h
        simp only at h ⊢
        by_cases h142 : nd.entityType = 142
        · rw [if_pos h142] at h ⊢
          exact h
        · rw [if_neg h142] at h ⊢
          exact ih _ _ _ k h

theorem ancestorWalk_visits (g : Graph) (hc : g.closed) (ha : g.acyclic) :
    ∀ (fuel : Nat) (ep : Option Nat) (eps : List Nat),
    eps.Nodup → (∀ x ∈ eps, x < g.length) →
    (∀ p, ep = some p → p < g.length ∧ ∀ x ∈ eps, g.ancestor x p) →
    g.length ≤ fuel + eps.length →
    ∃ cps eps', IGES_ENTITY_126.ancestorWalk g fuel ep eps = some (cps, eps') ∧
      (cps.toList ++ eps').Nodup ∧ (∀ x ∈ cps.toList ++ eps', x < g.length) ∧
      (∃ tl, eps' = eps ++ tl ∧ ∀ x ∈ tl, ∀ nd, g[x]? = some nd → nd.entityType ≠ 142) ∧
      (∀ c, cps = some c → ∃ nd, g[c]? = some nd ∧ nd.entityType = 142) ∧
      (cps = none → ep = none ∨
        ∃ last nd, eps'.getLast? = some last ∧ g[last]? = some nd ∧ nd.refs = []) := by
  intro fuel
  induction fuel with
  | zero =>
    intro ep eps hnd hrange hep hfuel
    cases ep with
    | none =>
      exact ⟨none, eps, by simp [IGES_ENTITY_126.ancestorWalk], by simpa using hnd,
        by simpa using hrange, ⟨[], by simp, by simp⟩, by simp, fun _ => Or.inl rfl⟩
    | some p =>
      exfalso
      obtain ⟨hp, hanc⟩ := hep p rfl
      have hnot : p ∉ eps := fun hmem => ha p (hanc p hmem)
      have := nodup_length_le (p :: eps) g.length (List.nodup_cons.mpr ⟨hnot, hnd⟩)
        (by
          intro x hx
          rcases List.mem_cons.mp hx with rfl | hx
          · exact hp
          · exact hrange x hx)
      simp only [List.length_cons] at this
      omega
  | succ fuel ih =>
    intro ep eps hnd hrange hep hfuel
    cases ep with
    | none =>
      exact ⟨none, eps, by simp [IGES_ENTITY_126.ancestorWalk], by simpa using hnd,
        by simpa using hrange, ⟨[], by simp, by simp⟩, by simp, fun _ => Or.inl rfl⟩
    | some p =>
      obtain ⟨hp, hanc⟩ := hep p rfl
      have hnot : p ∉ eps := fun hmem => ha p (hanc p hmem)
      obtain ⟨nd, hnd'⟩ : ∃ nd, g[p]? = some nd := ⟨g[p], List.getElem?_eq_getElem hp⟩
      unfold IGES_ENTITY_126.ancestorWalk
      simp only [hnd']
      by_cases h142 : nd.entityType = 142
      · rw [if_pos h142]
        refine ⟨some p, eps, rfl, ?_, ?_, ⟨[], by simp, by simp⟩, ?_, by simp⟩
        · simpa using ⟨hnot, hnd⟩
        · intro x hx
          simp only [Option.toList_some, List.singleton_append, List.mem_cons] at hx
          rcases hx with rfl | hx
          · exact hp
          · exact hrange x hx
        · intro c hcq
          simp only [Option.some.injEq] at hcq
          subst hcq
          exact ⟨nd, hnd', h142⟩
      · rw [if_neg h142]
        have hnd2 : (eps ++ [p]).Nodup := by
          rw [List.nodup_append]
          refine ⟨hnd, List.nodup_singleton p, ?_⟩
          intro x hx hx'
          rw [List.mem_singleton] at hx'
          subst hx'
          exact hnot hx
        have hrange2 : ∀ x ∈ eps ++ [p], x < g.length := by
          intro x hx
          rcases List.mem_append.mp hx with hx | hx
          · exact hrange x hx
          · rw [List.mem_singleton] at hx; subst hx; exact hp
        have hep2 : ∀ q, nd.GetFirstParentRef = some q →
            q < g.length ∧ ∀ x ∈ eps ++ [p], g.ancestor x q := by
          intro q hq
          have hmem : q ∈ nd.refs := List.mem_of_mem_head? hq
          have hpar : g.parentOf p q := ⟨nd, hnd', hmem⟩
          refine ⟨hc p q hpar, ?_⟩
          intro x hx
          rcases List.mem_append.mp hx with hx | hx
          · exact Relation.TransGen.tail (hanc x hx) hpar
          · rw [List.mem_singleton] at hx; subst hx; exact Relation.TransGen.single hpar
        obtain ⟨cps, eps', hw, hn', hr', ⟨tl, htl, htl142⟩, hcps, hlast⟩ :=
          ih nd.GetFirstParentRef (eps ++ [p]) hnd2 hrange2 hep2
            (by simp only [List.length_append, List.length_singleton]; omega)
        refine ⟨cps, eps', hw, hn', hr', ⟨p :: tl, ?_, ?_⟩, hcps, ?_⟩
        · rw [htl, List.append_assoc]
          rfl
        · intro x hx nd' hx'
          rcases List.mem_cons.mp hx with rfl | hx
          · rw [hnd'] at hx'
            cases hx'
            exact h142
          · exact htl142 x hx nd' hx'
        · intro hnone
          right
          rcases hlast hnone with hfirst | hex
          · have hrefs : nd.refs = [] := by
              unfold Node.GetFirstParentRef at hfirst
              cases hr : nd.refs with
              | nil => rfl
              | cons a t => rw [hr] at hfirst; cases hfirst
            have heq : eps' = eps ++ [p] := by
              rw [hfirst] at hw
              simp only [IGES_ENTITY_126.ancestorWalk] at hw
              cases fuel <;> simp only [IGES_ENTITY_126.ancestorWalk, Option.some.injEq,
                Prod.mk.injEq] at hw <;> exact hw.2.symm
            exact ⟨p, nd, by rw [heq]; simp, hnd', hrefs⟩
          · exact hex

/-- Claim C40: on a table that is closed and has no cycle, the ancestor walk of `rescale`
from the curve at position `self` ends within the rounds it is given, as many as the table
has entities, and with any larger number of rounds it ends the same way.  The entities it
visits, the curve itself included, are pairwise distinct and lie in the table, so there are
at most as many as the table has entities; none of those passed is a 142; and the walk stops
at a 142, the first one it meets, or at an entity without parent references. -/
theorem ancestorWalk_terminates (g : Graph) (self : Nat) (me : Node)
    (hc : g.closed) (ha : g.acyclic) (hself : g[self]? = some me) :
    ∃ cps eps,
      (∀ k, IGES_ENTITY_126.ancestorWalk g (g.length + k) me.GetFirstParentRef [self]
        = some (cps, eps)) ∧
      (cps.toList ++ eps).Nodup ∧ (∀ x ∈ cps.toList ++ eps, x < g.length) ∧
      (cps.toList ++ eps).length ≤ g.length ∧
      (∃ tl, eps = self :: tl ∧ ∀ x ∈ tl, ∀ nd, g[x]? = some nd → nd.entityType ≠ 142) ∧
      (∀ c, cps = some c → ∃ nd, g[c]? = some nd ∧ nd.entityType = 142) ∧
      (cps = none → ∃ last nd, eps.getLast? = some last ∧ g[last]? = some nd ∧
        nd.GetFirstParentRef = none) := by
  have hlt : self < g.length := (List.getElem?_eq_some_iff.mp hself).1
  have hep : ∀ p, me.GetFirstParentRef = some p →
      p < g.length ∧ ∀ x ∈ [self], g.ancestor x p := by
    intro p hp
    have hpar : g.parentOf self p := ⟨me, hself, List.mem_of_mem_head? hp⟩
    refine ⟨hc self p hpar, ?_⟩
    intro x hx
    rw [List.mem_singleton] at hx
    subst hx
    exact Relation.TransGen.single hpar
  obtain ⟨cps, eps, hw, hn, hr, ⟨tl, htl, h142⟩, hcps, hlast⟩ :=
    ancestorWalk_visits g hc ha g.length me.GetFirstParentRef [self]
      (List.nodup_singleton self)
      (by intro x hx; rw [List.mem_singleton] at hx; subst hx; exact hlt) hep
      (by simp)
  refine ⟨cps, eps, fun k => ancestorWalk_mono g _ _ _ _ k hw, hn, hr,
    nodup_length_le _ _ hn hr, ⟨tl, htl, h142⟩, hcps, ?_⟩
  intro hnone
  rcases hlast hnone with hfirst | ⟨last, nd, h1, h2, h3⟩
  · have heq : eps = [self] := by
      have hw0 := hw
      rw [hfirst] at hw0
      cases hlen : g.length with
      | zero => omega
      | succ n =>
        rw [hlen] at hw0
        simp only [IGES_ENTITY_126.ancestorWalk, Option.some.injEq, Prod.mk.injEq] at hw0
        exact hw0.2.symm
    exact ⟨self, me, by rw [heq]; rfl, hself, hfirst⟩
  · refine ⟨last, nd, h1, h2, ?_⟩
    unfold Node.GetFirstParentRef
    rw [h3]
    rfl

/-- Witness of C40: in the trimmed-surface model the walk from the curve at position 0 goes
to the associativity at position 1, which has no parent, and stops there. -/
theorem ancestorWalk_terminates_witness :
    ∃ cps eps,
      (∀ k, IGES_ENTITY_126.ancestorWalk Examples.trimmed (Examples.trimmed.length + k)
        (some 1) [0] = some (cps, eps)) ∧
      (cps.toList ++ eps).length ≤ Examples.trimmed.length := by
  have hpa : Examples.trimmed.parentsAbove = true := by decide
  obtain ⟨cps, eps, h1, -, -, h4, -⟩ := ancestorWalk_terminates Examples.trimmed 0
    { entityType := 126, refs := [1, 2], BPTR := none, startPoint := Examples.origin,
      endPoint := Examples.origin }
    (parentsAbove_closed_acyclic _ hpa).1 (parentsAbove_closed_acyclic _ hpa).2 rfl
  exact ⟨cps, eps, h1, h4⟩

theorem formatKnots_total (X : Library) (uir : ℚ) (ks : List ℚ) (n : Nat) :
    ∀ (i : Nat) (out : List PDItem), i + n ≤ ks.length →
    ∃ r, IGES_ENTITY_126.formatKnots X uir ks n i out = some r := by
  induction n with
  | zero => intro i out _; exact ⟨_, rfl⟩
  | succ n ih =>
    intro i out h
    have hi : i < ks.length := by omega
    unfold IGES_ENTITY_126.formatKnots
    simp only [load, List.getElem?_eq_getElem hi]
    split_ifs
    · exact ⟨_, rfl⟩
    · exact ih (i + 1) _ (by omega)

theorem formatWeights_total (X : Library) (p : Int) (cs : List ℚ) (n : Nat) :
    ∀ (j : Nat) (out : List PDItem), (p = 0 → j + 4 * n ≤ cs.length + 3) →
    ∃ r, IGES_ENTITY_126.formatWeights X p cs n j out = some r := by
  induction n with
  | zero => intro j out _; exact ⟨_, rfl⟩
  | succ n ih =>
    intro j out h
    unfold IGES_ENTITY_126.formatWeights
    by_cases hp : p = 0
    · have hj : j < cs.length := by have := h hp; omega
      simp only [hp, if_true, load, List.getElem?_eq_getElem hj]
      split_ifs
      · exact ⟨_, rfl⟩
      · have := ih (j + 1 + 3) (out ++ [PDItem.real cs[j] (1 / 1000000)])
          (fun _ => by have := h hp; omega)
        simpa [hp] using this
    · simp only [hp, if_false]
      split_ifs
      · exact ⟨_, rfl⟩
      · have := ih (j + 3) (out ++ [PDItem.real 1 (1 / 1000000)]) (fun h0 => absurd h0 hp)
        simpa [hp] using this

theorem loadPoint_total {cs : List ℚ} {j : Nat} (h : j + 3 ≤ cs.length) :
    ∃ p, loadPoint cs j = some p := by
  unfold loadPoint load
  rw [List.getElem?_eq_getElem (show j < cs.length by omega),
    List.getElem?_eq_getElem (show j + 1 < cs.length by omega),
    List.getElem?_eq_getElem (show j + 2 < cs.length by omega)]
  exact ⟨_, rfl⟩

theorem formatPoints_total (X : Library) (uir : ℚ) (p : Int) (cs : List ℚ) (n : Nat) :
    ∀ (j : Nat) (out : List PDItem), j + (if p = 0 then 4 else 3) * n ≤ cs.length →
    ∃ r, IGES_ENTITY_126.formatPoints X uir p cs n j out = some r := by
  induction n with
  | zero => intro j out _; exact ⟨_, rfl⟩
  | succ n ih =>
    intro j out h
    have h3 : 3 ≤ (if p = 0 then 4 else 3) := by split <;> omega
    have hmul : (if p = 0 then 4 else 3) * (n + 1)
        = (if p = 0 then 4 else 3) * n + (if p = 0 then 4 else 3) := by ring
    have hstep : (if p = 0 then j + 4 else j + 3) = j + (if p = 0 then 4 else 3) := by
      split <;> rfl
    obtain ⟨vx, hx⟩ : ∃ v, load cs j = some v :=
      ⟨_, List.getElem?_eq_getElem (show j < cs.length by omega)⟩
    obtain ⟨vy, hy⟩ : ∃ v, load cs (j + 1) = some v :=
      ⟨_, List.getElem?_eq_getElem (show j + 1 < cs.length by omega)⟩
    obtain ⟨vz, hz⟩ : ∃ v, load cs (j + 2) = some v :=
      ⟨_, List.getElem?_eq_getElem (show j + 2 < cs.length by omega)⟩
    unfold IGES_ENTITY_126.formatPoints
    simp only [hx, hy, hz]
    rw [hstep]
    by_cases c1 : (!X.FormatPDREal vx uir) = true
    · rw [if_pos c1]
      exact ⟨_, rfl⟩
    rw [if_neg c1]
    by_cases c2 : (!X.FormatPDREal vy uir) = true
    · rw [if_pos c2]
      exact ⟨_, rfl⟩
    rw [if_neg c2]
    by_cases c3 : (!X.FormatPDREal vz uir) = true
    · rw [if_pos c3]
      exact ⟨_, rfl⟩
    rw [if_neg c3]
    exact ih _ _ (by omega)

theorem planeLoop_total (X : Library) (p : Int) (cs : List ℚ) (n : Nat) :
    ∀ (j : Nat) (a b t0 t1 norm : MCAD_POINT),
    j + (if p = 0 then 4 else 3) * n ≤ cs.length →
    ∃ r, IGES_ENTITY_126.planeLoop X p cs n j a b t0 t1 norm = some r := by
  induction n with
  | zero => intro j a b t0 t1 norm _; exact ⟨_, rfl⟩
  | succ n ih =>
    intro j a b t0 t1 norm h
    have h3 : 3 ≤ (if p = 0 then 4 else 3) := by split <;> omega
    have hmul : (if p = 0 then 4 else 3) * (n + 1)
        = (if p = 0 then 4 else 3) * n + (if p = 0 then 4 else 3) := by ring
    have hstep : (if p = 0 then j + 4 else j + 3) = j + (if p = 0 then 4 else 3) := by
      split <;> rfl
    obtain ⟨c, hc⟩ := loadPoint_total (show j + 3 ≤ cs.length by omega)
    unfold IGES_ENTITY_126.planeLoop
    simp only [hc]
    rw [hstep]
    by_cases c1 : (!X.PointMatches t0 (X.CalcNormal a b c t1) (1 / 100000000)
        && !X.PointMatches t0 ((X.CalcNormal a b c t1).smul (-1)) (1 / 100000000)) = true
    · rw [if_pos c1]
      exact ⟨_, rfl⟩
    rw [if_neg c1]
    exact ih _ _ _ _ _ _ (by omega)

theorem formatItems_total (X : Library) (e : IGES_ENTITY_126) (ks cs : List ℚ)
    (hk : e.nKnots.toNat ≤ ks.length)
    (hc : (if e.PROP3 = 0 then 4 else 3) * e.nCoeffs.toNat ≤ cs.length) :
    ∃ r, e.formatItems X ks cs = some r := by
  unfold IGES_ENTITY_126.formatItems
  dsimp only
  obtain ⟨⟨b1, o1⟩, h1⟩ := formatKnots_total X (1 / 1000000000000000) ks e.nKnots.toNat 0
    [PDItem.int e.entityType, PDItem.int e.K, PDItem.int e.M, PDItem.int e.PROP1,
     PDItem.int e.PROP2, PDItem.int e.PROP3, PDItem.int e.PROP4] (by omega)
  rw [h1]
  cases b1 with
  | false => exact ⟨_, rfl⟩
  | true =>
    obtain ⟨⟨b2, o2⟩, h2⟩ := formatWeights_total X e.PROP3 cs e.nCoeffs.toNat 3 o1
      (fun hp => by rw [if_pos hp] at hc; omega)
    simp only [h2]
    cases b2 with
    | false => exact ⟨_, rfl⟩
    | true =>
      obtain ⟨⟨b3, o3⟩, h3⟩ := formatPoints_total X (1 / 1000000000000000) e.PROP3 cs
        e.nCoeffs.toNat 0 o2 (by omega)
      simp only [h3]
      cases b3 with
      | false => exact ⟨_, rfl⟩
      | true => exact ⟨_, rfl⟩

/-- Claim C37: index safety of the array accesses of a NURBS curve (126).  For an entity
with `M >= 1`, `nKnots = K + M + 2`, `nCoeffs = K + 1`, a knot array of `nKnots` entries and
a coefficient array of `4 * nCoeffs` entries when `PROP3 = 0` and `3 * nCoeffs` otherwise:
(a) for every `nSeg` in `[0, nCoeffs)` the indices `idx0 + nSeg` and `idx0 + nSeg + 1`, with
`idx0 = (nKnots - nCoeffs) / 2`, lie in `[0, nKnots)`, and `Interpolate` returns without a
read outside `knots`; (b) the loop of `rescale`, and `rescale` itself on a closed table
without cycles, `format` and `hasUniquePlane` return without an access outside `coeffs`. -/
theorem array_accesses_in_bounds (X : Library) (e : IGES_ENTITY_126) (ks cs : List ℚ)
    (hM : 1 ≤ e.M) (hnk : e.nKnots = e.K + e.M + 2) (hnc : e.nCoeffs = e.K + 1)
    (hks : e.knots = some ks) (hkl : (ks.length : Int) = e.nKnots)
    (hcs : e.coeffs = some cs)
    (hcl : (cs.length : Int) = (if e.PROP3 = 0 then 4 else 3) * e.nCoeffs) :
    (∀ nSeg : Int, 0 ≤ nSeg → nSeg < e.nCoeffs →
      0 ≤ (e.nKnots - e.nCoeffs) / 2 + nSeg ∧
      (e.nKnots - e.nCoeffs) / 2 + nSeg + 1 < e.nKnots ∧
      ∀ (T : Option (MCAD_POINT → MCAD_POINT)) (var : ℚ) (xf : Bool),
        ∃ r, IGES_ENTITY_126.Interpolate X e T nSeg var xf = some r) ∧
    (∀ (sxy : Bool) (sf : ℚ),
      ∃ ds, IGES_ENTITY_126.scaleLoop sxy e.PROP3 sf e.nCoeffs.toNat 0 cs = some ds) ∧
    (∀ (g : Graph) (self : Nat) (sf : ℚ), g.closed → g.acyclic → self < g.length →
      ∃ r, IGES_ENTITY_126.rescale g self e sf = some r) ∧
    (∀ index : Int, ∃ r, e.format X index = some r) ∧
    (∀ norm : MCAD_POINT, ∃ r, e.hasUniquePlane X norm = some r) := by
  have hstride : (if e.PROP3 = 0 then (4 : Int) else 3)
      = (((if e.PROP3 = 0 then 4 else 3 : Nat)) : Int) := by split <;> rfl
  have h3 : 3 ≤ (if e.PROP3 = 0 then 4 else 3 : Nat) := by split <;> omega
  have hn0 : 0 ≤ e.nCoeffs := by
    by_contra hneg
    have : (if e.PROP3 = 0 then (4 : Int) else 3) * e.nCoeffs < 0 := by
      split <;> omega
    omega
  have hlen : (if e.PROP3 = 0 then 4 else 3) * e.nCoeffs.toNat = cs.length := by
    have h1 : ((e.nCoeffs.toNat : Nat) : Int) = e.nCoeffs := Int.toNat_of_nonneg hn0
    have h2 : (((if e.PROP3 = 0 then 4 else 3) * e.nCoeffs.toNat : Nat) : Int)
        = (cs.length : Int) := by
      rw [hcl, hstride, Nat.cast_mul, h1]
    exact_mod_cast h2
  have hscale : ∀ (sxy : Bool) (sf : ℚ),
      ∃ ds, IGES_ENTITY_126.scaleLoop sxy e.PROP3 sf e.nCoeffs.toNat 0 cs = some ds :=
    fun sxy sf => scaleLoop_total sxy e.PROP3 sf e.nCoeffs.toNat 0 cs (by omega)
  refine ⟨?_, hscale, ?_, ?_, ?_⟩
  · intro nSeg h0 h1
    have hidx : (e.nKnots - e.nCoeffs) / 2 = (e.M + 1) / 2 := by
      rw [hnk, hnc]
      congr 1
      ring
    have hb0 : 0 ≤ (e.M + 1) / 2 := by omega
    have hb1 : (e.M + 1) / 2 < e.M + 1 := by omega
    refine ⟨by rw [hidx]; omega, by rw [hidx]; omega, ?_⟩
    intro T var xf
    unfold IGES_ENTITY_126.Interpolate
    dsimp only
    split_ifs
    · exact ⟨_, rfl⟩
    · exact ⟨_, rfl⟩
    · exact ⟨_, rfl⟩
    · exact ⟨_, rfl⟩
    · exfalso
      rename_i hneg
      rw [hidx] at hneg
      omega
    · rw [hks]
      simp only [load]
      rw [List.getElem?_eq_getElem (by rw [hidx]; omega),
        List.getElem?_eq_getElem (by rw [hidx]; omega)]
      simp only
      split <;> exact ⟨_, rfl⟩
  · intro g self sf hc ha hself
    obtain ⟨sxy, hshape, -⟩ := rescale_shape g self hc ha hself
    rw [hshape e sf, hcs]
    obtain ⟨ds, hds⟩ := hscale sxy sf
    simp only [hds]
    exact ⟨_, rfl⟩
  · intro index
    unfold IGES_ENTITY_126.format
    simp only [hks, hcs]
    by_cases hi : index < 1 ∨ index > 9999999
    · rw [if_pos hi]
      exact ⟨_, rfl⟩
    rw [if_neg hi]
    cases e.parent with
    | none => exact ⟨_, rfl⟩
    | some gd =>
      simp only
      split_ifs
      · exact ⟨_, rfl⟩
      · exact formatItems_total X _ ks cs (by show e.nKnots.toNat ≤ ks.length; omega)
          (by show (if e.PROP3 = 0 then 4 else 3) * e.nCoeffs.toNat ≤ cs.length; omega)
  · intro norm
    unfold IGES_ENTITY_126.hasUniquePlane
    by_cases hlt : e.nCoeffs < 3
    · rw [if_pos hlt]
      exact ⟨_, rfl⟩
    · rw [if_neg hlt]
      have hn3 : 3 ≤ e.nCoeffs.toNat := by omega
      simp only [hcs]
      have hs : (if e.PROP3 = 0 then 4 else 3 : Nat) * 3 ≤ cs.length := by
        rw [← hlen]
        exact Nat.mul_le_mul_left _ hn3
      obtain ⟨p0, hp0⟩ := loadPoint_total (show 0 + 3 ≤ cs.length by omega)
      obtain ⟨p1, hp1⟩ := loadPoint_total
        (show (if e.PROP3 = 0 then 4 else 3) + 3 ≤ cs.length by omega)
      obtain ⟨p2, hp2⟩ := loadPoint_total
        (show 2 * (if e.PROP3 = 0 then 4 else 3) + 3 ≤ cs.length by omega)
      simp only [hp0, hp1, hp2]
      by_cases h33 : e.nCoeffs = 3
      · rw [if_pos h33]
        exact ⟨_, rfl⟩
      · rw [if_neg h33]
        apply planeLoop_total
        have : (e.nCoeffs - 3).toNat = e.nCoeffs.toNat - 3 := by omega
        rw [this, ← hlen]
        have h4 : (if e.PROP3 = 0 then 4 else 3 : Nat) * e.nCoeffs.toNat
            = (if e.PROP3 = 0 then 4 else 3) * (e.nCoeffs.toNat - 3)
              + (if e.PROP3 = 0 then 4 else 3) * 3 := by
          rw [← Nat.mul_add]
          congr 1
          omega
        omega

/-- Witness of C37: the rational segment with unit weights. -/
theorem array_accesses_in_bounds_witness :
    (∀ nSeg : Int, 0 ≤ nSeg → nSeg < 2 →
      ∃ r, IGES_ENTITY_126.Interpolate Examples.lib (Examples.segment 1 1) none nSeg (1 / 2)
        false = some r) ∧
    (∃ r, (Examples.segment 1 1).format Examples.lib 1 = some r) ∧
    (∃ r, (Examples.segment 1 1).hasUniquePlane Examples.lib ⟨0, 0, 1⟩ = some r) :=
  have h := array_accesses_in_bounds Examples.lib (Examples.segment 1 1) [0, 0, 1, 1]
    [0, 0, 0, 1, 1, 0, 0, 1] (by decide) (by decide) (by decide) rfl (by decide) rfl
    (by decide)
  ⟨fun nSeg h0 h1 => (h.1 nSeg h0 h1).2.2 none (1 / 2) false, h.2.2.2.1 1, h.2.2.2.2 ⟨0, 0, 1⟩⟩

theorem splitAngles_sum (a1 a2 : ℚ) :
    spanSum (IGES_GEOM_CYLINDER.splitAngles (List.replicate 6 0) a1 a2).2
        (IGES_GEOM_CYLINDER.splitAngles (List.replicate 6 0) a1 a2).1.toNat
      = sweepBetween a1 a2 := by
  have hrep : List.replicate 6 (0 : ℚ) = [0, 0, 0, 0, 0, 0] := rfl
  unfold IGES_GEOM_CYLINDER.splitAngles sweepBetween
  rw [hrep]
  simp only [List.set_cons_zero, List.set_cons_succ]
  split_ifs <;>
    simp only [spanSum, List.getD_cons_zero, List.getD_cons_succ, Nat.mul_zero, Nat.mul_one,
      Nat.zero_add, Nat.reduceMul, Nat.reduceAdd, Int.toNat_one, Int.toNat_ofNat,
      Int.reduceToNat] <;>
    ring

theorem splitAngles_range (a1 a2 : ℚ) (h1 : -M_PI ≤ a1 ∧ a1 ≤ M_PI)
    (h2 : -M_PI ≤ a2 ∧ a2 ≤ M_PI) :
    ∀ j : Nat, (j : Int) < 2 * (IGES_GEOM_CYLINDER.splitAngles (List.replicate 6 0) a1 a2).1 →
      0 ≤ (IGES_GEOM_CYLINDER.splitAngles (List.replicate 6 0) a1 a2).2.getD j 0 ∧
      (IGES_GEOM_CYLINDER.splitAngles (List.replicate 6 0) a1 a2).2.getD j 0 ≤ 2 * M_PI := by
  have hpi := M_PI_pos
  have hrep : List.replicate 6 (0 : ℚ) = [0, 0, 0, 0, 0, 0] := rfl
  obtain ⟨h1l, h1u⟩ := h1
  obtain ⟨h2l, h2u⟩ := h2
  unfold IGES_GEOM_CYLINDER.splitAngles
  rw [hrep]
  simp only [List.set_cons_zero, List.set_cons_succ]
  split_ifs with c1 c2 c3 c4 c5 c6 c7 c8 c9 c10 c11 c12 <;>
    intro j hj <;> simp only at hj <;>
    (have hj6 : j < 6 := by omega) <;> interval_cases j <;>
    first
    | (exfalso; omega)
    | (simp only [List.getD_cons_zero, List.getD_cons_succ]
       push_neg at *
       first
       | (constructor <;> linarith)
       | (rcases ‹_ ∨ _› with h | h <;> constructor <;> linarith))

theorem splitAngles_halves (a1 a2 : ℚ) (h1 : -M_PI ≤ a1 ∧ a1 ≤ M_PI)
    (h2 : -M_PI ≤ a2 ∧ a2 ≤ M_PI) :
    ∀ i : Nat, (i : Int) < (IGES_GEOM_CYLINDER.splitAngles (List.replicate 6 0) a1 a2).1 →
      (IGES_GEOM_CYLINDER.splitAngles (List.replicate 6 0) a1 a2).2.getD (2 * i) 0
        ≤ (IGES_GEOM_CYLINDER.splitAngles (List.replicate 6 0) a1 a2).2.getD (2 * i + 1) 0 ∧
      ((IGES_GEOM_CYLINDER.splitAngles (List.replicate 6 0) a1 a2).2.getD (2 * i + 1) 0 ≤ M_PI ∨
        M_PI ≤ (IGES_GEOM_CYLINDER.splitAngles (List.replicate 6 0) a1 a2).2.getD (2 * i) 0) := by
  have hpi := M_PI_pos
  have hrep : List.replicate 6 (0 : ℚ) = [0, 0, 0, 0, 0, 0] := rfl
  obtain ⟨h1l, h1u⟩ := h1
  obtain ⟨h2l, h2u⟩ := h2
  unfold IGES_GEOM_CYLINDER.splitAngles
  rw [hrep]
  simp only [List.set_cons_zero, List.set_cons_succ]
  split_ifs with c1 c2 c3 c4 c5 c6 c7 c8 c9 c10 c11 c12 <;>
    intro i hi <;> simp only at hi <;>
    (have hi3 : i < 3 := by omega) <;> interval_cases i <;>
    first
    | (exfalso; omega)
    | (simp only [List.getD_cons_zero, List.getD_cons_succ, Nat.mul_zero, Nat.mul_one,
         Nat.zero_add, Nat.reduceMul, Nat.reduceAdd]
       push_neg at *
       first
       | (refine ⟨?_, Or.inl ?_⟩ <;> linarith)
       | (refine ⟨?_, Or.inr ?_⟩ <;> linarith)
       | (rcases ‹_ ∨ _› with h | h
          · refine ⟨?_, Or.inl ?_⟩ <;> linarith
          · refine ⟨?_, Or.inr ?_⟩ <;> linarith))

theorem splitAngles_meet (a1 a2 : ℚ) :
    ∀ i : Nat, (i : Int) + 1 < (IGES_GEOM_CYLINDER.splitAngles (List.replicate 6 0) a1 a2).1 →
      (IGES_GEOM_CYLINDER.splitAngles (List.replicate 6 0) a1 a2).2.getD (2 * i + 1) 0
        = (IGES_GEOM_CYLINDER.splitAngles (List.replicate 6 0) a1 a2).2.getD (2 * i + 2) 0 ∨
      (IGES_GEOM_CYLINDER.splitAngles (List.replicate 6 0) a1 a2).2.getD (2 * i + 1) 0
        = (IGES_GEOM_CYLINDER.splitAngles (List.replicate 6 0) a1 a2).2.getD (2 * i + 2) 0
          + 2 * M_PI := by
  have hrep : List.replicate 6 (0 : ℚ) = [0, 0, 0, 0, 0, 0] := rfl
  unfold IGES_GEOM_CYLINDER.splitAngles
  rw [hrep]
  simp only [List.set_cons_zero, List.set_cons_succ]
  split_ifs <;>
    intro i hi <;> simp only at hi <;>
    (have hi3 : i < 2 := by omega) <;> interval_cases i <;>
    first
    | (exfalso; omega)
    | (simp only [List.getD_cons_zero, List.getD_cons_succ, Nat.mul_zero, Nat.mul_one,
         Nat.zero_add, Nat.reduceMul, Nat.reduceAdd]
       first
       | (left; exact True.intro)
       | (right; linarith))

/-- Claim C38: the arcs that `SetParams` stores cover the requested sweep and stay inside
the parameter range of the surface.  For every accepted input, `atan2` returning angles in
`[-M_PI, M_PI]`: every stored angle `angles[0 .. 2 narcs - 1]` lies in `[0, 2 M_PI]`; each
arc has `angles[2i] <= angles[2i+1]` and lies within `[0, M_PI]` or within `[M_PI, 2 M_PI]`;
consecutive arcs meet, `angles[2i+1]` being `angles[2i+2]` or `angles[2i+2] + 2 M_PI`; and
the spans sum to `2 M_PI` when start and end match and otherwise to the sweep from the polar
angle of the start to that of the end, which is `a2 - a1` or `a2 - a1 + 2 M_PI` and lies in
`[0, 2 M_PI]`. -/
theorem SetParams_covers_sweep (Mth : CMath) (X : Library) (c c' : IGES_GEOM_CYLINDER)
    (center start end_ : MCAD_POINT)
    (hrange : ∀ y x, -M_PI ≤ Mth.atan2 y x ∧ Mth.atan2 y x ≤ M_PI)
    (h : c.SetParams Mth X center start end_ = (true, c')) :
    (∀ j : Nat, (j : Int) < 2 * c'.narcs →
      0 ≤ c'.angles.getD j 0 ∧ c'.angles.getD j 0 ≤ 2 * M_PI) ∧
    (∀ i : Nat, (i : Int) < c'.narcs →
      c'.angles.getD (2 * i) 0 ≤ c'.angles.getD (2 * i + 1) 0 ∧
      (c'.angles.getD (2 * i + 1) 0 ≤ M_PI ∨ M_PI ≤ c'.angles.getD (2 * i) 0)) ∧
    (∀ i : Nat, (i : Int) + 1 < c'.narcs →
      c'.angles.getD (2 * i + 1) 0 = c'.angles.getD (2 * i + 2) 0 ∨
      c'.angles.getD (2 * i + 1) 0 = c'.angles.getD (2 * i + 2) 0 + 2 * M_PI) ∧
    spanSum c'.angles c'.narcs.toNat
      = (if X.PointMatches start end_ (1 / 100000000) = true then 2 * M_PI
         else sweepBetween (Mth.atan2 (start.y - center.y) (start.x - center.x))
           (Mth.atan2 (end_.y - center.y) (end_.x - center.x))) ∧
    0 ≤ sweepBetween (Mth.atan2 (start.y - center.y) (start.x - center.x))
      (Mth.atan2 (end_.y - center.y) (end_.x - center.x)) ∧
    sweepBetween (Mth.atan2 (start.y - center.y) (start.x - center.x))
      (Mth.atan2 (end_.y - center.y) (end_.x - center.x)) ≤ 2 * M_PI := by
  have hpi := M_PI_pos
  have hsw : 0 ≤ sweepBetween (Mth.atan2 (start.y - center.y) (start.x - center.x))
        (Mth.atan2 (end_.y - center.y) (end_.x - center.x)) ∧
      sweepBetween (Mth.atan2 (start.y - center.y) (start.x - center.x))
        (Mth.atan2 (end_.y - center.y) (end_.x - center.x)) ≤ 2 * M_PI := by
    have r1 := hrange (start.y - center.y) (start.x - center.x)
    have r2 := hrange (end_.y - center.y) (end_.x - center.x)
    unfold sweepBetween
    split_ifs <;> constructor <;> linarith [r1.1, r1.2, r2.1, r2.2]
  unfold IGES_GEOM_CYLINDER.SetParams at h
  dsimp only at h
  split at h
  · simp at h
  split at h
  · simp at h
  split at h
  · simp at h
  split at h
  · rename_i hsame
    simp only [Prod.mk.injEq, true_and] at h
    subst h
    rw [if_pos hsame]
    refine ⟨?_, ?_, ?_, ?_, hsw⟩
    · intro j hj
      dsimp only at hj
      have hj4 : j < 4 := by omega
      have hrep : (IGES_GEOM_CYLINDER.clear c).angles = [0, 0, 0, 0, 0, 0] := rfl
      simp only [hrep, List.set_cons_zero, List.set_cons_succ]
      interval_cases j <;>
        simp only [List.getD_cons_zero, List.getD_cons_succ] <;>
        constructor <;> linarith
    · intro i hi
      dsimp only at hi
      have hi2 : i < 2 := by omega
      have hrep : (IGES_GEOM_CYLINDER.clear c).angles = [0, 0, 0, 0, 0, 0] := rfl
      simp only [hrep, List.set_cons_zero, List.set_cons_succ]
      interval_cases i
      · simp only [List.getD_cons_zero, List.getD_cons_succ, Nat.mul_zero, Nat.zero_add]
        exact ⟨by linarith, Or.inl (le_refl _)⟩
      · simp only [List.getD_cons_zero, List.getD_cons_succ, Nat.mul_one, Nat.reduceAdd]
        exact ⟨by linarith, Or.inr (le_refl _)⟩
    · intro i hi
      dsimp only at hi
      have hi1 : i < 1 := by omega
      have hrep : (IGES_GEOM_CYLINDER.clear c).angles = [0, 0, 0, 0, 0, 0] := rfl
      simp only [hrep, List.set_cons_zero, List.set_cons_succ]
      interval_cases i
      exact Or.inl (by simp)
    · have hrep : (IGES_GEOM_CYLINDER.clear c).angles = [0, 0, 0, 0, 0, 0] := rfl
      simp only [hrep, List.set_cons_zero, List.set_cons_succ, spanSum, List.getD_cons_zero,
        List.getD_cons_succ, Nat.mul_zero, Nat.mul_one, Nat.zero_add, Nat.reduceMul,
        Nat.reduceAdd, Int.toNat_ofNat, Int.reduceToNat]
      ring
  · rename_i hdiff
    simp only [Prod.mk.injEq, true_and] at h
    subst h
    rw [if_neg hdiff]
    obtain ⟨hn, ha, -⟩ := setArcPoints_frame Mth
      { c.clear with
        radius := Mth.sqrt ((center.sub start).x * (center.sub start).x
          + (center.sub start).y * (center.sub start).y),
        arcs := c.clear.arcs.set 0 center,
        narcs := (IGES_GEOM_CYLINDER.splitAngles c.clear.angles
          (Mth.atan2 (start.y - center.y) (start.x - center.x))
          (Mth.atan2 (end_.y - center.y) (end_.x - center.x))).1,
        angles := (IGES_GEOM_CYLINDER.splitAngles c.clear.angles
          (Mth.atan2 (start.y - center.y) (start.x - center.x))
          (Mth.atan2 (end_.y - center.y) (end_.x - center.x))).2 }
      center start end_
    rw [hn, ha]
    exact ⟨splitAngles_range _ _ (hrange _ _) (hrange _ _),
      splitAngles_halves _ _ (hrange _ _) (hrange _ _), splitAngles_meet _ _,
      splitAngles_sum _ _, hsw⟩

/-- Witness of C38: the sweep from `(10,0,0)` to `(0,-10,0)` about the origin, three
quarters of a turn, is cut into the two arcs `[0, M_PI]` and `[M_PI, 3 M_PI / 2]`. -/
theorem SetParams_covers_sweep_witness :
    ∃ c', IGES_GEOM_CYLINDER.new.SetParams Examples.cmath Examples.lib
        ⟨0, 0, 0⟩ ⟨10, 0, 0⟩ ⟨0, -10, 0⟩ = (true, c') ∧
      spanSum c'.angles c'.narcs.toNat = 3 * M_PI / 2 := by
  have hr : ∀ y x, -M_PI ≤ Examples.cmath.atan2 y x ∧ Examples.cmath.atan2 y x ≤ M_PI := by
    intro y x
    have hpi := M_PI_pos
    simp only [Examples.cmath]
    split_ifs <;> constructor <;> linarith
  have hrun : (IGES_GEOM_CYLINDER.new.SetParams Examples.cmath Examples.lib
      ⟨0, 0, 0⟩ ⟨10, 0, 0⟩ ⟨0, -10, 0⟩).1 = true := by decide!
  refine ⟨_, Prod.ext hrun rfl, ?_⟩
  rw [(SetParams_covers_sweep Examples.cmath Examples.lib IGES_GEOM_CYLINDER.new _
    ⟨0, 0, 0⟩ ⟨10, 0, 0⟩ ⟨0, -10, 0⟩ hr (Prod.ext hrun rfl)).2.2.2.1]
  decide!

theorem run_link (p ch : Option Nat) (set : Nat → Entity → Option Entity) (m : Model) :
    (Op.link p ch set).run m = m.link p ch set := by
  unfold Op.run Op.link Model.link
  cases p <;> cases ch <;> simp

theorem run_write (p : Option Nat) (f : Entity → Option Entity) (m : Model) :
    (Op.write p f).run m = m.write p f := rfl

theorem runOps_append (l1 l2 : List Op) : ∀ (m m' : Model),
    runOps (l1 ++ l2) m = some m' →
    ∃ m1, runOps l1 m = some m1 ∧ runOps l2 m1 = some m' := by
  induction l1 with
  | nil => intro m m' h; exact ⟨m, rfl, h⟩
  | cons op rest ih =>
    intro m m' h
    simp only [List.cons_append, runOps] at h ⊢
    obtain ⟨m0, h0, h⟩ := Option.bind_eq_some.mp h
    obtain ⟨m1, h1, h2⟩ := ih m0 m' h
    exact ⟨m1, by rw [h0]; exact h1, h2⟩

theorem runOps_join (l1 l2 : List Op) (m m1 m' : Model)
    (h1 : runOps l1 m = some m1) (h2 : runOps l2 m1 = some m') :
    runOps (l1 ++ l2) m = some m' := by
  induction l1 generalizing m with
  | nil =>
    simp only [runOps, Option.some.injEq] at h1
    subst h1
    exact h2
  | cons op rest ih =>
    simp only [List.cons_append, runOps] at h1 ⊢
    obtain ⟨m0, h0, h⟩ := Option.bind_eq_some.mp h1
    rw [h0]
    exact ih m0 h

theorem step_has (op : Op) (m m' : Model) (x : Nat) (Q0 Q : Entity → Prop)
    (hrefs : ∀ e r, Q e → Q (e.setRefs r))
    (hrun : op.run m = some m') (hx : m.has x Q0)
    (hset : op.target = some x → ∀ e e1, Q0 e → op.set e = some e1 → Q e1)
    (hkeep : op.target ≠ some x → ∀ e, Q0 e → Q e) : m'.has x Q := by
  obtain ⟨e, hfind, hq⟩ := hx
  unfold Op.run at hrun
  cases hch : op.child with
  | none =>
    rw [hch] at hrun
    simp only at hrun
    unfold Model.write at hrun
    cases hp : op.target with
    | none => rw [hp] at hrun; cases hrun
    | some p =>
      rw [hp] at hrun
      simp only at hrun
      cases hf : m.find p with
      | none => rw [hf] at hrun; cases hrun
      | some e0 =>
        rw [hf] at hrun
        simp only at hrun
        cases hs : op.set e0 with
        | none => rw [hs] at hrun; cases hrun
        | some e1 =>
          rw [hs] at hrun
          simp only [Option.some.injEq] at hrun
          subst hrun
          unfold Model.has
          rw [find_modify]
          by_cases hxp : x = p
          · subst hxp
            obtain rfl : e0 = e := by
              rw [hf] at hfind
              exact Option.some.inj hfind
            rw [if_pos rfl, hf]
            exact ⟨e1, rfl, hset hp e0 e1 hq hs⟩
          · rw [if_neg hxp]
            refine ⟨e, hfind, hkeep ?_ e hq⟩
            rw [hp]
            intro hh
            exact hxp (Option.some.inj hh).symm
  | some ch =>
    rw [hch] at hrun
    simp only at hrun
    obtain ⟨p, c, e0, e1, hp, hc, hf, hs, rfl⟩ := link_inv m m' _ _ _ hrun
    unfold Model.has
    simp only [find_modify]
    by_cases hxp : x = p
    · subst hxp
      obtain rfl : e0 = e := by
        rw [hf] at hfind
        exact Option.some.inj hfind
      have q1 : Q e1 := hset hp e0 e1 hq hs
      by_cases hxc : x = c
      · subst hxc
        simp only [if_true, hf, Option.map_some']
        exact ⟨_, rfl, hrefs _ _ q1⟩
      · simp only [if_neg hxc, if_true, hf, Option.map_some']
        exact ⟨e1, rfl, q1⟩
    · have q0 : Q e := hkeep (by
        rw [hp]
        intro hh
        exact hxp (Option.some.inj hh).symm) e hq
      by_cases hxc : x = c
      · subst hxc
        have hne : ¬ (x = p) := hxp
        simp only [if_true, if_neg hne, hfind, Option.map_some']
        exact ⟨_, rfl, hrefs _ _ q0⟩
      · simp only [if_neg hxc, if_neg hxp]
        exact ⟨e, hfind, q0⟩

theorem runOps_frame (ops : List Op) (x : Nat) (Q : Entity → Prop)
    (hrefs : ∀ e r, Q e → Q (e.setRefs r)) : ∀ (m m' : Model),
    runOps ops m = some m' → m.has x Q →
    (∀ op ∈ ops, op.target = some x → ∀ e e1, Q e → op.set e = some e1 → Q e1) →
    m'.has x Q := by
  induction ops with
  | nil =>
    intro m m' h hx _
    simp only [runOps, Option.some.injEq] at h
    subst h
    exact hx
  | cons op rest ih =>
    intro m m' h hx hall
    simp only [runOps] at h
    obtain ⟨m0, h0, h⟩ := Option.bind_eq_some.mp h
    have hx0 := step_has op m m0 x Q Q hrefs h0 hx
      (hall op (List.mem_cons_self _ _)) (fun _ _ hq => hq)
    exact ih m0 m' h hx0 (fun o ho => hall o (List.mem_cons_of_mem _ ho))

theorem runOps_avoid (ops : List Op) (x : Nat) (Q : Entity → Prop)
    (hrefs : ∀ e r, Q e → Q (e.setRefs r)) (m m' : Model)
    (h : runOps ops m = some m') (hx : m.has x Q)
    (havoid : ∀ op ∈ ops, op.target ≠ some x) : m'.has x Q :=
  runOps_frame ops x Q hrefs m m' h hx (fun op hop ht => absurd ht (havoid op hop))

theorem runOps_part (f : Nat → List Op) (n i : Nat) (hi : i < n) (m m' : Model)
    (h : runOps ((List.range n).flatMap f) m = some m') :
    ∃ m1 m2, runOps ((List.range i).flatMap f) m = some m1 ∧ runOps (f i) m1 = some m2 ∧
      runOps ((List.range' (i + 1) (n - (i + 1))).flatMap f) m2 = some m' := by
  have hsplit : List.range n = List.range i ++ i :: List.range' (i + 1) (n - (i + 1)) := by
    rw [List.range_eq_range', List.range_eq_range']
    have h2 : i :: List.range' (i + 1) (n - (i + 1)) = List.range' (0 + i) (n - i) := by
      have : n - i = (n - (i + 1)) + 1 := by omega
      rw [this, List.range'_succ, Nat.zero_add]
    rw [h2, List.range'_append_1]
    congr 1
    omega
  rw [hsplit, List.flatMap_append, List.flatMap_cons] at h
  obtain ⟨m1, h1, h⟩ := runOps_append _ _ _ _ h
  obtain ⟨m2, h2, h3⟩ := runOps_append _ _ _ _ h
  exact ⟨m1, m2, h1, h2, h3⟩

theorem part_has (f : Nat → List Op) (n i : Nat) (hi : i < n) (m m' : Model) (x : Nat)
    (Q0 Q : Entity → Prop)
    (hrefs0 : ∀ e r, Q0 e → Q0 (e.setRefs r)) (hrefs : ∀ e r, Q e → Q (e.setRefs r))
    (h : runOps ((List.range n).flatMap f) m = some m') (hx : m.has x Q0)
    (hother : ∀ j, j < n → j ≠ i → ∀ op ∈ f j, op.target ≠ some x)
    (hest : ∀ m1 m2, runOps (f i) m1 = some m2 → m1.has x Q0 → m2.has x Q) :
    m'.has x Q := by
  obtain ⟨m1, m2, h1, h2, h3⟩ := runOps_part f n i hi m m' h
  have a1 : m1.has x Q0 := by
    refine runOps_avoid _ x Q0 hrefs0 m m1 h1 hx ?_
    intro op hop
    obtain ⟨j, hj, hop⟩ := List.mem_flatMap.mp hop
    rw [List.mem_range] at hj
    exact hother j (by omega) (by omega) op hop
  have a2 := hest m1 m2 h2 a1
  refine runOps_avoid _ x Q hrefs m2 m' h3 a2 ?_
  intro op hop
  obtain ⟨j, hj, hop⟩ := List.mem_flatMap.mp hop
  rw [List.mem_range'_1] at hj
  exact hother j (by omega) (by omega) op hop

theorem find_none_of_fresh (m : Model) (hwf : m.wellFormed) (x : Nat) (hx : m.fresh ≤ x) :
    m.find x = none := by
  cases hf : m.find x with
  | none => rfl
  | some e =>
    exfalso
    unfold Model.find at hf
    cases hq : m.entities.find? (fun y => y.1 == x) with
    | none => rw [hq] at hf; cases hf
    | some y =>
      have hmem := List.mem_of_find?_eq_some hq
      have hy := List.find?_some hq
      simp only [beq_iff_eq] at hy
      have hlt := hwf.2 (y.1, y.2.entityType) (by
        unfold Model.shape
        exact List.mem_map_of_mem (fun z => (z.1, z.2.entityType)) hmem)
      simp only at hlt
      omega

theorem find_append_new (m : Model) (hwf : m.wellFormed) (e : Entity) (x : Nat) :
    ({ m with entities := m.entities ++ [(m.fresh, e)], fresh := m.fresh + 1 } : Model).find x
      = if x = m.fresh then some e else m.find x := by
  by_cases hx : x = m.fresh
  · subst hx
    have hnone := find_none_of_fresh m hwf m.fresh (le_refl _)
    unfold Model.find at hnone ⊢
    simp only [List.find?_append]
    cases hq : m.entities.find? (fun y => y.1 == m.fresh) with
    | none => simp
    | some y => rw [hq] at hnone; cases hnone
  · rw [if_neg hx]
    unfold Model.find
    simp only [List.find?_append]
    cases hq : m.entities.find? (fun y => y.1 == x) with
    | none =>
      have : (m.fresh == x) = false := by
        simp only [beq_eq_false_iff_ne, ne_eq]
        exact fun h => hx h.symm
      simp [List.find?, this]
    | some y => simp

theorem newOne_has (F : CylinderCalls) (ty : Int) (cap : Nat) (init : Entity → Entity)
    (store : Build → Nat → Build) (hstore : ∀ b p, (store b p).model = b.model)
    (hinit : ∀ e, (init e).entityType = e.entityType)
    (i : Nat) (b b' : Build) (hwf : b.model.wellFormed)
    (h : newOne F ty cap init store i b = some (true, b')) :
    i < cap ∧
    (∃ e, Entity.make b.model.globalData ty = some e ∧
      b'.model.find b.model.fresh = some (init e)) ∧
    (∀ x, x < b.model.fresh → b'.model.find x = b.model.find x) ∧
    b'.model.wellFormed ∧ b'.model.fresh = b.model.fresh + 1 ∧
    b'.model.globalData = b.model.globalData := by
  obtain ⟨M, hM, hshape, hfresh⟩ := newOne_true F ty cap init store i b b' hinit h
  have hmodel : b'.model = M := by rw [hM, hstore]
  have hwf' : b'.model.wellFormed := by
    rw [hmodel]
    refine wellFormed_extend b.model M [ty] hwf ?_ ?_
    · rw [hshape]
      rfl
    · rw [hfresh]
      rfl
  unfold newOne at h
  by_cases h1 : (!F.NewEntity ty i) = true
  · rw [if_pos h1] at h
    cases h
  rw [if_neg h1] at h
  unfold Model.NewEntity at h
  cases hm : Entity.make b.model.globalData ty with
  | none => rw [hm] at h; cases h
  | some e =>
    rw [hm] at h
    simp only at h
    by_cases h2 : cap ≤ i
    · rw [if_pos h2] at h
      cases h
    rw [if_neg h2] at h
    simp only [Option.some.injEq, Prod.mk.injEq, true_and] at h
    have hm' : b'.model = Model.modify
        { globalData := b.model.globalData,
          entities := b.model.entities ++ [(b.model.fresh, e)],
          fresh := b.model.fresh + 1 } b.model.fresh init := by
      rw [← h, hstore]
    refine ⟨by omega, ⟨e, rfl, ?_⟩, ?_, hwf', ?_, ?_⟩
    · rw [hm', find_modify, if_pos rfl, find_append_new b.model hwf, if_pos rfl]
      rfl
    · intro x hx
      rw [hm', find_modify, if_neg (by omega), find_append_new b.model hwf, if_neg (by omega)]
    · rw [hm']
      rfl
    · rw [hm']
      rfl

theorem forEach_newOne_has (F : CylinderCalls) (ty : Int) (cap : Nat) (init : Entity → Entity)
    (store : Build → Nat → Build) (hstore : ∀ b p, (store b p).model = b.model)
    (hinit : ∀ e, (init e).entityType = e.entityType) (k : Nat) :
    ∀ (i : Nat) (b b' : Build), b.model.wellFormed →
    forEach (newOne F ty cap init store) k i b = some (true, b') →
    (0 < k → i + k ≤ cap) ∧
    (∀ j, j < k → ∃ e, Entity.make b.model.globalData ty = some e ∧
      b'.model.find (b.model.fresh + j) = some (init e)) ∧
    (∀ x, x < b.model.fresh → b'.model.find x = b.model.find x) ∧
    b'.model.wellFormed ∧ b'.model.fresh = b.model.fresh + k ∧
    b'.model.globalData = b.model.globalData := by
  induction k with
  | zero =>
    intro i b b' hwf h
    simp only [forEach, Option.some.injEq, Prod.mk.injEq, true_and] at h
    subst h
    exact ⟨fun h0 => absurd h0 (Nat.lt_irrefl 0), fun j hj => absurd hj (Nat.not_lt_zero j),
      fun _ _ => rfl, hwf, rfl, rfl⟩
  | succ k ih =>
    intro i b b' hwf h
    unfold forEach at h
    split at h
    · cases h
    · cases h
    · rename_i b1 hb1
      obtain ⟨hcap, ⟨e, he, hnew⟩, hold, hwf1, hf1, hg1⟩ :=
        newOne_has F ty cap init store hstore hinit i b b1 hwf hb1
      obtain ⟨hcap2, hnew2, hold2, hwf2, hf2, hg2⟩ := ih (i + 1) b1 b' hwf1 h
      refine ⟨fun _ => ?_, ?_, ?_, hwf2, by rw [hf2, hf1]; omega, by rw [hg2, hg1]⟩
      · by_cases hk : 0 < k
        · have := hcap2 hk
          omega
        · omega
      · intro j hj
        cases j with
        | zero =>
          refine ⟨e, he, ?_⟩
          rw [Nat.add_zero, hold2 _ (by rw [hf1]; omega)]
          exact hnew
        | succ j =>
          obtain ⟨e2, he2, hnew2'⟩ := hnew2 j (by omega)
          rw [hg1] at he2
          refine ⟨e2, he2, ?_⟩
          rw [hf1] at hnew2'
          rw [← hnew2']
          congr 1
          omega
      · intro x hx
        rw [hold2 x (by rw [hf1]; omega), hold x hx]

theorem newEntities_facts (F : CylinderCalls) (c : IGES_GEOM_CYLINDER) (bot : ℚ)
    (b b' : Build) (a0 : MCAD_POINT) (harcs : c.arcs[0]? = some a0) (hn : 0 ≤ c.narcs)
    (hwf : b.model.wellFormed) (h : c.newEntities F bot b = some (true, b')) :
    c.narcs.toNat ≤ 3 ∧
    (b'.iline = b.iline ++ List.range' b.model.fresh (2 * c.narcs.toNat + 2) ∧
     b'.isurf = some (b.model.fresh + (2 * c.narcs.toNat + 2)) ∧
     b'.itrans = b.itrans
       ++ List.range' (b.model.fresh + (2 * c.narcs.toNat + 3)) c.narcs.toNat ∧
     b'.icurve = b.icurve
       ++ List.range' (b.model.fresh + (3 * c.narcs.toNat + 3)) (4 * c.narcs.toNat) ∧
     b'.iarc = b.iarc
       ++ List.range' (b.model.fresh + (7 * c.narcs.toNat + 3)) (2 * c.narcs.toNat) ∧
     b'.icc = b.icc
       ++ List.range' (b.model.fresh + (9 * c.narcs.toNat + 3)) (2 * c.narcs.toNat) ∧
     b'.ibound = b.ibound
       ++ List.range' (b.model.fresh + (11 * c.narcs.toNat + 3)) c.narcs.toNat ∧
     b'.itps = b.itps
       ++ List.range' (b.model.fresh + (12 * c.narcs.toNat + 3)) c.narcs.toNat ∧
     b'.inurbs = b.inurbs) ∧
    b'.model.wellFormed ∧
    (∀ i, i < c.narcs.toNat →
      b'.model.find (b.model.fresh + (2 * c.narcs.toNat + 3) + i)
        = some (.transform
            { T := { R := { v00 := -1, v01 := 0, v02 := 0, v10 := 0, v11 := 1, v12 := 0,
                            v20 := 0, v21 := 0, v22 := -1 },
                     T := ⟨a0.x, 0, 2 * bot⟩ },
              form := 1, refs := [], depends := IGES_STAT_DEPENDS.STAT_INDEPENDENT })) ∧
    (∀ j, j < 2 * c.narcs.toNat →
      ∃ e, b'.model.find (b.model.fresh + (7 * c.narcs.toNat + 3) + j) = some (.arc e) ∧
        e.pTransform = none) ∧
    (∀ j, j < 2 * c.narcs.toNat →
      ∃ e, b'.model.find (b.model.fresh + (9 * c.narcs.toNat + 3) + j) = some (.composite e) ∧
        e.curves = []) := by
  have e1 : (c.narcs * 2 + 2).toNat = 2 * c.narcs.toNat + 2 := by omega
  have e2 : (c.narcs * 4).toNat = 4 * c.narcs.toNat := by omega
  have e3 : (c.narcs * 2).toNat = 2 * c.narcs.toNat := by omega
  have hdep := SetDependency_entityType IGES_STAT_DEPENDS.STAT_DEP_PHY
  have htr := initTransform_entityType a0.x bot
  have hid : ∀ e : Entity, ((fun e => e) e).entityType = e.entityType := fun _ => rfl
  unfold IGES_GEOM_CYLINDER.newEntities at h
  simp only [harcs, e1, e2, e3] at h
  obtain ⟨b1, h1, h⟩ := andThen_true _ _ _ h
  obtain ⟨b2, h2, h⟩ := andThen_true _ _ _ h
  obtain ⟨b3, h3, h⟩ := andThen_true _ _ _ h
  obtain ⟨b4, h4, h⟩ := andThen_true _ _ _ h
  obtain ⟨b5, h5, h⟩ := andThen_true _ _ _ h
  obtain ⟨b6, h6, h⟩ := andThen_true _ _ _ h
  obtain ⟨b7, h7, h8⟩ := andThen_true _ _ _ h
  -- the models
  obtain ⟨c1, -, o1, w1, f1, -⟩ := forEach_newOne_has _ _ _ _ _ (by intros; rfl) hdep _ _ _ _
    hwf h1
  obtain ⟨-, -, o2, w2, f2, g2⟩ := newOne_has _ _ _ _ _ (by intros; rfl) hdep _ _ _ w1 h2
  obtain ⟨-, n3, o3, w3, f3, g3⟩ := forEach_newOne_has _ _ _ _ _ (by intros; rfl) htr _ _ _ _
    w2 h3
  obtain ⟨-, -, o4, w4, f4, g4⟩ := forEach_newOne_has _ _ _ _ _ (by intros; rfl) hdep _ _ _ _
    w3 h4
  obtain ⟨-, n5, o5, w5, f5, g5⟩ := forEach_newOne_has _ _ _ _ _ (by intros; rfl) hdep _ _ _ _
    w4 h5
  obtain ⟨-, n6, o6, w6, f6, g6⟩ := forEach_newOne_has _ _ _ _ _ (by intros; rfl) hdep _ _ _ _
    w5 h6
  obtain ⟨-, -, o7, w7, f7, g7⟩ := forEach_newOne_has _ _ _ _ _ (by intros; rfl) hdep _ _ _ _
    w6 h7
  obtain ⟨-, -, o8, w8, f8, g8⟩ := forEach_newOne_has _ _ _ _ _ (by intros; rfl) hid _ _ _ _
    w7 h8
  -- the arrays
  have a1 := forEach_newOne_fills Build.iline _ _ _ _ _ hdep (by intros; rfl)
    (by intros; rfl) _ _ _ _ h1
  have r1 := forEach_newOne_keeps
    (fun b : Build => (b.isurf, b.itrans, b.icurve, b.iarc, b.icc, b.ibound, b.itps, b.inurbs))
    _ _ _ _ _ hdep (by intros; rfl) _ _ _ _ h1
  obtain ⟨M, hM, -, -⟩ := newOne_true _ _ _ _ _ _ _ _ hdep h2
  have a2 : b2.isurf = some b1.model.fresh := by rw [hM]
  have r2 : (b2.iline, b2.itrans, b2.icurve, b2.iarc, b2.icc, b2.ibound, b2.itps, b2.inurbs)
      = (b1.iline, b1.itrans, b1.icurve, b1.iarc, b1.icc, b1.ibound, b1.itps, b1.inurbs) := by
    rw [hM]
  have a3 := forEach_newOne_fills Build.itrans _ _ _ _ _ htr (by intros; rfl)
    (by intros; rfl) _ _ _ _ h3
  have r3 := forEach_newOne_keeps
    (fun b : Build => (b.iline, b.isurf, b.icurve, b.iarc, b.icc, b.ibound, b.itps, b.inurbs))
    _ _ _ _ _ htr (by intros; rfl) _ _ _ _ h3
  have a4 := forEach_newOne_fills Build.icurve _ _ _ _ _ hdep (by intros; rfl)
    (by intros; rfl) _ _ _ _ h4
  have r4 := forEach_newOne_keeps
    (fun b : Build => (b.iline, b.isurf, b.itrans, b.iarc, b.icc, b.ibound, b.itps, b.inurbs))
    _ _ _ _ _ hdep (by intros; rfl) _ _ _ _ h4
  have a5 := forEach_newOne_fills Build.iarc _ _ _ _ _ hdep (by intros; rfl)
    (by intros; rfl) _ _ _ _ h5
  have r5 := forEach_newOne_keeps
    (fun b : Build => (b.iline, b.isurf, b.itrans, b.icurve, b.icc, b.ibound, b.itps,
      b.inurbs))
    _ _ _ _ _ hdep (by intros; rfl) _ _ _ _ h5
  have a6 := forEach_newOne_fills Build.icc _ _ _ _ _ hdep (by intros; rfl)
    (by intros; rfl) _ _ _ _ h6
  have r6 := forEach_newOne_keeps
    (fun b : Build => (b.iline, b.isurf, b.itrans, b.icurve, b.iarc, b.ibound, b.itps,
      b.inurbs))
    _ _ _ _ _ hdep (by intros; rfl) _ _ _ _ h6
  have a7 := forEach_newOne_fills Build.ibound _ _ _ _ _ hdep (by intros; rfl)
    (by intros; rfl) _ _ _ _ h7
  have r7 := forEach_newOne_keeps
    (fun b : Build => (b.iline, b.isurf, b.itrans, b.icurve, b.iarc, b.icc, b.itps, b.inurbs))
    _ _ _ _ _ hdep (by intros; rfl) _ _ _ _ h7
  have a8 := forEach_newOne_fills Build.itps _ _ _ _ _ hid (by intros; rfl)
    (by intros; rfl) _ _ _ _ h8
  have r8 := forEach_newOne_keeps
    (fun b : Build => (b.iline, b.isurf, b.itrans, b.icurve, b.iarc, b.icc, b.ibound,
      b.inurbs))
    _ _ _ _ _ hid (by intros; rfl) _ _ _ _ h8
  simp only [Prod.mk.injEq] at r1 r2 r3 r4 r5 r6 r7 r8
  obtain ⟨r1a, r1b, r1c, r1d, r1e, r1f, r1g, r1h⟩ := r1
  obtain ⟨r2a, r2b, r2c, r2d, r2e, r2f, r2g, r2h⟩ := r2
  obtain ⟨r3a, r3b, r3c, r3d, r3e, r3f, r3g, r3h⟩ := r3
  obtain ⟨r4a, r4b, r4c, r4d, r4e, r4f, r4g, r4h⟩ := r4
  obtain ⟨r5a, r5b, r5c, r5d, r5e, r5f, r5g, r5h⟩ := r5
  obtain ⟨r6a, r6b, r6c, r6d, r6e, r6f, r6g, r6h⟩ := r6
  obtain ⟨r7a, r7b, r7c, r7d, r7e, r7f, r7g, r7h⟩ := r7
  obtain ⟨r8a, r8b, r8c, r8d, r8e, r8f, r8g, r8h⟩ := r8
  have q1 : b1.model.fresh = b.model.fresh + (2 * c.narcs.toNat + 2) := f1
  have q2 : b2.model.fresh = b.model.fresh + (2 * c.narcs.toNat + 3) := by rw [f2, q1]; omega
  have q3 : b3.model.fresh = b.model.fresh + (3 * c.narcs.toNat + 3) := by rw [f3, q2]; omega
  have q4 : b4.model.fresh = b.model.fresh + (7 * c.narcs.toNat + 3) := by rw [f4, q3]; omega
  have q5 : b5.model.fresh = b.model.fresh + (9 * c.narcs.toNat + 3) := by rw [f5, q4]; omega
  have q6 : b6.model.fresh = b.model.fresh + (11 * c.narcs.toNat + 3) := by rw [f6, q5]; omega
  have q7 : b7.model.fresh = b.model.fresh + (12 * c.narcs.toNat + 3) := by rw [f7, q6]; omega
  refine ⟨?_, ⟨?_, ?_, ?_, ?_, ?_, ?_, ?_, ?_, ?_⟩, w8, ?_, ?_, ?_⟩
  · have := c1 (by omega)
    omega
  · rw [r8a, r7a, r6a, r5a, r4a, r3a, r2a, a1]
  · rw [r8b, r7b, r6b, r5b, r4b, r3b, a2, q1]
  · rw [r8c, r7c, r6c, r5c, r4c, a3, r2b, r1b, q2]
  · rw [r8d, r7d, r6d, r5d, a4, r3c, r2c, r1c, q3]
  · rw [r8e, r7e, r6e, a5, r4d, r3d, r2d, r1d, q4]
  · rw [r8f, r7f, a6, r5e, r4e, r3e, r2e, r1e, q5]
  · rw [r8g, a7, r6f, r5f, r4f, r3f, r2f, r1f, q6]
  · rw [a8, r7g, r6g, r5g, r4g, r3g, r2g, r1g, q7]
  · rw [r8h, r7h, r6h, r5h, r4h, r3h, r2h, r1h]
  · intro i hi
    obtain ⟨e, he, hfind⟩ := n3 i hi
    rw [q2] at hfind
    rw [o8 _ (by rw [q7]; omega), o7 _ (by rw [q6]; omega), o6 _ (by rw [q5]; omega),
      o5 _ (by rw [q4]; omega), o4 _ (by rw [q3]; omega), hfind]
    simp only [Entity.make, ENT_LINE, ENT_SURFACE_OF_REVOLUTION, ENT_TRANSFORMATION_MATRIX]
      at he
    norm_num at he
    subst he
    rfl
  · intro j hj
    obtain ⟨e, he, hfind⟩ := n5 j hj
    rw [q4] at hfind
    rw [o8 _ (by rw [q7]; omega), o7 _ (by rw [q6]; omega), o6 _ (by rw [q5]; omega), hfind]
    simp only [Entity.make, ENT_LINE, ENT_SURFACE_OF_REVOLUTION, ENT_TRANSFORMATION_MATRIX,
      ENT_NURBS_CURVE, ENT_CIRCULAR_ARC] at he
    norm_num at he
    subst he
    exact ⟨_, rfl, rfl⟩
  · intro j hj
    obtain ⟨e, he, hfind⟩ := n6 j hj
    rw [q5] at hfind
    rw [o8 _ (by rw [q7]; omega), o7 _ (by rw [q6]; omega), hfind]
    simp only [Entity.make, ENT_LINE, ENT_SURFACE_OF_REVOLUTION, ENT_TRANSFORMATION_MATRIX,
      ENT_NURBS_CURVE, ENT_CIRCULAR_ARC, ENT_COMPOSITE_CURVE] at he
    norm_num at he
    subst he
    exact ⟨_, rfl, rfl⟩

theorem getD_of_getElem? {α : Type} (l : List α) (k : Nat) (a d : α) (h : l[k]? = some a) :
    l.getD k d = a := by
  rw [List.getD_eq_getElem?_getD, h]
  rfl

theorem setAxis_trace (F : CylinderCalls) (c : IGES_GEOM_CYLINDER) (top bot : ℚ)
    (b b' : Build) (h : c.setAxis F top bot b = some (true, b')) :
    ∃ m', runOps (axisOps c top bot b) b.model = some m' ∧ b' = { b with model := m' } := by
  unfold IGES_GEOM_CYLINDER.setAxis at h
  simp only [bind, Option.bind_eq_some, pure] at h
  obtain ⟨a0, ha0, m1, h1, m2, h2, s, -, h⟩ := h
  have p0 : c.pt 0 = a0 := getD_of_getElem? _ _ _ _ ha0
  split_ifs at h
  · simp at h
  · simp [Option.bind_eq_some] at h
  · simp only [Option.some_bind, Option.bind_eq_some, Option.some.injEq, Prod.mk.injEq,
      true_and] at h
    obtain ⟨m3, h3, m4, h4, h⟩ := h
    refine ⟨m4, ?_, h.symm⟩
    simp only [axisOps, runOps, run_write, run_link, p0, h1, h2, h3, h4, Option.some_bind]

theorem setArcPair_trace (F : CylinderCalls) (c : IGES_GEOM_CYLINDER) (b : Build) (i : Nat)
    (top bot : ℚ) (m m' : Model)
    (h : setArcPair F b i (c.pt 0) (c.pt (i + 1)) (c.pt (i + 2)) top bot m = some m') :
    runOps (arcOps F c top bot b i) m = some m' := by
  unfold setArcPair at h
  simp only [bind, Option.bind_eq_some] at h
  obtain ⟨m1, h1, m2, h2, h⟩ := h
  unfold arcOps
  split_ifs at h ⊢
  · simp only [List.cons_append, List.nil_append, runOps, run_write, run_link, h1, h2, h,
      Option.some_bind]
  · simp only [Option.some.injEq] at h
    subst h
    simp only [List.append_nil, runOps, run_write, h1, h2, Option.some_bind]

theorem setGeometry_trace (F : CylinderCalls) (c : IGES_GEOM_CYLINDER) (top bot : ℚ)
    (b b' : Build) (hn1 : 0 < c.narcs) (hn3 : c.narcs ≤ 3)
    (h : c.setGeometry F top bot b = some (true, b')) :
    ∃ m1 m2 m', (surfaceOp b).run b.model = some m1 ∧
      runOps ((List.range c.narcs.toNat).flatMap (lineOps c top bot b)) m1 = some m2 ∧
      runOps ((List.range c.narcs.toNat).flatMap (arcOps F c top bot b)) m2 = some m' ∧
      b' = { b with model := m' } := by
  unfold IGES_GEOM_CYLINDER.setGeometry at h
  by_cases g1 : c.narcs > 1 <;> by_cases g2 : c.narcs > 2 <;>
    simp only [g1, g2, if_true, if_false] at h
  · have hn : c.narcs.toNat = 3 := by omega
    obtain ⟨m1, h1, k1⟩ := Option.bind_eq_some.mp h
    clear h
    obtain ⟨a0, ha0, k2⟩ := Option.bind_eq_some.mp k1
    clear k1
    obtain ⟨a1, ha1, k3⟩ := Option.bind_eq_some.mp k2
    clear k2
    obtain ⟨a2, ha2, k4⟩ := Option.bind_eq_some.mp k3
    clear k3
    obtain ⟨m2, h2, k5⟩ := Option.bind_eq_some.mp k4
    clear k4
    obtain ⟨m3, h3, k6⟩ := Option.bind_eq_some.mp k5
    clear k5
    obtain ⟨a3, ha3, k7⟩ := Option.bind_eq_some.mp k6
    clear k6
    obtain ⟨m4, h4, k8⟩ := Option.bind_eq_some.mp k7
    clear k7
    obtain ⟨m5, h5, k9⟩ := Option.bind_eq_some.mp k8
    clear k8
    obtain ⟨a3', ha3', k10⟩ := Option.bind_eq_some.mp k9
    clear k9
    obtain ⟨a4, ha4, k11⟩ := Option.bind_eq_some.mp k10
    clear k10
    obtain ⟨m6, h6, k12⟩ := Option.bind_eq_some.mp k11
    clear k11
    obtain ⟨m7, h7, k13⟩ := Option.bind_eq_some.mp k12
    clear k12
    obtain ⟨m8, h8, k14⟩ := Option.bind_eq_some.mp k13
    clear k13
    obtain ⟨a3c, ha3c, k15⟩ := Option.bind_eq_some.mp k14
    clear k14
    obtain ⟨m9, h9, k16⟩ := Option.bind_eq_some.mp k15
    clear k15
    obtain ⟨a3d, ha3d, k17⟩ := Option.bind_eq_some.mp k16
    clear k16
    obtain ⟨a4', ha4', k18⟩ := Option.bind_eq_some.mp k17
    clear k17
    obtain ⟨m10, h10, k19⟩ := Option.bind_eq_some.mp k18
    clear k18
    rw [ha3] at ha3' ha3c ha3d
    cases ha3'
    cases ha3c
    cases ha3d
    rw [ha4] at ha4'
    cases ha4'
    have p0 : a0 = c.pt 0 := (getD_of_getElem? _ _ _ _ ha0).symm
    have p1 : a1 = c.pt 1 := (getD_of_getElem? _ _ _ _ ha1).symm
    have p2 : a2 = c.pt 2 := (getD_of_getElem? _ _ _ _ ha2).symm
    have p3 : a3 = c.pt 3 := (getD_of_getElem? _ _ _ _ ha3).symm
    have p4 : a4 = c.pt 4 := (getD_of_getElem? _ _ _ _ ha4).symm
    subst p0 p1 p2 p3 p4
    cases k19
    have t8 := setArcPair_trace F c b 0 top bot _ _ h8
    have t9 := setArcPair_trace F c b 1 top bot _ _ h9
    have t10 := setArcPair_trace F c b 2 top bot _ _ h10
    refine ⟨m1, m7, m10, h1, ?_, ?_, rfl⟩
    · rw [hn]
      simp only [show List.range 3 = [0, 1, 2] from rfl, List.flatMap_cons, List.flatMap_nil,
        lineOps, List.cons_append, List.nil_append, List.append_nil, runOps, run_write,
        Nat.mul_zero, Nat.mul_one, Nat.zero_add, Nat.reduceMul, Nat.reduceAdd, h2, h3, h4, h5,
        h6, h7, Option.some_bind]
    · rw [hn]
      simp only [show List.range 3 = [0, 1, 2] from rfl, List.flatMap_cons, List.flatMap_nil,
        List.append_nil]
      exact runOps_join _ _ _ _ _ t8 (runOps_join _ _ _ _ _ t9 t10)
  · have hn : c.narcs.toNat = 2 := by omega
    obtain ⟨m1, h1, k20⟩ := Option.bind_eq_some.mp h
    clear h
    obtain ⟨a0, ha0, k21⟩ := Option.bind_eq_some.mp k20
    clear k20
    obtain ⟨a1, ha1, k22⟩ := Option.bind_eq_some.mp k21
    clear k21
    obtain ⟨a2, ha2, k23⟩ := Option.bind_eq_some.mp k22
    clear k22
    obtain ⟨m2, h2, k24⟩ := Option.bind_eq_some.mp k23
    clear k23
    obtain ⟨m3, h3, k25⟩ := Option.bind_eq_some.mp k24
    clear k24
    obtain ⟨a3, ha3, k26⟩ := Option.bind_eq_some.mp k25
    clear k25
    obtain ⟨m4, h4, k27⟩ := Option.bind_eq_some.mp k26
    clear k26
    obtain ⟨m5, h5, k28⟩ := Option.bind_eq_some.mp k27
    clear k27
    obtain ⟨y, hy, k29⟩ := Option.bind_eq_some.mp k28
    clear k28
    cases hy
    obtain ⟨m8, h8, k30⟩ := Option.bind_eq_some.mp k29
    clear k29
    obtain ⟨a3', ha3', k31⟩ := Option.bind_eq_some.mp k30
    clear k30
    obtain ⟨m9, h9, k32⟩ := Option.bind_eq_some.mp k31
    clear k31
    obtain ⟨y, hy, k33⟩ := Option.bind_eq_some.mp k32
    clear k32
    cases hy
    rw [ha3] at ha3'
    cases ha3'
    have p0 : a0 = c.pt 0 := (getD_of_getElem? _ _ _ _ ha0).symm
    have p1 : a1 = c.pt 1 := (getD_of_getElem? _ _ _ _ ha1).symm
    have p2 : a2 = c.pt 2 := (getD_of_getElem? _ _ _ _ ha2).symm
    have p3 : a3 = c.pt 3 := (getD_of_getElem? _ _ _ _ ha3).symm
    subst p0 p1 p2 p3
    cases k33
    have t8 := setArcPair_trace F c b 0 top bot _ _ h8
    have t9 := setArcPair_trace F c b 1 top bot _ _ h9
    refine ⟨m1, m5, m9, h1, ?_, ?_, rfl⟩
    · rw [hn]
      simp only [show List.range 2 = [0, 1] from rfl, List.flatMap_cons, List.flatMap_nil,
        lineOps, List.cons_append, List.nil_append, List.append_nil, runOps, run_write,
        Nat.mul_zero, Nat.mul_one, Nat.zero_add, Nat.reduceMul, Nat.reduceAdd, h2, h3, h4, h5,
        Option.some_bind]
    · rw [hn]
      simp only [show List.range 2 = [0, 1] from rfl, List.flatMap_cons, List.flatMap_nil,
        List.append_nil]
      exact runOps_join _ _ _ _ _ t8 t9
  · exfalso
    omega
  · have hn : c.narcs.toNat = 1 := by omega
    obtain ⟨m1, h1, k34⟩ := Option.bind_eq_some.mp h
    clear h
    obtain ⟨a0, ha0, k35⟩ := Option.bind_eq_some.mp k34
    clear k34
    obtain ⟨a1, ha1, k36⟩ := Option.bind_eq_some.mp k35
    clear k35
    obtain ⟨a2, ha2, k37⟩ := Option.bind_eq_some.mp k36
    clear k36
    obtain ⟨m2, h2, k38⟩ := Option.bind_eq_some.mp k37
    clear k37
    obtain ⟨m3, h3, k39⟩ := Option.bind_eq_some.mp k38
    clear k38
    obtain ⟨y, hy, k40⟩ := Option.bind_eq_some.mp k39
    clear k39
    cases hy
    obtain ⟨y, hy, k41⟩ := Option.bind_eq_some.mp k40
    clear k40
    cases hy
    obtain ⟨m8, h8, k42⟩ := Option.bind_eq_some.mp k41
    clear k41
    obtain ⟨y, hy, k43⟩ := Option.bind_eq_some.mp k42
    clear k42
    cases hy
    obtain ⟨y, hy, k44⟩ := Option.bind_eq_some.mp k43
    clear k43
    cases hy
    have p0 : a0 = c.pt 0 := (getD_of_getElem? _ _ _ _ ha0).symm
    have p1 : a1 = c.pt 1 := (getD_of_getElem? _ _ _ _ ha1).symm
    have p2 : a2 = c.pt 2 := (getD_of_getElem? _ _ _ _ ha2).symm
    subst p0 p1 p2
    cases k44
    have t8 := setArcPair_trace F c b 0 top bot _ _ h8
    refine ⟨m1, m3, m8, h1, ?_, ?_, rfl⟩
    · rw [hn]
      simp only [show List.range 1 = [0] from rfl, List.flatMap_cons, List.flatMap_nil,
        lineOps, List.cons_append, List.nil_append, List.append_nil, runOps, run_write,
        Nat.mul_zero, Nat.zero_add, Nat.reduceMul, Nat.reduceAdd, h2, h3, Option.some_bind]
    · rw [hn]
      simp only [show List.range 1 = [0] from rfl, List.flatMap_cons, List.flatMap_nil,
        List.append_nil]
      exact t8

theorem addSegments_trace (F : CylinderCalls) (k : Nat) (cc : Option Nat)
    (segs : List (Option Nat)) : ∀ (j : Nat) (m m' : Model),
    addSegments F k cc segs j m = some (true, m') →
    runOps (segmentOps cc segs) m = some m' := by
  induction segs with
  | nil =>
    intro j m m' h
    simp only [addSegments, Option.some.injEq, Prod.mk.injEq, true_and] at h
    subst h
    rfl
  | cons s rest ih =>
    intro j m m' h
    unfold addSegments at h
    cases cc with
    | none => cases h
    | some q =>
      simp only at h
      by_cases hF : (!F.AddSegment k j) = true
      · rw [if_pos hF] at h
        cases h
      · rw [if_neg hF] at h
        cases hl : m.link (some q) s pushCurve with
        | none => rw [hl] at h; cases h
        | some m1 =>
          rw [hl] at h
          simp only [segmentOps, List.map_cons, runOps, run_link, hl, Option.some_bind]
          exact ih (j + 1) m1 m' h

theorem segmentStep_trace (F : CylinderCalls) (k : Nat) (cc : Option Nat)
    (segs : List (Option Nat)) (b b' : Build)
    (h : (match addSegments F k cc segs 0 b.model with
      | none => none
      | some (ok, m) => some (ok, { b with model := m })) = some (true, b')) :
    ∃ m', runOps (segmentOps cc segs) b.model = some m' ∧ b' = { b with model := m' } := by
  cases ha : addSegments F k cc segs 0 b.model with
  | none => rw [ha] at h; cases h
  | some r =>
    obtain ⟨ok, m⟩ := r
    rw [ha] at h
    simp only [Option.some.injEq, Prod.mk.injEq] at h
    obtain ⟨rfl, rfl⟩ := h
    exact ⟨m, addSegments_trace F k cc segs 0 _ _ ha, rfl⟩

theorem geometricBounds_trace (F : CylinderCalls) (c : IGES_GEOM_CYLINDER)
    (b b' : Build) (hn1 : 0 < c.narcs) (hn3 : c.narcs ≤ 3)
    (h : c.geometricBounds F b = some (true, b')) :
    ∃ m', runOps ((List.range c.narcs.toNat).flatMap (boundOps c.narcs.toNat b)) b.model
        = some m' ∧ b' = { b with model := m' } := by
  unfold IGES_GEOM_CYLINDER.geometricBounds at h
  simp only at h
  obtain ⟨b1, h1, k1⟩ := andThen_true _ _ _ h
  obtain ⟨b2, h2, h3⟩ := andThen_true _ _ _ k1
  obtain ⟨m1, t1, rfl⟩ := segmentStep_trace _ _ _ _ _ _ h1
  by_cases g1 : c.narcs > 1
  · rw [if_pos g1] at h2
    obtain ⟨m2, t2, rfl⟩ := segmentStep_trace _ _ _ _ _ _ h2
    by_cases g2 : c.narcs > 2
    · rw [if_pos g2] at h3
      obtain ⟨m3, t3, rfl⟩ := segmentStep_trace _ _ _ _ _ _ h3
      have hn : c.narcs.toNat = 3 := by omega
      refine ⟨m3, ?_, rfl⟩
      rw [hn] at t1 t2 t3 ⊢
      simp only [show List.range 3 = [0, 1, 2] from rfl, List.flatMap_cons, List.flatMap_nil,
        List.append_nil]
      exact runOps_join _ _ _ _ _ t1 (runOps_join _ _ _ _ _ t2 t3)
    · rw [if_neg g2] at h3
      simp only [Option.some.injEq, Prod.mk.injEq, true_and] at h3
      subst h3
      have hn : c.narcs.toNat = 2 := by omega
      refine ⟨m2, ?_, rfl⟩
      rw [hn] at t1 t2 ⊢
      simp only [show List.range 2 = [0, 1] from rfl, List.flatMap_cons, List.flatMap_nil,
        List.append_nil]
      exact runOps_join _ _ _ _ _ t1 t2
  · rw [if_neg g1] at h2
    simp only [Option.some.injEq, Prod.mk.injEq, true_and] at h2
    subst h2
    rw [if_neg (by omega)] at h3
    simp only [Option.some.injEq, Prod.mk.injEq, true_and] at h3
    subst h3
    have hn : c.narcs.toNat = 1 := by omega
    refine ⟨m1, ?_, rfl⟩
    rw [hn] at t1 ⊢
    simp only [show List.range 1 = [0] from rfl, List.flatMap_cons, List.flatMap_nil,
      List.append_nil]
    exact t1

theorem forEach_trace (body : Nat → Build → Option (Bool × Build)) (f : Build → Nat → List Op)
    (hf : ∀ (b : Build) (m : Model) (i : Nat), f { b with model := m } i = f b i)
    (hbody : ∀ i b b', body i b = some (true, b') →
      ∃ m', runOps (f b i) b.model = some m' ∧ b' = { b with model := m' })
    (k : Nat) : ∀ (i : Nat) (b b' : Build), forEach body k i b = some (true, b') →
      ∃ m', runOps ((List.range' i k).flatMap (f b)) b.model = some m' ∧
        b' = { b with model := m' } := by
  induction k with
  | zero =>
    intro i b b' h
    simp only [forEach, Option.some.injEq, Prod.mk.injEq, true_and] at h
    subst h
    exact ⟨b.model, rfl, rfl⟩
  | succ k ih =>
    intro i b b' h
    unfold forEach at h
    split at h
    · cases h
    · cases h
    · rename_i b1 hb1
      obtain ⟨m1, t1, rfl⟩ := hbody i b b1 hb1
      obtain ⟨m2, t2, rfl⟩ := ih (i + 1) _ b' h
      refine ⟨m2, ?_, rfl⟩
      rw [List.range'_succ, List.flatMap_cons]
      have hfun : (f { b with model := m1 }) = f b := by
        funext j
        exact hf b m1 j
      rw [hfun] at t2
      exact runOps_join _ _ _ _ _ t1 t2

theorem nurbsComposite_trace (F : CylinderCalls) (i : Nat) (b b' : Build)
    (h : IGES_GEOM_CYLINDER.nurbsComposite F i b = some (true, b')) :
    ∃ m', runOps (paramOps b i) b.model = some m' ∧ b' = { b with model := m' } := by
  unfold IGES_GEOM_CYLINDER.nurbsComposite at h
  exact segmentStep_trace _ _ _ _ _ _ h

theorem transferNurbs_trace (X : Library) (i : Nat) (b b' : Build)
    (h : IGES_GEOM_CYLINDER.transferNurbs X i b = some (true, b')) :
    ∃ m', runOps (nurbsOps X b i) b.model = some m' ∧ b' = { b with model := m' } := by
  unfold IGES_GEOM_CYLINDER.transferNurbs at h
  obtain ⟨p, hp, k1⟩ := Option.bind_eq_some.mp h
  obtain ⟨cur, hcur, k2⟩ := Option.bind_eq_some.mp k1
  split at k2
  · rename_i e hfind
    split at k2
    · cases k2
    · rename_i ok e1 hset
      simp only [Option.some.injEq, Prod.mk.injEq] at k2
      obtain ⟨rfl, rfl⟩ := k2
      refine ⟨_, ?_, rfl⟩
      simp only [nurbsOps, runOps, run_write, hp, hcur, Model.write, hfind, nurbsSetter, hset,
        Option.some_bind]
  · cases k2

theorem setBound_trace (F : CylinderCalls) (c : IGES_GEOM_CYLINDER) (i : Nat) (b b' : Build)
    (h : c.setBound F i b = some (true, b')) :
    ∃ m', runOps (curveOnSurfaceOps c.narcs.toNat b i) b.model = some m' ∧
      b' = { b with model := m' } := by
  unfold IGES_GEOM_CYLINDER.setBound at h
  split at h
  · cases h
  · rename_i m hw
    split at h
    · cases h
    · rename_i ok m1 hc
      simp only [Option.some.injEq, Prod.mk.injEq] at h
      obtain ⟨rfl, rfl⟩ := h
      obtain ⟨m2, c1, hc⟩ := andAlso_true _ _ _ hc
      obtain ⟨m3, c2, c3⟩ := andAlso_true _ _ _ hc
      obtain ⟨p1, hp1, l1⟩ := setChild_true _ _ _ _ _ _ c1
      obtain ⟨p2, hp2, l2⟩ := setChild_true _ _ _ _ _ _ c2
      obtain ⟨p3, hp3, l3⟩ := setChild_true _ _ _ _ _ _ c3
      refine ⟨m1, ?_, rfl⟩
      rw [← hp1] at l1
      rw [← hp2] at l2
      rw [← hp3] at l3
      simp only [curveOnSurfaceOps, runOps, run_write, run_link]
      rw [Option.bind_eq_some]
      exact ⟨m, hw, by simp only [l1, l2, l3, Option.some_bind]⟩

theorem setTrimmed_trace (F : CylinderCalls) (i : Nat) (b b' : Build)
    (h : IGES_GEOM_CYLINDER.setTrimmed F i b = some (true, b')) :
    ∃ m', runOps (trimOps b i) b.model = some m' ∧ b' = { b with model := m' } := by
  unfold IGES_GEOM_CYLINDER.setTrimmed at h
  split at h
  · cases h
  · rename_i m hw
    split at h
    · cases h
    · rename_i ok m1 hc
      simp only [Option.some.injEq, Prod.mk.injEq] at h
      obtain ⟨rfl, rfl⟩ := h
      obtain ⟨m2, c1, c2⟩ := andAlso_true _ _ _ hc
      obtain ⟨p1, hp1, l1⟩ := setChild_true _ _ _ _ _ _ c1
      obtain ⟨p2, hp2, l2⟩ := setChild_true _ _ _ _ _ _ c2
      refine ⟨m1, ?_, rfl⟩
      rw [← hp1] at l1
      rw [← hp2] at l2
      simp only [trimOps, runOps, run_write, run_link]
      rw [Option.bind_eq_some]
      exact ⟨m, hw, by simp only [l1, l2, Option.some_bind]⟩

theorem makeNurbs_trace (F : CylinderCalls) (ps : List (List ℚ × List ℚ)) :
    ∀ (b b' : Build), makeNurbs F ps b = (true, b') →
      b' = { b with inurbs := b.inurbs ++ ps.map (fun p => (F.s1602 p.1 p.2 2 3 0).1) } := by
  induction ps with
  | nil =>
    intro b b' h
    simp only [makeNurbs, Prod.mk.injEq, true_and] at h
    subst h
    simp
  | cons p rest ih =>
    intro b b' h
    obtain ⟨p0, p1⟩ := p
    unfold makeNurbs at h
    simp only at h
    by_cases hr : (makeNurb F p0 p1).1 = true
    · rw [if_pos hr] at h
      have := ih _ _ h
      rw [this]
      have h2 : (makeNurb F p0 p1).2 = (F.s1602 p0 p1 2 3 0).1 := by
        unfold makeNurb
        simp only
        split_ifs <;> rfl
      simp [h2]
    · rw [if_neg hr] at h
      simp at h

theorem nurbsBounds_trace (F : CylinderCalls) (c : IGES_GEOM_CYLINDER) (i : Nat)
    (b b' : Build) (h : c.nurbsBounds F i b = some (true, b')) :
    b' = { b with inurbs := b.inurbs ++ nurbsOf F c i } := by
  unfold IGES_GEOM_CYLINDER.nurbsBounds at h
  obtain ⟨s, hs, k1⟩ := Option.bind_eq_some.mp h
  obtain ⟨e, he, k2⟩ := Option.bind_eq_some.mp k1
  split_ifs at k2
  · cases k2
  · obtain ⟨u, -, k3⟩ := Option.bind_eq_some.mp k2
    have h' := Option.some.inj k3
    have := makeNurbs_trace F _ _ _ h'
    rw [this]
    simp only [nurbsOf, List.map_cons, List.map_nil, getD_of_getElem? _ _ _ _ hs,
      getD_of_getElem? _ _ _ _ he]

theorem forEach_nurbsBounds (F : CylinderCalls) (c : IGES_GEOM_CYLINDER) (k : Nat) :
    ∀ (i : Nat) (b b' : Build), forEach (c.nurbsBounds F) k i b = some (true, b') →
      b' = { b with inurbs := b.inurbs ++ (List.range' i k).flatMap (nurbsOf F c) } := by
  induction k with
  | zero =>
    intro i b b' h
    simp only [forEach, Option.some.injEq, Prod.mk.injEq, true_and] at h
    subst h
    simp
  | succ k ih =>
    intro i b b' h
    unfold forEach at h
    split at h
    · cases h
    · cases h
    · rename_i b1 hb1
      have t1 := nurbsBounds_trace F c i b b1 hb1
      have t2 := ih (i + 1) b1 b' h
      rw [t2, t1]
      simp [List.range'_succ]

theorem range'_getElem? (s n k : Nat) (h : k < n) : (List.range' s n)[k]? = some (s + k) := by
  rw [List.getElem?_range' s 1 h]
  simp

theorem lineOps_layout (c : IGES_GEOM_CYLINDER) (top bot : ℚ) (m : Model) (f n : Nat)
    (u : List (Option SISLCurve)) (j : Nat) (hj : j < n) :
    lineOps c top bot (cylinderLayout m f n u) j
      = [Op.write (some (f + (2 * j + 2)))
           (setLine (c.pt (j + 2)).x (c.pt (j + 2)).y top (c.pt (j + 2)).x (c.pt (j + 2)).y bot),
         Op.write (some (f + (2 * j + 3)))
           (setLine (c.pt (j + 1)).x (c.pt (j + 1)).y bot (c.pt (j + 1)).x (c.pt (j + 1)).y
             top)] := by
  unfold lineOps cylinderLayout
  simp only
  rw [range'_getElem? _ _ _ (by omega), range'_getElem? _ _ _ (by omega)]

theorem arcOps_layout (F : CylinderCalls) (hT : ∀ i, F.SetTransform i = true)
    (c : IGES_GEOM_CYLINDER) (top bot : ℚ) (m : Model) (f n : Nat)
    (u : List (Option SISLCurve)) (j : Nat) (hj : j < n) :
    arcOps F c top bot (cylinderLayout m f n u) j
      = [Op.write (some (f + (7 * n + 3) + 2 * j))
           (setArc top (c.pt 0).x (c.pt 0).y (c.pt (j + 1)).x (c.pt (j + 1)).y
             (c.pt (j + 2)).x (c.pt (j + 2)).y),
         Op.write (some (f + (7 * n + 3) + (2 * j + 1)))
           (setArc bot 0 (c.pt 0).y ((c.pt 0).x - (c.pt (j + 2)).x) (c.pt (j + 2)).y
             ((c.pt 0).x - (c.pt (j + 1)).x) (c.pt (j + 1)).y),
         Op.link (some (f + (7 * n + 3) + (2 * j + 1))) (some (f + (2 * n + 3) + j))
           setTransform] := by
  unfold arcOps cylinderLayout
  simp only [hT, if_true]
  rw [range'_getElem? _ _ _ (by omega), range'_getElem? _ _ _ (by omega),
    range'_getElem? _ _ _ (by omega)]
  rfl

theorem boundOps_layout (m : Model) (f n : Nat) (u : List (Option SISLCurve)) (j : Nat)
    (hj : j < n) :
    boundOps n (cylinderLayout m f n u) j
      = [Op.link (some (f + (10 * n + 3) + j)) (some (f + (7 * n + 3) + 2 * j)) pushCurve,
         Op.link (some (f + (10 * n + 3) + j)) (some (f + (2 * j + 2))) pushCurve,
         Op.link (some (f + (10 * n + 3) + j)) (some (f + (7 * n + 3) + (2 * j + 1)))
           pushCurve,
         Op.link (some (f + (10 * n + 3) + j)) (some (f + (2 * j + 3))) pushCurve] := by
  unfold boundOps cylinderLayout segmentOps
  simp only
  rw [range'_getElem? _ _ _ (by omega), range'_getElem? _ _ _ (by omega),
    range'_getElem? _ _ _ (by omega), range'_getElem? _ _ _ (by omega),
    range'_getElem? _ _ _ (by omega)]
  have : f + (9 * n + 3) + (n + j) = f + (10 * n + 3) + j := by omega
  rw [this]
  rfl

theorem nurbsOps_layout (X : Library) (m : Model) (f n : Nat) (u : List (Option SISLCurve))
    (j : Nat) (hj : j < 4 * n) :
    nurbsOps X (cylinderLayout m f n u) j
      = [Op.write (some (f + (3 * n + 3) + j)) (nurbsSetter X (u[j]?).join)] := by
  unfold nurbsOps cylinderLayout
  simp only
  rw [range'_getElem? _ _ _ hj]

theorem paramOps_layout (m : Model) (f n : Nat) (u : List (Option SISLCurve)) (j : Nat)
    (hj : j < n) :
    paramOps (cylinderLayout m f n u) j
      = [Op.link (some (f + (9 * n + 3) + j)) (some (f + (3 * n + 3) + j * 4)) pushCurve,
         Op.link (some (f + (9 * n + 3) + j)) (some (f + (3 * n + 3) + (j * 4 + 1))) pushCurve,
         Op.link (some (f + (9 * n + 3) + j)) (some (f + (3 * n + 3) + (j * 4 + 2))) pushCurve,
         Op.link (some (f + (9 * n + 3) + j)) (some (f + (3 * n + 3) + (j * 4 + 3)))
           pushCurve] := by
  unfold paramOps cylinderLayout segmentOps
  simp only
  rw [range'_getElem? _ _ _ (by omega), range'_getElem? _ _ _ (by omega),
    range'_getElem? _ _ _ (by omega), range'_getElem? _ _ _ (by omega),
    range'_getElem? _ _ _ (by omega)]
  rfl

theorem curveOnSurfaceOps_layout (m : Model) (f n : Nat) (u : List (Option SISLCurve))
    (j : Nat) (hj : j < n) :
    curveOnSurfaceOps n (cylinderLayout m f n u) j
      = [Op.write (some (f + (11 * n + 3) + j)) (fun e => match e with
            | .bound s => some (.bound { s with CRTN := 1, PREF := 1 })
            | _ => none),
         Op.link (some (f + (11 * n + 3) + j)) (some (f + (2 * n + 2))) setSPTR,
         Op.link (some (f + (11 * n + 3) + j)) (some (f + (9 * n + 3) + j)) setBPTR,
         Op.link (some (f + (11 * n + 3) + j)) (some (f + (10 * n + 3) + j)) setCPTR] := by
  unfold curveOnSurfaceOps cylinderLayout
  simp only
  rw [range'_getElem? _ _ _ (by omega), range'_getElem? _ _ _ (by omega),
    range'_getElem? _ _ _ (by omega)]
  have : f + (9 * n + 3) + (j + n) = f + (10 * n + 3) + j := by omega
  rw [this]
  all_goals rfl

theorem trimOps_layout (m : Model) (f n : Nat) (u : List (Option SISLCurve)) (j : Nat)
    (hj : j < n) :
    trimOps (cylinderLayout m f n u) j
      = [Op.write (some (f + (12 * n + 3) + j)) (fun e => match e with
            | .trimmed s => some (.trimmed { s with N1 := 1, N2 := 0 })
            | _ => none),
         Op.link (some (f + (12 * n + 3) + j)) (some (f + (2 * n + 2))) setPTS,
         Op.link (some (f + (12 * n + 3) + j)) (some (f + (11 * n + 3) + j)) setPTO] := by
  unfold trimOps cylinderLayout
  simp only
  rw [range'_getElem? _ _ _ (by omega), range'_getElem? _ _ _ (by omega)]
  all_goals rfl

theorem axisOps_layout (c : IGES_GEOM_CYLINDER) (top bot : ℚ) (m : Model) (f n : Nat)
    (u : List (Option SISLCurve)) :
    axisOps c top bot (cylinderLayout m f n u)
      = [Op.write (some (f + 0)) (setLine (c.pt 0).x (c.pt 0).y bot (c.pt 0).x (c.pt 0).y top),
         Op.write (some (f + 1))
           (setLine ((c.pt 0).x + c.radius) (c.pt 0).y top ((c.pt 0).x + c.radius) (c.pt 0).y
             bot),
         Op.link (some (f + (2 * n + 2))) (some (f + 0)) setL,
         Op.link (some (f + (2 * n + 2))) (some (f + 1)) setC] := by
  unfold axisOps cylinderLayout
  simp only
  rw [range'_getElem? _ _ _ (by omega), range'_getElem? _ _ _ (by omega)]

theorem runOps_cons (op : Op) (rest : List Op) (m m' : Model)
    (h : runOps (op :: rest) m = some m') :
    ∃ m1, op.run m = some m1 ∧ runOps rest m1 = some m' := by
  simp only [runOps] at h
  exact Option.bind_eq_some.mp h

theorem runOps_nil (m m' : Model) (h : runOps [] m = some m') : m' = m := by
  simp only [runOps, Option.some.injEq] at h
  exact h.symm

theorem run_target_has (op : Op) (m m' : Model) (x : Nat) (h : op.run m = some m')
    (ht : op.target = some x) : m.has x (fun _ => True) := by
  unfold Op.run at h
  cases hch : op.child with
  | none =>
    rw [hch, ht] at h
    simp only [Model.write] at h
    cases hf : m.find x with
    | none => rw [hf] at h; cases h
    | some e => exact ⟨e, hf, True.intro⟩
  | some ch =>
    rw [hch] at h
    simp only at h
    obtain ⟨p, c, e0, e1, hp, -, hf, -, -⟩ := link_inv m m' _ _ _ h
    rw [ht] at hp
    cases hp
    exact ⟨e0, hf, True.intro⟩

theorem write_has (x : Nat) (g : Entity → Option Entity) (m m' : Model)
    (Q0 Q : Entity → Prop) (hrefs : ∀ e r, Q e → Q (e.setRefs r))
    (h : (Op.write (some x) g).run m = some m') (hx : m.has x Q0)
    (hstep : ∀ e e1, Q0 e → g e = some e1 → Q e1) : m'.has x Q :=
  step_has _ m m' x Q0 Q hrefs h hx (fun _ => hstep) (fun hne => absurd rfl hne)

theorem write_sets (x : Nat) (g : Entity → Option Entity) (m m' : Model)
    (Q : Entity → Prop) (hrefs : ∀ e r, Q e → Q (e.setRefs r))
    (h : (Op.write (some x) g).run m = some m')
    (hstep : ∀ e e1, g e = some e1 → Q e1) : m'.has x Q :=
  write_has x g m m' (fun _ => True) Q hrefs h (run_target_has _ m m' x h rfl)
    (fun e e1 _ => hstep e e1)

theorem link_has (x c : Nat) (set : Nat → Entity → Option Entity) (m m' : Model)
    (Q0 Q : Entity → Prop) (hrefs : ∀ e r, Q e → Q (e.setRefs r))
    (h : (Op.link (some x) (some c) set).run m = some m') (hx : m.has x Q0)
    (hstep : ∀ e e1, Q0 e → set c e = some e1 → Q e1) : m'.has x Q :=
  step_has _ m m' x Q0 Q hrefs h hx (fun _ e e1 hq hs => hstep e e1 hq hs)
    (fun hne => absurd rfl hne)

theorem link_sets (x c : Nat) (set : Nat → Entity → Option Entity) (m m' : Model)
    (Q : Entity → Prop) (hrefs : ∀ e r, Q e → Q (e.setRefs r))
    (h : (Op.link (some x) (some c) set).run m = some m')
    (hstep : ∀ e e1, set c e = some e1 → Q e1) : m'.has x Q :=
  link_has x c set m m' (fun _ => True) Q hrefs h (run_target_has _ m m' x h rfl)
    (fun e e1 _ => hstep e e1)

theorem step_keeps (op : Op) (m m' : Model) (x : Nat) (Q : Entity → Prop)
    (hrefs : ∀ e r, Q e → Q (e.setRefs r)) (h : op.run m = some m')
    (hne : op.target ≠ some x) (hx : m.has x Q) : m'.has x Q :=
  step_has op m m' x Q Q hrefs h hx (fun ht => absurd ht hne) (fun _ _ hq => hq)

theorem flat_frame (f : Nat → List Op) (n : Nat) (m m' : Model) (x : Nat)
    (Q : Entity → Prop) (hrefs : ∀ e r, Q e → Q (e.setRefs r))
    (h : runOps ((List.range n).flatMap f) m = some m') (hx : m.has x Q)
    (hT : ∀ j, j < n → ∀ op ∈ f j, op.target ≠ some x) : m'.has x Q := by
  refine runOps_avoid _ x Q hrefs m m' h hx ?_
  intro op hop
  obtain ⟨j, hj, hop⟩ := List.mem_flatMap.mp hop
  exact hT j (List.mem_range.mp hj) op hop

theorem axis_frame (c : IGES_GEOM_CYLINDER) (top bot : ℚ) (mm : Model) (f n : Nat)
    (u : List (Option SISLCurve)) (m m' : Model) (x : Nat) (Q : Entity → Prop)
    (hrefs : ∀ e r, Q e → Q (e.setRefs r))
    (h : runOps (axisOps c top bot (cylinderLayout mm f n u)) m = some m') (hx : m.has x Q)
    (hz : f + 2 ≤ x ∧ x ≠ f + (2 * n + 2)) : m'.has x Q := by
  refine runOps_avoid _ x Q hrefs m m' h hx ?_
  intro op hop
  rw [axisOps_layout] at hop
  simp only [List.mem_cons, List.mem_singleton, List.not_mem_nil, or_false] at hop
  rcases hop with rfl | rfl | rfl | rfl <;>
    simp only [Op.write, Op.link, ne_eq, Option.some.injEq] <;> omega

theorem surface_frame (b : Build) (s : Nat) (hs : b.isurf = some s) (m m' : Model) (x : Nat)
    (Q : Entity → Prop) (hrefs : ∀ e r, Q e → Q (e.setRefs r))
    (h : (surfaceOp b).run m = some m') (hx : m.has x Q) (hz : x ≠ s) : m'.has x Q := by
  refine step_keeps _ m m' x Q hrefs h ?_ hx
  simp only [surfaceOp, Op.write, hs, ne_eq, Option.some.injEq]
  exact fun hh => hz hh.symm

theorem lines_frame (c : IGES_GEOM_CYLINDER) (top bot : ℚ) (mm : Model) (f n : Nat)
    (u : List (Option SISLCurve)) (m m' : Model) (x : Nat) (Q : Entity → Prop)
    (hrefs : ∀ e r, Q e → Q (e.setRefs r))
    (h : runOps ((List.range n).flatMap (lineOps c top bot (cylinderLayout mm f n u))) m
      = some m') (hx : m.has x Q)
    (hz : x < f + 2 ∨ f + (2 * n + 2) ≤ x) : m'.has x Q := by
  refine flat_frame _ n m m' x Q hrefs h hx ?_
  intro j hj op hop
  rw [lineOps_layout _ _ _ _ _ _ _ j hj] at hop
  simp only [List.mem_cons, List.mem_singleton, List.not_mem_nil, or_false] at hop
  rcases hop with rfl | rfl <;>
    simp only [Op.write, ne_eq, Option.some.injEq] <;> omega

theorem arcs_frame (F : CylinderCalls) (hT : ∀ i, F.SetTransform i = true)
    (c : IGES_GEOM_CYLINDER) (top bot : ℚ) (mm : Model) (f n : Nat)
    (u : List (Option SISLCurve)) (m m' : Model) (x : Nat) (Q : Entity → Prop)
    (hrefs : ∀ e r, Q e → Q (e.setRefs r))
    (h : runOps ((List.range n).flatMap (arcOps F c top bot (cylinderLayout mm f n u))) m
      = some m') (hx : m.has x Q)
    (hz : x < f + (7 * n + 3) ∨ f + (9 * n + 3) ≤ x) : m'.has x Q := by
  refine flat_frame _ n m m' x Q hrefs h hx ?_
  intro j hj op hop
  rw [arcOps_layout F hT _ _ _ _ _ _ _ j hj] at hop
  simp only [List.mem_cons, List.mem_singleton, List.not_mem_nil, or_false] at hop
  rcases hop with rfl | rfl | rfl <;>
    simp only [Op.write, Op.link, ne_eq, Option.some.injEq] <;> omega

theorem bounds_frame (mm : Model) (f n : Nat) (u : List (Option SISLCurve)) (m m' : Model)
    (x : Nat) (Q : Entity → Prop) (hrefs : ∀ e r, Q e → Q (e.setRefs r))
    (h : runOps ((List.range n).flatMap (boundOps n (cylinderLayout mm f n u))) m = some m')
    (hx : m.has x Q) (hz : x < f + (10 * n + 3) ∨ f + (11 * n + 3) ≤ x) : m'.has x Q := by
  refine flat_frame _ n m m' x Q hrefs h hx ?_
  intro j hj op hop
  rw [boundOps_layout _ _ _ _ j hj] at hop
  simp only [List.mem_cons, List.mem_singleton, List.not_mem_nil, or_false] at hop
  rcases hop with rfl | rfl | rfl | rfl <;>
    simp only [Op.link, ne_eq, Option.some.injEq] <;> omega

theorem nurbs_frame (X : Library) (mm : Model) (f n : Nat) (u : List (Option SISLCurve))
    (m m' : Model) (x : Nat) (Q : Entity → Prop) (hrefs : ∀ e r, Q e → Q (e.setRefs r))
    (h : runOps ((List.range (4 * n)).flatMap (nurbsOps X (cylinderLayout mm f n u))) m
      = some m')
    (hx : m.has x Q) (hz : x < f + (3 * n + 3) ∨ f + (7 * n + 3) ≤ x) : m'.has x Q := by
  refine flat_frame _ (4 * n) m m' x Q hrefs h hx ?_
  intro j hj op hop
  rw [nurbsOps_layout _ _ _ _ _ j hj] at hop
  simp only [List.mem_singleton] at hop
  subst hop
  simp only [Op.write, ne_eq, Option.some.injEq]
  omega

theorem params_frame (mm : Model) (f n : Nat) (u : List (Option SISLCurve)) (m m' : Model)
    (x : Nat) (Q : Entity → Prop) (hrefs : ∀ e r, Q e → Q (e.setRefs r))
    (h : runOps ((List.range n).flatMap (paramOps (cylinderLayout mm f n u))) m = some m')
    (hx : m.has x Q) (hz : x < f + (9 * n + 3) ∨ f + (10 * n + 3) ≤ x) : m'.has x Q := by
  refine flat_frame _ n m m' x Q hrefs h hx ?_
  intro j hj op hop
  rw [paramOps_layout _ _ _ _ j hj] at hop
  simp only [List.mem_cons, List.mem_singleton, List.not_mem_nil, or_false] at hop
  rcases hop with rfl | rfl | rfl | rfl <;>
    simp only [Op.link, ne_eq, Option.some.injEq] <;> omega

theorem curvesOnSurface_frame (mm : Model) (f n : Nat) (u : List (Option SISLCurve))
    (m m' : Model) (x : Nat) (Q : Entity → Prop) (hrefs : ∀ e r, Q e → Q (e.setRefs r))
    (h : runOps ((List.range n).flatMap (curveOnSurfaceOps n (cylinderLayout mm f n u))) m
      = some m')
    (hx : m.has x Q) (hz : x < f + (11 * n + 3) ∨ f + (12 * n + 3) ≤ x) : m'.has x Q := by
  refine flat_frame _ n m m' x Q hrefs h hx ?_
  intro j hj op hop
  rw [curveOnSurfaceOps_layout _ _ _ _ j hj] at hop
  simp only [List.mem_cons, List.mem_singleton, List.not_mem_nil, or_false] at hop
  rcases hop with rfl | rfl | rfl | rfl <;>
    simp only [Op.write, Op.link, ne_eq, Option.some.injEq] <;> omega

theorem trims_frame (mm : Model) (f n : Nat) (u : List (Option SISLCurve)) (m m' : Model)
    (x : Nat) (Q : Entity → Prop) (hrefs : ∀ e r, Q e → Q (e.setRefs r))
    (h : runOps ((List.range n).flatMap (trimOps (cylinderLayout mm f n u))) m = some m')
    (hx : m.has x Q) (hz : x < f + (12 * n + 3) ∨ f + (13 * n + 3) ≤ x) : m'.has x Q := by
  refine flat_frame _ n m m' x Q hrefs h hx ?_
  intro j hj op hop
  rw [trimOps_layout _ _ _ _ j hj] at hop
  simp only [List.mem_cons, List.mem_singleton, List.not_mem_nil, or_false] at hop
  rcases hop with rfl | rfl | rfl <;>
    simp only [Op.write, Op.link, ne_eq, Option.some.injEq] <;> omega

theorem build_trace (F : CylinderCalls) (X : Library) (c : IGES_GEOM_CYLINDER)
    (top bot : ℚ) (m : Model) (bF : Build) (hwf : m.wellFormed) (h0 : c.narcs ≠ 0)
    (h : c.build F X top bot
      { model := m, iline := [], isurf := none, icurve := [], iarc := [], icc := [],
        ibound := [], itps := [], itrans := [], inurbs := [] } = some (true, bF)) :
    0 < c.narcs ∧ c.narcs.toNat ≤ 3 ∧
    ∃ M1 m2 m3 m4 m5 m6 m7 m8 m9,
      (∀ i, i < c.narcs.toNat →
        M1.find (m.fresh + (2 * c.narcs.toNat + 3) + i)
          = some (.transform
              { T := { R := { v00 := -1, v01 := 0, v02 := 0, v10 := 0, v11 := 1, v12 := 0,
                              v20 := 0, v21 := 0, v22 := -1 },
                       T := ⟨(c.pt 0).x, 0, 2 * bot⟩ },
                form := 1, refs := [], depends := IGES_STAT_DEPENDS.STAT_INDEPENDENT })) ∧
      (∀ j, j < 2 * c.narcs.toNat →
        ∃ e, M1.find (m.fresh + (7 * c.narcs.toNat + 3) + j) = some (.arc e) ∧
          e.pTransform = none) ∧
      (∀ j, j < 2 * c.narcs.toNat →
        ∃ e, M1.find (m.fresh + (9 * c.narcs.toNat + 3) + j) = some (.composite e) ∧
          e.curves = []) ∧
      runOps (axisOps c top bot (cylinderLayout M1 m.fresh c.narcs.toNat [])) M1 = some m2 ∧
      (surfaceOp (cylinderLayout m2 m.fresh c.narcs.toNat [])).run m2 = some m3 ∧
      runOps ((List.range c.narcs.toNat).flatMap
        (lineOps c top bot (cylinderLayout m2 m.fresh c.narcs.toNat []))) m3 = some m4 ∧
      runOps ((List.range c.narcs.toNat).flatMap
        (arcOps F c top bot (cylinderLayout m2 m.fresh c.narcs.toNat []))) m4 = some m5 ∧
      runOps ((List.range c.narcs.toNat).flatMap
        (boundOps c.narcs.toNat (cylinderLayout m5 m.fresh c.narcs.toNat []))) m5 = some m6 ∧
      runOps ((List.range (4 * c.narcs.toNat)).flatMap
        (nurbsOps X (cylinderLayout m6 m.fresh c.narcs.toNat
          ((List.range c.narcs.toNat).flatMap (nurbsOf F c))))) m6 = some m7 ∧
      runOps ((List.range c.narcs.toNat).flatMap
        (paramOps (cylinderLayout m7 m.fresh c.narcs.toNat
          ((List.range c.narcs.toNat).flatMap (nurbsOf F c))))) m7 = some m8 ∧
      runOps ((List.range c.narcs.toNat).flatMap
        (curveOnSurfaceOps c.narcs.toNat (cylinderLayout m8 m.fresh c.narcs.toNat
          ((List.range c.narcs.toNat).flatMap (nurbsOf F c))))) m8 = some m9 ∧
      runOps ((List.range c.narcs.toNat).flatMap
        (trimOps (cylinderLayout m9 m.fresh c.narcs.toNat
          ((List.range c.narcs.toNat).flatMap (nurbsOf F c))))) m9 = some bF.model ∧
      bF.itps = List.range' (m.fresh + (12 * c.narcs.toNat + 3)) c.narcs.toNat := by
  unfold IGES_GEOM_CYLINDER.build at h
  obtain ⟨b1, g1, k1⟩ := andThen_true _ _ _ h
  obtain ⟨b2, g2, k2⟩ := andThen_true _ _ _ k1
  obtain ⟨b3, g3, k3⟩ := andThen_true _ _ _ k2
  obtain ⟨b4, g4, k4⟩ := andThen_true _ _ _ k3
  obtain ⟨b5, g5, k5⟩ := andThen_true _ _ _ k4
  obtain ⟨b6, g6, k6⟩ := andThen_true _ _ _ k5
  obtain ⟨b7, g7, k7⟩ := andThen_true _ _ _ k6
  obtain ⟨b8, g8, g9⟩ := andThen_true _ _ _ k7
  clear h k1 k2 k3 k4 k5 k6 k7
  have hpre : (∃ a0, c.arcs[0]? = some a0) ∧ ∃ l, b1.iline[0]? = some l := by
    unfold IGES_GEOM_CYLINDER.setAxis at g2
    simp only [bind, Option.bind_eq_some, pure] at g2
    obtain ⟨a0, ha0, m1, h1, -⟩ := g2
    refine ⟨⟨a0, ha0⟩, ?_⟩
    cases hq : b1.iline[0]? with
    | none => rw [hq] at h1; cases h1
    | some l => exact ⟨l, rfl⟩
  obtain ⟨⟨a0, harcs⟩, l, hl⟩ := hpre
  have hn : 0 ≤ c.narcs := by
    by_contra hneg
    have hz : (c.narcs * 2 + 2).toNat = 0 := by omega
    have := newEntities_iline F c _ _ b1 a0 harcs g1
    rw [hz] at this
    rw [this] at hl
    cases hl
  have hpos : 0 < c.narcs := by omega
  have p0 : a0 = c.pt 0 := (getD_of_getElem? _ _ _ _ harcs).symm
  obtain ⟨hn3, ⟨a1, a2, a3, a4, a5, a6, a7, a8, a9⟩, -, fT, fA, fC⟩ :=
    newEntities_facts F c bot _ b1 a0 harcs hn hwf g1
  have hle : c.narcs ≤ 3 := by omega
  obtain ⟨M1, il, isf, icv, ia, ic, ib, itp, itr, inb⟩ := b1
  simp only [List.nil_append] at a1 a2 a3 a4 a5 a6 a7 a8 a9 fT fA fC
  subst a1 a2 a3 a4 a5 a6 a7 a8 a9
  have g2' : c.setAxis F top bot (cylinderLayout M1 m.fresh c.narcs.toNat [])
      = some (true, b2) := g2
  clear g2 g1
  obtain ⟨m2, t2, hb2⟩ := setAxis_trace F c top bot _ _ g2'
  have hb2' : b2 = cylinderLayout m2 m.fresh c.narcs.toNat [] := by rw [hb2]; rfl
  clear hb2 g2'
  subst hb2'
  obtain ⟨m3, m4, m5, t3, t4, t5, hb3⟩ := setGeometry_trace F c top bot _ _ hpos hle g3
  have hb3' : b3 = cylinderLayout m5 m.fresh c.narcs.toNat [] := by rw [hb3]; rfl
  clear hb3 g3
  subst hb3'
  obtain ⟨m6, t6, hb4⟩ := geometricBounds_trace F c _ _ hpos hle g4
  have hb4' : b4 = cylinderLayout m6 m.fresh c.narcs.toNat [] := by rw [hb4]; rfl
  clear hb4 g4
  subst hb4'
  have hb5 := forEach_nurbsBounds F c _ _ _ _ g5
  have hb5' : b5 = cylinderLayout m6 m.fresh c.narcs.toNat
      ((List.range c.narcs.toNat).flatMap (nurbsOf F c)) := by
    rw [hb5, List.range_eq_range']
    rfl
  clear hb5 g5
  subst hb5'
  obtain ⟨m7, t8, hb6⟩ := forEach_trace _ (nurbsOps X) (by intros; rfl)
    (fun i b b' hb => transferNurbs_trace X i b b' hb) _ _ _ _ g6
  have hb6' : b6 = cylinderLayout m7 m.fresh c.narcs.toNat
      ((List.range c.narcs.toNat).flatMap (nurbsOf F c)) := by rw [hb6]; rfl
  clear hb6 g6
  subst hb6'
  obtain ⟨m8, t9, hb7⟩ := forEach_trace _ paramOps (by intros; rfl)
    (fun i b b' hb => nurbsComposite_trace F i b b' hb) _ _ _ _ g7
  have hb7' : b7 = cylinderLayout m8 m.fresh c.narcs.toNat
      ((List.range c.narcs.toNat).flatMap (nurbsOf F c)) := by rw [hb7]; rfl
  clear hb7 g7
  subst hb7'
  obtain ⟨m9, t10, hb8⟩ := forEach_trace _ (curveOnSurfaceOps c.narcs.toNat)
    (by intros; rfl) (fun i b b' hb => setBound_trace F c i b b' hb) _ _ _ _ g8
  have hb8' : b8 = cylinderLayout m9 m.fresh c.narcs.toNat
      ((List.range c.narcs.toNat).flatMap (nurbsOf F c)) := by rw [hb8]; rfl
  clear hb8 g8
  subst hb8'
  obtain ⟨m10, t11, hb9⟩ := forEach_trace _ trimOps (by intros; rfl)
    (fun i b b' hb => setTrimmed_trace F i b b' hb) _ _ _ _ g9
  have e4 : (c.narcs * 4).toNat = 4 * c.narcs.toNat := by omega
  rw [e4] at t8
  rw [← List.range_eq_range'] at t8 t9 t10 t11
  rw [p0] at fT
  refine ⟨hpos, hn3, M1, m2, m3, m4, m5, m6, m7, m8, m9, fT, fA, fC, t2, t3, t4, t5, t6, t8,
    t9, t10, ?_, ?_⟩
  · rw [hb9]
    exact t11
  · rw [hb9]
    rfl

theorem classify_nCoeffs (X : Library) (e e1 : IGES_ENTITY_126) (ok : Bool)
    (h : e.classify X = some (ok, e1)) : e1.nCoeffs = e.nCoeffs := by
  unfold IGES_ENTITY_126.classify at h
  cases hp : e.hasUniquePlane X e.vnorm with
  | none => rw [hp] at h; cases h
  | some r =>
    obtain ⟨planar, nrm⟩ := r
    rw [hp] at h
    simp only at h
    split_ifs at h <;> cases h <;> rfl

theorem buildCurve_nCoeffs (X : Library) (e e1 : IGES_ENTITY_126) (ok : Bool)
    (h : e.buildCurve X = some (ok, e1)) : e1.nCoeffs = e.nCoeffs := by
  unfold IGES_ENTITY_126.buildCurve at h
  simp only at h
  split_ifs at h
  all_goals first | (cases h; done) | (cases h; rfl) |
    exact (classify_nCoeffs X _ _ _ h :)

theorem SetNURBSData_stores (X : Library) (e e' : IGES_ENTITY_126) (nCoeff order : Int)
    (ks cs : List ℚ)
    (h : e.SetNURBSData X nCoeff order (some ks) (some cs) false = some (true, e')) :
    e'.coeffs = some (cs.take (nCoeff * 3).toNat) ∧ e'.PROP3 = 1 ∧ e'.nCoeffs = nCoeff := by
  unfold IGES_ENTITY_126.SetNURBSData at h
  simp only at h
  by_cases h1 : order < 2
  · rw [if_pos h1] at h
    simp at h
  rw [if_neg h1] at h
  by_cases h2 : nCoeff < order
  · rw [if_pos h2] at h
    simp at h
  rw [if_neg h2] at h
  cases hk : copyArray ks (nCoeff + order).toNat 0 (List.replicate (nCoeff + order).toNat 0) with
  | none => rw [hk] at h; cases h
  | some kcopy =>
    rw [hk] at h
    simp only at h
    cases hc : copyArray cs (if false = true then nCoeff * 4 else nCoeff * 3).toNat 0
        (List.replicate (if false = true then nCoeff * 4 else nCoeff * 3).toNat 0) with
    | none => rw [hc] at h; cases h
    | some ccopy =>
      rw [hc] at h
      simp only at h
      have ec := copyArray_take _ _ _ hc
      obtain ⟨-, -, b3, b4⟩ := buildCurve_keeps h
      have b5 := buildCurve_nCoeffs X _ _ _ h
      refine ⟨?_, ?_, b5⟩
      · rw [b3]
        simp only [Option.some.injEq]
        rw [ec]
        simp
      · rw [b4]
        simp

theorem classify_scurve (X : Library) (e e1 : IGES_ENTITY_126) (ok : Bool)
    (h : e.classify X = some (ok, e1)) : e1.scurve = e.scurve := by
  unfold IGES_ENTITY_126.classify at h
  cases hp : e.hasUniquePlane X e.vnorm with
  | none => rw [hp] at h; cases h
  | some r =>
    obtain ⟨planar, nrm⟩ := r
    rw [hp] at h
    simp only at h
    split_ifs at h <;> cases h <;> rfl

theorem buildCurve_scurve (X : Library) (e e1 : IGES_ENTITY_126)
    (h : e.buildCurve X = some (true, e1)) : e1.scurve = true := by
  unfold IGES_ENTITY_126.buildCurve at h
  simp only at h
  split_ifs at h
  all_goals first | (cases h; done) |
    exact (classify_scurve X _ _ _ h :)

theorem SetNURBSData_scurve (X : Library) (e e' : IGES_ENTITY_126) (nCoeff order : Int)
    (knot coeff : Option (List ℚ)) (isRational : Bool)
    (h : e.SetNURBSData X nCoeff order knot coeff isRational = some (true, e')) :
    e'.scurve = true := by
  unfold IGES_ENTITY_126.SetNURBSData at h
  split at h
  · split at h
    · simp at h
    split at h
    · simp at h
    dsimp only at h
    split at h
    · contradiction
    split at h
    · contradiction
    exact buildCurve_scurve X _ _ h
  · simp at h

theorem ends_nurbs (X : Library) (e : IGES_ENTITY_126) (a b : MCAD_POINT)
    (hn : 2 ≤ e.nCoeffs) (hs : e.scurve = true)
    (ha : X.s1225 e.curve e.V0 = (a, 0)) (hb : X.s1225 e.curve e.V1 = (b, 0)) :
    (Entity.nurbs e).ends X = some (a, b) := by
  have hc : IGES_ENTITY_126.curve { e with scurve := true } = e.curve := rfl
  have hlt : ¬ e.nCoeffs < 2 := by omega
  simp only [Entity.ends, IGES_ENTITY_126.GetStartPoint, IGES_ENTITY_126.GetEndPoint,
    IGES_ENTITY_126.pointAt, hlt, hs, hc, ha, hb, if_false, Bool.not_true, Bool.false_and,
    Bool.false_eq_true, ne_eq, not_true_eq_false, false_and, Bool.and_self, if_true]

theorem GetStartPoint_setRefs (X : Library) (e : IGES_ENTITY_126) (r : List Nat)
    (pt : MCAD_POINT) :
    IGES_ENTITY_126.GetStartPoint X { e with refs := r } none pt true
      = ((e.GetStartPoint X none pt true).1, (e.GetStartPoint X none pt true).2.1,
          { (e.GetStartPoint X none pt true).2.2 with refs := r }) := by
  simp only [IGES_ENTITY_126.GetStartPoint, IGES_ENTITY_126.pointAt, IGES_ENTITY_126.curve]
  split_ifs <;> rfl

theorem GetEndPoint_setRefs (X : Library) (e : IGES_ENTITY_126) (r : List Nat)
    (pt : MCAD_POINT) :
    IGES_ENTITY_126.GetEndPoint X { e with refs := r } none pt true
      = ((e.GetEndPoint X none pt true).1, (e.GetEndPoint X none pt true).2.1,
          { (e.GetEndPoint X none pt true).2.2 with refs := r }) := by
  simp only [IGES_ENTITY_126.GetEndPoint, IGES_ENTITY_126.pointAt, IGES_ENTITY_126.curve]
  split_ifs <;> rfl

theorem ends_nurbs_setRefs (X : Library) (e : IGES_ENTITY_126) (r : List Nat) :
    (Entity.nurbs { e with refs := r }).ends X = (Entity.nurbs e).ends X := by
  simp only [Entity.ends]
  rw [GetStartPoint_setRefs]
  dsimp only
  rw [GetEndPoint_setRefs]

theorem ends_setRefs (X : Library) (e : Entity) (r : List Nat) :
    (e.setRefs r).ends X = e.ends X := by
  cases e <;> first | rfl | exact ends_nurbs_setRefs X _ r

theorem getD_map_div (l : List ℚ) (v : ℚ) (i : Nat) :
    (l.map (fun k => k / v)).getD i 0 = l.getD i 0 / v := by
  rw [List.getD_eq_getElem?_getD, List.getD_eq_getElem?_getD, List.getElem?_map]
  cases l[i]? <;> simp

theorem getD_take_lt (l : List ℚ) (n i : Nat) (h : i < n) :
    (l.take n).getD i 0 = l.getD i 0 := by
  rw [List.getD_eq_getElem?_getD, List.getD_eq_getElem?_getD, List.getElem?_take_of_lt h]

theorem chordLib_evaluatesSegments : Examples.chordLib.evaluatesSegments := by
  refine ⟨?_, ?_⟩
  · intro c hn ho
    show (c.knots.getD (c.order - 1).toNat 0, c.knots.getD c.n.toNat 0, (0 : Int)) = _
    rw [hn, ho]
    rfl
  · intro c a b hn ho hk hc hne
    have h0 : loadPoint c.coeffs 0 = some a := by rw [hc]; rfl
    have h3 : loadPoint c.coeffs 3 = some b := by rw [hc]; rfl
    have hd : c.knots.getD 2 0 - c.knots.getD 1 0 ≠ 0 := sub_ne_zero.mpr (Ne.symm hne)
    simp only [Examples.chordLib, h0, h3, Prod.mk.injEq, and_true]
    constructor
    · rw [sub_self, zero_div]
      simp [MCAD_POINT.sub, MCAD_POINT.smul]
    · rw [div_self hd]
      simp [MCAD_POINT.sub, MCAD_POINT.smul]

theorem nurbsSetter_ends (X : Library) (hX : X.evaluatesSegments) (cur : SISLCurve)
    (e e1 : Entity) (a0 a1 a2 b0 b1 b2 : ℚ) (hn : cur.n = 2) (ho : cur.order = 2)
    (hc : cur.coeffs = [a0, a1, a2, b0, b1, b2])
    (hnd : cur.knots.getD 1 0 ≠ cur.knots.getD 2 0)
    (h : nurbsSetter X (some cur) e = some e1) :
    e1.ends X = some (⟨a0, a1, a2⟩, ⟨b0, b1, b2⟩) ∧ e1.transformPtr = none := by
  obtain ⟨hR, hE⟩ := hX
  cases e <;> simp only [nurbsSetter] at h <;> try cases h
  rename_i e0
  cases hs : e0.SetNURBSData X cur.n cur.order (some cur.knots) (some cur.coeffs) false with
  | none => rw [hs] at h; cases h
  | some r =>
    obtain ⟨ok, e2⟩ := r
    rw [hs] at h
    cases ok with
    | false => cases h
    | true =>
      simp only [Option.some.injEq] at h
      subst h
      refine ⟨?_, rfl⟩
      obtain ⟨-, -, -, tM, -, tn, t3, -, -, -⟩ := SetNURBSData_true hs
      obtain ⟨n1, n2, n3, -, -, -, -⟩ := SetNURBSData_normalises X e0 e2 cur.n cur.order
        cur.knots cur.coeffs false hs
      have hsc := SetNURBSData_scurve X _ _ _ _ _ _ _ hs
      have hcc : copiedCurve cur.n cur.order cur.knots cur.coeffs false
          = { n := 2, order := 2, knots := cur.knots.take 4, coeffs := cur.coeffs.take 6,
              kind := 1 } := by
        unfold copiedCurve
        rw [hn, ho]
        rfl
      have hrange := hR (copiedCurve cur.n cur.order cur.knots cur.coeffs false)
        (by rw [hcc]) (by rw [hcc])
      have hk1 : (copiedCurve cur.n cur.order cur.knots cur.coeffs false).knots.getD 1 0
          = cur.knots.getD 1 0 := by
        rw [hcc]
        exact getD_take_lt _ 4 1 (by omega)
      have hk2 : (copiedCurve cur.n cur.order cur.knots cur.coeffs false).knots.getD 2 0
          = cur.knots.getD 2 0 := by
        rw [hcc]
        exact getD_take_lt _ 4 2 (by omega)
      rw [hk1, hk2] at hrange
      rw [hrange] at n1 n2
      simp only at n1 n2
      rw [hn, ho] at n1 n2
      have h4 : ((2 : Int) + 2).toNat = 4 := by decide
      rw [h4] at n1 n2
      rw [hn] at tn n3
      rw [ho] at tM
      have hcs : e2.coeffs = some [a0, a1, a2, b0, b1, b2] := by
        rw [n3, hc]
        rfl
      -- the stored range is the pair of inner knots of the stored curve, and it is a proper one
      have hkey : e2.V0 = (e2.knots.getD []).getD 1 0 ∧ e2.V1 = (e2.knots.getD []).getD 2 0 ∧
          e2.V0 ≠ e2.V1 := by
        by_cases hcase : cur.knots.getD 1 0 = 0 ∧ cur.knots.getD 2 0 ≠ 1
        · obtain ⟨q1, q2, q3⟩ := n1 hcase
          have hv : cur.knots.getD 2 0 ≠ 0 := by
            intro h0
            apply hnd
            rw [hcase.1, h0]
          rw [q1, q2, q3]
          simp only [Option.getD_some]
          rw [getD_map_div, getD_map_div, getD_take_lt _ 4 1 (by omega),
            getD_take_lt _ 4 2 (by omega), hcase.1, zero_div, div_self hv]
          exact ⟨rfl, rfl, by norm_num⟩
        · obtain ⟨q1, q2, q3⟩ := n2 hcase
          rw [q1, q2, q3]
          simp only [Option.getD_some]
          rw [getD_take_lt _ 4 1 (by omega), getD_take_lt _ 4 2 (by omega)]
          exact ⟨rfl, rfl, hnd⟩
      obtain ⟨kv0, kv1, kne⟩ := hkey
      have hcurve : e2.curve
          = { n := 2, order := 2, knots := e2.knots.getD [],
              coeffs := [a0, a1, a2, b0, b1, b2], kind := 1 } := by
        unfold IGES_ENTITY_126.curve
        rw [tn, tM, t3, hcs]
        rfl
      have hev := hE e2.curve ⟨a0, a1, a2⟩ ⟨b0, b1, b2⟩ (by rw [hcurve]) (by rw [hcurve])
        (by rw [hcurve]) (by rw [hcurve]) (by
          rw [hcurve]
          show (e2.knots.getD []).getD 1 0 ≠ (e2.knots.getD []).getD 2 0
          rw [← kv0, ← kv1]
          exact kne)
      have hk1' : e2.curve.knots.getD 1 0 = e2.V0 := by rw [hcurve]; exact kv0.symm
      have hk2' : e2.curve.knots.getD 2 0 = e2.V1 := by rw [hcurve]; exact kv1.symm
      rw [hk1', hk2'] at hev
      exact ends_nurbs X e2 _ _ (by omega) hsc hev.1 hev.2

theorem transformPtr_setRefs (e : Entity) (r : List Nat) :
    (e.setRefs r).transformPtr = e.transformPtr := by
  cases e <;> rfl

theorem members_setRefs (e : Entity) (r : List Nat) : (e.setRefs r).members = e.members := by
  cases e <;> rfl

theorem boundaries_setRefs (e : Entity) (r : List Nat) :
    (e.setRefs r).boundaries = e.boundaries := by
  cases e <;> rfl

theorem outer_setRefs (e : Entity) (r : List Nat) : (e.setRefs r).outer = e.outer := by
  cases e <;> rfl

theorem setLine_ends (X : Library) (x1 y1 z1 x2 y2 z2 : ℚ) (e e1 : Entity)
    (h : setLine x1 y1 z1 x2 y2 z2 e = some e1) :
    e1.ends X = some (⟨x1, y1, z1⟩, ⟨x2, y2, z2⟩) ∧ e1.transformPtr = none := by
  cases e <;> simp [setLine] at h
  subst h
  exact ⟨rfl, rfl⟩

theorem setArc_ends (X : Library) (z xc yc xs ys xe ye : ℚ) (e e1 : Entity)
    (h : setArc z xc yc xs ys xe ye e = some e1) :
    e1.ends X = some (⟨xs, ys, z⟩, ⟨xe, ye, z⟩) ∧ e1.transformPtr = e.transformPtr := by
  cases e <;> simp [setArc] at h
  subst h
  exact ⟨rfl, rfl⟩

theorem setTransform_ends (X : Library) (c : Nat) (e e1 : Entity)
    (h : setTransform c e = some e1) :
    e1.ends X = e.ends X ∧ e1.transformPtr = some c := by
  cases e <;> simp [setTransform] at h
  subst h
  exact ⟨rfl, rfl⟩

theorem pushCurve_members (c : Nat) (e e1 : Entity) (l : List Nat)
    (h : pushCurve c e = some e1) (hl : e.members = some l) :
    e1.members = some (l ++ [c]) := by
  cases e <;> simp [pushCurve] at h
  subst h
  simp only [Entity.members, Option.some.injEq] at hl ⊢
  rw [hl]

theorem build_run (F : CylinderCalls) (X : Library) (c : IGES_GEOM_CYLINDER)
    (top bot : ℚ) (m : Model) (bF : Build) (hwf : m.wellFormed) (h0 : c.narcs ≠ 0)
    (h : c.build F X top bot
      { model := m, iline := [], isurf := none, icurve := [], iarc := [], icc := [],
        ibound := [], itps := [], itrans := [], inurbs := [] } = some (true, bF)) :
    0 < c.narcs ∧ c.narcs.toNat ≤ 3 ∧
    Nonempty (CylinderRun F X c top bot m.fresh c.narcs.toNat bF.model) ∧
    bF.itps = List.range' (m.fresh + (12 * c.narcs.toNat + 3)) c.narcs.toNat := by
  obtain ⟨hpos, hle, M1, m2, m3, m4, m5, m6, m7, m8, m9, a1, a2, a3, t1, t2, t3, t4, t5, t6,
    t7, t8, t9, hitps⟩ := build_trace F X c top bot m bF hwf h0 h
  exact ⟨hpos, hle, ⟨⟨M1, m2, m3, m4, m5, m6, m7, m8, m9, a1, a2, a3, t1, t2, t3, t4, t5, t6,
    t7, t8, t9⟩⟩, hitps⟩

theorem keep_m9 {F : CylinderCalls} {X : Library} {c : IGES_GEOM_CYLINDER}
    {top bot : ℚ} {f n : Nat} {mF : Model} (R : CylinderRun F X c top bot f n mF)
    (x : Nat) (Q : Entity → Prop) (hrefs : ∀ e r, Q e → Q (e.setRefs r))
    (hx : R.m9.has x Q)
    (hz : (x < f + (12 * n + 3) ∨ f + (13 * n + 3) ≤ x)) : mF.has x Q :=
  trims_frame _ f n _ _ _ x Q hrefs R.trims hx hz

theorem keep_m8 {F : CylinderCalls} {X : Library} {c : IGES_GEOM_CYLINDER}
    {top bot : ℚ} {f n : Nat} {mF : Model} (R : CylinderRun F X c top bot f n mF)
    (x : Nat) (Q : Entity → Prop) (hrefs : ∀ e r, Q e → Q (e.setRefs r))
    (hx : R.m8.has x Q)
    (hz : (x < f + (11 * n + 3) ∨ f + (12 * n + 3) ≤ x) ∧
      (x < f + (12 * n + 3) ∨ f + (13 * n + 3) ≤ x)) : mF.has x Q :=
  keep_m9 R x Q hrefs (curvesOnSurface_frame _ f n _ _ _ x Q hrefs R.curves hx hz.1) hz.2

theorem keep_m7 {F : CylinderCalls} {X : Library} {c : IGES_GEOM_CYLINDER}
    {top bot : ℚ} {f n : Nat} {mF : Model} (R : CylinderRun F X c top bot f n mF)
    (x : Nat) (Q : Entity → Prop) (hrefs : ∀ e r, Q e → Q (e.setRefs r))
    (hx : R.m7.has x Q)
    (hz : (x < f + (9 * n + 3) ∨ f + (10 * n + 3) ≤ x) ∧
      (x < f + (11 * n + 3) ∨ f + (12 * n + 3) ≤ x) ∧
      (x < f + (12 * n + 3) ∨ f + (13 * n + 3) ≤ x)) : mF.has x Q :=
  keep_m8 R x Q hrefs (params_frame _ f n _ _ _ x Q hrefs R.params hx hz.1) hz.2

theorem keep_m6 {F : CylinderCalls} {X : Library} {c : IGES_GEOM_CYLINDER}
    {top bot : ℚ} {f n : Nat} {mF : Model} (R : CylinderRun F X c top bot f n mF)
    (x : Nat) (Q : Entity → Prop) (hrefs : ∀ e r, Q e → Q (e.setRefs r))
    (hx : R.m6.has x Q)
    (hz : (x < f + (3 * n + 3) ∨ f + (7 * n + 3) ≤ x) ∧
      (x < f + (9 * n + 3) ∨ f + (10 * n + 3) ≤ x) ∧
      (x < f + (11 * n + 3) ∨ f + (12 * n + 3) ≤ x) ∧
      (x < f + (12 * n + 3) ∨ f + (13 * n + 3) ≤ x)) : mF.has x Q :=
  keep_m7 R x Q hrefs (nurbs_frame X _ f n _ _ _ x Q hrefs R.nurbs hx hz.1) hz.2

theorem keep_m5 {F : CylinderCalls} {X : Library} {c : IGES_GEOM_CYLINDER}
    {top bot : ℚ} {f n : Nat} {mF : Model} (R : CylinderRun F X c top bot f n mF)
    (x : Nat) (Q : Entity → Prop) (hrefs : ∀ e r, Q e → Q (e.setRefs r))
    (hx : R.m5.has x Q)
    (hz : (x < f + (10 * n + 3) ∨ f + (11 * n + 3) ≤ x) ∧
      (x < f + (3 * n + 3) ∨ f + (7 * n + 3) ≤ x) ∧
      (x < f + (9 * n + 3) ∨ f + (10 * n + 3) ≤ x) ∧
      (x < f + (11 * n + 3) ∨ f + (12 * n + 3) ≤ x) ∧
      (x < f + (12 * n + 3) ∨ f + (13 * n + 3) ≤ x)) : mF.has x Q :=
  keep_m6 R x Q hrefs (bounds_frame _ f n _ _ _ x Q hrefs R.bounds hx hz.1) hz.2

theorem keep_m4 {F : CylinderCalls} {X : Library} {c : IGES_GEOM_CYLINDER}
    {top bot : ℚ} {f n : Nat} {mF : Model} (R : CylinderRun F X c top bot f n mF)
    (hT : ∀ i, F.SetTransform i = true)
    (x : Nat) (Q : Entity → Prop) (hrefs : ∀ e r, Q e → Q (e.setRefs r))
    (hx : R.m4.has x Q)
    (hz : (x < f + (7 * n + 3) ∨ f + (9 * n + 3) ≤ x) ∧
      (x < f + (10 * n + 3) ∨ f + (11 * n + 3) ≤ x) ∧
      (x < f + (3 * n + 3) ∨ f + (7 * n + 3) ≤ x) ∧
      (x < f + (9 * n + 3) ∨ f + (10 * n + 3) ≤ x) ∧
      (x < f + (11 * n + 3) ∨ f + (12 * n + 3) ≤ x) ∧
      (x < f + (12 * n + 3) ∨ f + (13 * n + 3) ≤ x)) : mF.has x Q :=
  keep_m5 R x Q hrefs (arcs_frame F hT c top bot _ f n _ _ _ x Q hrefs R.arcs hx hz.1) hz.2

theorem keep_m3 {F : CylinderCalls} {X : Library} {c : IGES_GEOM_CYLINDER}
    {top bot : ℚ} {f n : Nat} {mF : Model} (R : CylinderRun F X c top bot f n mF)
    (hT : ∀ i, F.SetTransform i = true)
    (x : Nat) (Q : Entity → Prop) (hrefs : ∀ e r, Q e → Q (e.setRefs r))
    (hx : R.m3.has x Q)
    (hz : (x < f + 2 ∨ f + (2 * n + 2) ≤ x) ∧
      (x < f + (7 * n + 3) ∨ f + (9 * n + 3) ≤ x) ∧
      (x < f + (10 * n + 3) ∨ f + (11 * n + 3) ≤ x) ∧
      (x < f + (3 * n + 3) ∨ f + (7 * n + 3) ≤ x) ∧
      (x < f + (9 * n + 3) ∨ f + (10 * n + 3) ≤ x) ∧
      (x < f + (11 * n + 3) ∨ f + (12 * n + 3) ≤ x) ∧
      (x < f + (12 * n + 3) ∨ f + (13 * n + 3) ≤ x)) : mF.has x Q :=
  keep_m4 R hT x Q hrefs (lines_frame c top bot _ f n _ _ _ x Q hrefs R.lines hx hz.1) hz.2

theorem keep_m2 {F : CylinderCalls} {X : Library} {c : IGES_GEOM_CYLINDER}
    {top bot : ℚ} {f n : Nat} {mF : Model} (R : CylinderRun F X c top bot f n mF)
    (hT : ∀ i, F.SetTransform i = true)
    (x : Nat) (Q : Entity → Prop) (hrefs : ∀ e r, Q e → Q (e.setRefs r))
    (hx : R.m2.has x Q)
    (hz : (x ≠ f + (2 * n + 2)) ∧
      (x < f + 2 ∨ f + (2 * n + 2) ≤ x) ∧
      (x < f + (7 * n + 3) ∨ f + (9 * n + 3) ≤ x) ∧
      (x < f + (10 * n + 3) ∨ f + (11 * n + 3) ≤ x) ∧
      (x < f + (3 * n + 3) ∨ f + (7 * n + 3) ≤ x) ∧
      (x < f + (9 * n + 3) ∨ f + (10 * n + 3) ≤ x) ∧
      (x < f + (11 * n + 3) ∨ f + (12 * n + 3) ≤ x) ∧
      (x < f + (12 * n + 3) ∨ f + (13 * n + 3) ≤ x)) : mF.has x Q :=
  keep_m3 R hT x Q hrefs (surface_frame _ (f + (2 * n + 2)) rfl _ _ x Q hrefs R.surface hx hz.1) hz.2

theorem keep_M1 {F : CylinderCalls} {X : Library} {c : IGES_GEOM_CYLINDER}
    {top bot : ℚ} {f n : Nat} {mF : Model} (R : CylinderRun F X c top bot f n mF)
    (hT : ∀ i, F.SetTransform i = true)
    (x : Nat) (Q : Entity → Prop) (hrefs : ∀ e r, Q e → Q (e.setRefs r))
    (hx : R.M1.has x Q)
    (hz : (f + 2 ≤ x ∧ x ≠ f + (2 * n + 2)) ∧
      (x ≠ f + (2 * n + 2)) ∧
      (x < f + 2 ∨ f + (2 * n + 2) ≤ x) ∧
      (x < f + (7 * n + 3) ∨ f + (9 * n + 3) ≤ x) ∧
      (x < f + (10 * n + 3) ∨ f + (11 * n + 3) ≤ x) ∧
      (x < f + (3 * n + 3) ∨ f + (7 * n + 3) ≤ x) ∧
      (x < f + (9 * n + 3) ∨ f + (10 * n + 3) ≤ x) ∧
      (x < f + (11 * n + 3) ∨ f + (12 * n + 3) ≤ x) ∧
      (x < f + (12 * n + 3) ∨ f + (13 * n + 3) ≤ x)) : mF.has x Q :=
  keep_m2 R hT x Q hrefs (axis_frame c top bot _ f n _ _ _ x Q hrefs R.axis hx hz.1) hz.2
theorem reach_m3 {F : CylinderCalls} {X : Library} {c : IGES_GEOM_CYLINDER}
    {top bot : ℚ} {f n : Nat} {mF : Model} (R : CylinderRun F X c top bot f n mF)
    (x : Nat) (Q : Entity → Prop) (hrefs : ∀ e r, Q e → Q (e.setRefs r))
    (hx : R.M1.has x Q) (hz : f + (2 * n + 3) ≤ x) : R.m3.has x Q :=
  surface_frame _ (f + (2 * n + 2)) rfl _ _ x Q hrefs R.surface
    (axis_frame c top bot _ f n _ _ _ x Q hrefs R.axis hx ⟨by omega, by omega⟩) (by omega)

theorem reach_m4 {F : CylinderCalls} {X : Library} {c : IGES_GEOM_CYLINDER}
    {top bot : ℚ} {f n : Nat} {mF : Model} (R : CylinderRun F X c top bot f n mF)
    (x : Nat) (Q : Entity → Prop) (hrefs : ∀ e r, Q e → Q (e.setRefs r))
    (hx : R.M1.has x Q) (hz : f + (2 * n + 3) ≤ x) : R.m4.has x Q :=
  lines_frame c top bot _ f n _ _ _ x Q hrefs R.lines (reach_m3 R x Q hrefs hx hz)
    (Or.inr (by omega))

theorem reach_m5 {F : CylinderCalls} {X : Library} {c : IGES_GEOM_CYLINDER}
    {top bot : ℚ} {f n : Nat} {mF : Model} (R : CylinderRun F X c top bot f n mF)
    (hT : ∀ i, F.SetTransform i = true)
    (x : Nat) (Q : Entity → Prop) (hrefs : ∀ e r, Q e → Q (e.setRefs r))
    (hx : R.M1.has x Q) (hz : f + (9 * n + 3) ≤ x) : R.m5.has x Q :=
  arcs_frame F hT c top bot _ f n _ _ _ x Q hrefs R.arcs
    (reach_m4 R x Q hrefs hx (by omega)) (Or.inr hz)

theorem reach_m7 {F : CylinderCalls} {X : Library} {c : IGES_GEOM_CYLINDER}
    {top bot : ℚ} {f n : Nat} {mF : Model} (R : CylinderRun F X c top bot f n mF)
    (hT : ∀ i, F.SetTransform i = true)
    (x : Nat) (Q : Entity → Prop) (hrefs : ∀ e r, Q e → Q (e.setRefs r))
    (hx : R.M1.has x Q) (hz : f + (9 * n + 3) ≤ x ∧ x < f + (10 * n + 3)) : R.m7.has x Q :=
  nurbs_frame X _ f n _ _ _ x Q hrefs R.nurbs
    (bounds_frame _ f n _ _ _ x Q hrefs R.bounds (reach_m5 R hT x Q hrefs hx hz.1)
      (Or.inl hz.2)) (Or.inr (by omega))

theorem part_sets (f : Nat → List Op) (n i : Nat) (hi : i < n) (m m' : Model) (x : Nat)
    (Q : Entity → Prop) (hrefs : ∀ e r, Q e → Q (e.setRefs r))
    (h : runOps ((List.range n).flatMap f) m = some m')
    (hother : ∀ j, j < n → i < j → ∀ op ∈ f j, op.target ≠ some x)
    (hest : ∀ m1 m2, runOps (f i) m1 = some m2 → m2.has x Q) :
    m'.has x Q := by
  obtain ⟨m1, m2, -, h2, h3⟩ := runOps_part f n i hi m m' h
  refine runOps_avoid _ x Q hrefs m2 m' h3 (hest m1 m2 h2) ?_
  intro op hop
  obtain ⟨j, hj, hop⟩ := List.mem_flatMap.mp hop
  rw [List.mem_range'_1] at hj
  exact hother j (by omega) (by omega) op hop

theorem flatMap_four {α : Type} (g : Nat → List α) (hg : ∀ j, (g j).length = 4) :
    ∀ (n i k : Nat), i < n → k < 4 →
      ((List.range n).flatMap g)[i * 4 + k]? = (g i)[k]? := by
  have hlen : ∀ n, ((List.range n).flatMap g).length = 4 * n := by
    intro n
    induction n with
    | zero => rfl
    | succ n ih =>
      rw [List.range_succ, List.flatMap_append, List.length_append, ih]
      simp only [List.flatMap_cons, List.flatMap_nil, List.append_nil, hg]
      omega
  intro n
  induction n with
  | zero => intro i k hi; omega
  | succ n ih =>
    intro i k hi hk
    rw [List.range_succ, List.flatMap_append]
    by_cases hin : i < n
    · rw [List.getElem?_append_left (by rw [hlen]; omega)]
      exact ih i k hin hk
    · have hi' : i = n := by omega
      subst hi'
      rw [List.getElem?_append_right (by rw [hlen]; omega), hlen]
      simp only [List.flatMap_cons, List.flatMap_nil, List.append_nil]
      congr 1
      omega

theorem closedChain_fourSides (a b c d : MCAD_POINT) :
    closedChain (fourSides a b c d) := by
  unfold fourSides
  refine ⟨by simp, ?_⟩
  intro k hk
  simp only [List.length_cons, List.length_nil] at hk
  have hk4 : k < 4 := by omega
  interval_cases k <;> simp

theorem placed_setRefs (X : Library) (se : MCAD_POINT × MCAD_POINT) (tp : Option Nat) :
    ∀ (e : Entity) (r : List Nat), (e.ends X = some se ∧ e.transformPtr = tp) →
      ((e.setRefs r).ends X = some se ∧ (e.setRefs r).transformPtr = tp) := by
  intro e r h
  rw [ends_setRefs X, transformPtr_setRefs]
  exact h

theorem listed_setRefs (l : List Nat) :
    ∀ (e : Entity) (r : List Nat), e.members = some l → (e.setRefs r).members = some l := by
  intro e r h
  rw [members_setRefs]
  exact h

theorem run_matrix {F : CylinderCalls} {X : Library} {c : IGES_GEOM_CYLINDER}
    {top bot : ℚ} {f n : Nat} {mF : Model} (R : CylinderRun F X c top bot f n mF)
    (hT : ∀ i, F.SetTransform i = true) (i : Nat) (hi : i < n) :
    mF.has (f + (2 * n + 3) + i)
      (fun e => ∃ t, e = .transform t ∧ t.T = bottomTransform (c.pt 0).x bot) := by
  refine keep_M1 R hT _ _ ?_ ⟨_, R.matrices i hi, _, rfl, rfl⟩ (by omega)
  rintro e r ⟨t, rfl, hB⟩
  exact ⟨_, rfl, hB⟩

theorem run_lineDown {F : CylinderCalls} {X : Library} {c : IGES_GEOM_CYLINDER}
    {top bot : ℚ} {f n : Nat} {mF : Model} (R : CylinderRun F X c top bot f n mF)
    (hT : ∀ i, F.SetTransform i = true) (i : Nat) (hi : i < n) :
    mF.has (f + (2 * i + 2))
      (fun e => e.ends X = some (⟨(c.pt (i + 2)).x, (c.pt (i + 2)).y, top⟩,
          ⟨(c.pt (i + 2)).x, (c.pt (i + 2)).y, bot⟩) ∧ e.transformPtr = none) := by
  have hrefs := placed_setRefs X (⟨(c.pt (i + 2)).x, (c.pt (i + 2)).y, top⟩,
    ⟨(c.pt (i + 2)).x, (c.pt (i + 2)).y, bot⟩) none
  refine keep_m4 R hT _ _ hrefs ?_ (by omega)
  refine part_sets _ n i hi _ _ _ _ hrefs R.lines ?_ ?_
  · intro j hj hij op hop
    rw [lineOps_layout _ _ _ _ _ _ _ j hj] at hop
    simp only [List.mem_cons, List.mem_singleton, List.not_mem_nil, or_false] at hop
    rcases hop with rfl | rfl <;>
      simp only [Op.write, ne_eq, Option.some.injEq] <;> omega
  · intro m1 m2 hrun
    rw [lineOps_layout _ _ _ _ _ _ _ i hi] at hrun
    obtain ⟨ma, ha, hrun⟩ := runOps_cons _ _ _ _ hrun
    obtain ⟨mb, hb, hrun⟩ := runOps_cons _ _ _ _ hrun
    obtain rfl := runOps_nil _ _ hrun
    refine step_keeps _ _ _ _ _ hrefs hb
      (by simp only [Op.write, ne_eq, Option.some.injEq]; omega) ?_
    exact write_sets _ _ _ _ _ hrefs ha (fun e e1 he => setLine_ends X _ _ _ _ _ _ e e1 he)

theorem run_lineUp {F : CylinderCalls} {X : Library} {c : IGES_GEOM_CYLINDER}
    {top bot : ℚ} {f n : Nat} {mF : Model} (R : CylinderRun F X c top bot f n mF)
    (hT : ∀ i, F.SetTransform i = true) (i : Nat) (hi : i < n) :
    mF.has (f + (2 * i + 3))
      (fun e => e.ends X = some (⟨(c.pt (i + 1)).x, (c.pt (i + 1)).y, bot⟩,
          ⟨(c.pt (i + 1)).x, (c.pt (i + 1)).y, top⟩) ∧ e.transformPtr = none) := by
  have hrefs := placed_setRefs X (⟨(c.pt (i + 1)).x, (c.pt (i + 1)).y, bot⟩,
    ⟨(c.pt (i + 1)).x, (c.pt (i + 1)).y, top⟩) none
  refine keep_m4 R hT _ _ hrefs ?_ (by omega)
  refine part_sets _ n i hi _ _ _ _ hrefs R.lines ?_ ?_
  · intro j hj hij op hop
    rw [lineOps_layout _ _ _ _ _ _ _ j hj] at hop
    simp only [List.mem_cons, List.mem_singleton, List.not_mem_nil, or_false] at hop
    rcases hop with rfl | rfl <;>
      simp only [Op.write, ne_eq, Option.some.injEq] <;> omega
  · intro m1 m2 hrun
    rw [lineOps_layout _ _ _ _ _ _ _ i hi] at hrun
    obtain ⟨ma, ha, hrun⟩ := runOps_cons _ _ _ _ hrun
    obtain ⟨mb, hb, hrun⟩ := runOps_cons _ _ _ _ hrun
    obtain rfl := runOps_nil _ _ hrun
    exact write_sets _ _ _ _ _ hrefs hb (fun e e1 he => setLine_ends X _ _ _ _ _ _ e e1 he)
theorem run_topArc {F : CylinderCalls} {X : Library} {c : IGES_GEOM_CYLINDER}
    {top bot : ℚ} {f n : Nat} {mF : Model} (R : CylinderRun F X c top bot f n mF)
    (hT : ∀ i, F.SetTransform i = true) (i : Nat) (hi : i < n) :
    mF.has (f + (7 * n + 3) + 2 * i)
      (fun e => e.ends X = some (⟨(c.pt (i + 1)).x, (c.pt (i + 1)).y, top⟩,
          ⟨(c.pt (i + 2)).x, (c.pt (i + 2)).y, top⟩) ∧ e.transformPtr = none) := by
  have hrefs := placed_setRefs X (⟨(c.pt (i + 1)).x, (c.pt (i + 1)).y, top⟩,
    ⟨(c.pt (i + 2)).x, (c.pt (i + 2)).y, top⟩) none
  have hrefs0 : ∀ (e : Entity) (r : List Nat), e.transformPtr = none →
      (e.setRefs r).transformPtr = none := by
    intro e r h
    rw [transformPtr_setRefs]
    exact h
  have h4 : R.m4.has (f + (7 * n + 3) + 2 * i) (fun e => e.transformPtr = none) := by
    obtain ⟨e, hf, hp⟩ := R.newArcs (2 * i) (by omega)
    exact reach_m4 R _ _ hrefs0 ⟨_, hf, hp⟩ (by omega)
  refine keep_m5 R _ _ hrefs ?_ (by omega)
  refine part_has _ n i hi _ _ _ _ _ hrefs0 hrefs R.arcs h4 ?_ ?_
  · intro j hj hij op hop
    rw [arcOps_layout F hT _ _ _ _ _ _ _ j hj] at hop
    simp only [List.mem_cons, List.mem_singleton, List.not_mem_nil, or_false] at hop
    rcases hop with rfl | rfl | rfl <;>
      simp only [Op.write, Op.link, ne_eq, Option.some.injEq] <;> omega
  · intro m1 m2 hrun h1
    rw [arcOps_layout F hT _ _ _ _ _ _ _ i hi] at hrun
    obtain ⟨ma, ha, hrun⟩ := runOps_cons _ _ _ _ hrun
    obtain ⟨mb, hb, hrun⟩ := runOps_cons _ _ _ _ hrun
    obtain ⟨mc, hc, hrun⟩ := runOps_cons _ _ _ _ hrun
    obtain rfl := runOps_nil _ _ hrun
    refine step_keeps _ _ _ _ _ hrefs hc
      (by simp only [Op.link, ne_eq, Option.some.injEq]; omega) ?_
    refine step_keeps _ _ _ _ _ hrefs hb
      (by simp only [Op.write, ne_eq, Option.some.injEq]; omega) ?_
    refine write_has _ _ _ _ _ _ hrefs ha h1 ?_
    intro e e1 h0 he
    obtain ⟨q1, q2⟩ := setArc_ends X _ _ _ _ _ _ _ e e1 he
    exact ⟨q1, q2.trans h0⟩

theorem run_bottomArc {F : CylinderCalls} {X : Library} {c : IGES_GEOM_CYLINDER}
    {top bot : ℚ} {f n : Nat} {mF : Model} (R : CylinderRun F X c top bot f n mF)
    (hT : ∀ i, F.SetTransform i = true) (i : Nat) (hi : i < n) :
    mF.has (f + (7 * n + 3) + (2 * i + 1))
      (fun e => e.ends X = some (⟨(c.pt 0).x - (c.pt (i + 2)).x, (c.pt (i + 2)).y, bot⟩,
          ⟨(c.pt 0).x - (c.pt (i + 1)).x, (c.pt (i + 1)).y, bot⟩) ∧
        e.transformPtr = some (f + (2 * n + 3) + i)) := by
  have hrefs := placed_setRefs X (⟨(c.pt 0).x - (c.pt (i + 2)).x, (c.pt (i + 2)).y, bot⟩,
    ⟨(c.pt 0).x - (c.pt (i + 1)).x, (c.pt (i + 1)).y, bot⟩) (some (f + (2 * n + 3) + i))
  have hrefs1 : ∀ (e : Entity) (r : List Nat),
      e.ends X = some (⟨(c.pt 0).x - (c.pt (i + 2)).x, (c.pt (i + 2)).y, bot⟩,
          ⟨(c.pt 0).x - (c.pt (i + 1)).x, (c.pt (i + 1)).y, bot⟩) →
      (e.setRefs r).ends X = some (⟨(c.pt 0).x - (c.pt (i + 2)).x, (c.pt (i + 2)).y, bot⟩,
          ⟨(c.pt 0).x - (c.pt (i + 1)).x, (c.pt (i + 1)).y, bot⟩) := by
    intro e r h
    rw [ends_setRefs X]
    exact h
  refine keep_m5 R _ _ hrefs ?_ (by omega)
  refine part_sets _ n i hi _ _ _ _ hrefs R.arcs ?_ ?_
  · intro j hj hij op hop
    rw [arcOps_layout F hT _ _ _ _ _ _ _ j hj] at hop
    simp only [List.mem_cons, List.mem_singleton, List.not_mem_nil, or_false] at hop
    rcases hop with rfl | rfl | rfl <;>
      simp only [Op.write, Op.link, ne_eq, Option.some.injEq] <;> omega
  · intro m1 m2 hrun
    rw [arcOps_layout F hT _ _ _ _ _ _ _ i hi] at hrun
    obtain ⟨ma, ha, hrun⟩ := runOps_cons _ _ _ _ hrun
    obtain ⟨mb, hb, hrun⟩ := runOps_cons _ _ _ _ hrun
    obtain ⟨mc, hc, hrun⟩ := runOps_cons _ _ _ _ hrun
    obtain rfl := runOps_nil _ _ hrun
    have qb : mb.has (f + (7 * n + 3) + (2 * i + 1))
        (fun e => e.ends X = some (⟨(c.pt 0).x - (c.pt (i + 2)).x, (c.pt (i + 2)).y, bot⟩,
          ⟨(c.pt 0).x - (c.pt (i + 1)).x, (c.pt (i + 1)).y, bot⟩)) :=
      write_sets _ _ _ _ _ hrefs1 hb (fun e e1 he => (setArc_ends X _ _ _ _ _ _ _ e e1 he).1)
    refine link_has _ _ _ _ _ _ _ hrefs hc qb ?_
    intro e e1 h0 he
    obtain ⟨q1, q2⟩ := setTransform_ends X _ e e1 he
    exact ⟨q1.trans h0, q2⟩

theorem four_links (x a b c d : Nat) (m0 m4 : Model)
    (h : runOps [Op.link (some x) (some a) pushCurve, Op.link (some x) (some b) pushCurve,
      Op.link (some x) (some c) pushCurve, Op.link (some x) (some d) pushCurve] m0 = some m4)
    (h0 : m0.has x (fun e => e.members = some [])) :
    m4.has x (fun e => e.members = some [a, b, c, d]) := by
  obtain ⟨m1, h1, h⟩ := runOps_cons _ _ _ _ h
  obtain ⟨m2, h2, h⟩ := runOps_cons _ _ _ _ h
  obtain ⟨m3, h3, h⟩ := runOps_cons _ _ _ _ h
  obtain ⟨m5, h5, h⟩ := runOps_cons _ _ _ _ h
  obtain rfl := runOps_nil _ _ h
  have q1 : m1.has x (fun e => e.members = some [a]) :=
    link_has _ _ _ _ _ _ _ (listed_setRefs _) h1 h0
      (fun e e1 hl he => pushCurve_members _ e e1 _ he hl)
  have q2 : m2.has x (fun e => e.members = some [a, b]) :=
    link_has _ _ _ _ _ _ _ (listed_setRefs _) h2 q1
      (fun e e1 hl he => pushCurve_members _ e e1 _ he hl)
  have q3 : m3.has x (fun e => e.members = some [a, b, c]) :=
    link_has _ _ _ _ _ _ _ (listed_setRefs _) h3 q2
      (fun e e1 hl he => pushCurve_members _ e e1 _ he hl)
  exact link_has _ _ _ _ _ _ _ (listed_setRefs _) h5 q3
    (fun e e1 hl he => pushCurve_members _ e e1 _ he hl)

theorem run_geometric {F : CylinderCalls} {X : Library} {c : IGES_GEOM_CYLINDER}
    {top bot : ℚ} {f n : Nat} {mF : Model} (R : CylinderRun F X c top bot f n mF)
    (hT : ∀ i, F.SetTransform i = true) (i : Nat) (hi : i < n) :
    mF.has (f + (10 * n + 3) + i)
      (fun e => e.members = some [f + (7 * n + 3) + 2 * i, f + (2 * i + 2),
        f + (7 * n + 3) + (2 * i + 1), f + (2 * i + 3)]) := by
  have h5 : R.m5.has (f + (10 * n + 3) + i) (fun e => e.members = some []) := by
    obtain ⟨e, hf, hp⟩ := R.newComposites (n + i) (by omega)
    have hptr : f + (9 * n + 3) + (n + i) = f + (10 * n + 3) + i := by omega
    rw [hptr] at hf
    refine reach_m5 R hT _ _ (listed_setRefs _) ⟨_, hf, ?_⟩ (by omega)
    show some e.curves = some []
    rw [hp]
  refine keep_m6 R _ _ (listed_setRefs _) ?_ (by omega)
  refine part_has _ n i hi _ _ _ _ _ (listed_setRefs _) (listed_setRefs _) R.bounds h5 ?_ ?_
  · intro j hj hij op hop
    rw [boundOps_layout _ _ _ _ j hj] at hop
    simp only [List.mem_cons, List.mem_singleton, List.not_mem_nil, or_false] at hop
    rcases hop with rfl | rfl | rfl | rfl <;>
      simp only [Op.link, ne_eq, Option.some.injEq] <;> omega
  · intro m1 m2 hrun h1
    rw [boundOps_layout _ _ _ _ i hi] at hrun
    exact four_links _ _ _ _ _ _ _ hrun h1

theorem run_parametric {F : CylinderCalls} {X : Library} {c : IGES_GEOM_CYLINDER}
    {top bot : ℚ} {f n : Nat} {mF : Model} (R : CylinderRun F X c top bot f n mF)
    (hT : ∀ i, F.SetTransform i = true) (i : Nat) (hi : i < n) :
    mF.has (f + (9 * n + 3) + i)
      (fun e => e.members = some [f + (3 * n + 3) + i * 4, f + (3 * n + 3) + (i * 4 + 1),
        f + (3 * n + 3) + (i * 4 + 2), f + (3 * n + 3) + (i * 4 + 3)]) := by
  have h7 : R.m7.has (f + (9 * n + 3) + i) (fun e => e.members = some []) := by
    obtain ⟨e, hf, hp⟩ := R.newComposites i (by omega)
    refine reach_m7 R hT _ _ (listed_setRefs _) ⟨_, hf, ?_⟩ ⟨by omega, by omega⟩
    show some e.curves = some []
    rw [hp]
  refine keep_m8 R _ _ (listed_setRefs _) ?_ (by omega)
  refine part_has _ n i hi _ _ _ _ _ (listed_setRefs _) (listed_setRefs _) R.params h7 ?_ ?_
  · intro j hj hij op hop
    rw [paramOps_layout _ _ _ _ j hj] at hop
    simp only [List.mem_cons, List.mem_singleton, List.not_mem_nil, or_false] at hop
    rcases hop with rfl | rfl | rfl | rfl <;>
      simp only [Op.link, ne_eq, Option.some.injEq] <;> omega
  · intro m1 m2 hrun h1
    rw [paramOps_layout _ _ _ _ i hi] at hrun
    exact four_links _ _ _ _ _ _ _ hrun h1
theorem run_nurbs {F : CylinderCalls} {X : Library} {c : IGES_GEOM_CYLINDER}
    {top bot : ℚ} {f n : Nat} {mF : Model} (R : CylinderRun F X c top bot f n mF)
    (hX : X.evaluatesSegments)
    (hS : ∀ p0 p1 cur, (F.s1602 p0 p1 2 3 0).1 = some cur →
      cur.n = 2 ∧ cur.order = 2 ∧ cur.coeffs = p0 ++ p1 ∧
      cur.knots.getD 1 0 ≠ cur.knots.getD 2 0)
    (i : Nat) (hi : i < n) (k : Nat) (hk : k < 4) (a0 a1 a2 b0 b1 b2 : ℚ)
    (hcur : (nurbsOf F c i)[k]? = some (F.s1602 [a0, a1, a2] [b0, b1, b2] 2 3 0).1) :
    mF.has (f + (3 * n + 3) + (i * 4 + k))
      (fun e => e.ends X = some (⟨a0, a1, a2⟩, ⟨b0, b1, b2⟩) ∧ e.transformPtr = none) := by
  have hrefs := placed_setRefs X (⟨a0, a1, a2⟩, ⟨b0, b1, b2⟩) none
  refine keep_m7 R _ _ hrefs ?_ (by omega)
  refine part_sets _ (4 * n) (i * 4 + k) (by omega) _ _ _ _ hrefs R.nurbs ?_ ?_
  · intro j hj hij op hop
    rw [nurbsOps_layout _ _ _ _ _ j hj] at hop
    simp only [List.mem_cons, List.mem_singleton, List.not_mem_nil, or_false] at hop
    subst hop
    simp only [Op.write, ne_eq, Option.some.injEq]
    omega
  · intro m1 m2 hrun
    rw [nurbsOps_layout _ _ _ _ _ (i * 4 + k) (by omega),
      flatMap_four (nurbsOf F c) (fun _ => rfl) n i k hi hk, hcur] at hrun
    obtain ⟨ma, ha, hrun⟩ := runOps_cons _ _ _ _ hrun
    obtain rfl := runOps_nil _ _ hrun
    refine write_sets _ _ _ _ _ hrefs ha ?_
    intro e e1 he
    cases hc : (F.s1602 [a0, a1, a2] [b0, b1, b2] 2 3 0).1 with
    | none =>
      have hj : (some (F.s1602 [a0, a1, a2] [b0, b1, b2] 2 3 0).1).join = none := hc
      rw [hj] at he
      cases e <;> cases he
    | some cur =>
      have hj : (some (F.s1602 [a0, a1, a2] [b0, b1, b2] 2 3 0).1).join = some cur := hc
      rw [hj] at he
      obtain ⟨q1, q2, q3, q4⟩ := hS _ _ cur hc
      exact nurbsSetter_ends X hX cur e e1 a0 a1 a2 b0 b1 b2 q1 q2 q3 q4 he

theorem run_bound {F : CylinderCalls} {X : Library} {c : IGES_GEOM_CYLINDER}
    {top bot : ℚ} {f n : Nat} {mF : Model} (R : CylinderRun F X c top bot f n mF)
    (i : Nat) (hi : i < n) :
    mF.has (f + (11 * n + 3) + i)
      (fun e => e.boundaries
        = some (some (f + (9 * n + 3) + i), some (f + (10 * n + 3) + i))) := by
  have hrefs : ∀ (e : Entity) (r : List Nat),
      e.boundaries = some (some (f + (9 * n + 3) + i), some (f + (10 * n + 3) + i)) →
      (e.setRefs r).boundaries
        = some (some (f + (9 * n + 3) + i), some (f + (10 * n + 3) + i)) := by
    intro e r h
    rw [boundaries_setRefs]
    exact h
  have hrefs1 : ∀ (e : Entity) (r : List Nat),
      (∃ cp, e.boundaries = some (some (f + (9 * n + 3) + i), cp)) →
      (∃ cp, (e.setRefs r).boundaries = some (some (f + (9 * n + 3) + i), cp)) := by
    intro e r h
    rw [boundaries_setRefs]
    exact h
  refine keep_m9 R _ _ hrefs ?_ (by omega)
  refine part_sets _ n i hi _ _ _ _ hrefs R.curves ?_ ?_
  · intro j hj hij op hop
    rw [curveOnSurfaceOps_layout _ _ _ _ j hj] at hop
    simp only [List.mem_cons, List.mem_singleton, List.not_mem_nil, or_false] at hop
    rcases hop with rfl | rfl | rfl | rfl <;>
      simp only [Op.write, Op.link, ne_eq, Option.some.injEq] <;> omega
  · intro m1 m2 hrun
    rw [curveOnSurfaceOps_layout _ _ _ _ i hi] at hrun
    obtain ⟨ma, ha, hrun⟩ := runOps_cons _ _ _ _ hrun
    obtain ⟨mb, hb, hrun⟩ := runOps_cons _ _ _ _ hrun
    obtain ⟨mc, hc, hrun⟩ := runOps_cons _ _ _ _ hrun
    obtain ⟨md, hd, hrun⟩ := runOps_cons _ _ _ _ hrun
    obtain rfl := runOps_nil _ _ hrun
    have qc : mc.has (f + (11 * n + 3) + i)
        (fun e => ∃ cp, e.boundaries = some (some (f + (9 * n + 3) + i), cp)) := by
      refine link_sets _ _ _ _ _ _ hrefs1 hc ?_
      intro e e1 he
      cases e with
      | bound s =>
        simp only [setBPTR, Option.some.injEq] at he
        subst he
        exact ⟨_, rfl⟩
      | _ => cases he
    refine link_has _ _ _ _ _ _ _ hrefs hd qc ?_
    intro e e1 h0 he
    cases e with
    | bound s =>
      simp only [setCPTR, Option.some.injEq] at he
      subst he
      obtain ⟨cp, hcp⟩ := h0
      simp only [Entity.boundaries, Option.some.injEq, Prod.mk.injEq] at hcp ⊢
      exact ⟨hcp.1, trivial⟩
    | _ => cases he

theorem run_trimmed {F : CylinderCalls} {X : Library} {c : IGES_GEOM_CYLINDER}
    {top bot : ℚ} {f n : Nat} {mF : Model} (R : CylinderRun F X c top bot f n mF)
    (i : Nat) (hi : i < n) :
    mF.has (f + (12 * n + 3) + i) (fun e => e.outer = some (some (f + (11 * n + 3) + i))) := by
  have hrefs : ∀ (e : Entity) (r : List Nat),
      e.outer = some (some (f + (11 * n + 3) + i)) →
      (e.setRefs r).outer = some (some (f + (11 * n + 3) + i)) := by
    intro e r h
    rw [outer_setRefs]
    exact h
  refine part_sets _ n i hi _ _ _ _ hrefs R.trims ?_ ?_
  · intro j hj hij op hop
    rw [trimOps_layout _ _ _ _ j hj] at hop
    simp only [List.mem_cons, List.mem_singleton, List.not_mem_nil, or_false] at hop
    rcases hop with rfl | rfl | rfl <;>
      simp only [Op.write, Op.link, ne_eq, Option.some.injEq] <;> omega
  · intro m1 m2 hrun
    rw [trimOps_layout _ _ _ _ i hi] at hrun
    obtain ⟨ma, ha, hrun⟩ := runOps_cons _ _ _ _ hrun
    obtain ⟨mb, hb, hrun⟩ := runOps_cons _ _ _ _ hrun
    obtain ⟨mc, hc, hrun⟩ := runOps_cons _ _ _ _ hrun
    obtain rfl := runOps_nil _ _ hrun
    refine link_sets _ _ _ _ _ _ hrefs hc ?_
    intro e e1 he
    cases e with
    | trimmed s =>
      simp only [setPTO, Option.some.injEq] at he
      subst he
      rfl
    | _ => cases he

theorem ends_of_has (X : Library) (m : Model) (x : Nat) (se : MCAD_POINT × MCAD_POINT)
    (h : m.has x (fun e => e.ends X = some se ∧ e.transformPtr = none)) :
    m.ends X x = some se := by
  obtain ⟨e, hf, h1, h2⟩ := h
  unfold Model.ends
  rw [hf]
  simp only [h1, h2]

theorem ends_of_moved (X : Library) (m : Model) (x q : Nat)
    (se : MCAD_POINT × MCAD_POINT)
    (B : MCAD_TRANSFORM)
    (h : m.has x (fun e => e.ends X = some se ∧ e.transformPtr = some q))
    (hq : m.has q (fun e => ∃ t, e = .transform t ∧ t.T = B)) :
    m.ends X x = some (B.apply se.1, B.apply se.2) := by
  obtain ⟨e, hf, h1, h2⟩ := h
  obtain ⟨e', hf', t, rfl, rfl⟩ := hq
  unfold Model.ends
  rw [hf]
  simp only [h1, h2, hf']

theorem members_of_has (m : Model) (x : Nat) (l : List Nat)
    (h : m.has x (fun e => e.members = some l)) : m.members x = some l := by
  obtain ⟨e, hf, h1⟩ := h
  unfold Model.members
  rw [hf]
  cases e <;> exact h1

theorem boundaries_of_has (m : Model) (x : Nat) (r : Option Nat × Option Nat)
    (h : m.has x (fun e => e.boundaries = some r)) : m.boundaries x = some r := by
  obtain ⟨e, hf, h1⟩ := h
  unfold Model.boundaries
  rw [hf]
  cases e <;> exact h1

theorem outer_of_has (m : Model) (x : Nat) (r : Option Nat)
    (h : m.has x (fun e => e.outer = some r)) : m.outer x = some r := by
  obtain ⟨e, hf, h1⟩ := h
  unfold Model.outer
  rw [hf]
  cases e <;> exact h1

theorem bottomTransform_apply (cx bot x y : ℚ) :
    (bottomTransform cx bot).apply ⟨cx - x, y, bot⟩ = ⟨x, y, bot⟩ := by
  unfold bottomTransform MCAD_TRANSFORM.apply
  congr 1 <;> ring
/-- The boundaries of a cylinder whose matrix setter succeeds.  Let the matrix setter of the
arcs succeed (`Instantiate` does not look at its result), let `s1602` return the segment of
order 2 through its two points with two different inner knots, and let the library evaluate
such segments at their ends.  After an `Instantiate` that returns true, for every part
`i < narcs` the trimmed surface handed back at position `i` has an outer boundary with a
parameter-space curve and a model-space curve of four members each; `f` is the first pointer
that the factory hands out and `n` is `narcs`.  In model space the members are the top arc
from `arcs[i+1]` to `arcs[i+2]`, the line down at `arcs[i+2]`, the bottom arc, with its
matrix applied, from `arcs[i+2]` to `arcs[i+1]`, and the line up at `arcs[i+1]`, the upper
height being the larger and the lower the smaller of `top` and `bot`; in parameter space
they run `(0,s) -> (0,e) -> (1,e) -> (1,s) -> (0,s)` with `s = angles[2i]` and
`e = angles[2i+1]`.  Each segment ends where the next one starts and the last one where the
first one starts.  `Instantiate( model, top, bot )` and `Instantiate( model, bot, top )` give
the same result. -/
theorem Instantiate_closed_boundaries (F : CylinderCalls) (X : Library)
    (c : IGES_GEOM_CYLINDER) (m m' : Model) (top bot : ℚ) (result result' : List Nat)
    (hwf : m.wellFormed) (hT : ∀ i, F.SetTransform i = true)
    (hX : X.evaluatesSegments)
    (hS : ∀ p0 p1 cur, (F.s1602 p0 p1 2 3 0).1 = some cur →
      cur.n = 2 ∧ cur.order = 2 ∧ cur.coeffs = p0 ++ p1 ∧
      cur.knots.getD 1 0 ≠ cur.knots.getD 2 0)
    (h : c.Instantiate F X (some m) top bot result = some (true, some m', result')) :
    (let f := m.fresh
     let n := c.narcs.toNat
     ∀ i, i < n →
      result'[result.length + i]? = some (f + (12 * n + 3) + i) ∧
      m'.outer (f + (12 * n + 3) + i) = some (some (f + (11 * n + 3) + i)) ∧
      m'.boundaries (f + (11 * n + 3) + i)
        = some (some (f + (9 * n + 3) + i), some (f + (10 * n + 3) + i)) ∧
      m'.members (f + (10 * n + 3) + i)
        = some [f + (7 * n + 3) + 2 * i, f + (2 * i + 2), f + (7 * n + 3) + (2 * i + 1),
                f + (2 * i + 3)] ∧
      [f + (7 * n + 3) + 2 * i, f + (2 * i + 2), f + (7 * n + 3) + (2 * i + 1),
          f + (2 * i + 3)].map (m'.ends X)
        = (fourSides ⟨(c.pt (i + 1)).x, (c.pt (i + 1)).y, max top bot⟩
            ⟨(c.pt (i + 2)).x, (c.pt (i + 2)).y, max top bot⟩
            ⟨(c.pt (i + 2)).x, (c.pt (i + 2)).y, min top bot⟩
            ⟨(c.pt (i + 1)).x, (c.pt (i + 1)).y, min top bot⟩).map some ∧
      closedChain (fourSides ⟨(c.pt (i + 1)).x, (c.pt (i + 1)).y, max top bot⟩
            ⟨(c.pt (i + 2)).x, (c.pt (i + 2)).y, max top bot⟩
            ⟨(c.pt (i + 2)).x, (c.pt (i + 2)).y, min top bot⟩
            ⟨(c.pt (i + 1)).x, (c.pt (i + 1)).y, min top bot⟩) ∧
      m'.members (f + (9 * n + 3) + i)
        = some [f + (3 * n + 3) + i * 4, f + (3 * n + 3) + (i * 4 + 1),
                f + (3 * n + 3) + (i * 4 + 2), f + (3 * n + 3) + (i * 4 + 3)] ∧
      [f + (3 * n + 3) + i * 4, f + (3 * n + 3) + (i * 4 + 1),
          f + (3 * n + 3) + (i * 4 + 2), f + (3 * n + 3) + (i * 4 + 3)].map (m'.ends X)
        = (fourSides ⟨0, c.angles.getD (i * 2) 0, 0⟩ ⟨0, c.angles.getD (i * 2 + 1) 0, 0⟩
            ⟨1, c.angles.getD (i * 2 + 1) 0, 0⟩ ⟨1, c.angles.getD (i * 2) 0, 0⟩).map some ∧
      closedChain (fourSides ⟨0, c.angles.getD (i * 2) 0, 0⟩
            ⟨0, c.angles.getD (i * 2 + 1) 0, 0⟩
            ⟨1, c.angles.getD (i * 2 + 1) 0, 0⟩ ⟨1, c.angles.getD (i * 2) 0, 0⟩)) ∧
    (∀ (model : Option Model) (res : List Nat),
      c.Instantiate F X model top bot res = c.Instantiate F X model bot top res) := by
  have ehi : ∀ a b : ℚ, (if a < b then b else a) = max a b := by
    intro a b
    split_ifs with hab
    · exact (max_eq_right (le_of_lt hab)).symm
    · exact (max_eq_left (not_lt.mp hab)).symm
  have elo : ∀ a b : ℚ, (if a < b then a else b) = min a b := by
    intro a b
    split_ifs with hab
    · exact (min_eq_left (le_of_lt hab)).symm
    · exact (min_eq_right (not_lt.mp hab)).symm
  constructor
  swap
  · intro model res
    unfold IGES_GEOM_CYLINDER.Instantiate
    simp only [ehi, elo, abs_sub_comm top bot, max_comm top bot, min_comm top bot]
  unfold IGES_GEOM_CYLINDER.Instantiate at h
  by_cases h0 : c.narcs = 0
  · rw [if_pos h0] at h
    cases h
  rw [if_neg h0] at h
  simp only at h
  by_cases hgap : |top - bot| < 1 / 1000
  · rw [if_pos hgap] at h
    cases h
  rw [if_neg hgap] at h
  split at h
  · cases h
  · cases h
  rename_i bF hbuild
  simp only [Option.some.injEq, Prod.mk.injEq, true_and] at h
  obtain ⟨rfl, rfl⟩ := h
  rw [ehi, elo] at hbuild
  obtain ⟨hpos, hle, ⟨R⟩, hitps⟩ := build_run F X c _ _ m bF hwf h0 hbuild
  intro f n i hi
  refine ⟨?_, outer_of_has _ _ _ (run_trimmed R i hi),
    boundaries_of_has _ _ _ (run_bound R i hi),
    members_of_has _ _ _ (run_geometric R hT i hi), ?_, closedChain_fourSides _ _ _ _,
    ?_, ?_, closedChain_fourSides _ _ _ _⟩
  · rw [hitps, List.getElem?_append_right (by omega)]
    have hidx : result.length + i - result.length = i := by omega
    rw [hidx, List.getElem?_take_of_lt hi, range'_getElem? _ _ _ hi]
  · have a1 := ends_of_has X _ _ _ (run_topArc R hT i hi)
    have a2 := ends_of_has X _ _ _ (run_lineDown R hT i hi)
    have a3 := ends_of_moved X _ _ _ _ _ (run_bottomArc R hT i hi) (run_matrix R hT i hi)
    have a4 := ends_of_has X _ _ _ (run_lineUp R hT i hi)
    simp only [bottomTransform_apply] at a3
    simp only [List.map_cons, List.map_nil, fourSides, a1, a2, a3, a4, f, n]
  · exact members_of_has _ _ _ (run_parametric R hT i hi)
  · have n0 := ends_of_has X _ _ _ (run_nurbs R hX hS i hi 0 (by omega) _ _ _ _ _ _ rfl)
    have n1 := ends_of_has X _ _ _ (run_nurbs R hX hS i hi 1 (by omega) _ _ _ _ _ _ rfl)
    have n2 := ends_of_has X _ _ _ (run_nurbs R hX hS i hi 2 (by omega) _ _ _ _ _ _ rfl)
    have n3 := ends_of_has X _ _ _ (run_nurbs R hX hS i hi 3 (by omega) _ _ _ _ _ _ rfl)
    have n0b : bF.model.ends X (m.fresh + (3 * c.narcs.toNat + 3) + i * 4)
        = some (⟨0, c.angles.getD (i * 2) 0, 0⟩, ⟨0, c.angles.getD (i * 2 + 1) 0, 0⟩) := n0
    simp only [List.map_cons, List.map_nil, fourSides, n0b, n1, n2, n3, f, n]

/-- The full circle of radius 10 about the origin between `z = 5` and
`z = 0`, instantiated into an empty model.  The first of the two trimmed surfaces, 27, is
bounded by the curve on surface 25 with the NURBS composite 21 and the geometric composite
23; the latter runs `(10,0,5) -> (-10,0,5) -> (-10,0,0) -> (10,0,0)` and back. -/
theorem Instantiate_closed_boundaries_witness :
    ∃ m', Examples.fullCircle.Instantiate (Examples.calls true) Examples.chordLib
        (some Examples.emptyModel) 5 0 [] = some (true, some m', [27, 28]) ∧
      m'.outer 27 = some (some 25) ∧
      m'.boundaries 25 = some (some 21, some 23) ∧
      m'.members 23 = some [17, 2, 18, 3] ∧
      [17, 2, 18, 3].map (m'.ends Examples.chordLib)
        = (fourSides ⟨10, 0, 5⟩ ⟨-10, 0, 5⟩ ⟨-10, 0, 0⟩ ⟨10, 0, 0⟩).map some ∧
      m'.members 21 = some [9, 10, 11, 12] ∧
      [9, 10, 11, 12].map (m'.ends Examples.chordLib)
        = (fourSides ⟨0, 0, 0⟩ ⟨0, M_PI, 0⟩ ⟨1, M_PI, 0⟩ ⟨1, 0, 0⟩).map some := by
  have key : ((Examples.fullCircle.Instantiate (Examples.calls true) Examples.chordLib
      (some Examples.emptyModel) 5 0 []).map (fun r => (r.1, r.2.1.isSome, r.2.2)))
      = some (true, true, [27, 28]) := by decide!
  cases hI : Examples.fullCircle.Instantiate (Examples.calls true) Examples.chordLib
      (some Examples.emptyModel) 5 0 [] with
  | none => rw [hI] at key; cases key
  | some r =>
    obtain ⟨ok, om, res⟩ := r
    rw [hI] at key
    simp only [Option.map_some', Option.some.injEq, Prod.mk.injEq] at key
    obtain ⟨rfl, hsome, rfl⟩ := key
    cases om with
    | none => cases hsome
    | some m' =>
      have hS : ∀ p0 p1 cur, ((Examples.calls true).s1602 p0 p1 2 3 0).1 = some cur →
          cur.n = 2 ∧ cur.order = 2 ∧ cur.coeffs = p0 ++ p1 ∧
          cur.knots.getD 1 0 ≠ cur.knots.getD 2 0 := by
        intro p0 p1 cur hc
        simp only [Examples.calls, Option.some.injEq] at hc
        subst hc
        refine ⟨rfl, rfl, rfl, ?_⟩
        show ([0, 0, 1, 1] : List ℚ).getD 1 0 ≠ ([0, 0, 1, 1] : List ℚ).getD 2 0
        decide!
      have hall := (Instantiate_closed_boundaries (Examples.calls true) Examples.chordLib
          Examples.fullCircle Examples.emptyModel m' 5 0 [] [27, 28] (by decide)
          (fun _ => rfl) chordLib_evaluatesSegments hS hI).1 0 (by decide)
      obtain ⟨-, r2, r3, r4, r5, -, r7, r8, -⟩ := hall
      have hmax : max (5 : ℚ) 0 = 5 := by norm_num
      have hmin : min (5 : ℚ) 0 = 0 := by norm_num
      rw [hmax, hmin] at r5
      exact ⟨m', rfl, r2, r3, r4, r5, r7, r8⟩

/-- C39 fails on the code.  `Instantiate` calls `iarc[1]->SetTransform( itrans[0] )`, and the
like for the other parts, without looking at the result, where the call of every other setter
is followed by `CLEANUP; return false`.  For the full circle of radius 10 between `z = 5`
and `z = 0` in an empty model, with calls that all succeed except the matrix setter of the
arcs, `Instantiate` returns true and hands back the trimmed surfaces 27 and 28; the outer
boundary of 27 is the curve on surface 25, whose model-space curve 23 has the members 17, 2,
18, 3.  The line down, 2, ends at `(-10,0,0)`, but the bottom arc, 18, left without its
matrix, starts at `(10,0,0)`: the chain is not closed.  With a matrix setter that succeeds the
same members run `(10,0,5) -> (-10,0,5) -> (-10,0,0) -> (10,0,0)` and back. -/
theorem Instantiate_ignores_SetTransform :
    (Examples.fullCircle.Instantiate { Examples.calls true with SetTransform := fun _ => false }
        Examples.lib (some Examples.emptyModel) 5 0 []).map (fun r => (r.1, r.2.2))
      = some (true, [27, 28]) ∧
    (Examples.fullCircle.Instantiate { Examples.calls true with SetTransform := fun _ => false }
        Examples.lib (some Examples.emptyModel) 5 0 []).bind
      (fun r => r.2.1.map (fun m' => (m'.outer 27, m'.boundaries 25, m'.members 23)))
      = some (some (some 25), some (some 21, some 23), some [17, 2, 18, 3]) ∧
    (Examples.fullCircle.Instantiate { Examples.calls true with SetTransform := fun _ => false }
        Examples.lib (some Examples.emptyModel) 5 0 []).bind
      (fun r => r.2.1.map (fun m' => [17, 2, 18, 3].map (m'.ends Examples.lib)))
      = some [some (⟨10, 0, 5⟩, ⟨-10, 0, 5⟩), some (⟨-10, 0, 5⟩, ⟨-10, 0, 0⟩),
              some (⟨10, 0, 0⟩, ⟨-10, 0, 0⟩), some (⟨10, 0, 0⟩, ⟨10, 0, 5⟩)] ∧
    ¬ closedChain [(⟨10, 0, 5⟩, ⟨-10, 0, 5⟩), (⟨-10, 0, 5⟩, ⟨-10, 0, 0⟩),
        (⟨10, 0, 0⟩, ⟨-10, 0, 0⟩), (⟨10, 0, 0⟩, ⟨10, 0, 5⟩)] ∧
    (Examples.fullCircle.Instantiate (Examples.calls true)
        Examples.lib (some Examples.emptyModel) 5 0 []).bind
      (fun r => r.2.1.map (fun m' => [17, 2, 18, 3].map (m'.ends Examples.lib)))
      = some [some (⟨10, 0, 5⟩, ⟨-10, 0, 5⟩), some (⟨-10, 0, 5⟩, ⟨-10, 0, 0⟩),
              some (⟨-10, 0, 0⟩, ⟨10, 0, 0⟩), some (⟨10, 0, 0⟩, ⟨10, 0, 5⟩)] := by
  refine ⟨by decide!, by decide!, by decide!, by decide!, by decide!⟩

end IGES
